import Mathlib

/-!
# Value codec (`pkg/util/codec/codec.go`)

A shallow embedding of the order-preserving value codec.

Conventions of the embedding

* A byte is a `Nat` below 256 and a byte slice is a `List Nat`.  A `nil` slice and an
  empty slice are both `[]`.
* `int64` values are `Int`s in `[-2^63, 2^63)`, `uint64` values are `Nat`s below `2^64`;
  wrap-around is written out with `% 2^64`.
* `float64` values are carried as their IEEE-754 bit pattern (a `uint64`).
* A Go function returning `(x, err)` returns a tuple whose last component is an
  `Option CodecError` (`none` is the `nil` error).  The values returned next to a non-nil
  error are kept as the source returns them.
* `preRealloc` / `reallocBytes` only change the capacity of the buffer, never its
  contents, so they do not appear.
-/

namespace Codec

/-! ## Errors -/

/-- The errors built by the codec (one constructor per message). -/
inductive CodecError
  /-- Message "invalid encoded key". -/
  | invalidEncodedKey
  /-- Message "invalid encoded key flag %v". -/
  | invalidFlag (flag : Nat)
  /-- Message "insufficient bytes to decode value". -/
  | insufficientBytes
  /-- Message "value larger than 64 bits". -/
  | largerThan64Bits
  /-- Message "invalid encoded key, expected length: %d, actual length: %d". -/
  | lengthMismatch (expected actual : Int)
  /-- Messages "unsupport encode type %d" and "unsupported encode type %d". -/
  | unsupportEncodeType (kind : Nat)
  /-- Message "invalid marker byte, group bytes %q". -/
  | invalidMarker
  /-- Message "invalid padding byte, group bytes %q". -/
  | invalidPadding
  /-- Message "insufficient bytes to decode value, expected length: %v". -/
  | insufficientBytesExpected (n : Int)
  /-- A slice expression out of range (a run-time panic in Go). -/
  | sliceOutOfRange
  /-- The decoding loop did not shrink its input (cannot happen with well-behaved
  element decoders). -/
  | noProgress
  /-- An error returned by package `types` (decimal, time, JSON, vector, literal). -/
  | external (code : Nat)
  /-- Message "invalid encoded key: length of key is zero". -/
  | zeroLengthKey
  /-- The error of `DecodeRange` (line 1005) on the length of the columns of the index. -/
  | invalidIndexColumns
  /-- Message "Internal error: Hash columns count mismatch, col1: %d, col2: %d". -/
  | columnsCountMismatch (col1 col2 : Nat)
  deriving DecidableEq, Repr

/-! ## Flags (codec.go, lines 37-52) -/

def NilFlag : Nat := 0
def bytesFlag : Nat := 1
def compactBytesFlag : Nat := 2
def intFlag : Nat := 3
def uintFlag : Nat := 4
def floatFlag : Nat := 5
def decimalFlag : Nat := 6
def durationFlag : Nat := 7
def varintFlag : Nat := 8
def uvarintFlag : Nat := 9
def jsonFlag : Nat := 10
def vectorFloat32Flag : Nat := 20
def maxFlag : Nat := 250

/-! ## Machine integers -/

/-- Conversion `uint64(x)` of an `int64`. -/
def toUint64 (x : Int) : Nat := (x % 2 ^ 64).toNat

/-- Conversion `int64(u)` of a `uint64`. -/
def toInt64 (u : Nat) : Int :=
  if u % 2 ^ 64 < 2 ^ 63 then ((u % 2 ^ 64 : Nat) : Int) else ((u % 2 ^ 64 : Nat) : Int) - 2 ^ 64

/-- The value of `x` as a Go `int` (64 bits), after wrap-around. -/
def wrapInt64 (x : Int) : Int := toInt64 (toUint64 x)

/-- Range of an `int64`. -/
def isInt64 (v : Int) : Prop := -2 ^ 63 ≤ v ∧ v < 2 ^ 63

/-- Range of a `uint64`. -/
def isUint64 (v : Nat) : Prop := v < 2 ^ 64

instance (v : Int) : Decidable (isInt64 v) := by unfold isInt64; infer_instance
instance (v : Nat) : Decidable (isUint64 v) := by unfold isUint64; infer_instance

/-- Byte-wise lexicographic order `bytes.Compare(a, b) < 0`; a proper prefix is smaller. -/
def bytesLt : List Nat → List Nat → Bool
  | [], [] => false
  | [], _ :: _ => true
  | _ :: _, [] => false
  | a :: as, b :: bs => decide (a < b) || (decide (a = b) && bytesLt as bs)

/-! ## Go standard library: `encoding/binary` -/

def MaxVarintLen64 : Nat := 10

/-- Loop of `binary.PutUvarint`: `for x >= 0x80 { buf[i] = byte(x) | 0x80; x >>= 7 }`,
then `buf[i] = byte(x)`.  A `uint64` needs at most nine rounds. -/
def putUvarintAux : Nat → Nat → List Nat
  | 0, x => [x % 256]
  | fuel + 1, x =>
    if x ≥ 0x80 then ((x % 256) ||| 0x80) :: putUvarintAux fuel (x >>> 7) else [x % 256]

/-- Go standard library `binary.PutUvarint`: the bytes written for the `uint64` `x`. -/
def PutUvarint (x : Nat) : List Nat := putUvarintAux 9 x

/-- Go standard library `binary.PutVarint`: `ux := uint64(x) << 1; if x < 0 { ux = ^ux }`. -/
def PutVarint (x : Int) : List Nat :=
  let ux := (toUint64 x <<< 1) % 2 ^ 64
  PutUvarint (if x < 0 then 2 ^ 64 - 1 - ux else ux)

/-- Loop of `binary.Uvarint` over the remaining bytes, at index `i`, with accumulator `x`
and shift `s`.  Returns the value and the number of bytes read (`0`: buffer too small,
negative: overflow). -/
def uvarintAux : List Nat → Nat → Nat → Nat → Nat × Int
  | [], _, _, _ => (0, 0)
  | b :: rest, i, x, s =>
    if i = MaxVarintLen64 then (0, -((i : Int) + 1))
    else if b < 0x80 then
      if i = MaxVarintLen64 - 1 ∧ b > 1 then (0, -((i : Int) + 1))
      else (x ||| ((b <<< s) % 2 ^ 64), (i : Int) + 1)
    else uvarintAux rest (i + 1) (x ||| (((b &&& 0x7f) <<< s) % 2 ^ 64)) (s + 7)

/-- Go standard library `binary.Uvarint`. -/
def Uvarint (buf : List Nat) : Nat × Int := uvarintAux buf 0 0 0

/-- Go standard library `binary.Varint`: `x := int64(ux >> 1); if ux&1 != 0 { x = ^x }`. -/
def Varint (buf : List Nat) : Int × Int :=
  let r := Uvarint buf
  let x : Int := toInt64 (r.1 >>> 1)
  (if r.1 &&& 1 ≠ 0 then -x - 1 else x, r.2)

/-- Go standard library `binary.BigEndian.PutUint64`. -/
def bigEndianPutUint64 (u : Nat) : List Nat :=
  [u >>> 56 % 256, u >>> 48 % 256, u >>> 40 % 256, u >>> 32 % 256,
   u >>> 24 % 256, u >>> 16 % 256, u >>> 8 % 256, u % 256]

/-- Go standard library `binary.BigEndian.Uint64` of the first eight bytes. -/
def bigEndianUint64 : List Nat → Nat
  | b0 :: b1 :: b2 :: b3 :: b4 :: b5 :: b6 :: b7 :: _ =>
    b7 ||| (b6 <<< 8) ||| (b5 <<< 16) ||| (b4 <<< 24) ||| (b3 <<< 32) ||| (b2 <<< 40)
      ||| (b1 <<< 48) ||| (b0 <<< 56)
  | _ => 0

/-- The eight bytes of a `uint64` as they lie in memory (little-endian, as the comment in
`encodeHashChunkRowIdx` has it: `-0` is `[0, 0, 0, 0, 0, 0, 0, 128]`). -/
def rawUint64 (u : Nat) : List Nat :=
  [u % 256, u >>> 8 % 256, u >>> 16 % 256, u >>> 24 % 256,
   u >>> 32 % 256, u >>> 40 % 256, u >>> 48 % 256, u >>> 56 % 256]

/-! ## Number codec (`number.go`) -/

/-- Modelled from the spec: the constant `signMask` of `number.go` (not in src), the sign
bit of a 64-bit word. -/
def signMask : Nat := 0x8000000000000000

/-- Modelled from the spec: `EncodeIntToCmpUint` of `number.go` (not in src): "comparable
mode flips the sign bit". -/
def EncodeIntToCmpUint (v : Int) : Nat := toUint64 v ^^^ signMask

/-- Modelled from the spec: `DecodeCmpUintToInt` of `number.go` (not in src), the inverse
sign-bit flip. -/
def DecodeCmpUintToInt (u : Nat) : Int := toInt64 (u ^^^ signMask)

/-- Modelled from the spec: `EncodeInt` of `number.go` (not in src): "flips the sign bit
and emits 8 big-endian bytes". -/
def EncodeInt (b : List Nat) (v : Int) : List Nat :=
  b ++ bigEndianPutUint64 (EncodeIntToCmpUint v)

/-- Modelled from the spec: `DecodeInt` of `number.go` (not in src): reads the eight
big-endian bytes back and returns the remainder; fewer than eight bytes is a decoding
error. -/
def DecodeInt (b : List Nat) : List Nat × Int × Option CodecError :=
  if b.length < 8 then ([], 0, some .insufficientBytes)
  else (b.drop 8, DecodeCmpUintToInt (bigEndianUint64 (b.take 8)), none)

/-- Modelled from the spec: `EncodeUint` of `number.go` (not in src): 8 big-endian
bytes. -/
def EncodeUint (b : List Nat) (v : Nat) : List Nat := b ++ bigEndianPutUint64 v

/-- Modelled from the spec: `DecodeUint` of `number.go` (not in src). -/
def DecodeUint (b : List Nat) : List Nat × Nat × Option CodecError :=
  if b.length < 8 then ([], 0, some .insufficientBytes)
  else (b.drop 8, bigEndianUint64 (b.take 8), none)

/-- Modelled from the spec: `EncodeVarint` of `number.go` (not in src): "compact mode
uses a variable-length (LEB128-like) zig-zag ... varint", that is `binary.PutVarint`. -/
def EncodeVarint (b : List Nat) (v : Int) : List Nat := b ++ PutVarint v

/-- Modelled from the spec: `DecodeVarint` of `number.go` (not in src): `binary.Varint`,
an error when the buffer is too small or the value overflows. -/
def DecodeVarint (b : List Nat) : List Nat × Int × Option CodecError :=
  let r := Varint b
  if r.2 > 0 then (b.drop r.2.toNat, r.1, none)
  else if r.2 < 0 then ([], 0, some .largerThan64Bits)
  else ([], 0, some .insufficientBytes)

/-- Modelled from the spec: `EncodeUvarint` of `number.go` (not in src): the unsigned
LEB128 varint, `binary.PutUvarint`. -/
def EncodeUvarint (b : List Nat) (v : Nat) : List Nat := b ++ PutUvarint v

/-- Modelled from the spec: `DecodeUvarint` of `number.go` (not in src). -/
def DecodeUvarint (b : List Nat) : List Nat × Nat × Option CodecError :=
  let r := Uvarint b
  if r.2 > 0 then (b.drop r.2.toNat, r.1, none)
  else if r.2 < 0 then ([], 0, some .largerThan64Bits)
  else ([], 0, some .insufficientBytes)

/-! ## Float codec (`float.go`) -/

/-- The test `f != f` of Go on the bit pattern of a `float64`: exponent all ones, mantissa not 0. -/
def float64IsNaN (u : Nat) : Bool := decide (u >>> 52 % 2048 = 2047) && decide (u % 2 ^ 52 ≠ 0)

/-- The test `f == 0` of Go on the bit pattern of a `float64`: true of `+0.0` and of `-0.0`. -/
def float64EqZero (u : Nat) : Bool := decide (u % 2 ^ 63 = 0)

/-- The test `f >= 0` of Go on the bit pattern of a `float64`: false of NaN, true of both zeros. -/
def float64GeZero (u : Nat) : Bool := !float64IsNaN u && (decide (u < 2 ^ 63) || float64EqZero u)

/-- Modelled from the spec: `encodeFloatToCmpUint64` of `float.go` (not in src): "fixed
8-byte IEEE754 with sign-bit flip for negative values so comparable ordering is
preserved; normalize negative zero to positive zero": a value `>= 0` (both zeros
included) gets the sign bit set, any other value has all its bits inverted. -/
def encodeFloatToCmpUint64 (f : Nat) : Nat :=
  if float64GeZero f then f ||| signMask else 2 ^ 64 - 1 - f

/-- Modelled from the spec: `decodeCmpUintToFloat` of `float.go` (not in src), the
inverse transformation. -/
def decodeCmpUintToFloat (u : Nat) : Nat :=
  if u &&& signMask > 0 then u &&& (2 ^ 64 - 1 - signMask) else 2 ^ 64 - 1 - u

/-- Modelled from the spec: `EncodeFloat` of `float.go` (not in src). -/
def EncodeFloat (b : List Nat) (v : Nat) : List Nat := EncodeUint b (encodeFloatToCmpUint64 v)

/-- Modelled from the spec: `DecodeFloat` of `float.go` (not in src). -/
def DecodeFloat (b : List Nat) : List Nat × Nat × Option CodecError :=
  let r := DecodeUint b
  match r.2.2 with
  | some e => (r.1, 0, some e)
  | none => (r.1, decodeCmpUintToFloat r.2.1, none)

/-- The conversion `float64(f)` of Go of a `float32`, on bit patterns (exact; a NaN keeps its
payload and gets the quiet bit). -/
def float32ToFloat64 (b : Nat) : Nat :=
  let sign := b >>> 31 % 2
  let exp := b >>> 23 % 256
  let man := b % 2 ^ 23
  if exp = 255 then
    sign * 2 ^ 63 + 2047 * 2 ^ 52 + (if man = 0 then 0 else (man * 2 ^ 29) ||| 2 ^ 51)
  else if exp = 0 then
    if man = 0 then sign * 2 ^ 63
    else
      let k := Nat.log2 man
      sign * 2 ^ 63 + (k + 874) * 2 ^ 52 + (man - 2 ^ k) * 2 ^ (52 - k)
  else sign * 2 ^ 63 + (exp + 896) * 2 ^ 52 + man * 2 ^ 29

/-! ## Bytes codec (`bytes.go`) -/

/-- Modelled from the spec: the constant `encGroupSize` of `bytes.go` (not in src): "fixed
8-byte chunks". -/
def encGroupSize : Nat := 8

/-- Modelled from the spec: the constant `encMarker` of `bytes.go` (not in src): the marker
of a full group; `peekBytes` computes the pad count as `encMarker - marker`. -/
def encMarker : Nat := 0xFF

/-- Modelled from the spec: the constant `encPad` of `bytes.go` (not in src), the padding
byte. -/
def encPad : Nat := 0x0

/-- Modelled from the spec: `EncodeBytes` of `bytes.go` (not in src), without the
destination buffer: "groups payload into fixed 8-byte chunks each followed by a 1-byte
marker encoding the pad count".  A full group is followed by the marker `0xFF`; the last
group is padded with `0x00` to eight bytes and followed by `0xFF - padCount`. -/
def encodeBytesGroups : List Nat → List Nat
  | b0 :: b1 :: b2 :: b3 :: b4 :: b5 :: b6 :: b7 :: rest =>
    [b0, b1, b2, b3, b4, b5, b6, b7, encMarker] ++ encodeBytesGroups rest
  | short =>
    short ++ List.replicate (encGroupSize - short.length) encPad
      ++ [encMarker - (encGroupSize - short.length)]

/-- Modelled from the spec: `EncodeBytes` of `bytes.go` (not in src). -/
def EncodeBytes (b : List Nat) (data : List Nat) : List Nat := b ++ encodeBytesGroups data

/-- Modelled from the spec: `DecodeBytes` of `bytes.go` (not in src): reads groups of
eight bytes and a marker until a marker announces padding; the pad count must be at most
eight and the padding bytes must be `0x00`.  Returns the remainder and the payload. -/
def DecodeBytes : List Nat → List Nat × List Nat × Option CodecError
  | b0 :: b1 :: b2 :: b3 :: b4 :: b5 :: b6 :: b7 :: marker :: rest =>
    let group := [b0, b1, b2, b3, b4, b5, b6, b7]
    let padCount := (encMarker + 256 - marker % 256) % 256
    if padCount > encGroupSize then ([], [], some .invalidMarker)
    else if padCount ≠ 0 then
      if (group.drop (encGroupSize - padCount)).all (fun v => decide (v = encPad)) then
        (rest, group.take (encGroupSize - padCount), none)
      else ([], [], some .invalidPadding)
    else
      let r := DecodeBytes rest
      match r.2.2 with
      | some e => ([], [], some e)
      | none => (r.1, group ++ r.2.1, none)
  | _ => ([], [], some .insufficientBytes)

/-- Modelled from the spec: `EncodeCompactBytes` of `bytes.go` (not in src): "compact
mode uses length-prefixed varint + raw bytes". -/
def EncodeCompactBytes (b : List Nat) (data : List Nat) : List Nat :=
  EncodeVarint b (data.length : Int) ++ data

/-- Modelled from the spec: `DecodeCompactBytes` of `bytes.go` (not in src): reads the
varint length `n` and then `n` raw bytes; a length that overruns the buffer is a decoding
error (and a negative length cannot be sliced). -/
def DecodeCompactBytes (b : List Nat) : List Nat × List Nat × Option CodecError :=
  let r := DecodeVarint b
  match r.2.2 with
  | some e => ([], [], some e)
  | none =>
    if (r.1.length : Int) < r.2.1 then ([], [], some (.insufficientBytesExpected r.2.1))
    else if r.2.1 < 0 then ([], [], some .sliceOutOfRange)
    else (r.1.drop r.2.1.toNat, r.1.take r.2.1.toNat, none)

/-! ## Package `types`: the Datum and its payloads -/

/-- The struct `types.MyDecimal`. -/
structure MyDecimal where
  digitsInt : Int
  digitsFrac : Int
  resultFrac : Int
  negative : Bool
  wordBuf : List Int
  deriving DecidableEq, Repr

/-- The struct `types.Time`: a bit-packed core time. -/
structure Time where
  coreTime : Nat
  deriving DecidableEq, Repr

/-- The struct `types.Duration`. -/
structure Duration where
  duration : Int
  fsp : Int
  deriving DecidableEq, Repr

/-- The struct `types.Enum`. -/
structure Enum where
  name : List Nat
  value : Nat
  deriving DecidableEq, Repr

/-- The struct `types.Set`. -/
structure SetVal where
  name : List Nat
  value : Nat
  deriving DecidableEq, Repr

/-- The struct `types.BinaryJSON`. -/
structure BinaryJSON where
  typeCode : Nat
  value : List Nat
  deriving DecidableEq, Repr

/-- The struct `types.VectorFloat32`: the serialized vector. -/
structure VectorFloat32 where
  data : List Nat
  deriving DecidableEq, Repr

/-- A `*time.Location`: `nil`, `time.UTC` or another zone. -/
inductive Location
  | nil
  | utc
  | zone (id : Nat)
  deriving DecidableEq, Repr

/-- Modelled from the spec: the tagged union `types.Datum` (package `types` is not in src),
one constructor per kind of `datum.go`.  A `Float32` Datum stores
its value widened to `float64` (read back with `GetFloat64`), a `String` Datum carries its
collation, a `Decimal` Datum its length and fraction digits. -/
inductive Datum
  | null
  | int64 (v : Int)
  | uint64 (v : Nat)
  | float32 (f : Nat)
  | float64 (f : Nat)
  | string (s : List Nat) (collation : List Nat)
  | bytes (b : List Nat)
  | binaryLiteral (b : List Nat)
  | mysqlDecimal (dec : MyDecimal) (length frac : Int)
  | mysqlDuration (dur : Duration)
  | mysqlEnum (e : Enum)
  | mysqlBit (b : List Nat)
  | mysqlSet (s : SetVal)
  | mysqlTime (t : Time)
  | iface (x : Nat)
  | minNotNull
  | maxValue
  | raw (b : List Nat)
  | mysqlJSON (j : BinaryJSON)
  | vectorFloat32 (v : VectorFloat32)
  deriving DecidableEq, Repr

/-- The kind byte `Datum.Kind()`, numbered as the constants `types.KindNull` ...
`types.KindVectorFloat32` (package `types` is not in src); it only shows in the error value
of an unsupported kind. -/
def Datum.Kind : Datum → Nat
  | .null => 0
  | .int64 _ => 1
  | .uint64 _ => 2
  | .float32 _ => 3
  | .float64 _ => 4
  | .string _ _ => 5
  | .bytes _ => 6
  | .binaryLiteral _ => 7
  | .mysqlDecimal _ _ _ => 8
  | .mysqlDuration _ => 9
  | .mysqlEnum _ => 10
  | .mysqlBit _ => 11
  | .mysqlSet _ => 12
  | .mysqlTime _ => 13
  | .iface _ => 14
  | .minNotNull => 15
  | .maxValue => 16
  | .raw _ => 17
  | .mysqlJSON _ => 18
  | .vectorFloat32 _ => 19

/-- The kinds that have a case in the `switch` of `encode` (and of `EstimateValueSize`):
every kind but `KindInterface` and `KindRaw`. -/
def Datum.supported : Datum → Bool
  | .iface _ => false
  | .raw _ => false
  | _ => true

/-- Column type code `mysql.TypeUnspecified` (package `mysql` is not in src; the codes are
those of the MySQL protocol). -/
def TypeUnspecified : Nat := 0

/-- Column type code `mysql.TypeFloat`. -/
def TypeFloat : Nat := 4

/-- Column type code `mysql.TypeDouble`. -/
def TypeDouble : Nat := 5

/-- Column type code `mysql.TypeTimestamp`. -/
def TypeTimestamp : Nat := 7

/-- The constant `types.MaxFsp`. -/
def MaxFsp : Int := 6

/-- The context `types.StrictContext`, as an opaque token handed to `ToInt`. -/
def StrictContext : Nat := 0

/-- The functions of packages `types` and `collate`, and of `decimal.go`, that the codec
calls and that are not part of the source under study.  Each field is the function of the
same name; an encoder returns the bytes it appends. -/
structure TypesPkg where
  /-- Source `collate.NewCollationEnabled()`. -/
  NewCollationEnabled : Bool
  /-- Source `collate.GetCollator(collation).Key(s)`. -/
  collatorKey : List Nat → List Nat → List Nat
  /-- Source `Time.Type()`. -/
  timeType : Time → Nat
  /-- Source `Time.CoreTime()` as a `uint64`. -/
  timeCoreTime : Time → Nat
  /-- Source `Time.ConvertTimeZone(from, to)`: the converted time and the error. -/
  ConvertTimeZone : Time → Location → Location → Time × Option CodecError
  /-- Source `Time.ToPackedUint()`. -/
  ToPackedUint : Time → Nat × Option CodecError
  /-- Source `BinaryLiteral.ToInt(ctx)`. -/
  ToInt : Nat → List Nat → Nat × Option CodecError
  /-- Source `EncodeDecimal(b, dec, precision, frac)`: the bytes appended to `b`, and the error. -/
  EncodeDecimal : MyDecimal → Int → Int → List Nat × Option CodecError
  /-- Source `DecodeDecimal(b)`: remainder, decimal, precision, frac, error. -/
  DecodeDecimal : List Nat → List Nat × MyDecimal × Int × Int × Option CodecError
  /-- Source `valueSizeOfDecimal(dec, precision, frac)`. -/
  valueSizeOfDecimal : MyDecimal → Int → Int → Int × Option CodecError
  /-- Source `MyDecimal.ToString()`. -/
  decimalToString : MyDecimal → List Nat
  /-- Source `types.DecimalPeak(b)`. -/
  DecimalPeak : List Nat → Int × Option CodecError
  /-- Source `types.PeekBytesAsJSON(b)`. -/
  PeekBytesAsJSON : List Nat → Int × Option CodecError
  /-- Source `types.PeekBytesAsVectorFloat32(b)`. -/
  PeekBytesAsVectorFloat32 : List Nat → Int × Option CodecError
  /-- Source `VectorFloat32.SerializeTo(b)`: the bytes appended to `b`. -/
  SerializeTo : VectorFloat32 → List Nat
  /-- Source `VectorFloat32.SerializedSize()`. -/
  SerializedSize : VectorFloat32 → Int
  /-- Source `types.ZeroCopyDeserializeVectorFloat32(b)`: vector, remainder, error. -/
  ZeroCopyDeserializeVectorFloat32 : List Nat → VectorFloat32 × List Nat × Option CodecError
  /-- Source `MyDecimal.ToHashKey()`. -/
  ToHashKey : MyDecimal → List Nat × Option CodecError
  /-- Source `types.ParseEnumValue(elems, v)`. -/
  ParseEnumValue : List (List Nat) → Nat → Enum × Option CodecError
  /-- Source `types.ParseSetValue(elems, v)`. -/
  ParseSetValue : List (List Nat) → Nat → SetVal × Option CodecError
  /-- Source `BinaryJSON.HashValue(b)`: the bytes appended to `b`. -/
  HashValue : BinaryJSON → List Nat
  /-- Source `types.IsTypeTime(tp)`. -/
  IsTypeTime : Nat → Bool
  /-- Source `types.IsTypeFloat(tp)`. -/
  IsTypeFloat : Nat → Bool
  /-- Source `types.NewTime(types.ZeroCoreTime, tp, 0)` followed by `FromPackedUint(v)`: the
  time read from the packed value, and the error. -/
  FromPackedUint : Nat → Nat → Time × Option CodecError
  /-- Source `Time.IsZero()`. -/
  timeIsZero : Time → Bool

/-! ## Encoding (codec.go, lines 91-311) -/

/-- Source `EncodeMySQLTime` (lines 194-213). -/
def EncodeMySQLTime (T : TypesPkg) (loc : Location) (t : Time) (tp : Nat) (b : List Nat) :
    List Nat × Option CodecError :=
  let tp := if tp = TypeUnspecified then T.timeType t else tp
  let conv : Time × Option CodecError :=
    if tp = TypeTimestamp ∧ loc ≠ Location.utc then T.ConvertTimeZone t loc Location.utc
    else (t, none)
  match conv.2 with
  | some e => ([], some e)
  | none =>
    let p := T.ToPackedUint conv.1
    match p.2 with
    | some e => ([], some e)
    | none => (EncodeUint b p.1, none)

/-- Source `encodeBytes` (lines 222-231). -/
def encodeBytes (b : List Nat) (v : List Nat) (comparable1 : Bool) : List Nat :=
  if comparable1 then EncodeBytes (b ++ [bytesFlag]) v
  else EncodeCompactBytes (b ++ [compactBytesFlag]) v

/-- Source `encodeString` (lines 215-220), for a `String` Datum with bytes `s`. -/
def encodeString (T : TypesPkg) (b : List Nat) (s collation : List Nat) (comparable1 : Bool) :
    List Nat :=
  if T.NewCollationEnabled && comparable1 then encodeBytes b (T.collatorKey collation s) true
  else encodeBytes b s comparable1

/-- Source `encodeSignedInt` (lines 246-255). -/
def encodeSignedInt (b : List Nat) (v : Int) (comparable1 : Bool) : List Nat :=
  if comparable1 then EncodeInt (b ++ [intFlag]) v
  else EncodeVarint (b ++ [varintFlag]) v

/-- Source `encodeUnsignedInt` (lines 271-280). -/
def encodeUnsignedInt (b : List Nat) (v : Nat) (comparable1 : Bool) : List Nat :=
  if comparable1 then EncodeUint (b ++ [uintFlag]) v
  else EncodeUvarint (b ++ [uvarintFlag]) v

/-- The loop of `encode` (lines 93-150) over the remaining values, with the buffer `b` and
the variable `err` as they stand.  Only the `KindMysqlTime` case and the `default` case
return from inside the loop; the error of `EncodeDecimal` and of `ToInt` is left in `err`
and the loop goes on. -/
def encodeLoop (T : TypesPkg) (loc : Location) (comparable1 : Bool) :
    List Datum → List Nat → Option CodecError → List Nat × Option CodecError
  | [], b, err => (b, err)
  | d :: vals, b, err =>
    match d with
    | .int64 v => encodeLoop T loc comparable1 vals (encodeSignedInt b v comparable1) err
    | .uint64 v => encodeLoop T loc comparable1 vals (encodeUnsignedInt b v comparable1) err
    | .float32 f => encodeLoop T loc comparable1 vals (EncodeFloat (b ++ [floatFlag]) f) err
    | .float64 f => encodeLoop T loc comparable1 vals (EncodeFloat (b ++ [floatFlag]) f) err
    | .string s c => encodeLoop T loc comparable1 vals (encodeString T b s c comparable1) err
    | .bytes v => encodeLoop T loc comparable1 vals (encodeBytes b v comparable1) err
    | .mysqlTime t =>
      let r := EncodeMySQLTime T loc t TypeUnspecified (b ++ [uintFlag])
      match r.2 with
      | some e => (r.1, some e)
      | none => encodeLoop T loc comparable1 vals r.1 none
    | .mysqlDuration dur =>
      encodeLoop T loc comparable1 vals (EncodeInt (b ++ [durationFlag]) dur.duration) err
    | .mysqlDecimal dec length frac =>
      let r := T.EncodeDecimal dec length frac
      encodeLoop T loc comparable1 vals (b ++ [decimalFlag] ++ r.1) r.2
    | .mysqlEnum e => encodeLoop T loc comparable1 vals (encodeUnsignedInt b e.value comparable1) err
    | .mysqlSet s => encodeLoop T loc comparable1 vals (encodeUnsignedInt b s.value comparable1) err
    | .mysqlBit lit =>
      let r := T.ToInt StrictContext lit
      encodeLoop T loc comparable1 vals (encodeUnsignedInt b r.1 comparable1) r.2
    | .binaryLiteral lit =>
      let r := T.ToInt StrictContext lit
      encodeLoop T loc comparable1 vals (encodeUnsignedInt b r.1 comparable1) r.2
    | .mysqlJSON j =>
      encodeLoop T loc comparable1 vals (b ++ [jsonFlag] ++ [j.typeCode] ++ j.value) err
    | .vectorFloat32 v =>
      encodeLoop T loc comparable1 vals (b ++ [vectorFloat32Flag] ++ T.SerializeTo v) err
    | .null => encodeLoop T loc comparable1 vals (b ++ [NilFlag]) err
    | .minNotNull => encodeLoop T loc comparable1 vals (b ++ [bytesFlag]) err
    | .maxValue => encodeLoop T loc comparable1 vals (b ++ [maxFlag]) err
    | .iface x => (b, some (.unsupportEncodeType (Datum.iface x).Kind))
    | .raw x => (b, some (.unsupportEncodeType (Datum.raw x).Kind))

/-- Source `encode` (lines 91-151): the named result `err` starts as `nil`. -/
def encode (T : TypesPkg) (loc : Location) (b : List Nat) (vals : List Datum)
    (comparable1 : Bool) : List Nat × Option CodecError :=
  encodeLoop T loc comparable1 vals b none

/-- Source `EncodeKey` (lines 303-305). -/
def EncodeKey (T : TypesPkg) (loc : Location) (b : List Nat) (v : List Datum) :
    List Nat × Option CodecError :=
  encode T loc b v true

/-- Source `EncodeValue` (lines 309-311). -/
def EncodeValue (T : TypesPkg) (loc : Location) (b : List Nat) (v : List Datum) :
    List Nat × Option CodecError :=
  encode T loc b v false

/-- The loop `for v > 0 { size++; v = v >> 7 }` of `valueSizeOfSignedInt` and
`valueSizeOfUnsignedInt`; a 64-bit value is exhausted after at most ten rounds. -/
def valueSizeLoop : Nat → Nat → Int → Int
  | 0, _, size => size
  | fuel + 1, v, size => if v > 0 then valueSizeLoop fuel (v >>> 7) (size + 1) else size

/-- Source `valueSizeOfSignedInt` (lines 257-269). -/
def valueSizeOfSignedInt (v : Int) : Int :=
  let v := if v < 0 then wrapInt64 (0 - v - 1) else v
  valueSizeLoop 10 (v.toNat >>> 6) 2

/-- Source `valueSizeOfUnsignedInt` (lines 282-291). -/
def valueSizeOfUnsignedInt (v : Nat) : Int := valueSizeLoop 10 (v >>> 7) 2

/-- Source `valueSizeOfBytes` (lines 233-235). -/
def valueSizeOfBytes (v : List Nat) : Int := valueSizeOfSignedInt (v.length : Int) + v.length

/-- Source `EstimateValueSize` (lines 154-191). -/
def EstimateValueSize (T : TypesPkg) (typeCtx : Nat) (val : Datum) : Int × Option CodecError :=
  match val with
  | .int64 v => (valueSizeOfSignedInt v, none)
  | .uint64 v => (valueSizeOfUnsignedInt v, none)
  | .float32 _ => (9, none)
  | .float64 _ => (9, none)
  | .mysqlTime _ => (9, none)
  | .mysqlDuration _ => (9, none)
  | .string s _ => (valueSizeOfBytes s, none)
  | .bytes v => (valueSizeOfBytes v, none)
  | .mysqlDecimal dec length frac =>
    let r := T.valueSizeOfDecimal dec length frac
    match r.2 with
    | some e => (0, some e)
    | none => (r.1 + 1, none)
  | .mysqlEnum e => (valueSizeOfUnsignedInt e.value, none)
  | .mysqlSet s => (valueSizeOfUnsignedInt s.value, none)
  | .mysqlBit lit => (valueSizeOfUnsignedInt (T.ToInt typeCtx lit).1, none)
  | .binaryLiteral lit => (valueSizeOfUnsignedInt (T.ToInt typeCtx lit).1, none)
  | .mysqlJSON j => (2 + j.value.length, none)
  | .vectorFloat32 v => (1 + T.SerializedSize v, none)
  | .null => (1, none)
  | .minNotNull => (1, none)
  | .maxValue => (1, none)
  | .iface x => (0, some (.unsupportEncodeType (Datum.iface x).Kind))
  | .raw x => (0, some (.unsupportEncodeType (Datum.raw x).Kind))

/-! ## Decoding (codec.go, lines 959-1118) -/

/-- Source `DecodeOne` (lines 1040-1118): remainder, Datum, error.  The zero Datum is `Null`. -/
def DecodeOne (T : TypesPkg) : List Nat → List Nat × Datum × Option CodecError
  | [] => ([], .null, some .invalidEncodedKey)
  | flag :: b =>
    if flag = intFlag then
      let r := DecodeInt b
      (r.1, .int64 r.2.1, r.2.2)
    else if flag = uintFlag then
      let r := DecodeUint b
      (r.1, .uint64 r.2.1, r.2.2)
    else if flag = varintFlag then
      let r := DecodeVarint b
      (r.1, .int64 r.2.1, r.2.2)
    else if flag = uvarintFlag then
      let r := DecodeUvarint b
      (r.1, .uint64 r.2.1, r.2.2)
    else if flag = floatFlag then
      let r := DecodeFloat b
      (r.1, .float64 r.2.1, r.2.2)
    else if flag = bytesFlag then
      let r := DecodeBytes b
      (r.1, .bytes r.2.1, r.2.2)
    else if flag = compactBytesFlag then
      let r := DecodeCompactBytes b
      (r.1, .bytes r.2.1, r.2.2)
    else if flag = decimalFlag then
      let r := T.DecodeDecimal b
      match r.2.2.2.2 with
      | none => (r.1, .mysqlDecimal r.2.1 r.2.2.1 r.2.2.2.1, none)
      | some e => (r.1, .null, some e)
    else if flag = durationFlag then
      let r := DecodeInt b
      match r.2.2 with
      | none => (r.1, .mysqlDuration { duration := r.2.1, fsp := MaxFsp }, none)
      | some e => (r.1, .null, some e)
    else if flag = jsonFlag then
      let r := T.PeekBytesAsJSON b
      match r.2 with
      | some e => (b, .null, some e)
      | none =>
        match b with
        | [] => (b, .null, some .sliceOutOfRange)
        | typeCode :: _ =>
          if r.1 < 1 ∨ (b.length : Int) < r.1 then (b, .null, some .sliceOutOfRange)
          else
            (b.drop r.1.toNat,
             .mysqlJSON { typeCode := typeCode, value := (b.take r.1.toNat).drop 1 }, none)
    else if flag = vectorFloat32Flag then
      let r := T.ZeroCopyDeserializeVectorFloat32 b
      match r.2.2 with
      | some e => (b, .null, some e)
      | none => (r.2.1, .vectorFloat32 r.1, none)
    else if flag = NilFlag then (b, .null, none)
    else (b, .null, some (.invalidFlag flag))

/-- The loop `for len(b) > 0` of `Decode` (lines 972-980), with the values decoded so far.
Every round of the source consumes at least the flag byte, so `len(b)` rounds are enough;
`fuel` counts them. -/
def decodeLoop (T : TypesPkg) : Nat → List Nat → List Datum → List Datum × Option CodecError
  | _, [], values => (values, none)
  | 0, _ :: _, _ => ([], some .noProgress)
  | fuel + 1, b0 :: b, values =>
    let r := DecodeOne T (b0 :: b)
    match r.2.2 with
    | some e => ([], some e)
    | none => decodeLoop T fuel r.1 (values ++ [r.2.1])

/-- Source `Decode` (lines 962-983); `size` is only the capacity of the result. -/
def Decode (T : TypesPkg) (b : List Nat) (_size : Nat) : List Datum × Option CodecError :=
  if b.length < 1 then ([], some .invalidEncodedKey)
  else decodeLoop T b.length b []

/-! ## Peeking and cutting (codec.go, lines 1178-1305) -/

/-- The loop of `peekBytes` (lines 1257-1274) over the bytes from `offset` on. -/
def peekBytesLoop : List Nat → Int → Int × Option CodecError
  | _ :: _ :: _ :: _ :: _ :: _ :: _ :: _ :: marker :: rest, offset =>
    let padCount := (encMarker + 256 - marker % 256) % 256
    if padCount ≠ 0 then (offset + (encGroupSize + 1 : Nat), none)
    else peekBytesLoop rest (offset + (encGroupSize + 1 : Nat))
  | _, _ => (0, some .insufficientBytes)

/-- Source `peekBytes` (lines 1257-1274). -/
def peekBytes (b : List Nat) : Int × Option CodecError := peekBytesLoop b 0

/-- Source `peekCompactBytes` (lines 1276-1289); `vi + n` is computed on 64-bit `int`s. -/
def peekCompactBytes (b : List Nat) : Int × Option CodecError :=
  let r := Varint b
  let vi := r.1
  let n := r.2
  if n < 0 then (0, some .largerThan64Bits)
  else if n = 0 then (0, some .insufficientBytes)
  else if (b.length : Int) < wrapInt64 (vi + n) then (0, some (.insufficientBytesExpected n))
  else (wrapInt64 (n + vi), none)

/-- Source `peekVarint` (lines 1291-1297). -/
def peekVarint (b : List Nat) : Int × Option CodecError :=
  let n := (Varint b).2
  if n < 0 then (0, some .largerThan64Bits) else (n, none)

/-- Source `peekUvarint` (lines 1299-1305). -/
def peekUvarint (b : List Nat) : Int × Option CodecError :=
  let n := (Uvarint b).2
  if n < 0 then (0, some .largerThan64Bits) else (n, none)

/-- The `switch flag` of `peek` (lines 1222-1243): the payload length `l` and `err`, or
`none` in the `default` case. -/
def peekPayload (T : TypesPkg) (flag : Nat) (b : List Nat) : Option (Int × Option CodecError) :=
  if flag = NilFlag then some (0, none)
  else if flag = intFlag ∨ flag = uintFlag ∨ flag = floatFlag ∨ flag = durationFlag then
    some (8, none)
  else if flag = bytesFlag then some (peekBytes b)
  else if flag = compactBytesFlag then some (peekCompactBytes b)
  else if flag = decimalFlag then some (T.DecimalPeak b)
  else if flag = varintFlag then some (peekVarint b)
  else if flag = uvarintFlag then some (peekUvarint b)
  else if flag = jsonFlag then some (T.PeekBytesAsJSON b)
  else if flag = vectorFloat32Flag then some (T.PeekBytesAsVectorFloat32 b)
  else none

/-- Source `peek` (lines 1213-1255): the length of the first encoded value, and the error. -/
def peek (T : TypesPkg) : List Nat → Int × Option CodecError
  | [] => (0, some .invalidEncodedKey)
  | flag :: b =>
    let originLength : Int := ((flag :: b).length : Int)
    match peekPayload T flag b with
    | none => (0, some (.invalidFlag flag))
    | some (_, some e) => (0, some e)
    | some (l, none) =>
      let length := wrapInt64 (1 + l)
      if length ≤ 0 then (0, some .invalidEncodedKey)
      else if length > originLength then (0, some (.lengthMismatch length originLength))
      else (length, none)

/-- Source `CutOne` (lines 1180-1186): the first encoded item, the remainder, the error. -/
def CutOne (T : TypesPkg) (b : List Nat) : List Nat × List Nat × Option CodecError :=
  let r := peek T b
  match r.2 with
  | some e => ([], [], some e)
  | none => (b.take r.1.toNat, b.drop r.1.toNat, none)

/-! ## Hash code of a Datum (codec.go, lines 1604-1659) -/

/-- Source `HashCode` (lines 1606-1659). -/
def HashCode (T : TypesPkg) (b : List Nat) (d : Datum) : List Nat :=
  match d with
  | .int64 v => encodeSignedInt b v false
  | .uint64 v => encodeUnsignedInt b v false
  | .float32 f => EncodeFloat (b ++ [floatFlag]) f
  | .float64 f => EncodeFloat (b ++ [floatFlag]) f
  | .string s c => encodeString T b s c false
  | .bytes v => encodeBytes b v false
  | .mysqlTime t => encodeUnsignedInt (b ++ [uintFlag]) (T.timeCoreTime t) true
  | .mysqlDuration dur => EncodeInt (b ++ [durationFlag]) dur.duration
  | .mysqlDecimal dec _ _ => encodeBytes (b ++ [decimalFlag]) (T.decimalToString dec) false
  | .mysqlEnum e => encodeUnsignedInt b e.value false
  | .mysqlSet s => encodeUnsignedInt b s.value false
  | .mysqlBit lit => encodeBytes b lit false
  | .binaryLiteral lit => encodeBytes b lit false
  | .mysqlJSON j => b ++ [jsonFlag] ++ [j.typeCode] ++ j.value
  | .vectorFloat32 v => b ++ [vectorFloat32Flag] ++ T.SerializeTo v
  | .null => b ++ [NilFlag]
  | .minNotNull => b ++ [bytesFlag]
  | .maxValue => b ++ [maxFlag]
  | .iface _ => b
  | .raw _ => b

/-! ## Hash mode over chunk rows and columns (codec.go, lines 313-957) -/

/-- The accessors of `types.FieldType` used by the codec. -/
structure FieldType where
  tp : Nat
  flag : Nat
  elems : List (List Nat)
  collate : List Nat
  deriving DecidableEq, Repr

def TypeTiny : Nat := 1
def TypeShort : Nat := 2
def TypeLong : Nat := 3
def TypeNull : Nat := 6
def TypeLonglong : Nat := 8
def TypeInt24 : Nat := 9
def TypeDate : Nat := 10
def TypeDuration : Nat := 11
def TypeDatetime : Nat := 12
def TypeYear : Nat := 13
def TypeVarchar : Nat := 15
def TypeBit : Nat := 16
def TypeTiDBVectorFloat32 : Nat := 0xe1
def TypeJSON : Nat := 0xf5
def TypeNewDecimal : Nat := 0xf6
def TypeEnum : Nat := 0xf7
def TypeSet : Nat := 0xf8
def TypeTinyBlob : Nat := 0xf9
def TypeMediumBlob : Nat := 0xfa
def TypeLongBlob : Nat := 0xfb
def TypeBlob : Nat := 0xfc
def TypeVarString : Nat := 0xfd
def TypeString : Nat := 0xfe

/-- The case list `TypeTiny, TypeShort, TypeInt24, TypeLong, TypeLonglong, TypeYear`. -/
def isIntegerType (tp : Nat) : Bool :=
  tp == TypeTiny || tp == TypeShort || tp == TypeInt24 || tp == TypeLong || tp == TypeLonglong
    || tp == TypeYear

/-- The case list `TypeVarchar, TypeVarString, TypeString, TypeBlob, TypeTinyBlob,
TypeMediumBlob, TypeLongBlob`. -/
def isStringType (tp : Nat) : Bool :=
  tp == TypeVarchar || tp == TypeVarString || tp == TypeString || tp == TypeBlob
    || tp == TypeTinyBlob || tp == TypeMediumBlob || tp == TypeLongBlob

/-- The case list `TypeDate, TypeDatetime, TypeTimestamp`. -/
def isTimeType (tp : Nat) : Bool := tp == TypeDate || tp == TypeDatetime || tp == TypeTimestamp

/-- Source `mysql.HasUnsignedFlag(flag)`. -/
def HasUnsignedFlag (flag : Nat) : Bool := flag &&& 32 != 0

/-- Source `mysql.HasEnumSetAsIntFlag(flag)`. -/
def HasEnumSetAsIntFlag (flag : Nat) : Bool := flag &&& 2 ^ 26 != 0

/-- The accessors of a `chunk.Row` used by the codec, by column index. -/
structure Row where
  IsNull : Int → Bool
  GetInt64 : Int → Int
  GetFloat32 : Int → Nat
  GetFloat64 : Int → Nat
  GetBytes : Int → List Nat
  GetRaw : Int → List Nat
  GetTime : Int → Time
  GetMyDecimal : Int → MyDecimal
  GetEnum : Int → Enum
  GetSet : Int → SetVal
  GetJSON : Int → BinaryJSON
  GetVectorFloat32 : Int → VectorFloat32

/-- The accessors of a `chunk.Column` used by the codec, by row index. -/
structure Column where
  IsNull : Nat → Bool
  Int64s : List Int
  Float32s : List Nat
  Float64s : List Nat
  Times : List Time
  Decimals : List MyDecimal
  GetBytes : Nat → List Nat
  GetRaw : Nat → List Nat
  GetEnum : Nat → Enum
  GetSet : Nat → SetVal
  GetJSON : Nat → BinaryJSON
  GetVectorFloat32 : Nat → VectorFloat32

/-- The accessors of a `chunk.Chunk` used by the codec. -/
structure Chunk where
  Column : Int → Column
  NumRows : Nat

/-- Source `ConvertByCollation` (lines 1579-1582). -/
def ConvertByCollation (T : TypesPkg) (raw : List Nat) (tp : FieldType) : List Nat :=
  T.collatorKey tp.collate raw

/-- The statement `if f == 0 { f = 0 }` on the bit pattern of a `float64`: a zero of
either sign becomes `+0.0`. -/
def normalizeZero (f : Nat) : Nat := if float64EqZero f then 0 else f

/-- The four bytes of a `uint32` as they lie in memory. -/
def rawUint32 (u : Nat) : List Nat := [u % 256, u >>> 8 % 256, u >>> 16 % 256, u >>> 24 % 256]

/-- Source `encodeHashChunkRowIdx` (lines 313-409): flag, bytes, error. -/
def encodeHashChunkRowIdx (T : TypesPkg) (typeCtx : Nat) (row : Row) (tp : FieldType)
    (idx : Int) : Nat × List Nat × Option CodecError :=
  if row.IsNull idx then (NilFlag, [], none)
  else if isIntegerType tp.tp then
    (if !HasUnsignedFlag tp.flag && decide (row.GetInt64 idx < 0) then varintFlag
      else uvarintFlag, row.GetRaw idx, none)
  else if tp.tp = TypeFloat then
    (floatFlag, rawUint64 (normalizeZero (float32ToFloat64 (row.GetFloat32 idx))), none)
  else if tp.tp = TypeDouble then
    (floatFlag, rawUint64 (normalizeZero (row.GetFloat64 idx)), none)
  else if isStringType tp.tp then
    (compactBytesFlag, ConvertByCollation T (row.GetBytes idx) tp, none)
  else if isTimeType tp.tp then
    let r := T.ToPackedUint (row.GetTime idx)
    match r.2 with
    | some e => (uintFlag, [], some e)
    | none => (uintFlag, rawUint64 r.1, none)
  else if tp.tp = TypeDuration then (durationFlag, row.GetRaw idx, none)
  else if tp.tp = TypeNewDecimal then
    let r := T.ToHashKey (row.GetMyDecimal idx)
    (decimalFlag, r.1, r.2)
  else if tp.tp = TypeEnum then
    if HasEnumSetAsIntFlag tp.flag then (uvarintFlag, rawUint64 (row.GetEnum idx).value, none)
    else
      let r := T.ParseEnumValue tp.elems (row.GetEnum idx).value
      let str := match r.2 with
        | none => r.1.name
        | some _ => []
      (compactBytesFlag, ConvertByCollation T str tp, none)
  else if tp.tp = TypeSet then
    let r := T.ParseSetValue tp.elems (row.GetSet idx).value
    match r.2 with
    | some e => (0, [], some e)
    | none => (compactBytesFlag, ConvertByCollation T r.1.name tp, none)
  else if tp.tp = TypeBit then
    (uvarintFlag, rawUint64 (T.ToInt typeCtx (row.GetBytes idx)).1, none)
  else if tp.tp = TypeJSON then (jsonFlag, T.HashValue (row.GetJSON idx), none)
  else if tp.tp = TypeTiDBVectorFloat32 then
    (vectorFloat32Flag, T.SerializeTo (row.GetVectorFloat32 idx), none)
  else (0, [], some (.unsupportEncodeType tp.tp))

/-- Source `SerializeMode` (lines 412-424). -/
inductive SerializeMode
  | Normal
  | NeedSignFlag
  | KeepVarColumnLength
  deriving DecidableEq, Repr

/-- The closure `canSkip` of `SerializeKeys` (lines 429-434): the answer and the null
vector after the call. -/
def canSkip (column : Column) (filterVector nullVector : Option (List Bool)) (index : Nat) :
    Bool × Option (List Bool) :=
  let nullVector :=
    if column.IsNull index then nullVector.map (fun v => v.set index true) else nullVector
  let skip :=
    (match filterVector with
      | some f => !(f.getD index false)
      | none => false) ||
    (match nullVector with
      | some v => v.getD index false
      | none => false)
  (skip, nullVector)

/-- The prefix `unsafe.Slice(&size, sizeUint32)` written under `KeepVarColumnLength`. -/
def varLengthPrefix (serializeMode : SerializeMode) (b : List Nat) : List Nat :=
  if serializeMode = SerializeMode.KeepVarColumnLength then rawUint32 (b.length % 2 ^ 32) else []

/-- The bytes that one round of a loop of `SerializeKeys` (lines 439-612) appends to
`serializedKeysVector[logicalRowIndex]` for the row `i` that is not skipped, and the error
on which the function returns; `none` in the `default` case of the `switch`. -/
def serializeCell (T : TypesPkg) (typeCtx : Nat) (column : Column) (tp : FieldType)
    (serializeMode : SerializeMode) (i : Nat) : Option (List Nat × Option CodecError) :=
  if isIntegerType tp.tp then
    some ((if serializeMode = SerializeMode.NeedSignFlag then
        (if !HasUnsignedFlag tp.flag && decide (column.Int64s.getD i 0 < 0) then [intFlag]
          else [uintFlag])
      else []) ++ column.GetRaw i, none)
  else if tp.tp = TypeFloat then
    some (rawUint64 (normalizeZero (float32ToFloat64 (column.Float32s.getD i 0))), none)
  else if tp.tp = TypeDouble then
    some (rawUint64 (normalizeZero (column.Float64s.getD i 0)), none)
  else if isStringType tp.tp then
    let data := ConvertByCollation T (column.GetBytes i) tp
    some (varLengthPrefix serializeMode data ++ data, none)
  else if isTimeType tp.tp then
    let r := T.ToPackedUint (column.Times.getD i { coreTime := 0 })
    match r.2 with
    | some e => some ([], some e)
    | none => some (rawUint64 r.1, none)
  else if tp.tp = TypeDuration then some (column.GetRaw i, none)
  else if tp.tp = TypeNewDecimal then
    let r := T.ToHashKey (column.Decimals.getD i ⟨0, 0, 0, false, []⟩)
    match r.2 with
    | some e => some ([], some e)
    | none =>
      some ((if serializeMode = SerializeMode.KeepVarColumnLength then [r.1.length % 256]
        else []) ++ r.1, none)
  else if tp.tp = TypeEnum then
    let v := (column.GetEnum i).value
    if HasEnumSetAsIntFlag tp.flag then
      some ((if serializeMode = SerializeMode.NeedSignFlag then [uintFlag] else [])
        ++ rawUint64 v, none)
    else
      let r := T.ParseEnumValue tp.elems v
      let str := match r.2 with
        | none => r.1.name
        | some _ => []
      let b := ConvertByCollation T str tp
      some (varLengthPrefix serializeMode b ++ b, none)
  else if tp.tp = TypeSet then
    let r := T.ParseSetValue tp.elems (column.GetSet i).value
    match r.2 with
    | some e => some ([], some e)
    | none =>
      let b := ConvertByCollation T r.1.name tp
      some (varLengthPrefix serializeMode b ++ b, none)
  else if tp.tp = TypeBit then
    some ((if serializeMode = SerializeMode.NeedSignFlag then [uintFlag] else [])
      ++ rawUint64 (T.ToInt typeCtx (column.GetBytes i)).1, none)
  else if tp.tp = TypeJSON then
    let b := T.HashValue (column.GetJSON i)
    some (varLengthPrefix serializeMode b ++ b, none)
  else if tp.tp = TypeNull then some ([], none)
  else none

/-- The loops `for logicalRowIndex, physicalRowindex := range usedRows` of `SerializeKeys`,
from the logical index `logical` on, for a keys vector that holds the logical indexes.
An index out of range, which is the index panic of Go, is not modelled: the vector is
left as it is. -/
def serializeLoop (T : TypesPkg) (typeCtx : Nat) (column : Column) (tp : FieldType)
    (filterVector : Option (List Bool)) (serializeMode : SerializeMode) :
    List Nat → Nat → List (List Nat) → Option (List Bool) →
      List (List Nat) × Option (List Bool) × Option CodecError
  | [], _, keys, nullVector => (keys, nullVector, none)
  | physical :: usedRows, logical, keys, nullVector =>
    let c := canSkip column filterVector nullVector physical
    if c.1 then
      serializeLoop T typeCtx column tp filterVector serializeMode usedRows (logical + 1) keys c.2
    else
      match serializeCell T typeCtx column tp serializeMode physical with
      | none => (keys, c.2, some (.unsupportEncodeType tp.tp))
      | some (_, some e) => (keys, c.2, some e)
      | some (bytes, none) =>
        serializeLoop T typeCtx column tp filterVector serializeMode usedRows (logical + 1)
          (keys.set logical (keys.getD logical [] ++ bytes)) c.2

/-- Source `SerializeKeys` (lines 427-614): the serialized keys vector and the null vector after
the call, and the error. -/
def SerializeKeys (T : TypesPkg) (typeCtx : Nat) (chk : Chunk) (tp : FieldType) (colIdx : Int)
    (usedRows : List Nat) (filterVector nullVector : Option (List Bool))
    (serializeMode : SerializeMode) (serializedKeysVector : List (List Nat)) :
    List (List Nat) × Option (List Bool) × Option CodecError :=
  match serializeCell T typeCtx (chk.Column colIdx) tp serializeMode 0 with
  | none => (serializedKeysVector, nullVector, some (.unsupportEncodeType tp.tp))
  | some _ =>
    serializeLoop T typeCtx (chk.Column colIdx) tp filterVector serializeMode usedRows 0
      serializedKeysVector nullVector

/-- The flag put in `buf[0]` and the bytes `b` that one round of a loop of
`HashChunkSelected` (lines 628-908) computes for the non-null row `i`, and the error on
which the function returns; `none` for `TypeNull` and in the `default` case. -/
def hashColumnCell (T : TypesPkg) (typeCtx : Nat) (column : Column) (tp : FieldType)
    (i : Nat) : Option (Nat × List Nat × Option CodecError) :=
  if isIntegerType tp.tp then
    some (if !HasUnsignedFlag tp.flag && decide (column.Int64s.getD i 0 < 0) then varintFlag
      else uvarintFlag, column.GetRaw i, none)
  else if tp.tp = TypeFloat then
    some (floatFlag, rawUint64 (normalizeZero (float32ToFloat64 (column.Float32s.getD i 0))), none)
  else if tp.tp = TypeDouble then
    some (floatFlag, rawUint64 (normalizeZero (column.Float64s.getD i 0)), none)
  else if isStringType tp.tp then
    some (compactBytesFlag, ConvertByCollation T (column.GetBytes i) tp, none)
  else if isTimeType tp.tp then
    let r := T.ToPackedUint (column.Times.getD i { coreTime := 0 })
    match r.2 with
    | some e => some (uintFlag, [], some e)
    | none => some (uintFlag, rawUint64 r.1, none)
  else if tp.tp = TypeDuration then some (durationFlag, column.GetRaw i, none)
  else if tp.tp = TypeNewDecimal then
    let r := T.ToHashKey (column.Decimals.getD i ⟨0, 0, 0, false, []⟩)
    some (decimalFlag, r.1, r.2)
  else if tp.tp = TypeEnum then
    if HasEnumSetAsIntFlag tp.flag then
      some (uvarintFlag, rawUint64 (column.GetEnum i).value, none)
    else
      let r := T.ParseEnumValue tp.elems (column.GetEnum i).value
      let str := match r.2 with
        | none => r.1.name
        | some _ => []
      some (compactBytesFlag, ConvertByCollation T str tp, none)
  else if tp.tp = TypeSet then
    let r := T.ParseSetValue tp.elems (column.GetSet i).value
    match r.2 with
    | some e => some (compactBytesFlag, [], some e)
    | none => some (compactBytesFlag, ConvertByCollation T r.1.name tp, none)
  else if tp.tp = TypeBit then
    some (uvarintFlag, rawUint64 (T.ToInt typeCtx (column.GetBytes i)).1, none)
  else if tp.tp = TypeJSON then some (jsonFlag, T.HashValue (column.GetJSON i), none)
  else if tp.tp = TypeTiDBVectorFloat32 then
    some (vectorFloat32Flag, T.SerializeTo (column.GetVectorFloat32 i), none)
  else none

/-- The number of rounds of the loop of `HashChunkSelected` for the column type: the length
of the typed slice the loop ranges over, or `chk.NumRows()`. -/
def hashColumnRows (chk : Chunk) (column : Column) (tp : FieldType) : Nat :=
  if isIntegerType tp.tp then column.Int64s.length
  else if tp.tp = TypeFloat then column.Float32s.length
  else if tp.tp = TypeDouble then column.Float64s.length
  else if isTimeType tp.tp then column.Times.length
  else if tp.tp = TypeNewDecimal then column.Decimals.length
  else chk.NumRows

/-- What `HashChunkSelected` changes: the bytes written so far to every `h[i]`, the scratch
buffer `buf`, and the vector `isNull`. -/
structure HashState where
  h : List (List Nat)
  buf : List Nat
  isNull : List Bool
  deriving DecidableEq, Repr

/-- The statements `_, _ = h[i].Write(buf)` and `_, _ = h[i].Write(b)` after `buf[0]` got
`flag`, for a scratch buffer that is not empty and a row `i` within `h`.  An index out of
range, which is the index panic of Go, is not modelled here or in the loops below: the
slice is left as it is. -/
def HashState.write (st : HashState) (i flag : Nat) (b : List Nat) : HashState :=
  { st with buf := st.buf.set 0 flag,
            h := st.h.set i (st.h.getD i [] ++ st.buf.set 0 flag ++ b) }

/-- The loops of `HashChunkSelected` over the rows in `rows`. -/
def hashLoop (T : TypesPkg) (typeCtx : Nat) (column : Column) (tp : FieldType)
    (sel : Option (List Bool)) (ignoreNull : Bool) :
    List Nat → HashState → HashState × Option CodecError
  | [], st => (st, none)
  | i :: rows, st =>
    if (match sel with
        | some v => !(v.getD i false)
        | none => false) then hashLoop T typeCtx column tp sel ignoreNull rows st
    else if tp.tp = TypeNull then
      let st := { st with isNull := st.isNull.set i (!ignoreNull), buf := st.buf.set 0 NilFlag }
      hashLoop T typeCtx column tp sel ignoreNull rows
        { st with h := st.h.set i (st.h.getD i [] ++ st.buf) }
    else if column.IsNull i then
      hashLoop T typeCtx column tp sel ignoreNull rows
        ({ st with isNull := st.isNull.set i (!ignoreNull) }.write i NilFlag [])
    else
      match hashColumnCell T typeCtx column tp i with
      | none => (st, some (.unsupportEncodeType tp.tp))
      | some (flag, _, some e) => ({ st with buf := st.buf.set 0 flag }, some e)
      | some (flag, b, none) =>
        hashLoop T typeCtx column tp sel ignoreNull rows (st.write i flag b)

/-- Source `HashChunkSelected` (lines 623-910). -/
def HashChunkSelected (T : TypesPkg) (typeCtx : Nat) (h : List (List Nat)) (chk : Chunk)
    (tp : FieldType) (colIdx : Int) (buf : List Nat) (isNull : List Bool)
    (sel : Option (List Bool)) (ignoreNull : Bool) : HashState × Option CodecError :=
  if tp.tp ≠ TypeNull ∧ hashColumnCell T typeCtx (chk.Column colIdx) tp 0 = none then
    ({ h := h, buf := buf, isNull := isNull }, some (.unsupportEncodeType tp.tp))
  else
    hashLoop T typeCtx (chk.Column colIdx) tp sel ignoreNull
      (List.range (hashColumnRows chk (chk.Column colIdx) tp))
      { h := h, buf := buf, isNull := isNull }

/-- Source `HashChunkColumns` (lines 617-619). -/
def HashChunkColumns (T : TypesPkg) (typeCtx : Nat) (h : List (List Nat)) (chk : Chunk)
    (tp : FieldType) (colIdx : Int) (buf : List Nat) (isNull : List Bool) :
    HashState × Option CodecError :=
  HashChunkSelected T typeCtx h chk tp colIdx buf isNull none false

/-! ## Vocabulary of the properties -/

/-- The payload of the Datum fits the machine type that holds it. -/
def Datum.wellFormed : Datum → Prop
  | .int64 v => isInt64 v
  | .uint64 v => isUint64 v
  | .float32 f => isUint64 f
  | .float64 f => isUint64 f
  | .mysqlDuration dur => isInt64 dur.duration
  | .mysqlEnum e => isUint64 e.value
  | .mysqlSet s => isUint64 s.value
  | _ => True

/-- The Datum is an `Int64` or a `Uint64` Datum holding a value of its type. -/
def Datum.isInteger : Datum → Prop
  | .int64 v => isInt64 v
  | .uint64 v => isUint64 v
  | _ => False

instance (d : Datum) : Decidable d.wellFormed := by
  cases d <;> unfold Datum.wellFormed <;> infer_instance

instance (d : Datum) : Decidable d.isInteger := by
  cases d <;> unfold Datum.isInteger <;> infer_instance

/-- Package `types` keeps its word for the Datum `d`: its peek functions return the
length of what its serializers write for `d`, and a bit literal converts to a `uint64`. -/
def peekAgrees (T : TypesPkg) : Datum → Prop
  | .mysqlDecimal dec length frac =>
    T.DecimalPeak (T.EncodeDecimal dec length frac).1
      = (((T.EncodeDecimal dec length frac).1.length : Int), none)
  | .mysqlJSON j => T.PeekBytesAsJSON (j.typeCode :: j.value) = (1 + (j.value.length : Int), none)
  | .vectorFloat32 v =>
    T.PeekBytesAsVectorFloat32 (T.SerializeTo v) = (((T.SerializeTo v).length : Int), none)
  | .mysqlBit lit => isUint64 (T.ToInt StrictContext lit).1
  | .binaryLiteral lit => isUint64 (T.ToInt StrictContext lit).1
  | _ => True

/-- Encoding the single Datum `v` in the given mode succeeds, and decoding the bytes gives
back exactly the one-element list `[w]`. -/
def decodesAs (T : TypesPkg) (loc : Location) (comparable1 : Bool) (v w : Datum) : Prop :=
  (encode T loc [] [v] comparable1).2 = none ∧
    Decode T (encode T loc [] [v] comparable1).1 1 = ([w], none)

instance (T : TypesPkg) (d : Datum) : Decidable (peekAgrees T d) := by
  cases d <;> unfold peekAgrees <;> infer_instance

instance (T : TypesPkg) (loc : Location) (comparable1 : Bool) (v w : Datum) :
    Decidable (decodesAs T loc comparable1 v w) := by
  unfold decodesAs; infer_instance

/-- The concatenation of the single-element encodings of the Datums of `xs`, each in its
own mode (`true`: key mode, `false`: value mode). -/
def concatEncodings (T : TypesPkg) (loc : Location) : List (Datum × Bool) → List Nat
  | [] => []
  | x :: xs => (encode T loc [] [x.1] x.2).1 ++ concatEncodings T loc xs

/-- The number written by a list of bytes, most significant byte first. -/
def beVal : List Nat → Nat
  | [] => 0
  | x :: xs => x * 256 ^ xs.length + beVal xs

/-- The element tags that `DecodeOne` and `peek` know. -/
def elementTags : List Nat := [0, 1, 2, 3, 4, 5, 6, 7, 8, 9, 10, 20]

/-- A chunk whose `float64` cells holding `-0.0` hold `+0.0` instead. -/
def Chunk.withoutNegZero64 (chk : Chunk) : Chunk :=
  { chk with Column := fun i =>
      { chk.Column i with Float64s := (chk.Column i).Float64s.map normalizeZero } }

/-- Bit pattern of the `float32` `-0.0`. -/
def negZero32 : Nat := 0x80000000

/-- Bit pattern of the `float64` `-0.0`. -/
def negZero64 : Nat := 0x8000000000000000

/-- A chunk whose `float32` cells holding `-0.0` hold `+0.0` instead. -/
def Chunk.withoutNegZero32 (chk : Chunk) : Chunk :=
  { chk with Column := fun i =>
      { chk.Column i with
        Float32s := (chk.Column i).Float32s.map (fun f => if f = negZero32 then 0 else f) } }

/-! ## A sample of package `types`

A small instance of `TypesPkg`, to run the codec on concrete values: binary collation, no
time-zone conversion, a decimal written as five bytes that is refused when it has more
digits than the precision allows, JSON literals and 64-bit numbers, vectors written as
their data. -/

/-- Source `BinaryLiteral.ToInt`: leading zero bytes trimmed, at most eight bytes, big-endian. -/
def sampleToInt (lit : List Nat) : Nat × Option CodecError :=
  let buf := lit.dropWhile (fun x => x == 0)
  if buf.length > 8 then (2 ^ 64 - 1, some (.external 2))
  else (buf.foldl (fun acc x => acc * 256 + x % 256) 0, none)

def sampleTypes : TypesPkg where
  NewCollationEnabled := false
  collatorKey := fun _ s => s
  timeType := fun _ => TypeDatetime
  timeCoreTime := fun t => t.coreTime % 2 ^ 64
  ConvertTimeZone := fun t _ _ => (t, none)
  ToPackedUint := fun t => (t.coreTime % 2 ^ 64, none)
  ToInt := fun _ lit => sampleToInt lit
  EncodeDecimal := fun dec precision frac =>
    if precision < dec.digitsInt + dec.digitsFrac then ([], some (.external 1))
    else ([precision.toNat % 256, frac.toNat % 256, if dec.negative then 1 else 0,
           dec.digitsInt.toNat % 256, dec.digitsFrac.toNat % 256], none)
  DecodeDecimal := fun b =>
    match b with
    | p :: f :: n :: di :: df :: rest =>
      (rest, ⟨di, df, 0, n == 1, []⟩, p, f, none)
    | _ => ([], ⟨0, 0, 0, false, []⟩, 0, 0, some (.external 1))
  valueSizeOfDecimal := fun _ _ _ => (5, none)
  decimalToString := fun dec => [dec.digitsInt.toNat % 256, dec.digitsFrac.toNat % 256]
  DecimalPeak := fun b => if b.length < 3 then (0, some (.external 1)) else (5, none)
  PeekBytesAsJSON := fun b =>
    match b with
    | [] => (0, some (.external 3))
    | typeCode :: _ =>
      if typeCode = 4 then (2, none)
      else if typeCode = 9 ∨ typeCode = 10 ∨ typeCode = 11 then (9, none)
      else (0, some (.external 3))
  PeekBytesAsVectorFloat32 := fun b =>
    match b with
    | b0 :: b1 :: b2 :: b3 :: _ => (4 + 4 * ((b0 + b1 * 2 ^ 8 + b2 * 2 ^ 16 + b3 * 2 ^ 24 : Nat) : Int), none)
    | _ => (0, some (.external 4))
  SerializeTo := fun v => v.data
  SerializedSize := fun v => v.data.length
  ZeroCopyDeserializeVectorFloat32 := fun b =>
    match b with
    | b0 :: b1 :: b2 :: b3 :: _ =>
      if b.length < 4 + 4 * (b0 + b1 * 2 ^ 8 + b2 * 2 ^ 16 + b3 * 2 ^ 24) then
        (⟨[]⟩, b, some (.external 4))
      else
        (⟨b.take (4 + 4 * (b0 + b1 * 2 ^ 8 + b2 * 2 ^ 16 + b3 * 2 ^ 24))⟩,
         b.drop (4 + 4 * (b0 + b1 * 2 ^ 8 + b2 * 2 ^ 16 + b3 * 2 ^ 24)), none)
    | _ => (⟨[]⟩, b, some (.external 4))
  ToHashKey := fun dec => ([dec.digitsInt.toNat % 256, dec.digitsFrac.toNat % 256], none)
  ParseEnumValue := fun elems v =>
    if v = 0 ∨ v > elems.length then (⟨[], 0⟩, some (.external 5))
    else (⟨elems.getD (v - 1) [], v⟩, none)
  ParseSetValue := fun elems v =>
    if elems.length < 64 ∧ v ≥ 2 ^ elems.length then (⟨[], 0⟩, some (.external 6))
    else (⟨[], v⟩, none)
  HashValue := fun j => j.typeCode :: j.value
  IsTypeTime := fun tp => tp == TypeDate || tp == TypeDatetime || tp == TypeTimestamp
  IsTypeFloat := fun tp => tp == TypeFloat || tp == TypeDouble
  FromPackedUint := fun _ v => (⟨v⟩, none)
  timeIsZero := fun t => t.coreTime == 0

/-- A row all of whose cells are non-null, hold the `float32` `f32` and the `float64`
`f64`, and are empty or zero when read as another type. -/
def sampleRow (f32 f64 : Nat) : Row where
  IsNull := fun _ => false
  GetInt64 := fun _ => 0
  GetFloat32 := fun _ => f32
  GetFloat64 := fun _ => f64
  GetBytes := fun _ => []
  GetRaw := fun _ => []
  GetTime := fun _ => ⟨0⟩
  GetMyDecimal := fun _ => ⟨0, 0, 0, false, []⟩
  GetEnum := fun _ => ⟨[], 0⟩
  GetSet := fun _ => ⟨[], 0⟩
  GetJSON := fun _ => ⟨0, []⟩
  GetVectorFloat32 := fun _ => ⟨[]⟩

/-! ## Range decoding (codec.go, lines 985-1176) -/

/-- Source `DecodeAsDateTime` (lines 1121-1157). -/
def DecodeAsDateTime (T : TypesPkg) (b : List Nat) (tp : Nat) (loc : Location) :
    List Nat × Datum × Option CodecError :=
  match b with
  | [] => ([], .null, some .invalidEncodedKey)
  | flag :: b =>
    let r : Option (List Nat × Nat × Option CodecError) :=
      if flag = uintFlag then some (DecodeUint b)
      else if flag = uvarintFlag then some (DecodeUvarint b)
      else none
    if flag = NilFlag then (b, .null, none)
    else
      match r with
      | none => (b, .null, some (.invalidFlag flag))
      | some (b, _, some e) => (b, .null, some e)
      | some (b, v, none) =>
        let t := T.FromPackedUint tp v
        match t.2 with
        | some e => (b, .null, some e)
        | none =>
          if tp = TypeTimestamp ∧ ¬ T.timeIsZero t.1 ∧ loc ≠ Location.nil then
            let c := T.ConvertTimeZone t.1 Location.utc loc
            match c.2 with
            | some e => (b, .null, some e)
            | none => (b, .mysqlTime c.1, none)
          else (b, .mysqlTime t.1, none)

/-- Source `DecodeAsFloat32` (lines 1160-1176); `SetFloat32FromF64` keeps the bits of the
`float64`. -/
def DecodeAsFloat32 (b : List Nat) (tp : Nat) : List Nat × Datum × Option CodecError :=
  match b with
  | [] => ([], .null, some .invalidEncodedKey)
  | flag :: b =>
    if tp ≠ TypeFloat then ([], .null, some .invalidEncodedKey)
    else if flag ≠ floatFlag then (b, .null, some (.invalidFlag flag))
    else
      let r := DecodeFloat b
      match r.2.2 with
      | some e => ([], .null, some e)
      | none => (r.1, .float32 r.2.1, none)

/-- The decoder that one round of the loop of `DecodeRange` (lines 1001-1015) calls for the
column `i`; `none` when `i` is past the column types (the error on the
length of the columns of the index). -/
def decodeRangeElement (T : TypesPkg) (idxColumnTypes : Option (List Nat)) (loc : Location)
    (i : Nat) (b : List Nat) : Option (List Nat × Datum × Option CodecError) :=
  match idxColumnTypes with
  | none => some (DecodeOne T b)
  | some tps =>
    if i ≥ tps.length then none
    else if T.IsTypeTime (tps.getD i 0) then some (DecodeAsDateTime T b (tps.getD i 0) loc)
    else if T.IsTypeFloat (tps.getD i 0) then some (DecodeAsFloat32 b (tps.getD i 0))
    else some (DecodeOne T b)

/-- The loop `for len(b) > 1` of `DecodeRange` (lines 999-1021) with the values decoded so
far and the column counter `i`: the values, the bytes left, the error.  Every round of the
source consumes at least the flag byte; `fuel` counts the rounds. -/
def rangeLoop (T : TypesPkg) (idxColumnTypes : Option (List Nat)) (loc : Location) :
    Nat → List Nat → List Datum → Nat → List Datum × List Nat × Option CodecError
  | _, [], values, _ => (values, [], none)
  | _, [x], values, _ => (values, [x], none)
  | 0, b, values, _ => (values, b, some .noProgress)
  | fuel + 1, b, values, i =>
    match decodeRangeElement T idxColumnTypes loc i b with
    | none => (values, b, some .invalidIndexColumns)
    | some (b, _, some e) => (values, b, some e)
    | some (b, d, none) => rangeLoop T idxColumnTypes loc fuel b (values ++ [d]) (i + 1)

/-- Source `DecodeRange` (lines 988-1037): values, remainder, error; `size` is only the
capacity of the result. -/
def DecodeRange (T : TypesPkg) (b : List Nat) (_size : Nat) (idxColumnTypes : Option (List Nat))
    (loc : Location) : List Datum × List Nat × Option CodecError :=
  if b.length < 1 then ([], b, some .zeroLengthKey)
  else
    let r := rangeLoop T idxColumnTypes loc b.length b [] 0
    match r.2.2 with
    | some e => (r.1, r.2.1, some e)
    | none =>
      match r.2.1 with
      | [x] =>
        if x = NilFlag then (r.1 ++ [.null], [], none)
        else if x = bytesFlag then (r.1 ++ [.minNotNull], [], none)
        else if x = maxFlag ∨ x = maxFlag + 1 then (r.1 ++ [.maxValue], [], none)
        else (r.1, [x], some (.invalidFlag x))
      | _ => (r.1, [], none)

/-! ## Hashing and comparing chunk rows (codec.go, lines 912-957) -/

/-- The loop of `HashChunkRow` (lines 916-929) over the remaining column indexes, with the
types from `allTypes[i]` on: the bytes written to `w`, the buffer `buf`, the error.  The
writer is a hash, whose `Write` never fails.  Running out of types is the index panic of
`allTypes[i]`, and the assignment to `buf[0]` of line 917 is the index panic when `buf` is
empty, whatever `encodeHashChunkRowIdx` returns; both are the error `sliceOutOfRange`. -/
def hashChunkRowLoop (T : TypesPkg) (typeCtx : Nat) (row : Row) :
    List FieldType → List Int → List Nat → List Nat → List Nat × List Nat × Option CodecError
  | _, [], w, buf => (w, buf, none)
  | [], _ :: _, w, buf => (w, buf, some .sliceOutOfRange)
  | tp :: allTypes, idx :: colIdx, w, buf =>
    let r := encodeHashChunkRowIdx T typeCtx row tp idx
    if buf = [] then (w, buf, some .sliceOutOfRange)
    else
      match r.2.2 with
      | some e => (w, buf.set 0 r.1, some e)
      | none =>
        hashChunkRowLoop T typeCtx row allTypes colIdx (w ++ buf.set 0 r.1 ++ r.2.1)
          (buf.set 0 r.1)

/-- Source `HashChunkRow` (lines 914-931): the bytes of `w` after the call, the buffer
`buf`, the error (`sliceOutOfRange` for the index panics of `allTypes[i]` and of
`buf[0]`). -/
def HashChunkRow (T : TypesPkg) (typeCtx : Nat) (w : List Nat) (row : Row)
    (allTypes : List FieldType) (colIdx : List Int) (buf : List Nat) :
    List Nat × List Nat × Option CodecError :=
  hashChunkRowLoop T typeCtx row allTypes colIdx w buf

/-- The loop of `EqualChunkRow` (lines 942-955) over the remaining column indexes of both
rows. -/
def equalChunkRowLoop (T : TypesPkg) (typeCtx : Nat) (row1 row2 : Row) :
    List FieldType → List Int → List FieldType → List Int → Bool × Option CodecError
  | tp1 :: allTypes1, idx1 :: colIdx1, tp2 :: allTypes2, idx2 :: colIdx2 =>
    let r1 := encodeHashChunkRowIdx T typeCtx row1 tp1 idx1
    match r1.2.2 with
    | some e => (false, some e)
    | none =>
      let r2 := encodeHashChunkRowIdx T typeCtx row2 tp2 idx2
      match r2.2.2 with
      | some e => (false, some e)
      | none =>
        if !(r1.1 == r2.1 && r1.2.1 == r2.2.1) then (false, none)
        else equalChunkRowLoop T typeCtx row1 row2 allTypes1 colIdx1 allTypes2 colIdx2
  | _, [], _, _ => (true, none)
  | _, _ :: _, _, _ => (false, some .sliceOutOfRange)

/-- Source `EqualChunkRow` (lines 935-957). -/
def EqualChunkRow (T : TypesPkg) (typeCtx : Nat) (row1 : Row) (allTypes1 : List FieldType)
    (colIdx1 : List Int) (row2 : Row) (allTypes2 : List FieldType) (colIdx2 : List Int) :
    Bool × Option CodecError :=
  if colIdx1.length ≠ colIdx2.length then
    (false, some (.columnsCountMismatch colIdx1.length colIdx2.length))
  else equalChunkRowLoop T typeCtx row1 row2 allTypes1 colIdx1 allTypes2 colIdx2

/-- The Datum is one of the sentinels `MinNotNull` and `MaxValue`. -/
def Datum.isSentinel : Datum → Bool
  | .minNotNull => true
  | .maxValue => true
  | _ => false

/-- The Datums on which `HashCode` is shown to be injective: `Null`, the two sentinels,
JSON, and `Int64`, `Uint64`, `Float64` (other than NaN and `-0.0`) and `Bytes` Datums whose
payload fits its machine type. -/
def Datum.hashSeparated : Datum → Prop
  | .null => True
  | .minNotNull => True
  | .maxValue => True
  | .mysqlJSON _ => True
  | .int64 v => isInt64 v
  | .uint64 v => isUint64 v
  | .float64 f => isUint64 f ∧ float64IsNaN f = false ∧ f ≠ negZero64
  | .bytes b => (b.length : Int) < 2 ^ 63
  | _ => False

instance (d : Datum) : Decidable d.hashSeparated := by
  cases d <;> unfold Datum.hashSeparated <;> infer_instance

/-- The key-mode encoding of a list of Datums, as `concatEncodings` takes it. -/
def inKeyMode (vs : List Datum) : List (Datum × Bool) := vs.map (fun d => (d, true))

/-! ## Raw values of a row (codec.go, lines 1198-1210) -/

/-- The loop of `SetRawValues` (lines 1200-1208) over the values left, with `data` as it
stands: `values[i].SetRaw(data[:l:l])` makes the value a `Raw` Datum.  On an error the
values not reached keep what they held. -/
def setRawValuesLoop (T : TypesPkg) : List Datum → List Nat → List Datum × Option CodecError
  | [], _ => ([], none)
  | v :: values, data =>
    let r := peek T data
    match r.2 with
    | some e => (v :: values, some e)
    | none =>
      let rest := setRawValuesLoop T values (data.drop r.1.toNat)
      (.raw (data.take r.1.toNat) :: rest.1, rest.2)

/-- Source `SetRawValues` (lines 1199-1210): the slice `values` after the call, and the
error. -/
def SetRawValues (T : TypesPkg) (data : List Nat) (values : List Datum) :
    List Datum × Option CodecError :=
  setRawValuesLoop T values data

/-- The Datums of the kinds `Int64`, `Uint64`, `Bytes` and `Null` whose payload fits its
Go type. -/
def Datum.isPlain : Datum → Prop
  | .int64 v => isInt64 v
  | .uint64 v => isUint64 v
  | .bytes b => (b.length : Int) < 2 ^ 63
  | .null => True
  | _ => False

instance (d : Datum) : Decidable d.isPlain := by
  cases d <;> unfold Datum.isPlain <;> infer_instance

/-- The kinds that `HashCode` and `encode` in value mode treat with the same code:
`Int64`, `Uint64`, `Float32`, `Float64`, `String`, `Bytes`, `Duration`, `Enum`, `Set`,
`JSON`, `VectorFloat32`, `Null`, `MinNotNull` and `MaxValue`. -/
def Datum.hashedAsValue : Datum → Bool
  | .int64 _ => true
  | .uint64 _ => true
  | .float32 _ => true
  | .float64 _ => true
  | .string _ _ => true
  | .bytes _ => true
  | .mysqlDuration _ => true
  | .mysqlEnum _ => true
  | .mysqlSet _ => true
  | .mysqlJSON _ => true
  | .vectorFloat32 _ => true
  | .null => true
  | .minNotNull => true
  | .maxValue => true
  | _ => false

/-- The Datums of the kinds `Int64`, `Uint64`, `Bytes`, `String` and `Null` whose payload
fits its Go type (the length of a byte string is an `int`). -/
def Datum.isVarlen : Datum → Prop
  | .int64 v => isInt64 v
  | .uint64 v => isUint64 v
  | .bytes b => (b.length : Int) < 2 ^ 63
  | .string s _ => (s.length : Int) < 2 ^ 63
  | .null => True
  | _ => False

instance (d : Datum) : Decidable d.isVarlen := by
  cases d <;> unfold Datum.isVarlen <;> infer_instance

end Codec

namespace TTLWorker

/-! # The TTL job manager (pkg/ttl/ttlworker/job_manager.go)

The job manager runs on one goroutine; its methods are embedded as functions that pass the
manager, the outside world and the record of the calls made to it explicitly. -/

/-! ## Go standard library: package `time` -/

/-- Go standard library `time.Time`: an instant, as a count of nanoseconds.  The range of
`time.Time` (seconds in an `int64`) is not reached by the instants of a job, and the
monotonic reading is absent from instants read from a table. -/
structure Time where
  ns : Int
  deriving DecidableEq, Repr

/-- Go standard library `Time.Add(d)`; `d` is a `time.Duration`, a count of nanoseconds. -/
def Time.Add (t : Time) (d : Int) : Time := ⟨t.ns + d⟩

/-- Go standard library `Time.Before(u)`. -/
def Time.Before (t u : Time) : Bool := decide (t.ns < u.ns)

/-! ## Types of package `cache` and of job.go -/

/-- The errors that the job manager returns. -/
inductive TTLError
  /-- The error of `lockHBTimeoutJob` (line 794) for a job that cannot be locked, with the
  table id. -/
  | couldNotLockTimeoutJob (tableID : Int)
  /-- Message "fail to update job heartbeat, maybe the owner is not myself (%s), affected
  rows: %d". -/
  | heartbeatNotMyself (id : String) (affectedRows : Nat)
  /-- The error of `getTableStatusForUpdateNotWait` (line 901) for a status row that is
  still missing after its insertion. -/
  | rowStillMissing
  /-- Source `errors.Wrapf(err, "execute sql: %s", sql)`. -/
  | executeSQL (err : TTLError)
  /-- Source `errors.Wrapf(err, "fail to summarize job")`. -/
  | failToSummarizeJob (err : TTLError)
  /-- Source `errors.Wrapf(err, "fail to finish job")`. -/
  | failToFinishJob (err : TTLError)
  /-- An error returned by a collaborator (session, cache, notification client). -/
  | external (code : Nat)
  /-- The error of `lockNewJob` (line 825) for a job that cannot be scheduled. -/
  | couldNotScheduleJob
  /-- Source `errors.Wrap(err, "split scan ranges")`. -/
  | splitScanRanges (err : TTLError)
  /-- Source `errors.Wrap(err, "encode scan task")`. -/
  | encodeScanTask (err : TTLError)
  /-- Message "current TTL manager is not the leader". -/
  | notLeader
  /-- Message "physical id: %d not exists in information schema". -/
  | physicalIDNotExists (physicalID : Int)
  /-- The error of `handleSubmitJobRequest` (line 336) for a table id that differs from the
  id of the cached table: the requested id, the cached id, the physical id. -/
  | tableIDMismatch (tableID cachedID physicalID : Int)
  /-- A nil pointer dereference (a run-time panic in Go); no collaborator returns it. -/
  | nilPointerDereference
  deriving DecidableEq, Repr

/-- Modelled from the spec: `cache.TableStatus` of package `cache` (not in src), a row of
`mysql.tidb_ttl_table_status`, with the fields that the spec lists and job_manager.go
reads. -/
structure TableStatus where
  TableID : Int
  ParentTableID : Int
  LastJobStartTime : Time
  CurrentJobID : String
  CurrentJobOwnerID : String
  CurrentJobOwnerHBTime : Time
  CurrentJobStartTime : Time
  CurrentJobTTLExpire : Time
  deriving DecidableEq, Repr

/-- Source `model.TTLInfo` (not in src), as far as job_manager.go uses it:
`GetJobInterval()` returns a `time.Duration` and an error. -/
structure TTLInfo where
  GetJobInterval : Int × Option TTLError
  deriving DecidableEq, Repr

/-- Source `model.TableInfo` (not in src), as far as job_manager.go uses it: the id of
the logical table. -/
structure TableInfo where
  ID : Int
  deriving DecidableEq, Repr

/-- Modelled from the spec: `cache.PhysicalTable` of package `cache` (not in src), with
the fields that job_manager.go reads in the functions embedded here. -/
structure PhysicalTable where
  ID : Int
  TableInfo : TableInfo
  TTLInfo : TTLInfo
  deriving DecidableEq, Repr

/-- Source `cache.TaskStatus` (not in src); the spec gives its three values. -/
inductive TaskStatus
  | waiting
  | running
  | finished
  deriving DecidableEq, Repr

/-- Source `cache.TTLTaskState` (not in src): the counters are `uint64`. -/
structure TTLTaskState where
  TotalRows : Nat
  SuccessRows : Nat
  ErrorRows : Nat
  ScanTaskErr : String
  deriving DecidableEq, Repr

/-- Modelled from the spec: `cache.TTLTask` of package `cache` (not in src); `State` is a
pointer that may be nil. -/
structure TTLTask where
  JobID : String
  TableID : Int
  ScanID : Int
  Status : TaskStatus
  State : Option TTLTaskState
  deriving DecidableEq, Repr

/-- Source `cache.JobStatus` (not in src); the spec gives the two values of a job in
memory. -/
inductive JobStatus
  | running
  | cancelling
  deriving DecidableEq, Repr

/-- Modelled from the spec: `ttlJob` of job.go (not in src), with the fields that
`appendLockedJob` (lines 930-940) sets. -/
structure ttlJob where
  id : String
  ownerID : String
  createTime : Time
  assignTime : Time
  ttlExpireTime : Time
  tableID : Int
  status : JobStatus
  deriving DecidableEq, Repr

/-- Source `TTLSummary` (lines 1035-1046): the row counters are `uint64`, the task
counters `int`. -/
structure TTLSummary where
  TotalRows : Nat
  SuccessRows : Nat
  ErrorRows : Nat
  TotalScanTask : Int
  ScheduledScanTask : Int
  FinishedScanTask : Int
  ScanTaskErr : String
  SummaryText : String
  deriving DecidableEq, Repr

/-- Source `cache.InfoSchemaCache` (not in src): the map `Tables` from a physical table
id to its table, as a list of pairs looked up by the first match. -/
structure InfoSchemaCache where
  Tables : List (Int × PhysicalTable)
  deriving DecidableEq, Repr

/-- Source `cache.TableStatusCache` (not in src): the map `Tables` from a physical table
id to its status row, as a list of pairs looked up by the first match. -/
structure TableStatusCache where
  Tables : List (Int × TableStatus)
  deriving DecidableEq, Repr

/-! ## Statements (lines 46-83) -/

/-- The statement texts that the embedded functions execute. -/
inductive SqlText
  /-- Source `insertNewTableIntoStatusTemplate` (line 48); the placeholders are
  `table_id`, `parent_table_id`. -/
  | insertNewTableIntoStatusTemplate
  /-- Source `setTableStatusOwnerTemplate` (lines 49-57). -/
  | setTableStatusOwnerTemplate
  /-- Source `updateHeartBeatTemplate` (line 58). -/
  | updateHeartBeatTemplate
  /-- The text returned by `cache.SelectFromTTLTableStatusWithID` (not in src) followed by
  " FOR UPDATE NOWAIT". -/
  | selectFromTTLTableStatusWithIDForUpdateNoWait
  /-- The text returned by `cache.SelectFromTTLTaskWithJobID` (not in src). -/
  | selectFromTTLTaskWithJobID
  /-- Text "BEGIN PESSIMISTIC". -/
  | beginPessimistic
  /-- Text "BEGIN OPTIMISTIC". -/
  | beginOptimistic
  /-- Text "COMMIT". -/
  | commit
  /-- Text "ROLLBACK". -/
  | rollback
  /-- Source `taskGCTemplate` (lines 59-64): deletes the tasks whose job id is the current
  job id of no status row. -/
  | taskGCTemplate
  /-- Source `ttlJobHistoryGCTemplate` (line 66): deletes the history rows created more
  than 90 days before the current date. -/
  | ttlJobHistoryGCTemplate
  /-- Source `ttlTableStatusGCWithoutIDTemplate` (line 69): deletes the status rows whose
  `current_job_status` is null. -/
  | ttlTableStatusGCWithoutIDTemplate
  /-- The text of `ttlTableStatusGCWithoutIDTemplate` followed by " AND table_id NOT IN
  (...)" with these ids (line 92). -/
  | ttlTableStatusGCNotIn (existIDs : List Int)
  /-- The text returned by `createJobHistorySQL` of job.go (not in src). -/
  | createJobHistory
  /-- The text returned by `cache.InsertIntoTTLTask` (not in src). -/
  | insertIntoTTLTask
  deriving DecidableEq, Repr

/-- An argument of a statement: a string, an `int64`, or the text `t.Format(timeFormat)` of
an instant `t`. -/
inductive Arg
  | str (s : String)
  | int (i : Int)
  | time (t : Time)
  deriving DecidableEq, Repr

/-- A statement handed to `se.ExecuteSQL`: the text and the arguments of its
placeholders, in order. -/
structure Stmt where
  sql : SqlText
  args : List Arg
  deriving DecidableEq, Repr

/-- The columns that the placeholders `%?` of `setTableStatusOwnerTemplate` (lines 49-57)
stand for, in the order of the text; the last one is the `WHERE table_id = %?`. -/
def setTableStatusOwnerColumns : List String :=
  ["current_job_id", "current_job_owner_id", "current_job_start_time",
   "current_job_status_update_time", "current_job_ttl_expire", "current_job_owner_hb_time",
   "table_id"]

/-- The columns that the placeholders `%?` of `updateHeartBeatTemplate` (line 58) stand
for: the column set, then the two columns of the `WHERE` clause. -/
def updateHeartBeatColumns : List String :=
  ["current_job_owner_hb_time", "table_id", "current_job_owner_id"]

/-- The argument bound to each placeholder of a statement whose placeholders stand for
`columns`. -/
def bindings (columns : List String) (stmt : Stmt) : List (String × Arg) :=
  columns.zip stmt.args

/-- Source `insertNewTableIntoStatusSQL` (lines 73-75). -/
def insertNewTableIntoStatusSQL (tableID parentTableID : Int) : Stmt :=
  ⟨.insertNewTableIntoStatusTemplate, [.int tableID, .int parentTableID]⟩

/-- Source `setTableStatusOwnerSQL` (lines 77-79). -/
def setTableStatusOwnerSQL (uuid : String) (tableID : Int) (jobStart now : Time)
    (currentJobTTLExpire : Time) (id : String) : Stmt :=
  ⟨.setTableStatusOwnerTemplate,
   [.str uuid, .str id, .time jobStart, .time now, .time currentJobTTLExpire, .time now,
    .int tableID]⟩

/-- Source `updateHeartBeatSQL` (lines 81-83). -/
def updateHeartBeatSQL (tableID : Int) (now : Time) (id : String) : Stmt :=
  ⟨.updateHeartBeatTemplate, [.time now, .int tableID, .str id]⟩

/-- Source `cache.SelectFromTTLTableStatusWithID` (not in src) with the " FOR UPDATE
NOWAIT" that `getTableStatusForUpdateNotWait` appends. -/
def selectFromTTLTableStatusWithIDForUpdateNoWait (physicalID : Int) : Stmt :=
  ⟨.selectFromTTLTableStatusWithIDForUpdateNoWait, [.int physicalID]⟩

/-- Source `gcTTLTableStatusGCSQL` (lines 85-95); the ids are written in decimal and
joined by commas. -/
def gcTTLTableStatusGCSQL (existIDs : List Int) : SqlText :=
  if existIDs.length > 0 then .ttlTableStatusGCNotIn existIDs
  else .ttlTableStatusGCWithoutIDTemplate

/-- Source `cache.ScanRange` (not in src): the encoded bounds of a scan. -/
structure ScanRange where
  Start : String
  End : String
  deriving DecidableEq, Repr

/-- Source `cache.SelectFromTTLTaskWithJobID` (not in src). -/
def SelectFromTTLTaskWithJobID (jobID : String) : Stmt :=
  ⟨.selectFromTTLTaskWithJobID, [.str jobID]⟩

/-! ## The collaborators and the state of the manager -/

/-- A row returned by `se.ExecuteSQL` (a `chunk.Row`), read only by the functions of
package `cache`. -/
abbrev SqlRow := List String

/-- The collaborators of the job manager that are not in src, over a type `W` of states of
the outside world (tables, session, clock): each call takes the state of the world and
returns the new one. -/
structure Env (W : Type) where
  /-- Source `se.ExecuteSQL(ctx, sql, args...)`: the rows and the error. -/
  ExecuteSQL : W → Stmt → W × List SqlRow × Option TTLError
  /-- Source `se.GetSessionVars().StmtCtx.AffectedRows()`, a `uint64`. -/
  AffectedRows : W → Nat
  /-- Source `cache.RowToTableStatus(loc, row)`: a pointer and an error. -/
  RowToTableStatus : SqlRow → Option TableStatus × Option TTLError
  /-- Source `cache.RowToTTLTask(loc, row)`. -/
  RowToTTLTask : SqlRow → TTLTask × Option TTLError
  /-- Source `m.infoSchemaCache.Update(se)`: the cache after the call and the error. -/
  infoSchemaCacheUpdate : W → InfoSchemaCache → W × InfoSchemaCache × Option TTLError
  /-- Source `m.tableStatusCache.Update(ctx, se)`: the cache after the call and the
  error. -/
  tableStatusCacheUpdate : W → TableStatusCache → W × TableStatusCache × Option TTLError
  /-- Source `m.notificationCli.Notify(ctx, typ, data)`. -/
  Notify : W → String → String → W × Option TTLError
  /-- Go standard library `time.Now()`. -/
  timeNow : W → Time
  /-- Source `job.finish(se, now, summary)` of job.go (not in src). -/
  finish : W → ttlJob → Time → TTLSummary → W × Option TTLError
  /-- Go standard library `json.Marshal(summary)`, which returns no error for a struct of
  integers and strings. -/
  jsonMarshal : TTLSummary → String
  /-- Source `getHeartbeatInterval()` of config.go (not in src), a `time.Duration`. -/
  getHeartbeatInterval : Int
  /-- Source `getUpdateTTLTableStatusCacheInterval()` of config.go (not in src), a
  `time.Duration`. -/
  getUpdateTTLTableStatusCacheInterval : Int
  /-- Source constant `ttlJobTimeout` of config.go (not in src), a `time.Duration`. -/
  ttlJobTimeout : Int
  /-- Source field `leaderFunc` of `JobManager` (line 128): nil, or a function that tells
  from the state of the cluster whether this node is the leader. -/
  leaderFunc : Option (W → Bool)
  /-- Source `se.Now()`. -/
  Now : W → Time
  /-- Source `table.EvalExpireTime(ctx, se, now)` of package `cache` (not in src). -/
  EvalExpireTime : W → PhysicalTable → Time → W × Time × Option TTLError
  /-- Source `createJobHistorySQL(jobID, table, expireTime, now)` of job.go (not in src):
  the arguments of the statement. -/
  createJobHistorySQL : String → PhysicalTable → Time → Time → List Arg
  /-- Source `table.SplitScanRanges(ctx, store, splitCnt)` of package `cache` (not in
  src). -/
  SplitScanRanges : W → PhysicalTable → W × List ScanRange × Option TTLError
  /-- Source `cache.InsertIntoTTLTask(loc, jobID, tableID, scanID, start, end, expireTime,
  now)` (not in src): the arguments of the statement and the error. -/
  InsertIntoTTLTask : String → Int → Nat → ScanRange → Time → Time → List Arg × Option TTLError

/-- A call that the manager made to a collaborator. -/
inductive Event
  /-- Source `se.ExecuteSQL` with this statement. -/
  | sql (stmt : Stmt)
  /-- Source `job.finish(se, now, summary)` for the job with this id. -/
  | finish (jobID : String) (now : Time) (summary : TTLSummary)
  /-- Source `m.notificationCli.Notify(ctx, typ, data)`. -/
  | notify (typ data : String)
  /-- Source `m.infoSchemaCache.Update(se)`. -/
  | infoSchemaCacheUpdate
  /-- Source `m.tableStatusCache.Update(ctx, se)`. -/
  | tableStatusCacheUpdate
  deriving DecidableEq, Repr

/-- The state of the outside world and the calls made so far, oldest first. -/
structure Run (W : Type) where
  world : W
  events : List Event

/-- Source `JobManager` (lines 98-129), with the fields that the embedded methods use. -/
structure JobManager where
  id : String
  infoSchemaCache : InfoSchemaCache
  tableStatusCache : TableStatusCache
  runningJobs : List ttlJob
  deriving DecidableEq, Repr

/-- The call `se.ExecuteSQL(ctx, sql, args...)`, recorded. -/
def ExecuteSQL {W : Type} (env : Env W) (r : Run W) (stmt : Stmt) :
    Run W × List SqlRow × Option TTLError :=
  let x := env.ExecuteSQL r.world stmt
  ({ world := x.1, events := r.events ++ [.sql stmt] }, x.2.1, x.2.2)

/-- Source `session.TxnMode` (not in src). -/
inductive TxnMode
  | optimistic
  | pessimistic
  deriving DecidableEq, Repr

/-- Modelled from the spec: `se.RunInTxn(ctx, fn, mode)` of package `session` (not in
src) runs `fn` in a transaction that either fully commits or fully rolls back, and returns
the error of `fn` or of the statements that open and commit the transaction.  The function
`fn` is a closure: it returns the variables it assigned, which start as `init`. -/
def RunInTxn {W α : Type} (env : Env W) (r : Run W)
    (fn : Run W → Run W × α × Option TTLError) (init : α) (mode : TxnMode) :
    Run W × α × Option TTLError :=
  let b := ExecuteSQL env r
    ⟨if mode = .pessimistic then .beginPessimistic else .beginOptimistic, []⟩
  match b.2.2 with
  | some e => ((ExecuteSQL env b.1 ⟨.rollback, []⟩).1, init, some e)
  | none =>
    let f := fn b.1
    match f.2.2 with
    | some e => ((ExecuteSQL env f.1 ⟨.rollback, []⟩).1, f.2.1, some e)
    | none =>
      let c := ExecuteSQL env f.1 ⟨.commit, []⟩
      match c.2.2 with
      | some e => ((ExecuteSQL env c.1 ⟨.rollback, []⟩).1, f.2.1, some e)
      | none => (c.1, f.2.1, none)

/-! ## Lock predicates (lines 723-781) -/

/-- Source `couldLockJobForCreate` (lines 723-749); `none` is the nil-pointer panic of
`table.TTLInfo` on a nil table. -/
def couldLockJobForCreate (tableStatus : Option TableStatus) (table : Option PhysicalTable)
    (now : Time) (checkScheduleInterval : Bool) : Option Bool :=
  match tableStatus with
  | none => some true
  | some tableStatus =>
    if tableStatus.CurrentJobID ≠ "" then some false
    else if !checkScheduleInterval then some true
    else
      let startTime := tableStatus.LastJobStartTime
      match table with
      | none => none
      | some table =>
        let r := table.TTLInfo.GetJobInterval
        match r.2 with
        | some _ => some false
        | none => some ((startTime.Add r.1).Before now)

/-- Source `couldLockJobForExistJob` (lines 752-781); the products of a `time.Duration`
wrap in 64 bits. -/
def couldLockJobForExistJob {W : Type} (env : Env W) (tableStatus : Option TableStatus)
    (now : Time) : Bool :=
  match tableStatus with
  | none => false
  | some tableStatus =>
    if tableStatus.CurrentJobID = "" then false
    else if tableStatus.CurrentJobOwnerID ≠ "" then
      let hbTime := tableStatus.CurrentJobOwnerHBTime
      let hbTimeout := Codec.wrapInt64 (env.getHeartbeatInterval * 2)
      let interval := Codec.wrapInt64 (env.getUpdateTTLTableStatusCacheInterval * 2)
      let hbTimeout := if interval > hbTimeout then interval else hbTimeout
      if (hbTime.Add hbTimeout).Before now then true else false
    else true

/-! ## Taking a job over (lines 783-948) -/

/-- Source `getTableStatusForUpdateNotWait` (lines 872-906): the status row (a pointer)
and the error. -/
def getTableStatusForUpdateNotWait {W : Type} (env : Env W) (r : Run W)
    (physicalID parentTableID : Int) (createIfNotExist : Bool) :
    Run W × Option TableStatus × Option TTLError :=
  let q := ExecuteSQL env r (selectFromTTLTableStatusWithIDForUpdateNoWait physicalID)
  match q.2.2 with
  | some e => (q.1, none, some (.executeSQL e))
  | none =>
    match q.2.1 with
    | row :: _ => (q.1, env.RowToTableStatus row)
    | [] =>
      if !createIfNotExist then (q.1, none, none)
      else
        let i := ExecuteSQL env q.1 (insertNewTableIntoStatusSQL physicalID parentTableID)
        match i.2.2 with
        | some e => (i.1, none, some (.executeSQL e))
        | none =>
          let q2 := ExecuteSQL env i.1 (selectFromTTLTableStatusWithIDForUpdateNoWait physicalID)
          match q2.2.2 with
          | some e => (q2.1, none, some (.executeSQL e))
          | none =>
            match q2.2.1 with
            | [] => (q2.1, none, some .rowStillMissing)
            | row :: _ => (q2.1, env.RowToTableStatus row)

/-- Source `appendJob` (lines 1020-1022). -/
def appendJob (m : JobManager) (job : ttlJob) : JobManager :=
  { m with runningJobs := m.runningJobs ++ [job] }

/-- The loop of `removeJob` (lines 1008-1017): the list without the first job whose id is
`id`. -/
def removeJobLoop (id : String) : List ttlJob → List ttlJob
  | [] => []
  | job :: jobs => if job.id = id then jobs else job :: removeJobLoop id jobs

/-- Source `removeJob` (lines 1007-1018). -/
def removeJob (m : JobManager) (finishedJob : ttlJob) : JobManager :=
  { m with runningJobs := removeJobLoop finishedJob.id m.runningJobs }

/-- Source `updateInfoSchemaCache` (lines 996-998), recorded. -/
def updateInfoSchemaCache {W : Type} (env : Env W) (m : JobManager) (r : Run W) :
    JobManager × Run W × Option TTLError :=
  let u := env.infoSchemaCacheUpdate r.world m.infoSchemaCache
  ({ m with infoSchemaCache := u.2.1 },
   { world := u.1, events := r.events ++ [.infoSchemaCacheUpdate] }, u.2.2)

/-- Source `updateTableStatusCache` (lines 1001-1005), recorded. -/
def updateTableStatusCache {W : Type} (env : Env W) (m : JobManager) (r : Run W) :
    JobManager × Run W × Option TTLError :=
  let u := env.tableStatusCacheUpdate r.world m.tableStatusCache
  ({ m with tableStatusCache := u.2.1 },
   { world := u.1, events := r.events ++ [.tableStatusCacheUpdate] }, u.2.2)

/-- Source constant `scanTaskNotificationType` (line 46). -/
def scanTaskNotificationType : String := "scan"

/-- Source `appendLockedJob` (lines 908-947): the manager, the job (a pointer) and the
error; the error of `Notify` is only logged. -/
def appendLockedJob {W : Type} (env : Env W) (m : JobManager) (r : Run W) (id : String)
    (createTime expireTime : Time) (tableID : Int) :
    JobManager × Run W × Option ttlJob × Option TTLError :=
  let u := updateInfoSchemaCache env m r
  match u.2.2 with
  | some e => (u.1, u.2.1, none, some e)
  | none =>
    let v := updateTableStatusCache env u.1 u.2.1
    match v.2.2 with
    | some e => (v.1, v.2.1, none, some e)
    | none =>
      let n := env.Notify v.2.1.world scanTaskNotificationType id
      let r2 : Run W :=
        { world := n.1, events := v.2.1.events ++ [.notify scanTaskNotificationType id] }
      let job : ttlJob :=
        { id := id, ownerID := v.1.id, createTime := createTime,
          assignTime := env.timeNow r2.world, ttlExpireTime := expireTime,
          tableID := tableID, status := .running }
      (appendJob v.1 job, r2, some job, none)

/-- The zero value of `time.Time`. -/
def zeroTime : Time := ⟨0⟩

/-- The closure that `lockHBTimeoutJob` runs in a transaction (lines 787-804): it returns
the variables `jobID`, `jobStart`, `expireTime` that it assigns. -/
def lockHBTimeoutJobTxn {W : Type} (env : Env W) (m : JobManager)
    (tableID parentTableID : Int) (now : Time) (r : Run W) :
    Run W × (String × Time × Time) × Option TTLError :=
  let g := getTableStatusForUpdateNotWait env r tableID parentTableID false
  match g.2.2 with
  | some e => (g.1, ("", zeroTime, zeroTime), some e)
  | none =>
    match g.2.1 with
    | none => (g.1, ("", zeroTime, zeroTime), some (.couldNotLockTimeoutJob tableID))
    | some tableStatus =>
      if !couldLockJobForExistJob env (some tableStatus) now then
        (g.1, ("", zeroTime, zeroTime), some (.couldNotLockTimeoutJob tableID))
      else
        let jobID := tableStatus.CurrentJobID
        let jobStart := tableStatus.CurrentJobStartTime
        let expireTime := tableStatus.CurrentJobTTLExpire
        let x := ExecuteSQL env g.1
          (setTableStatusOwnerSQL tableStatus.CurrentJobID tableID jobStart now expireTime m.id)
        match x.2.2 with
        | some e => (x.1, (jobID, jobStart, expireTime), some (.executeSQL e))
        | none => (x.1, (jobID, jobStart, expireTime), none)

/-- Source `lockHBTimeoutJob` (lines 783-813). -/
def lockHBTimeoutJob {W : Type} (env : Env W) (m : JobManager) (r : Run W)
    (tableID parentTableID : Int) (now : Time) :
    JobManager × Run W × Option ttlJob × Option TTLError :=
  let t := RunInTxn env r (lockHBTimeoutJobTxn env m tableID parentTableID now)
    ("", zeroTime, zeroTime) .pessimistic
  match t.2.2 with
  | some e => (m, t.1, none, some e)
  | none => appendLockedJob env m t.1 t.2.1.1 t.2.1.2.1 t.2.1.2.2 tableID

/-! ## Heartbeat and timeout (lines 539-561, 686-699, 950-993, 1048-1080) -/

/-- The loop of `findAllTasksForJob` over the rows (lines 552-559): `none` when a row
cannot be read. -/
def rowsToTTLTasks {W : Type} (env : Env W) : List SqlRow → Option (List TTLTask)
  | [] => some []
  | row :: rows =>
    match (env.RowToTTLTask row).2 with
    | some _ => none
    | none => (rowsToTTLTasks env rows).map (fun tasks => (env.RowToTTLTask row).1 :: tasks)

/-- The error with which the loop of `findAllTasksForJob` stops, if it does. -/
def rowsToTTLTasksError {W : Type} (env : Env W) : List SqlRow → Option TTLError
  | [] => none
  | row :: rows =>
    match (env.RowToTTLTask row).2 with
    | some e => some e
    | none => rowsToTTLTasksError env rows

/-- Source `findAllTasksForJob` (lines 539-561): the tasks (nil on error) and the
error. -/
def findAllTasksForJob {W : Type} (env : Env W) (r : Run W) (jobID : String) :
    Run W × List TTLTask × Option TTLError :=
  let q := ExecuteSQL env r (SelectFromTTLTaskWithJobID jobID)
  match q.2.2 with
  | some e => (q.1, [], some e)
  | none =>
    match rowsToTTLTasks env q.2.1 with
    | none => (q.1, [], rowsToTTLTasksError env q.2.1)
    | some allTasks => (q.1, allTasks, none)

/-- Library `multierr` (go.uber.org/multierr): the text `Error()` of the errors combined
by `multierr.Append`, which are their texts joined by "; ". -/
def errorText : List String → String
  | [] => ""
  | [a] => a
  | a :: b :: rest => a ++ "; " ++ errorText (b :: rest)

/-- The error `allErr` after the round of the loop of `summarizeTaskResultWithError` for
the task `t` (lines 1053-1058): the texts of the errors combined so far, none for nil. -/
def appendScanTaskErr (allErr : List String) (t : TTLTask) : List String :=
  match t.State with
  | none => allErr
  | some state => if state.ScanTaskErr.length > 0 then allErr ++ [state.ScanTaskErr] else allErr

/-- The summary after the round of the loop of `summarizeTaskResultWithError` for the task
`t` (lines 1051-1067); the row counters wrap in 64 bits, the task counters count at most
the length of a slice. -/
def summarizeTask (summary : TTLSummary) (t : TTLTask) : TTLSummary :=
  let summary :=
    match t.State with
    | none => summary
    | some state =>
      { summary with
        TotalRows := (summary.TotalRows + state.TotalRows) % 2 ^ 64
        SuccessRows := (summary.SuccessRows + state.SuccessRows) % 2 ^ 64
        ErrorRows := (summary.ErrorRows + state.ErrorRows) % 2 ^ 64 }
  let summary := { summary with TotalScanTask := summary.TotalScanTask + 1 }
  let summary :=
    if t.Status ≠ .waiting then
      { summary with ScheduledScanTask := summary.ScheduledScanTask + 1 }
    else summary
  if t.Status = .finished then
    { summary with FinishedScanTask := summary.FinishedScanTask + 1 }
  else summary

/-- Source `summarizeTaskResultWithError` (lines 1048-1080); `err` is the text of the
error passed in, `none` for nil. -/
def summarizeTaskResultWithError {W : Type} (env : Env W) (tasks : List TTLTask)
    (err : Option String) : TTLSummary × Option TTLError :=
  let summary : TTLSummary := ⟨0, 0, 0, 0, 0, 0, "", ""⟩
  let allErr : List String := match err with | none => [] | some e => [e]
  let summary := tasks.foldl summarizeTask summary
  let allErr := tasks.foldl appendScanTaskErr allErr
  let summary :=
    if allErr ≠ [] then { summary with ScanTaskErr := errorText allErr } else summary
  ({ summary with SummaryText := env.jsonMarshal summary }, none)

/-- The call `job.finish(se, now, summary)`, recorded. -/
def finish {W : Type} (env : Env W) (r : Run W) (job : ttlJob) (now : Time)
    (summary : TTLSummary) : Run W × Option TTLError :=
  let f := env.finish r.world job now summary
  ({ world := f.1, events := r.events ++ [.finish job.id now summary] }, f.2)

/-- Source `updateHeartBeatForJob` (lines 960-993). -/
def updateHeartBeatForJob {W : Type} (env : Env W) (m : JobManager) (r : Run W) (now : Time)
    (job : ttlJob) : JobManager × Run W × Option TTLError :=
  if (job.createTime.Add env.ttlJobTimeout).Before now then
    let t := findAllTasksForJob env r job.id
    let s := summarizeTaskResultWithError env t.2.1 (some "job is timeout")
    match s.2 with
    | some e => (m, t.1, some (.failToSummarizeJob e))
    | none =>
      let f := finish env t.1 job now s.1
      match f.2 with
      | some e => (m, f.1, some (.failToFinishJob e))
      | none => (removeJob m job, f.1, none)
  else
    let x := ExecuteSQL env r (updateHeartBeatSQL job.tableID now m.id)
    match x.2.2 with
    | some e => (m, x.1, some (.executeSQL e))
    | none =>
      if env.AffectedRows x.1.world ≠ 1 then
        (m, x.1, some (.heartbeatNotMyself m.id (env.AffectedRows x.1.world)))
      else (m, x.1, none)

/-- Source `localJobs` (lines 686-698). -/
def localJobs (m : JobManager) : List ttlJob :=
  m.runningJobs.filter (fun job =>
    match m.tableStatusCache.Tables.lookup job.tableID with
    | none => false
    | some status => status.CurrentJobOwnerID == m.id)

/-- The loop of `updateHeartBeat` (lines 951-957) over the jobs left; an error is only
logged. -/
def updateHeartBeatLoop {W : Type} (env : Env W) (now : Time) :
    List ttlJob → JobManager → Run W → JobManager × Run W
  | [], m, r => (m, r)
  | job :: jobs, m, r =>
    let u := updateHeartBeatForJob env m r now job
    updateHeartBeatLoop env now jobs u.1 u.2.1

/-- Source `updateHeartBeat` (lines 950-958). -/
def updateHeartBeat {W : Type} (env : Env W) (m : JobManager) (r : Run W) (now : Time) :
    JobManager × Run W :=
  updateHeartBeatLoop env now (localJobs m) m r

/-! ## Sample collaborators -/

/-- A world for examples: the rows that a statement returns and the number of rows that
the last statement affected. -/
structure SampleWorld where
  statusRows : List SqlRow
  affected : Nat

/-- A status row for examples: the job "j1" of table 1, owned by "old", started at
instant 100, with expire time 50 and the last heartbeat at instant 200. -/
def sampleStatus : TableStatus :=
  { TableID := 1, ParentTableID := 1, LastJobStartTime := ⟨0⟩, CurrentJobID := "j1",
    CurrentJobOwnerID := "old", CurrentJobOwnerHBTime := ⟨200⟩,
    CurrentJobStartTime := ⟨100⟩, CurrentJobTTLExpire := ⟨50⟩ }

/-- Collaborators for examples: every statement succeeds, the select of a status row
returns the rows of the world, which all read as `sampleStatus`; there are no tasks; the
heartbeat interval is 10, the cache interval 30 and the job timeout 1000; no leader
function is set. -/
def sampleEnv : Env SampleWorld where
  ExecuteSQL := fun w stmt =>
    (w, if stmt.sql = .selectFromTTLTableStatusWithIDForUpdateNoWait then w.statusRows else [],
      none)
  AffectedRows := fun w => w.affected
  RowToTableStatus := fun _ => (some sampleStatus, none)
  RowToTTLTask := fun _ => (⟨"", 0, 0, .waiting, none⟩, none)
  infoSchemaCacheUpdate := fun w c => (w, c, none)
  tableStatusCacheUpdate := fun w c => (w, c, none)
  Notify := fun w _ _ => (w, none)
  timeNow := fun _ => ⟨300⟩
  finish := fun w _ _ _ => (w, none)
  jsonMarshal := fun _ => ""
  getHeartbeatInterval := 10
  getUpdateTTLTableStatusCacheInterval := 30
  ttlJobTimeout := 1000
  leaderFunc := none
  Now := fun _ => ⟨300⟩
  EvalExpireTime := fun w _ now => (w, now, none)
  createJobHistorySQL := fun jobID _ _ _ => [.str jobID]
  SplitScanRanges := fun w _ => (w, [], none)
  InsertIntoTTLTask := fun jobID _ _ _ _ _ => ([.str jobID], none)

/-- A manager for examples: the node "me" running `jobs`, with empty caches. -/
def sampleManager (jobs : List ttlJob) : JobManager :=
  { id := "me", infoSchemaCache := ⟨[]⟩, tableStatusCache := ⟨[]⟩, runningJobs := jobs }

/-- A job for examples: "j1" of table 1, created at instant 100. -/
def sampleJob : ttlJob :=
  { id := "j1", ownerID := "me", createTime := ⟨100⟩, assignTime := ⟨100⟩,
    ttlExpireTime := ⟨50⟩, tableID := 1, status := .running }

/-! ## Leadership, new jobs and job submission (lines 162-164, 319-342, 816-870) -/

/-- Source `isLeader` (lines 162-164). -/
def isLeader {W : Type} (env : Env W) (r : Run W) : Bool :=
  match env.leaderFunc with
  | none => false
  | some leaderFunc => leaderFunc r.world

/-- The loop of `lockNewJob` over the scan ranges left (lines 851-860), `scanID` being the
index of the first one. -/
def insertScanTasks {W : Type} (env : Env W) (jobID : String) (tableID : Int)
    (expireTime now : Time) : List ScanRange → Nat → Run W → Run W × Option TTLError
  | [], _, r => (r, none)
  | rg :: ranges, scanID, r =>
    let i := env.InsertIntoTTLTask jobID tableID scanID rg expireTime now
    match i.2 with
    | some e => (r, some (.encodeScanTask e))
    | none =>
      let x := ExecuteSQL env r ⟨.insertIntoTTLTask, i.1⟩
      match x.2.2 with
      | some e => (x.1, some (.executeSQL e))
      | none => insertScanTasks env jobID tableID expireTime now ranges (scanID + 1) x.1

/-- The closure that `lockNewJob` runs in a transaction (lines 818-863): it returns the
variable `expireTime` that it assigns.  Reading `tableStatus.TableID` of a nil status, or
the interval of a table missing from the cache, is the nil-pointer panic. -/
def lockNewJobTxn {W : Type} (env : Env W) (m : JobManager) (table : PhysicalTable)
    (now : Time) (jobID : String) (checkScheduleInterval : Bool) (r : Run W) :
    Run W × Time × Option TTLError :=
  let g := getTableStatusForUpdateNotWait env r table.ID table.TableInfo.ID true
  match g.2.2 with
  | some e => (g.1, zeroTime, some e)
  | none =>
    match g.2.1 with
    | none => (g.1, zeroTime, some .nilPointerDereference)
    | some tableStatus =>
      match couldLockJobForCreate (some tableStatus)
          (m.infoSchemaCache.Tables.lookup tableStatus.TableID) now checkScheduleInterval with
      | none => (g.1, zeroTime, some .nilPointerDereference)
      | some false => (g.1, zeroTime, some .couldNotScheduleJob)
      | some true =>
        let ev := env.EvalExpireTime g.1.world table now
        let r1 : Run W := { world := ev.1, events := g.1.events }
        match ev.2.2 with
        | some e => (r1, ev.2.1, some e)
        | none =>
          let expireTime := ev.2.1
          let x := ExecuteSQL env r1
            (setTableStatusOwnerSQL jobID table.ID now now expireTime m.id)
          match x.2.2 with
          | some e => (x.1, expireTime, some (.executeSQL e))
          | none =>
            let h := ExecuteSQL env x.1
              ⟨.createJobHistory, env.createJobHistorySQL jobID table expireTime now⟩
            match h.2.2 with
            | some e => (h.1, expireTime, some (.executeSQL e))
            | none =>
              let sp := env.SplitScanRanges h.1.world table
              let r2 : Run W := { world := sp.1, events := h.1.events }
              match sp.2.2 with
              | some e => (r2, expireTime, some (.splitScanRanges e))
              | none =>
                let t := insertScanTasks env jobID table.ID expireTime now sp.2.1 0 r2
                (t.1, expireTime, t.2)

/-- Source `lockNewJob` (lines 816-870), for a non-nil `table`. -/
def lockNewJob {W : Type} (env : Env W) (m : JobManager) (r : Run W) (table : PhysicalTable)
    (now : Time) (jobID : String) (checkScheduleInterval : Bool) :
    JobManager × Run W × Option ttlJob × Option TTLError :=
  let t := RunInTxn env r (lockNewJobTxn env m table now jobID checkScheduleInterval)
    zeroTime .pessimistic
  match t.2.2 with
  | some e => (m, t.1, none, some e)
  | none => appendLockedJob env m t.1 jobID now t.2.1 table.ID

/-- Source `SubmitTTLManagerJobRequest` (lines 1219-1228); the values sent on the channel
`RespCh` are returned by `handleSubmitJobRequest`. -/
structure SubmitTTLManagerJobRequest where
  TableID : Int
  PhysicalID : Int
  RequestID : String
  deriving DecidableEq, Repr

/-- Source `handleSubmitJobRequest` (lines 319-342): the manager, and the values sent on
`jobReq.RespCh`, oldest first (`none` is a nil error).  A panic of `lockNewJob` unwinds
before anything is sent. -/
def handleSubmitJobRequest {W : Type} (env : Env W) (m : JobManager) (r : Run W)
    (jobReq : SubmitTTLManagerJobRequest) : JobManager × Run W × List (Option TTLError) :=
  if !isLeader env r then (m, r, [some .notLeader])
  else
    let u := updateInfoSchemaCache env m r
    match u.1.infoSchemaCache.Tables.lookup jobReq.PhysicalID with
    | none => (u.1, u.2.1, [some (.physicalIDNotExists jobReq.PhysicalID)])
    | some tbl =>
      if tbl.TableInfo.ID ≠ jobReq.TableID then
        (u.1, u.2.1,
          [some (.tableIDMismatch jobReq.TableID tbl.TableInfo.ID jobReq.PhysicalID)])
      else
        let l := lockNewJob env u.1 u.2.1 tbl (env.Now u.2.1.world) jobReq.RequestID false
        if l.2.2.2 = some .nilPointerDereference then (l.1, l.2.1, [])
        else (l.1, l.2.1, [l.2.2.2])

/-! ## Garbage collection (lines 1082-1112) -/

/-- Source `DoGC` (lines 1082-1112); the errors of the statements are only logged.  The
ids of the tables of the cache are taken in the order of the list. -/
def DoGC {W : Type} (env : Env W) (m : JobManager) (r : Run W) (_now : Time) :
    JobManager × Run W :=
  if !isLeader env r then (m, r)
  else
    let u := updateInfoSchemaCache env m r
    let r1 :=
      match u.2.2 with
      | none =>
        (ExecuteSQL env u.2.1
          ⟨gcTTLTableStatusGCSQL (u.1.infoSchemaCache.Tables.map Prod.fst), []⟩).1
      | some _ => u.2.1
    let r2 := (ExecuteSQL env r1 ⟨.taskGCTemplate, []⟩).1
    let r3 := (ExecuteSQL env r2 ⟨.ttlJobHistoryGCTemplate, []⟩).1
    (u.1, r3)

/-! ## Dropping jobs (lines 522-537, 564-600) -/

/-- The loop of `checkNotOwnJob` (lines 524-536) with `i + 1` rounds left: the round reads
`m.runningJobs[i]`; an index past the list is the index panic of Go. -/
def checkNotOwnJobLoop : Nat → JobManager → JobManager
  | 0, m => m
  | i + 1, m =>
    match m.runningJobs[i]? with
    | none => m
    | some job =>
      match m.tableStatusCache.Tables.lookup job.tableID with
      | none => checkNotOwnJobLoop i (removeJob m job)
      | some tableStatus =>
        if tableStatus.CurrentJobOwnerID ≠ m.id then checkNotOwnJobLoop i (removeJob m job)
        else checkNotOwnJobLoop i m

/-- Source `checkNotOwnJob` (lines 522-537). -/
def checkNotOwnJob (m : JobManager) : JobManager :=
  checkNotOwnJobLoop m.runningJobs.length m

/-- The test of `checkFinishedJob` on the tasks of a job (lines 574-580). -/
def allFinished (allTasks : List TTLTask) : Bool :=
  allTasks.all (fun task => task.Status == .finished)

/-- The loop of `checkFinishedJob` (lines 566-599) with `i + 1` rounds left: the round
reads `m.runningJobs[i]`; an index past the list is the index panic of Go. -/
def checkFinishedJobLoop {W : Type} (env : Env W) : Nat → JobManager → Run W → JobManager × Run W
  | 0, m, r => (m, r)
  | i + 1, m, r =>
    match m.runningJobs[i]? with
    | none => (m, r)
    | some job =>
      let q := findAllTasksForJob env r job.id
      match q.2.2 with
      | some _ => checkFinishedJobLoop env i m q.1
      | none =>
        if allFinished q.2.1 then
          let s := summarizeTaskResultWithError env q.2.1 none
          let f := finish env q.1 job (env.Now q.1.world) s.1
          match f.2 with
          | some _ => checkFinishedJobLoop env i m f.1
          | none => checkFinishedJobLoop env i (removeJob m job) f.1
        else checkFinishedJobLoop env i m q.1

/-- Source `checkFinishedJob` (lines 564-600). -/
def checkFinishedJob {W : Type} (env : Env W) (m : JobManager) (r : Run W) :
    JobManager × Run W :=
  checkFinishedJobLoop env m.runningJobs.length m r

/-! ## The order of dropping finished jobs, in the words of the spec -/

/-- The jobs that `checkFinishedJob` is to leave, in the words of the spec: the jobs are
visited from the last to the first; a job is finalised when the query of its tasks
succeeds and every task returned is Finished, and it is removed when moreover `job.finish`
succeeds; every other job stays, in its place. -/
def keepUnfinishedJobs {W : Type} (env : Env W) : List ttlJob → Run W → List ttlJob × Run W
  | [], r => ([], r)
  | job :: jobs, r =>
    let rest := keepUnfinishedJobs env jobs r
    let q := findAllTasksForJob env rest.2 job.id
    if q.2.2 = none ∧ ∀ task ∈ q.2.1, task.Status = .finished then
      let f := finish env q.1 job (env.Now q.1.world)
        (summarizeTaskResultWithError env q.2.1 none).1
      if f.2 = none then (rest.1, f.1) else (job :: rest.1, f.1)
    else (job :: rest.1, q.1)

/-- The texts of the scan errors of the tasks that have one, in the order of the list. -/
def scanTaskErrs (tasks : List TTLTask) : List String :=
  tasks.filterMap (fun t =>
    match t.State with
    | none => none
    | some state => if state.ScanTaskErr.length > 0 then some state.ScanTaskErr else none)

/-! ## A small database, for the statements of garbage collection and for examples -/

/-- A row of `mysql.tidb_ttl_table_status`, with the columns that the statements of
lines 48-69 name; `none` is NULL. -/
structure StatusRow where
  table_id : Int
  current_job_id : Option String
  current_job_status : Option String
  deriving DecidableEq, Repr

/-- A row of `mysql.tidb_ttl_task`. -/
structure TaskRow where
  job_id : String
  scan_id : Nat
  deriving DecidableEq, Repr

/-- A row of `mysql.tidb_ttl_job_history`; the creation time is counted in days. -/
structure HistoryRow where
  job_id : String
  create_time : Int
  deriving DecidableEq, Repr

/-- The state of the three tables, the current date (in days), the tables that a refresh
of the schema cache finds, the error with which that refresh fails (if it does) and
whether this node is the leader. -/
structure DB where
  status : List StatusRow
  task : List TaskRow
  history : List HistoryRow
  today : Int
  schema : List (Int × PhysicalTable)
  refreshError : Option TTLError
  leader : Bool

/-- The status rows left by the statement of `gcTTLTableStatusGCSQL`: a row is deleted
when its `current_job_status` is NULL and, if ids are listed, its `table_id` is not among
them. -/
def deleteStatusGC (existIDs : Option (List Int)) (status : List StatusRow) : List StatusRow :=
  status.filter (fun s =>
    !(s.current_job_status.isNone &&
      (match existIDs with
       | none => true
       | some ids => !(ids.contains s.table_id))))

/-- The task rows left by `taskGCTemplate` (lines 59-64): the left join with the status
rows on `task.job_id = job.current_job_id` finds no status row (`job.table_id IS NULL`)
exactly for the tasks that are deleted. -/
def deleteTaskGC (status : List StatusRow) (task : List TaskRow) : List TaskRow :=
  task.filter (fun t => status.any (fun s => s.current_job_id == some t.job_id))

/-- The history rows left by `ttlJobHistoryGCTemplate` (line 66): a row is deleted when
`create_time < CURDATE() - INTERVAL 90 DAY`. -/
def deleteHistoryGC (today : Int) (history : List HistoryRow) : List HistoryRow :=
  history.filter (fun h => !(decide (h.create_time < today - 90)))

/-- The effect of a statement on the database and the rows it returns; a status row is
returned as the text of its current job id (empty for NULL).  Transactions are not kept
apart: `ROLLBACK` undoes nothing. -/
def dbExecute (w : DB) (stmt : Stmt) : DB × List SqlRow :=
  match stmt.sql, stmt.args with
  | .selectFromTTLTableStatusWithIDForUpdateNoWait, [.int id] =>
    (w, (w.status.filter (fun s => s.table_id == id)).map
      (fun s => [s.current_job_id.getD ""]))
  | .insertNewTableIntoStatusTemplate, [.int tableID, _] =>
    ({ w with status := w.status ++ [⟨tableID, none, none⟩] }, [])
  | .setTableStatusOwnerTemplate, [.str uuid, _, _, _, _, _, .int tableID] =>
    ({ w with status := w.status.map (fun s =>
        if s.table_id = tableID then ⟨tableID, some uuid, some "running"⟩ else s) }, [])
  | .createJobHistory, .str jobID :: _ =>
    ({ w with history := w.history ++ [⟨jobID, w.today⟩] }, [])
  | .insertIntoTTLTask, [.str jobID, .int scanID] =>
    ({ w with task := w.task ++ [⟨jobID, scanID.toNat⟩] }, [])
  | .ttlTableStatusGCWithoutIDTemplate, _ =>
    ({ w with status := deleteStatusGC none w.status }, [])
  | .ttlTableStatusGCNotIn existIDs, _ =>
    ({ w with status := deleteStatusGC (some existIDs) w.status }, [])
  | .taskGCTemplate, _ => ({ w with task := deleteTaskGC w.status w.task }, [])
  | .ttlJobHistoryGCTemplate, _ =>
    ({ w with history := deleteHistoryGC w.today w.history }, [])
  | _, _ => (w, [])

/-- Collaborators over the small database: every statement succeeds; a status row reads
as a row of table 1 with the current job id of its text and no owner; the refresh of the
schema cache loads `schema` unless `refreshError` is set; the leader function reads
`leader`; a table has one scan range. -/
def dbEnv : Env DB where
  ExecuteSQL := fun w stmt => ((dbExecute w stmt).1, (dbExecute w stmt).2, none)
  AffectedRows := fun _ => 1
  RowToTableStatus := fun row =>
    (some { TableID := 1, ParentTableID := 1, LastJobStartTime := ⟨0⟩,
            CurrentJobID := row.headD "", CurrentJobOwnerID := "",
            CurrentJobOwnerHBTime := ⟨0⟩, CurrentJobStartTime := ⟨0⟩,
            CurrentJobTTLExpire := ⟨0⟩ }, none)
  RowToTTLTask := fun _ => (⟨"", 0, 0, .waiting, none⟩, none)
  infoSchemaCacheUpdate := fun w c =>
    match w.refreshError with
    | some e => (w, c, some e)
    | none => (w, ⟨w.schema⟩, none)
  tableStatusCacheUpdate := fun w c => (w, c, none)
  Notify := fun w _ _ => (w, none)
  timeNow := fun _ => ⟨300⟩
  finish := fun w _ _ _ => (w, none)
  jsonMarshal := fun _ => ""
  getHeartbeatInterval := 10
  getUpdateTTLTableStatusCacheInterval := 30
  ttlJobTimeout := 1000
  leaderFunc := some (fun w => w.leader)
  Now := fun _ => ⟨300⟩
  EvalExpireTime := fun w _ now => (w, now, none)
  createJobHistorySQL := fun jobID _ _ _ => [.str jobID]
  SplitScanRanges := fun w _ => (w, [⟨"", ""⟩], none)
  InsertIntoTTLTask := fun jobID _ scanID _ _ _ => ([.str jobID, .int scanID], none)

/-- A table for examples: the physical table 1 of the logical table 1. -/
def sampleTable : PhysicalTable :=
  { ID := 1, TableInfo := ⟨1⟩, TTLInfo := ⟨(3600, none)⟩ }

/-- An empty database on day 1000 whose schema holds `sampleTable`, seen by the leader or
not. -/
def emptyDB (leader : Bool) : DB :=
  { status := [], task := [], history := [], today := 1000, schema := [(1, sampleTable)],
    refreshError := none, leader := leader }

/-- A database for examples: the idle tables 1 (in the schema) and 2 (dropped), the table
3 running the job "j3"; a task of "j3" and a task of the unknown job "jx"; a history row
of day 100 and one of day 990, the current day being 1000. -/
def gcSampleDB : DB :=
  { status := [⟨1, none, none⟩, ⟨2, none, none⟩, ⟨3, some "j3", some "running"⟩],
    task := [⟨"j3", 0⟩, ⟨"jx", 0⟩],
    history := [⟨"j0", 100⟩, ⟨"j3", 990⟩],
    today := 1000, schema := [(1, sampleTable)], refreshError := none, leader := true }

/-! ## Take-over candidates, the timer tick and `removeJob` on slices
(lines 291-317, 700-720, 1007-1018) -/

/-- The loop `tblLoop` of `readyForLockHBTimeoutJobTables` (lines 703-717) over the entries
of `m.tableStatusCache.Tables` left, with the result `tables` as it stands.  The inner loop
over the running jobs is the test `any`; `continue tblLoop` goes on with the next entry. -/
def readyForLockHBTimeoutJobTablesLoop {W : Type} (env : Env W) (runningJobs : List ttlJob)
    (now : Time) : List (Int × TableStatus) → List TableStatus → List TableStatus
  | [], tables => tables
  | (_, status) :: rest, tables =>
    if runningJobs.any (fun job => decide (job.tableID = status.TableID)) then
      readyForLockHBTimeoutJobTablesLoop env runningJobs now rest tables
    else if couldLockJobForExistJob env (some status) now then
      readyForLockHBTimeoutJobTablesLoop env runningJobs now rest (tables ++ [status])
    else readyForLockHBTimeoutJobTablesLoop env runningJobs now rest tables

/-- Source `readyForLockHBTimeoutJobTables` (lines 700-720).  The entries of the map are
visited in the order of the list; Go leaves the order open. -/
def readyForLockHBTimeoutJobTables {W : Type} (env : Env W) (m : JobManager) (now : Time) :
    List TableStatus :=
  readyForLockHBTimeoutJobTablesLoop env m.runningJobs now m.tableStatusCache.Tables []

/-- Go standard library `time.Millisecond`, in nanoseconds. -/
def Millisecond : Int := 1000000

/-- Go standard library `time.Second`, in nanoseconds. -/
def Second : Int := 1000 * Millisecond

/-- Go standard library `time.Minute`, in nanoseconds. -/
def Minute : Int := 60 * Second

/-- Go standard library `Time.Sub(u)`: the duration `t - u`; when it does not fit a
`Duration` (an `int64`), the largest or the smallest `Duration`. -/
def Time.Sub (t u : Time) : Int :=
  let d := t.ns - u.ns
  if d > 2 ^ 63 - 1 then 2 ^ 63 - 1 else if d < -2 ^ 63 then -2 ^ 63 else d

/-- The collaborators of `onTimerTick`: the timer runtime `rt` and the syncer, whose state
is `S`, the schema seen by the session and the build constant `intest.InTest`. -/
structure TimerEnv (W S : Type) where
  /-- Source `rt.Pause()`. -/
  Pause : S → S
  /-- Source `rt.Resume()`. -/
  Resume : S → S
  /-- Source `syncer.Reset()`. -/
  Reset : S → S
  /-- Source `syncer.GetLastSyncInfo()`: the time and the schema version of the last sync. -/
  GetLastSyncInfo : S → Time × Int
  /-- Source `se.GetLatestInfoSchema().(infoschema.InfoSchema).SchemaMetaVersion()`. -/
  SchemaMetaVersion : W → Int
  /-- Source `syncer.SyncTimers(m.ctx, is)`, `is` having this version. -/
  SyncTimers : S → Int → S
  /-- Source constant `intest.InTest`. -/
  InTest : Bool

/-- The calls that `onTimerTick` makes on the timer runtime and on the syncer. -/
inductive TimerCall
  | pause
  | reset
  | resume
  | syncTimers
  deriving DecidableEq, Repr

/-- Source `onTimerTick` (lines 291-317): the state of the timer runtime and of the syncer
after the call, and the calls made, oldest first. -/
def onTimerTick {W S : Type} (env : Env W) (timer : TimerEnv W S) (r : Run W) (s : S)
    (now : Time) : S × List TimerCall :=
  if !isLeader env r then (timer.Reset (timer.Pause s), [.pause, .reset])
  else
    let s := timer.Resume s
    let lastSyncTime := (timer.GetLastSyncInfo s).1
    let lastSyncVer := (timer.GetLastSyncInfo s).2
    let sinceLastSync := now.Sub lastSyncTime
    let minSyncDuration := if timer.InTest then Millisecond else 5 * Second
    if sinceLastSync < minSyncDuration then (s, [.resume])
    else
      let version := timer.SchemaMetaVersion r.world
      if version > lastSyncVer ∨ sinceLastSync > 2 * Minute then
        (timer.SyncTimers s version, [.resume, .syncTimers])
      else (s, [.resume])

/-- The body of `removeJob` on slices, as the source writes it (lines 1008-1017): the
`range` loop over the jobs from index `idx` on.  At the first job whose id is `id` the
slice becomes `append(runningJobs[0:idx], runningJobs[idx+1:]...)` when
`idx+1 < len(runningJobs)`, and `runningJobs[0:idx]` otherwise. -/
def removeJobSlices (id : String) (runningJobs : List ttlJob) :
    List ttlJob → Nat → List ttlJob
  | [], _ => runningJobs
  | job :: rest, idx =>
    if job.id = id then
      if idx + 1 < runningJobs.length then runningJobs.take idx ++ runningJobs.drop (idx + 1)
      else runningJobs.take idx
    else removeJobSlices id runningJobs rest (idx + 1)

/-- The state of a timer runtime and of a syncer, for examples. -/
structure TimerState where
  paused : Bool
  lastSyncTime : Time
  lastSyncVer : Int
  deriving DecidableEq, Repr

/-- A timer environment for examples, outside test mode, over the database of `dbEnv`:
the schema version is the number of tables. -/
def sampleTimer : TimerEnv DB TimerState where
  Pause := fun s => { s with paused := true }
  Resume := fun s => { s with paused := false }
  Reset := fun s => { s with lastSyncTime := ⟨0⟩, lastSyncVer := 0 }
  GetLastSyncInfo := fun s => (s.lastSyncTime, s.lastSyncVer)
  SchemaMetaVersion := fun w => w.schema.length
  SyncTimers := fun s version => { s with lastSyncVer := version }
  InTest := false

end TTLWorker

namespace Codec

/-! ## Lemmas on bits and bytes -/

theorem lor_shiftLeft_eq_add (a b s : Nat) (h : a < 2 ^ s) :
    a ||| (b <<< s) = a + b * 2 ^ s := by
  rw [Nat.shiftLeft_eq, Nat.lor_comm, Nat.mul_comm b, ← Nat.mul_add_lt_is_or h]
  omega

theorem lor_mul_pow (a b s : Nat) (h : a < 2 ^ s) : a ||| b * 2 ^ s = a + b * 2 ^ s := by
  have := lor_shiftLeft_eq_add a b s h
  rwa [Nat.shiftLeft_eq] at this

set_option maxRecDepth 100000 in
theorem byte_lor_128 (y : Nat) (h : y < 256) : y ||| 128 = y % 128 + 128 := by
  revert y; decide

theorem and_127 (y : Nat) : y &&& 0x7f = y % 128 := by
  have := Nat.and_pow_two_sub_one_eq_mod y 7
  simpa using this

theorem testBit_ge_64 (u i : Nat) (h : u < 2 ^ 64) (hi : ¬ i < 63) (hi2 : i ≠ 63) :
    u.testBit i = false := by
  have : 2 ^ 64 ≤ 2 ^ i := Nat.pow_le_pow_right (by norm_num) (by omega)
  exact Nat.testBit_lt_two_pow (by omega)

theorem xor_signMask (u : Nat) (h : u < 2 ^ 64) :
    u ^^^ signMask = if u < 2 ^ 63 then u + 2 ^ 63 else u - 2 ^ 63 := by
  apply Nat.eq_of_testBit_eq
  intro i
  rw [Nat.testBit_xor]
  have e : signMask = 2 ^ 63 := by norm_num [signMask]
  rw [e, Nat.testBit_two_pow]
  split
  · rename_i hlt
    rw [Nat.add_comm]
    by_cases hi : i = 63
    · subst hi
      rw [Nat.testBit_two_pow_add_eq]
      simp [Nat.testBit_lt_two_pow hlt]
    · by_cases hi2 : i < 63
      · rw [Nat.testBit_two_pow_add_gt hi2]
        have : (63 = i) = False := by simp; omega
        simp [this]
      · rw [testBit_ge_64 (2 ^ 63 + u) i (by omega) hi2 hi, testBit_ge_64 u i h hi2 hi]
        simp; omega
  · rename_i hge
    obtain ⟨r, hr⟩ : ∃ r, u = 2 ^ 63 + r := ⟨u - 2 ^ 63, by omega⟩
    subst hr
    have hr : r < 2 ^ 63 := by omega
    simp only [Nat.add_sub_cancel_left]
    by_cases hi : i = 63
    · subst hi
      rw [Nat.testBit_two_pow_add_eq]
      simp [Nat.testBit_lt_two_pow hr]
    · by_cases hi2 : i < 63
      · rw [Nat.testBit_two_pow_add_gt hi2]
        have : (63 = i) = False := by simp; omega
        simp [this]
      · rw [testBit_ge_64 (2 ^ 63 + r) i h hi2 hi, testBit_ge_64 r i (by omega) hi2 hi]
        simp; omega

theorem toUint64_lt (v : Int) : toUint64 v < 2 ^ 64 := by
  unfold toUint64; omega

theorem decodeCmp_encodeCmp (v : Int) (h : isInt64 v) :
    DecodeCmpUintToInt (EncodeIntToCmpUint v) = v := by
  obtain ⟨h1, h2⟩ := h
  unfold DecodeCmpUintToInt EncodeIntToCmpUint
  rw [xor_signMask _ (toUint64_lt v)]
  have hb : (if toUint64 v < 2 ^ 63 then toUint64 v + 2 ^ 63 else toUint64 v - 2 ^ 63) < 2 ^ 64 := by
    have := toUint64_lt v
    split <;> omega
  rw [xor_signMask _ hb]
  unfold toInt64 toUint64
  split <;> split <;> split <;> omega

theorem encodeCmp_lt (v : Int) : EncodeIntToCmpUint v < 2 ^ 64 := by
  unfold EncodeIntToCmpUint
  rw [xor_signMask _ (toUint64_lt v)]
  have := toUint64_lt v
  split <;> omega

theorem encodeCmp_mono (a b : Int) (ha : isInt64 a) (hb : isInt64 b) :
    EncodeIntToCmpUint a < EncodeIntToCmpUint b ↔ a < b := by
  obtain ⟨a1, a2⟩ := ha
  obtain ⟨b1, b2⟩ := hb
  unfold EncodeIntToCmpUint
  rw [xor_signMask _ (toUint64_lt a), xor_signMask _ (toUint64_lt b)]
  unfold toUint64
  split <;> split <;> omega

theorem be_combine (b0 b1 b2 b3 b4 b5 b6 b7 : Nat) (h1 : b1 < 256)
    (h2 : b2 < 256) (h3 : b3 < 256) (h4 : b4 < 256) (h5 : b5 < 256) (h6 : b6 < 256)
    (h7 : b7 < 256) :
    b7 ||| (b6 <<< 8) ||| (b5 <<< 16) ||| (b4 <<< 24) ||| (b3 <<< 32) ||| (b2 <<< 40)
      ||| (b1 <<< 48) ||| (b0 <<< 56)
    = b7 + b6 * 2 ^ 8 + b5 * 2 ^ 16 + b4 * 2 ^ 24 + b3 * 2 ^ 32 + b2 * 2 ^ 40 + b1 * 2 ^ 48
      + b0 * 2 ^ 56 := by
  rw [lor_shiftLeft_eq_add b7 b6 8 (by omega)]
  rw [lor_shiftLeft_eq_add _ b5 16 (by omega)]
  rw [lor_shiftLeft_eq_add _ b4 24 (by omega)]
  rw [lor_shiftLeft_eq_add _ b3 32 (by omega)]
  rw [lor_shiftLeft_eq_add _ b2 40 (by omega)]
  rw [lor_shiftLeft_eq_add _ b1 48 (by omega)]
  rw [lor_shiftLeft_eq_add _ b0 56 (by omega)]

theorem bigEndian_roundtrip (u : Nat) (h : u < 2 ^ 64) (rest : List Nat) :
    bigEndianUint64 (bigEndianPutUint64 u ++ rest) = u := by
  simp only [bigEndianPutUint64, List.cons_append, List.nil_append, bigEndianUint64,
    Nat.shiftRight_eq_div_pow]
  rw [be_combine _ _ _ _ _ _ _ _ (Nat.mod_lt _ (by norm_num))
    (Nat.mod_lt _ (by norm_num)) (Nat.mod_lt _ (by norm_num)) (Nat.mod_lt _ (by norm_num))
    (Nat.mod_lt _ (by norm_num)) (Nat.mod_lt _ (by norm_num)) (Nat.mod_lt _ (by norm_num))]
  omega

theorem bigEndianPutUint64_length (u : Nat) : (bigEndianPutUint64 u).length = 8 := rfl

theorem take_8_bigEndian (u : Nat) (rest : List Nat) :
    (bigEndianPutUint64 u ++ rest).take 8 = bigEndianPutUint64 u := by
  simp [bigEndianPutUint64]

theorem drop_8_bigEndian (u : Nat) (rest : List Nat) :
    (bigEndianPutUint64 u ++ rest).drop 8 = rest := by
  simp [bigEndianPutUint64]

theorem beVal_lt (xs : List Nat) (h : ∀ x ∈ xs, x < 256) : beVal xs < 256 ^ xs.length := by
  induction xs with
  | nil => simp [beVal]
  | cons x xs ih =>
    have hx : x < 256 := h x (List.mem_cons_self _ _)
    have := ih (fun y hy => h y (List.mem_cons_of_mem _ hy))
    simp only [beVal, List.length_cons, pow_succ]
    nlinarith

theorem bytesLt_iff_beVal (xs ys : List Nat) (hl : xs.length = ys.length)
    (hx : ∀ x ∈ xs, x < 256) (hy : ∀ y ∈ ys, y < 256) :
    bytesLt xs ys = true ↔ beVal xs < beVal ys := by
  induction xs generalizing ys with
  | nil =>
    cases ys with
    | nil => simp [bytesLt, beVal]
    | cons y ys => simp at hl
  | cons x xs ih =>
    cases ys with
    | nil => simp at hl
    | cons y ys =>
      have hl2 : xs.length = ys.length := by simpa using hl
      have hx2 : ∀ a ∈ xs, a < 256 := fun a ha => hx a (List.mem_cons_of_mem _ ha)
      have hy2 : ∀ a ∈ ys, a < 256 := fun a ha => hy a (List.mem_cons_of_mem _ ha)
      have b1 := beVal_lt xs hx2
      have b2 := beVal_lt ys hy2
      have ih2 := ih ys hl2 hx2 hy2
      simp only [bytesLt, beVal, Bool.or_eq_true, Bool.and_eq_true, decide_eq_true_eq, ih2, hl2]
      rw [hl2] at b1
      generalize 256 ^ ys.length = p at *
      constructor
      · rintro (h | ⟨h, h3⟩)
        · nlinarith
        · subst h; omega
      · intro h
        by_cases hxy : x < y
        · exact Or.inl hxy
        · by_cases he : x = y
          · subst he; right; exact ⟨rfl, by omega⟩
          · exfalso
            have : y + 1 ≤ x := by omega
            nlinarith

theorem beVal_bigEndianPutUint64 (u : Nat) (h : u < 2 ^ 64) :
    beVal (bigEndianPutUint64 u) = u := by
  simp only [bigEndianPutUint64, beVal, Nat.shiftRight_eq_div_pow, List.length_cons,
    List.length_nil]
  omega

theorem bigEndian_byte_lt (u x : Nat) (hx : x ∈ bigEndianPutUint64 u) : x < 256 := by
  simp only [bigEndianPutUint64, List.mem_cons, List.mem_singleton, List.mem_nil_iff,
    or_false] at hx
  omega

theorem bigEndian_lt (u v : Nat) (hu : u < 2 ^ 64) (hv : v < 2 ^ 64) :
    bytesLt (bigEndianPutUint64 u) (bigEndianPutUint64 v) = true ↔ u < v := by
  rw [bytesLt_iff_beVal (bigEndianPutUint64 u) (bigEndianPutUint64 v)
    (by rw [bigEndianPutUint64_length, bigEndianPutUint64_length])
    (bigEndian_byte_lt u) (bigEndian_byte_lt v),
    beVal_bigEndianPutUint64 u hu, beVal_bigEndianPutUint64 v hv]

theorem bytesLt_cons_same (f : Nat) (xs ys : List Nat) :
    bytesLt (f :: xs) (f :: ys) = bytesLt xs ys := by
  rw [bytesLt]
  simp

/-! ## Lemmas on varints -/

theorem uvarintAux_putUvarintAux (fuel : Nat) :
    ∀ (x i acc s : Nat) (rest : List Nat), i + fuel = 9 → s = 7 * i → acc < 2 ^ s →
      x * 2 ^ s < 2 ^ 64 →
      uvarintAux (putUvarintAux fuel x ++ rest) i acc s
        = (acc + x * 2 ^ s, (i : Int) + (putUvarintAux fuel x).length) := by
  induction fuel with
  | zero =>
    intro x i acc s rest hi hs hacc hx
    have hi9 : i = 9 := by omega
    subst hi9
    have hs63 : s = 63 := by omega
    subst hs63
    have hx2 : x < 2 := by omega
    have hxm : x % 256 = x := Nat.mod_eq_of_lt (by omega)
    have h4 : x * 2 ^ 63 % 2 ^ 64 = x * 2 ^ 63 := Nat.mod_eq_of_lt hx
    have h6 : acc ||| x * 2 ^ 63 = acc + x * 2 ^ 63 := lor_mul_pow _ _ _ hacc
    have h3 : ¬ (True ∧ x > 1) := by omega
    have h2 : x < 128 := by omega
    have h1 : ¬ (9 = 10) := by decide
    simp only [putUvarintAux, hxm, List.singleton_append, uvarintAux, MaxVarintLen64,
      Nat.shiftLeft_eq, if_neg h1, if_pos h2, if_neg h3, h4, h6, List.length_singleton]
    rfl
  | succ fuel ih =>
    intro x i acc s rest hi hs hacc hx
    have hi8 : i ≤ 8 := by omega
    have hp : 0 < 2 ^ s := Nat.pow_pos (by norm_num)
    by_cases hge : x ≥ 0x80
    · have hb : (x % 256) ||| 0x80 = x % 128 + 128 :=
        (byte_lor_128 _ (Nat.mod_lt _ (by norm_num))).trans (by omega)
      have h1 : ¬ (i = 10) := by omega
      have h2 : ¬ (x % 128 + 128 < 128) := by omega
      have h5 : (x % 128 + 128) &&& 0x7f = x % 128 := by rw [and_127]; omega
      have hle : x % 128 * 2 ^ s ≤ x * 2 ^ s := Nat.mul_le_mul_right _ (Nat.mod_le _ _)
      have h4 : (x % 128 * 2 ^ s) % 2 ^ 64 = x % 128 * 2 ^ s := Nat.mod_eq_of_lt (by omega)
      have h6 : acc ||| x % 128 * 2 ^ s = acc + x % 128 * 2 ^ s := lor_mul_pow _ _ _ hacc
      have hdm : x = 128 * (x / 128) + x % 128 := (Nat.div_add_mod x 128).symm
      have hps : 2 ^ (s + 7) = 2 ^ s * 128 := by rw [pow_add]; norm_num
      have hacc2 : acc + x % 128 * 2 ^ s < 2 ^ (s + 7) := by
        rw [hps]
        have : x % 128 < 128 := Nat.mod_lt _ (by norm_num)
        nlinarith
      have hx2 : (x >>> 7) * 2 ^ (s + 7) < 2 ^ 64 := by
        rw [hps, Nat.shiftRight_eq_div_pow]
        have : x / 2 ^ 7 * (2 ^ s * 128) ≤ x * 2 ^ s := by
          have : x / 128 * 128 ≤ x := Nat.div_mul_le_self x 128
          norm_num
          nlinarith
        omega
      have := ih (x >>> 7) (i + 1) (acc + x % 128 * 2 ^ s) (s + 7) rest (by omega) (by omega)
        hacc2 hx2
      simp only [putUvarintAux, if_pos hge, hb, List.cons_append, uvarintAux, MaxVarintLen64,
        if_neg h1, if_neg h2, h5, Nat.shiftLeft_eq, h4, h6, this, List.length_cons]
      refine Prod.ext ?_ ?_
      · simp only [hps, Nat.shiftRight_eq_div_pow]
        norm_num
        generalize x / 128 = q at *
        generalize x % 128 = r at *
        subst hdm
        ring
      · simp only; push_cast; ring
    · have hlt : x < 128 := by omega
      have hxm : x % 256 = x := Nat.mod_eq_of_lt (by omega)
      have h1 : ¬ (i = 10) := by omega
      have h3 : ¬ (i = 10 - 1 ∧ x > 1) := by omega
      have h4 : (x * 2 ^ s) % 2 ^ 64 = x * 2 ^ s := Nat.mod_eq_of_lt hx
      have h6 : acc ||| x * 2 ^ s = acc + x * 2 ^ s := lor_mul_pow _ _ _ hacc
      simp only [putUvarintAux, if_neg hge, hxm, List.singleton_append, uvarintAux,
        MaxVarintLen64, if_neg h1, if_pos hlt, if_neg h3, Nat.shiftLeft_eq, h4, h6,
        List.length_singleton]
      rfl

theorem Uvarint_PutUvarint (x : Nat) (hx : x < 2 ^ 64) (rest : List Nat) :
    Uvarint (PutUvarint x ++ rest) = (x, ((PutUvarint x).length : Int)) := by
  have := uvarintAux_putUvarintAux 9 x 0 0 0 rest (by omega) (by omega) (by norm_num) (by omega)
  simpa [Uvarint, PutUvarint] using this

theorem putUvarintAux_length (fuel x : Nat) :
    1 ≤ (putUvarintAux fuel x).length ∧ (putUvarintAux fuel x).length ≤ fuel + 1 := by
  induction fuel generalizing x with
  | zero => simp [putUvarintAux]
  | succ fuel ih =>
    simp only [putUvarintAux]
    split
    · have := ih (x >>> 7); simp only [List.length_cons]; omega
    · simp

theorem PutUvarint_length (x : Nat) : 1 ≤ (PutUvarint x).length ∧ (PutUvarint x).length ≤ 10 :=
  putUvarintAux_length 9 x

theorem PutVarint_length (v : Int) : 1 ≤ (PutVarint v).length ∧ (PutVarint v).length ≤ 10 := by
  unfold PutVarint
  exact PutUvarint_length _

theorem Varint_PutVarint (v : Int) (h : isInt64 v) (rest : List Nat) :
    Varint (PutVarint v ++ rest) = (v, ((PutVarint v).length : Int)) := by
  obtain ⟨h1, h2⟩ := h
  unfold Varint PutVarint
  simp only
  rw [Uvarint_PutUvarint _ (by split <;> omega)]
  refine Prod.ext ?_ rfl
  simp only [Nat.and_one_is_mod, Nat.shiftLeft_eq, Nat.shiftRight_eq_div_pow, toUint64, toInt64]
  split <;> split <;> split <;> omega

theorem drop_length_append (a rest : List Nat) : (a ++ rest).drop a.length = rest := by
  simp

theorem take_length_append (a rest : List Nat) : (a ++ rest).take a.length = a := by
  simp

/-! ## Lemmas on the number codec -/

theorem DecodeInt_EncodeInt (v : Int) (h : isInt64 v) (rest : List Nat) :
    DecodeInt (EncodeInt [] v ++ rest) = (rest, v, none) := by
  have hl : ¬ ((bigEndianPutUint64 (EncodeIntToCmpUint v) ++ rest).length < 8) := by
    rw [List.length_append, bigEndianPutUint64_length]; omega
  simp only [DecodeInt, EncodeInt, List.nil_append, if_neg hl, take_8_bigEndian, drop_8_bigEndian]
  rw [← List.append_nil (bigEndianPutUint64 _), bigEndian_roundtrip _ (encodeCmp_lt v),
    decodeCmp_encodeCmp v h]

theorem DecodeUint_EncodeUint (v : Nat) (h : isUint64 v) (rest : List Nat) :
    DecodeUint (EncodeUint [] v ++ rest) = (rest, v, none) := by
  have hl : ¬ ((bigEndianPutUint64 v ++ rest).length < 8) := by
    rw [List.length_append, bigEndianPutUint64_length]; omega
  simp only [DecodeUint, EncodeUint, List.nil_append, if_neg hl, take_8_bigEndian,
    drop_8_bigEndian]
  rw [← List.append_nil (bigEndianPutUint64 _), bigEndian_roundtrip _ h]

theorem DecodeVarint_EncodeVarint (v : Int) (h : isInt64 v) (rest : List Nat) :
    DecodeVarint (EncodeVarint [] v ++ rest) = (rest, v, none) := by
  have hl := (PutVarint_length v).1
  have hpos : ((PutVarint v).length : Int) > 0 := by omega
  simp only [DecodeVarint, EncodeVarint, List.nil_append, Varint_PutVarint v h rest, if_pos hpos,
    Int.toNat_ofNat, drop_length_append]

theorem DecodeUvarint_EncodeUvarint (v : Nat) (h : isUint64 v) (rest : List Nat) :
    DecodeUvarint (EncodeUvarint [] v ++ rest) = (rest, v, none) := by
  have hl := (PutUvarint_length v).1
  have hpos : ((PutUvarint v).length : Int) > 0 := by omega
  simp only [DecodeUvarint, EncodeUvarint, List.nil_append, Uvarint_PutUvarint v h rest,
    if_pos hpos, Int.toNat_ofNat, drop_length_append]

/-! ## Lemmas on the bytes codec -/

theorem DecodeBytes_encodeBytesGroups : ∀ (data rest : List Nat),
    DecodeBytes (encodeBytesGroups data ++ rest) = (rest, data, none)
  | [], rest => by rfl
  | [_], rest => by
    simp [encodeBytesGroups, DecodeBytes, encMarker, encGroupSize, encPad, List.replicate]
  | [_, _], rest => by
    simp [encodeBytesGroups, DecodeBytes, encMarker, encGroupSize, encPad, List.replicate]
  | [_, _, _], rest => by
    simp [encodeBytesGroups, DecodeBytes, encMarker, encGroupSize, encPad, List.replicate]
  | [_, _, _, _], rest => by
    simp [encodeBytesGroups, DecodeBytes, encMarker, encGroupSize, encPad, List.replicate]
  | [_, _, _, _, _], rest => by
    simp [encodeBytesGroups, DecodeBytes, encMarker, encGroupSize, encPad, List.replicate]
  | [_, _, _, _, _, _], rest => by
    simp [encodeBytesGroups, DecodeBytes, encMarker, encGroupSize, encPad, List.replicate]
  | [_, _, _, _, _, _, _], rest => by
    simp [encodeBytesGroups, DecodeBytes, encMarker, encGroupSize, encPad, List.replicate]
  | b0 :: b1 :: b2 :: b3 :: b4 :: b5 :: b6 :: b7 :: tl, rest => by
    have ih := DecodeBytes_encodeBytesGroups tl rest
    simp [encodeBytesGroups, DecodeBytes, encMarker, encGroupSize, encPad, ih]

theorem peekBytesLoop_encodeBytesGroups : ∀ (data rest : List Nat) (offset : Int),
    peekBytesLoop (encodeBytesGroups data ++ rest) offset
      = (offset + ((encodeBytesGroups data).length : Int), none)
  | [], rest, o => by rfl
  | [_], rest, o => by
    simp [encodeBytesGroups, peekBytesLoop, encMarker, encGroupSize, encPad, List.replicate]
  | [_, _], rest, o => by
    simp [encodeBytesGroups, peekBytesLoop, encMarker, encGroupSize, encPad, List.replicate]
  | [_, _, _], rest, o => by
    simp [encodeBytesGroups, peekBytesLoop, encMarker, encGroupSize, encPad, List.replicate]
  | [_, _, _, _], rest, o => by
    simp [encodeBytesGroups, peekBytesLoop, encMarker, encGroupSize, encPad, List.replicate]
  | [_, _, _, _, _], rest, o => by
    simp [encodeBytesGroups, peekBytesLoop, encMarker, encGroupSize, encPad, List.replicate]
  | [_, _, _, _, _, _], rest, o => by
    simp [encodeBytesGroups, peekBytesLoop, encMarker, encGroupSize, encPad, List.replicate]
  | [_, _, _, _, _, _, _], rest, o => by
    simp [encodeBytesGroups, peekBytesLoop, encMarker, encGroupSize, encPad, List.replicate]
  | b0 :: b1 :: b2 :: b3 :: b4 :: b5 :: b6 :: b7 :: tl, rest, o => by
    have ih := peekBytesLoop_encodeBytesGroups tl rest (o + 9)
    simp [encodeBytesGroups, peekBytesLoop, encMarker, encGroupSize, encPad, ih]
    ring

theorem DecodeBytes_EncodeBytes (data rest : List Nat) :
    DecodeBytes (EncodeBytes [] data ++ rest) = (rest, data, none) := by
  simp only [EncodeBytes, List.nil_append, DecodeBytes_encodeBytesGroups]

theorem DecodeCompactBytes_EncodeCompactBytes (data rest : List Nat)
    (h : (data.length : Int) < 2 ^ 63) :
    DecodeCompactBytes (EncodeCompactBytes [] data ++ rest) = (rest, data, none) := by
  have hi : isInt64 (data.length : Int) := ⟨by omega, h⟩
  have e : EncodeCompactBytes [] data ++ rest = EncodeVarint [] (data.length : Int) ++ (data ++ rest) := by
    simp [EncodeCompactBytes]
  have h1 : ¬ (((data ++ rest).length : Int) < (data.length : Int)) := by
    rw [List.length_append]; push_cast; omega
  have h2 : ¬ ((data.length : Int) < 0) := by omega
  simp only [DecodeCompactBytes, e, DecodeVarint_EncodeVarint _ hi, if_neg h1, if_neg h2,
    Int.toNat_ofNat, drop_length_append, take_length_append]

/-! ## Lemmas on the float codec -/

theorem and_signMask (u : Nat) (h : u < 2 ^ 64) :
    u &&& signMask = if u < 2 ^ 63 then 0 else 2 ^ 63 := by
  apply Nat.eq_of_testBit_eq
  intro i
  rw [Nat.testBit_and]
  have e : signMask = 2 ^ 63 := by norm_num [signMask]
  rw [e, Nat.testBit_two_pow]
  by_cases hi : i = 63
  · subst hi
    split
    · rename_i hlt
      simp [Nat.testBit_lt_two_pow hlt]
    · rename_i hge
      rw [Nat.testBit_two_pow_self]
      simp only [decide_True, Bool.and_true]
      rw [Nat.testBit_to_div_mod]
      simp only [decide_eq_true_eq]
      omega
  · have : (63 = i) = False := by simp; omega
    simp only [this, decide_False, Bool.and_false]
    split
    · simp
    · rw [Nat.testBit_two_pow]; simp [this]

theorem decodeFloat_encodeFloat (f : Nat) (h : isUint64 f) (hn : float64IsNaN f = false)
    (hz : f ≠ negZero64) : decodeCmpUintToFloat (encodeFloatToCmpUint64 f) = f := by
  unfold isUint64 at h
  have e : signMask = 2 ^ 63 := by norm_num [signMask]
  have e2 : 2 ^ 64 - 1 - signMask = 2 ^ 63 - 1 := by norm_num [signMask]
  have hz2 : f ≠ 2 ^ 63 := by simpa [negZero64] using hz
  clear hz
  unfold encodeFloatToCmpUint64 decodeCmpUintToFloat
  by_cases hg : float64GeZero f = true
  · have hlt : f < 2 ^ 63 := by
      simp only [float64GeZero, hn, float64EqZero, Bool.not_false, Bool.true_and, Bool.or_eq_true,
        decide_eq_true_eq] at hg
      omega
    have hor : f ||| signMask = 2 ^ 63 + f := by
      rw [e, Nat.lor_comm]
      have := Nat.mul_add_lt_is_or hlt 1
      simpa using this.symm
    have hand : (2 ^ 63 + f) &&& signMask = 2 ^ 63 := by
      rw [and_signMask _ (by omega), if_neg (by omega)]
    have hpos : (2 : Nat) ^ 63 > 0 := by norm_num
    rw [if_pos hg, hor, hand, if_pos hpos, e2, Nat.and_pow_two_sub_one_eq_mod]
    omega
  · have hgt : 2 ^ 63 < f := by
      simp only [float64GeZero, hn, float64EqZero, Bool.not_false, Bool.true_and, Bool.or_eq_true,
        decide_eq_true_eq, not_or] at hg
      omega
    have hand : (2 ^ 64 - 1 - f) &&& signMask = 0 := by
      rw [and_signMask _ (by omega), if_pos (by omega)]
    have hpos : ¬ ((0 : Nat) > 0) := by norm_num
    rw [if_neg hg, hand, if_neg hpos]
    omega

theorem DecodeFloat_EncodeFloat (f : Nat) (h : isUint64 f) (hn : float64IsNaN f = false)
    (hz : f ≠ negZero64) (rest : List Nat) :
    DecodeFloat (EncodeFloat [] f ++ rest) = (rest, f, none) := by
  have hb : isUint64 (encodeFloatToCmpUint64 f) := by
    unfold isUint64 at *
    unfold encodeFloatToCmpUint64
    split
    · by_cases hlt : f < 2 ^ 63
      · have e : signMask = 2 ^ 63 := by norm_num [signMask]
        have : f ||| signMask = 2 ^ 63 + f := by
          rw [e, Nat.lor_comm]
          have := Nat.mul_add_lt_is_or hlt 1
          simpa using this.symm
        omega
      · exact Nat.or_lt_two_pow h (by norm_num [signMask])
    · omega
  simp only [DecodeFloat, EncodeFloat, DecodeUint_EncodeUint _ hb, decodeFloat_encodeFloat f h hn hz]

/-! ## Lemmas on `encode` -/

theorem encodeLoop_unsupported (T : TypesPkg) (loc : Location) (comparable1 : Bool) :
    ∀ (vals : List Datum) (b : List Nat) (err : Option CodecError),
      (∃ d ∈ vals, d.supported = false) → (encodeLoop T loc comparable1 vals b err).2 ≠ none := by
  intro vals
  induction vals with
  | nil => intro b err h; simp at h
  | cons d vals ih =>
    intro b err h
    have tl : d.supported = true → ∃ d ∈ vals, d.supported = false := by
      intro hd
      obtain ⟨x, hx, hs⟩ := h
      rcases List.mem_cons.mp hx with rfl | hx
      · rw [hd] at hs; cases hs
      · exact ⟨x, hx, hs⟩
    cases d with
    | iface x => simp [encodeLoop]
    | raw x => simp [encodeLoop]
    | mysqlTime t =>
      simp only [encodeLoop]
      split
      · simp
      · exact ih _ _ (tl rfl)
    | _ => exact ih _ _ (tl rfl)

/-! ## Lemmas on `DecodeOne` and `Decode` -/

theorem decodeLoop_cons (T : TypesPkg) (fuel b0 : Nat) (b vals r : List _) (d : Datum)
    (h : DecodeOne T (b0 :: b) = (r, d, none)) :
    decodeLoop T (fuel + 1) (b0 :: b) vals = decodeLoop T fuel r (vals ++ [d]) := by
  simp [decodeLoop, h]

theorem Decode_single (T : TypesPkg) (b0 : Nat) (b : List Nat) (d : Datum) (n : Nat)
    (h : DecodeOne T (b0 :: b) = ([], d, none)) : Decode T (b0 :: b) n = ([d], none) := by
  have hl : ¬ ((b0 :: b).length < 1) := by simp
  simp only [Decode, if_neg hl, List.length_cons, decodeLoop_cons T _ b0 b [] [] d h]
  simp [decodeLoop]

theorem DecodeOne_int (T : TypesPkg) (v : Int) (h : isInt64 v) (rest : List Nat) :
    DecodeOne T (intFlag :: (EncodeInt [] v ++ rest)) = (rest, .int64 v, none) := by
  simp [DecodeOne, DecodeInt_EncodeInt v h]

theorem DecodeOne_uint (T : TypesPkg) (v : Nat) (h : isUint64 v) (rest : List Nat) :
    DecodeOne T (uintFlag :: (EncodeUint [] v ++ rest)) = (rest, .uint64 v, none) := by
  simp [DecodeOne, DecodeUint_EncodeUint v h, uintFlag, intFlag]

theorem DecodeOne_varint (T : TypesPkg) (v : Int) (h : isInt64 v) (rest : List Nat) :
    DecodeOne T (varintFlag :: (EncodeVarint [] v ++ rest)) = (rest, .int64 v, none) := by
  simp [DecodeOne, DecodeVarint_EncodeVarint v h, uintFlag, intFlag, varintFlag]

theorem DecodeOne_uvarint (T : TypesPkg) (v : Nat) (h : isUint64 v) (rest : List Nat) :
    DecodeOne T (uvarintFlag :: (EncodeUvarint [] v ++ rest)) = (rest, .uint64 v, none) := by
  simp [DecodeOne, DecodeUvarint_EncodeUvarint v h, uintFlag, intFlag, varintFlag, uvarintFlag]

theorem DecodeOne_float (T : TypesPkg) (f : Nat) (h : isUint64 f) (hn : float64IsNaN f = false)
    (hz : f ≠ negZero64) (rest : List Nat) :
    DecodeOne T (floatFlag :: (EncodeFloat [] f ++ rest)) = (rest, .float64 f, none) := by
  simp [DecodeOne, DecodeFloat_EncodeFloat f h hn hz, uintFlag, intFlag, varintFlag, uvarintFlag,
    floatFlag]

theorem DecodeOne_bytes (T : TypesPkg) (data rest : List Nat) :
    DecodeOne T (bytesFlag :: (EncodeBytes [] data ++ rest)) = (rest, .bytes data, none) := by
  simp [DecodeOne, DecodeBytes_EncodeBytes, uintFlag, intFlag, varintFlag, uvarintFlag,
    floatFlag, bytesFlag]

theorem DecodeOne_compactBytes (T : TypesPkg) (data rest : List Nat)
    (h : (data.length : Int) < 2 ^ 63) :
    DecodeOne T (compactBytesFlag :: (EncodeCompactBytes [] data ++ rest))
      = (rest, .bytes data, none) := by
  simp [DecodeOne, DecodeCompactBytes_EncodeCompactBytes data rest h, uintFlag, intFlag,
    varintFlag, uvarintFlag, floatFlag, bytesFlag, compactBytesFlag]

theorem DecodeOne_duration (T : TypesPkg) (v : Int) (h : isInt64 v) (rest : List Nat) :
    DecodeOne T (durationFlag :: (EncodeInt [] v ++ rest))
      = (rest, .mysqlDuration { duration := v, fsp := MaxFsp }, none) := by
  simp [DecodeOne, DecodeInt_EncodeInt v h, uintFlag, intFlag, varintFlag, uvarintFlag,
    floatFlag, bytesFlag, compactBytesFlag, decimalFlag, durationFlag]

theorem EncodeInt_eq (b : List Nat) (v : Int) : EncodeInt b v = b ++ EncodeInt [] v := by
  simp [EncodeInt]

theorem EncodeUint_eq (b : List Nat) (v : Nat) : EncodeUint b v = b ++ EncodeUint [] v := by
  simp [EncodeUint]

theorem EncodeVarint_eq (b : List Nat) (v : Int) : EncodeVarint b v = b ++ EncodeVarint [] v := by
  simp [EncodeVarint]

theorem EncodeUvarint_eq (b : List Nat) (v : Nat) :
    EncodeUvarint b v = b ++ EncodeUvarint [] v := by
  simp [EncodeUvarint]

theorem EncodeFloat_eq (b : List Nat) (v : Nat) : EncodeFloat b v = b ++ EncodeFloat [] v := by
  simp [EncodeFloat, EncodeUint]

theorem EncodeBytes_eq (b data : List Nat) : EncodeBytes b data = b ++ EncodeBytes [] data := by
  simp [EncodeBytes]

theorem EncodeCompactBytes_eq (b data : List Nat) :
    EncodeCompactBytes b data = b ++ EncodeCompactBytes [] data := by
  simp [EncodeCompactBytes, EncodeVarint]

theorem encodeSignedInt_key (b : List Nat) (v : Int) :
    encodeSignedInt b v true = b ++ intFlag :: EncodeInt [] v := by
  simp [encodeSignedInt, EncodeInt]

theorem encodeSignedInt_value (b : List Nat) (v : Int) :
    encodeSignedInt b v false = b ++ varintFlag :: EncodeVarint [] v := by
  simp [encodeSignedInt, EncodeVarint]

theorem encodeUnsignedInt_key (b : List Nat) (v : Nat) :
    encodeUnsignedInt b v true = b ++ uintFlag :: EncodeUint [] v := by
  simp [encodeUnsignedInt, EncodeUint]

theorem encodeUnsignedInt_value (b : List Nat) (v : Nat) :
    encodeUnsignedInt b v false = b ++ uvarintFlag :: EncodeUvarint [] v := by
  simp [encodeUnsignedInt, EncodeUvarint]

theorem encodeBytes_key (b data : List Nat) :
    encodeBytes b data true = b ++ bytesFlag :: EncodeBytes [] data := by
  simp [encodeBytes, EncodeBytes]

theorem encodeBytes_value (b data : List Nat) :
    encodeBytes b data false = b ++ compactBytesFlag :: EncodeCompactBytes [] data := by
  simp [encodeBytes, EncodeCompactBytes, EncodeVarint]

theorem floatFlag_EncodeFloat (b : List Nat) (f : Nat) :
    EncodeFloat (b ++ [floatFlag]) f = b ++ floatFlag :: EncodeFloat [] f := by
  simp [EncodeFloat, EncodeUint]

theorem durationFlag_EncodeInt (b : List Nat) (v : Int) :
    EncodeInt (b ++ [durationFlag]) v = b ++ durationFlag :: EncodeInt [] v := by
  simp [EncodeInt]

theorem DecodeOne_integer (T : TypesPkg) (loc : Location) (d : Datum) (m : Bool)
    (hd : d.isInteger) (rest : List Nat) :
    ∃ b0 b, (encode T loc [] [d] m).1 = b0 :: b ∧
      DecodeOne T (b0 :: (b ++ rest)) = (rest, d, none) := by
  cases d <;> simp only [Datum.isInteger] at hd
  · rename_i v
    cases m
    · exact ⟨varintFlag, EncodeVarint [] v,
        by simp [encode, encodeLoop, encodeSignedInt_value], DecodeOne_varint T v hd rest⟩
    · exact ⟨intFlag, EncodeInt [] v,
        by simp [encode, encodeLoop, encodeSignedInt_key], DecodeOne_int T v hd rest⟩
  · rename_i v
    cases m
    · exact ⟨uvarintFlag, EncodeUvarint [] v,
        by simp [encode, encodeLoop, encodeUnsignedInt_value], DecodeOne_uvarint T v hd rest⟩
    · exact ⟨uintFlag, EncodeUint [] v,
        by simp [encode, encodeLoop, encodeUnsignedInt_key], DecodeOne_uint T v hd rest⟩

theorem decodeLoop_nil (T : TypesPkg) (fuel : Nat) (vals : List Datum) :
    decodeLoop T fuel [] vals = (vals, none) := by
  cases fuel <;> simp [decodeLoop]

theorem decodeLoop_concatEncodings (T : TypesPkg) (loc : Location) :
    ∀ (xs : List (Datum × Bool)) (fuel : Nat) (vals : List Datum),
      (∀ p ∈ xs, p.1.isInteger) → (concatEncodings T loc xs).length ≤ fuel →
      decodeLoop T fuel (concatEncodings T loc xs) vals = (vals ++ xs.map Prod.fst, none) := by
  intro xs
  induction xs with
  | nil => intro fuel vals _ _; simp [concatEncodings, decodeLoop_nil]
  | cons p xs ih =>
    intro fuel vals hp hf
    obtain ⟨b0, b, he, hd⟩ := DecodeOne_integer T loc p.1 p.2
      (hp p (List.mem_cons_self _ _)) (concatEncodings T loc xs)
    simp only [concatEncodings, he, List.cons_append] at hf ⊢
    obtain ⟨k, rfl⟩ : ∃ k, fuel = k + 1 := ⟨fuel - 1, by simp only [List.length_cons] at hf; omega⟩
    rw [decodeLoop_cons T k b0 _ vals _ _ hd,
      ih k (vals ++ [p.1]) (fun q hq => hp q (List.mem_cons_of_mem _ hq))
        (by simp only [List.length_cons, List.length_append] at hf; omega)]
    simp

/-! ## Lemmas on `peek` -/

theorem wrapInt64_of_isInt64 (x : Int) (h : isInt64 x) : wrapInt64 x = x := by
  obtain ⟨h1, h2⟩ := h
  unfold wrapInt64 toInt64 toUint64
  split <;> omega

theorem peek_of_payload (T : TypesPkg) (flag : Nat) (b : List Nat)
    (h : peekPayload T flag b = some ((b.length : Int), none))
    (hb : ((flag :: b).length : Int) < 2 ^ 63) :
    peek T (flag :: b) = (((flag :: b).length : Int), none) := by
  have hw : wrapInt64 (1 + (b.length : Int)) = 1 + (b.length : Int) :=
    wrapInt64_of_isInt64 _ ⟨by omega, by simp only [List.length_cons] at hb; push_cast at hb; omega⟩
  have h1 : ¬ (1 + (b.length : Int) ≤ 0) := by omega
  have h2 : ¬ (1 + (b.length : Int) > ((b.length + 1 : Nat) : Int)) := by push_cast; omega
  simp only [peek, h, hw, if_neg h1, List.length_cons, if_neg h2]
  congr 1
  push_cast; omega

theorem peekPayload_bytes (T : TypesPkg) (data : List Nat) :
    peekPayload T bytesFlag (EncodeBytes [] data)
      = some (((EncodeBytes [] data).length : Int), none) := by
  have := peekBytesLoop_encodeBytesGroups data [] 0
  rw [List.append_nil, Int.zero_add] at this
  simp [peekPayload, bytesFlag, NilFlag, intFlag, uintFlag, floatFlag, durationFlag, peekBytes,
    EncodeBytes, this]

theorem peekPayload_compactBytes (T : TypesPkg) (data : List Nat)
    (h : ((EncodeCompactBytes [] data).length : Int) < 2 ^ 63) :
    peekPayload T compactBytesFlag (EncodeCompactBytes [] data)
      = some (((EncodeCompactBytes [] data).length : Int), none) := by
  have hlen : (EncodeCompactBytes [] data).length = (PutVarint (data.length : Int)).length + data.length := by
    simp [EncodeCompactBytes, EncodeVarint]
  rw [hlen] at h
  push_cast at h
  have hi : isInt64 (data.length : Int) := ⟨by omega, by omega⟩
  have hv := Varint_PutVarint (data.length : Int) hi data
  have hl := (PutVarint_length (data.length : Int)).1
  have e : EncodeCompactBytes [] data = PutVarint (data.length : Int) ++ data := by
    simp [EncodeCompactBytes, EncodeVarint]
  have hw1 : wrapInt64 ((data.length : Int) + ((PutVarint (data.length : Int)).length : Int))
      = (data.length : Int) + ((PutVarint (data.length : Int)).length : Int) :=
    wrapInt64_of_isInt64 _ ⟨by omega, by omega⟩
  have hw2 : wrapInt64 (((PutVarint (data.length : Int)).length : Int) + (data.length : Int))
      = ((PutVarint (data.length : Int)).length : Int) + (data.length : Int) :=
    wrapInt64_of_isInt64 _ ⟨by omega, by omega⟩
  have h1 : ¬ (((PutVarint (data.length : Int)).length : Int) < 0) := by omega
  have h2 : ¬ (((PutVarint (data.length : Int)).length : Int) = 0) := by omega
  have h3 : ¬ (((PutVarint (data.length : Int) ++ data).length : Int)
      < (data.length : Int) + ((PutVarint (data.length : Int)).length : Int)) := by
    rw [List.length_append]; push_cast; omega
  simp only [peekPayload, compactBytesFlag, NilFlag, intFlag, uintFlag, floatFlag, durationFlag,
    bytesFlag, peekCompactBytes, e, hv, hw1, hw2, if_neg h1, if_neg h2, if_neg h3]
  simp

theorem peekPayload_varint (T : TypesPkg) (v : Int) (h : isInt64 v) :
    peekPayload T varintFlag (EncodeVarint [] v)
      = some (((EncodeVarint [] v).length : Int), none) := by
  have hv := Varint_PutVarint v h []
  rw [List.append_nil] at hv
  have h1 : ¬ (((PutVarint v).length : Int) < 0) := by omega
  simp [peekPayload, varintFlag, compactBytesFlag, NilFlag, intFlag, uintFlag, floatFlag,
    durationFlag, bytesFlag, decimalFlag, peekVarint, EncodeVarint, hv]

theorem peekPayload_uvarint (T : TypesPkg) (v : Nat) (h : isUint64 v) :
    peekPayload T uvarintFlag (EncodeUvarint [] v)
      = some (((EncodeUvarint [] v).length : Int), none) := by
  have hv := Uvarint_PutUvarint v h []
  rw [List.append_nil] at hv
  simp [peekPayload, uvarintFlag, varintFlag, compactBytesFlag, NilFlag, intFlag, uintFlag,
    floatFlag, durationFlag, bytesFlag, decimalFlag, peekUvarint, EncodeUvarint, hv]

theorem peek_int (T : TypesPkg) (v : Int) :
    peek T (intFlag :: EncodeInt [] v) = (((intFlag :: EncodeInt [] v).length : Int), none) := by
  apply peek_of_payload
  · simp [peekPayload, intFlag, NilFlag, EncodeInt, bigEndianPutUint64_length]
  · simp [EncodeInt, bigEndianPutUint64_length]

theorem peek_uint (T : TypesPkg) (v : Nat) :
    peek T (uintFlag :: EncodeUint [] v)
      = (((uintFlag :: EncodeUint [] v).length : Int), none) := by
  apply peek_of_payload
  · simp [peekPayload, uintFlag, intFlag, NilFlag, EncodeUint, bigEndianPutUint64_length]
  · simp [EncodeUint, bigEndianPutUint64_length]

theorem peek_float (T : TypesPkg) (f : Nat) :
    peek T (floatFlag :: EncodeFloat [] f)
      = (((floatFlag :: EncodeFloat [] f).length : Int), none) := by
  apply peek_of_payload
  · simp [peekPayload, floatFlag, uintFlag, intFlag, NilFlag, EncodeFloat, EncodeUint,
      bigEndianPutUint64_length]
  · simp [EncodeFloat, EncodeUint, bigEndianPutUint64_length]

theorem peek_duration (T : TypesPkg) (v : Int) :
    peek T (durationFlag :: EncodeInt [] v)
      = (((durationFlag :: EncodeInt [] v).length : Int), none) := by
  apply peek_of_payload
  · simp [peekPayload, durationFlag, floatFlag, uintFlag, intFlag, NilFlag, EncodeInt,
      bigEndianPutUint64_length]
  · simp [EncodeInt, bigEndianPutUint64_length]

theorem peek_varint (T : TypesPkg) (v : Int) (h : isInt64 v) :
    peek T (varintFlag :: EncodeVarint [] v)
      = (((varintFlag :: EncodeVarint [] v).length : Int), none) := by
  apply peek_of_payload _ _ _ (peekPayload_varint T v h)
  have := (PutVarint_length v).2
  simp only [List.length_cons, EncodeVarint, List.nil_append]
  push_cast; omega

theorem peek_uvarint (T : TypesPkg) (v : Nat) (h : isUint64 v) :
    peek T (uvarintFlag :: EncodeUvarint [] v)
      = (((uvarintFlag :: EncodeUvarint [] v).length : Int), none) := by
  apply peek_of_payload _ _ _ (peekPayload_uvarint T v h)
  have := (PutUvarint_length v).2
  simp only [List.length_cons, EncodeUvarint, List.nil_append]
  push_cast; omega

theorem peek_unsigned (T : TypesPkg) (v : Nat) (m : Bool) (h : isUint64 v) :
    peek T (encodeUnsignedInt [] v m) = (((encodeUnsignedInt [] v m).length : Int), none) := by
  cases m
  · rw [encodeUnsignedInt_value]; exact peek_uvarint T v h
  · rw [encodeUnsignedInt_key]; exact peek_uint T v

theorem peek_encodeBytes (T : TypesPkg) (data : List Nat) (m : Bool)
    (h : ((encodeBytes [] data m).length : Int) < 2 ^ 63) :
    peek T (encodeBytes [] data m) = (((encodeBytes [] data m).length : Int), none) := by
  cases m
  · rw [encodeBytes_value] at h ⊢
    simp only [List.nil_append] at h ⊢
    exact peek_of_payload _ _ _
      (peekPayload_compactBytes T data (by simp only [List.length_cons] at h; push_cast at h; omega)) h
  · rw [encodeBytes_key] at h ⊢
    simp only [List.nil_append] at h ⊢
    exact peek_of_payload _ _ _ (peekPayload_bytes T data) h

theorem EncodeMySQLTime_ok (T : TypesPkg) (loc : Location) (t : Time) (tp : Nat) (b : List Nat)
    (h : (EncodeMySQLTime T loc t tp b).2 = none) :
    ∃ p, (EncodeMySQLTime T loc t tp b).1 = EncodeUint b p := by
  unfold EncodeMySQLTime at h ⊢
  simp only at h ⊢
  split
  · rename_i hc; rw [hc] at h; simp at h
  · rename_i hc
    rw [hc] at h
    simp only at h
    split
    · rename_i hq; rw [hq] at h; simp at h
    · exact ⟨_, rfl⟩

/-! ## Lemmas on hash mode -/

theorem getD_map_zero (f : Nat → Nat) (hf : f 0 = 0) (l : List Nat) (i : Nat) :
    (l.map f).getD i 0 = f (l.getD i 0) := by
  induction l generalizing i with
  | nil => simp [hf]
  | cons x xs ih =>
    cases i with
    | zero => simp
    | succ i => simpa using ih i

theorem normalizeZero_idem (f : Nat) : normalizeZero (normalizeZero f) = normalizeZero f := by
  by_cases h : float64EqZero f = true
  · have e : normalizeZero f = 0 := by simp [normalizeZero, h]
    rw [e]; decide
  · have e : normalizeZero f = f := by simp [normalizeZero, h]
    rw [e, e]

theorem normalizeZero_float32 (f : Nat) :
    normalizeZero (float32ToFloat64 (if f = negZero32 then 0 else f))
      = normalizeZero (float32ToFloat64 f) := by
  split
  · rename_i h; subst h; decide
  · rfl

theorem hashLoop_congr (T : TypesPkg) (typeCtx : Nat) (c1 c2 : Column) (tp : FieldType)
    (sel : Option (List Bool)) (ignoreNull : Bool) (hn : c1.IsNull = c2.IsNull)
    (hc : ∀ i, hashColumnCell T typeCtx c1 tp i = hashColumnCell T typeCtx c2 tp i) :
    ∀ (rows : List Nat) (st : HashState),
      hashLoop T typeCtx c1 tp sel ignoreNull rows st
        = hashLoop T typeCtx c2 tp sel ignoreNull rows st := by
  intro rows
  induction rows with
  | nil => intro st; rfl
  | cons i rows ih =>
    intro st
    simp only [hashLoop, hn, hc, ih]

theorem serializeLoop_congr (T : TypesPkg) (typeCtx : Nat) (c1 c2 : Column) (tp : FieldType)
    (filterVector : Option (List Bool)) (mode : SerializeMode) (hn : c1.IsNull = c2.IsNull)
    (hc : ∀ i, serializeCell T typeCtx c1 tp mode i = serializeCell T typeCtx c2 tp mode i) :
    ∀ (usedRows : List Nat) (logical : Nat) (keys : List (List Nat))
      (nullVector : Option (List Bool)),
      serializeLoop T typeCtx c1 tp filterVector mode usedRows logical keys nullVector
        = serializeLoop T typeCtx c2 tp filterVector mode usedRows logical keys nullVector := by
  intro usedRows
  induction usedRows with
  | nil => intro _ _ _; rfl
  | cons i rows ih =>
    intro logical keys nullVector
    simp only [serializeLoop, canSkip, hn, hc, ih]

theorem hashColumnCell_double (T : TypesPkg) (typeCtx : Nat) (c : Column) (tp : FieldType)
    (i : Nat) (h : tp.tp = TypeDouble) :
    hashColumnCell T typeCtx c tp i
      = some (floatFlag, rawUint64 (normalizeZero (c.Float64s.getD i 0)), none) := by
  simp [hashColumnCell, h, isIntegerType, TypeDouble, TypeTiny, TypeShort, TypeInt24, TypeLong,
    TypeLonglong, TypeYear, TypeFloat]

theorem hashColumnCell_float (T : TypesPkg) (typeCtx : Nat) (c : Column) (tp : FieldType)
    (i : Nat) (h : tp.tp = TypeFloat) :
    hashColumnCell T typeCtx c tp i
      = some (floatFlag,
          rawUint64 (normalizeZero (float32ToFloat64 (c.Float32s.getD i 0))), none) := by
  simp [hashColumnCell, h, isIntegerType, TypeTiny, TypeShort, TypeInt24, TypeLong,
    TypeLonglong, TypeYear, TypeFloat]

theorem serializeCell_double (T : TypesPkg) (typeCtx : Nat) (c : Column) (tp : FieldType)
    (mode : SerializeMode) (i : Nat) (h : tp.tp = TypeDouble) :
    serializeCell T typeCtx c tp mode i
      = some (rawUint64 (normalizeZero (c.Float64s.getD i 0)), none) := by
  simp [serializeCell, h, isIntegerType, TypeDouble, TypeTiny, TypeShort, TypeInt24, TypeLong,
    TypeLonglong, TypeYear, TypeFloat]

theorem serializeCell_float (T : TypesPkg) (typeCtx : Nat) (c : Column) (tp : FieldType)
    (mode : SerializeMode) (i : Nat) (h : tp.tp = TypeFloat) :
    serializeCell T typeCtx c tp mode i
      = some (rawUint64 (normalizeZero (float32ToFloat64 (c.Float32s.getD i 0))), none) := by
  simp [serializeCell, h, isIntegerType, TypeTiny, TypeShort, TypeInt24, TypeLong,
    TypeLonglong, TypeYear, TypeFloat]

/-! ## Lemmas on sentinels and range decoding -/

theorem DecodeOne_not_sentinel (T : TypesPkg) (b : List Nat) :
    (DecodeOne T b).2.1.isSentinel = false := by
  cases b with
  | nil => rfl
  | cons flag b =>
    simp only [DecodeOne]
    by_cases h1 : flag = intFlag
    · rw [if_pos h1]; rfl
    rw [if_neg h1]
    by_cases h2 : flag = uintFlag
    · rw [if_pos h2]; rfl
    rw [if_neg h2]
    by_cases h3 : flag = varintFlag
    · rw [if_pos h3]; rfl
    rw [if_neg h3]
    by_cases h4 : flag = uvarintFlag
    · rw [if_pos h4]; rfl
    rw [if_neg h4]
    by_cases h5 : flag = floatFlag
    · rw [if_pos h5]; rfl
    rw [if_neg h5]
    by_cases h6 : flag = bytesFlag
    · rw [if_pos h6]; rfl
    rw [if_neg h6]
    by_cases h7 : flag = compactBytesFlag
    · rw [if_pos h7]; rfl
    rw [if_neg h7]
    by_cases h8 : flag = decimalFlag
    · rw [if_pos h8]
      cases h : (T.DecodeDecimal b).2.2.2.2 <;> simp only [h] <;> rfl
    rw [if_neg h8]
    by_cases h9 : flag = durationFlag
    · rw [if_pos h9]
      cases h : (DecodeInt b).2.2 <;> simp only [h] <;> rfl
    rw [if_neg h9]
    by_cases h10 : flag = jsonFlag
    · rw [if_pos h10]
      cases h : (T.PeekBytesAsJSON b).2
      · simp only [h]
        cases b with
        | nil => rfl
        | cons tc b =>
          simp only []
          by_cases hc : (T.PeekBytesAsJSON (tc :: b)).1 < 1 ∨
              (((tc :: b).length : Nat) : Int) < (T.PeekBytesAsJSON (tc :: b)).1
          · rw [if_pos hc]; rfl
          · rw [if_neg hc]; rfl
      · simp only [h]; rfl
    rw [if_neg h10]
    by_cases h11 : flag = vectorFloat32Flag
    · rw [if_pos h11]
      cases h : (T.ZeroCopyDeserializeVectorFloat32 b).2.2 <;> simp only [h] <;> rfl
    rw [if_neg h11]
    by_cases h12 : flag = NilFlag
    · rw [if_pos h12]; rfl
    rw [if_neg h12]; rfl

theorem decodeLoop_not_sentinel (T : TypesPkg) :
    ∀ (fuel : Nat) (b : List Nat) (vals : List Datum),
      (∀ d ∈ vals, d.isSentinel = false) →
      ∀ d ∈ (decodeLoop T fuel b vals).1, d.isSentinel = false := by
  intro fuel
  induction fuel with
  | zero =>
    intro b vals hv
    cases b <;> simp [decodeLoop]
    exact hv
  | succ k ih =>
    intro b vals hv
    cases b with
    | nil => simpa [decodeLoop] using hv
    | cons b0 b =>
      simp only [decodeLoop]
      split
      · simp
      · apply ih
        intro d hd
        rcases List.mem_append.1 hd with h | h
        · exact hv d h
        · rw [List.mem_singleton.1 h]
          exact DecodeOne_not_sentinel T (b0 :: b)

theorem rangeLoop_not_sentinel (T : TypesPkg) (loc : Location) :
    ∀ (fuel : Nat) (b : List Nat) (vals : List Datum) (i : Nat),
      (∀ d ∈ vals, d.isSentinel = false) →
      ∀ d ∈ (rangeLoop T none loc fuel b vals i).1, d.isSentinel = false := by
  intro fuel
  induction fuel with
  | zero =>
    intro b vals i hv
    match b with
    | [] => simpa [rangeLoop] using hv
    | [x] => simpa [rangeLoop] using hv
    | x :: y :: b => simpa [rangeLoop] using hv
  | succ k ih =>
    intro b vals i hv
    match b with
    | [] => simpa [rangeLoop] using hv
    | [x] => simpa [rangeLoop] using hv
    | x :: y :: b =>
      simp only [rangeLoop, decodeRangeElement]
      split
      · simpa using hv
      · simpa using hv
      · rename_i b1 d heq
        apply ih
        intro d1 hd
        rcases List.mem_append.1 hd with h | h
        · exact hv d1 h
        · rw [List.mem_singleton.1 h]
          have h1 := DecodeOne_not_sentinel T (x :: y :: b)
          simp only [Option.some.injEq] at heq
          rw [heq] at h1
          exact h1

theorem DecodeRange_values (T : TypesPkg) (tps : Option (List Nat)) (loc : Location)
    (b : List Nat) (n : Nat) :
    (DecodeRange T b n tps loc).1 = [] ∨
    (DecodeRange T b n tps loc).1 = (rangeLoop T tps loc b.length b [] 0).1 ∨
    ∃ x s, (rangeLoop T tps loc b.length b [] 0).2.1 = [x] ∧
      (DecodeRange T b n tps loc).1 = (rangeLoop T tps loc b.length b [] 0).1 ++ [s] ∧
      ((x = NilFlag ∧ s = .null) ∨ (x = bytesFlag ∧ s = .minNotNull) ∨
        ((x = maxFlag ∨ x = maxFlag + 1) ∧ s = .maxValue)) := by
  unfold DecodeRange
  by_cases hlen : b.length < 1
  · rw [if_pos hlen]; exact Or.inl rfl
  rw [if_neg hlen]
  generalize rangeLoop T tps loc b.length b [] 0 = r
  obtain ⟨vals, rem, err⟩ := r
  cases err with
  | some e => exact Or.inr (Or.inl rfl)
  | none =>
    match rem with
    | [] => exact Or.inr (Or.inl rfl)
    | _ :: _ :: _ => exact Or.inr (Or.inl rfl)
    | [x] =>
      simp only []
      by_cases h1 : x = NilFlag
      · rw [if_pos h1]
        exact Or.inr (Or.inr ⟨x, .null, rfl, rfl, Or.inl ⟨h1, rfl⟩⟩)
      rw [if_neg h1]
      by_cases h2 : x = bytesFlag
      · rw [if_pos h2]
        exact Or.inr (Or.inr ⟨x, .minNotNull, rfl, rfl, Or.inr (Or.inl ⟨h2, rfl⟩)⟩)
      rw [if_neg h2]
      by_cases h3 : x = maxFlag ∨ x = maxFlag + 1
      · rw [if_pos h3]
        exact Or.inr (Or.inr ⟨x, .maxValue, rfl, rfl, Or.inr (Or.inr ⟨h3, rfl⟩)⟩)
      rw [if_neg h3]
      exact Or.inr (Or.inl rfl)

theorem hashChunkRowLoop_of_equal (T : TypesPkg) (typeCtx : Nat) (row1 row2 : Row) :
    ∀ (colIdx1 : List Int) (allTypes1 allTypes2 : List FieldType) (colIdx2 : List Int)
      (w buf : List Nat), colIdx1.length = colIdx2.length →
      equalChunkRowLoop T typeCtx row1 row2 allTypes1 colIdx1 allTypes2 colIdx2 = (true, none) →
      hashChunkRowLoop T typeCtx row1 allTypes1 colIdx1 w buf =
        hashChunkRowLoop T typeCtx row2 allTypes2 colIdx2 w buf ∧
      (buf ≠ [] → (hashChunkRowLoop T typeCtx row1 allTypes1 colIdx1 w buf).2.2 = none) := by
  intro colIdx1
  induction colIdx1 with
  | nil =>
    intro allTypes1 allTypes2 colIdx2 w buf hlen _
    have h2 : colIdx2 = [] := List.length_eq_zero.1 (by simpa using hlen.symm)
    subst h2
    cases allTypes1 <;> cases allTypes2 <;> simp [hashChunkRowLoop]
  | cons idx1 colIdx1 ih =>
    intro allTypes1 allTypes2 colIdx2 w buf hlen heq
    cases colIdx2 with
    | nil => simp at hlen
    | cons idx2 colIdx2 =>
      cases allTypes1 with
      | nil => simp [equalChunkRowLoop] at heq
      | cons tp1 allTypes1 =>
        cases allTypes2 with
        | nil => simp [equalChunkRowLoop] at heq
        | cons tp2 allTypes2 =>
          simp only [equalChunkRowLoop] at heq
          cases h1 : (encodeHashChunkRowIdx T typeCtx row1 tp1 idx1).2.2 with
          | some e => simp [h1] at heq
          | none =>
            cases h2 : (encodeHashChunkRowIdx T typeCtx row2 tp2 idx2).2.2 with
            | some e => simp [h1, h2] at heq
            | none =>
              simp only [h1, h2] at heq
              split at heq
              · simp at heq
              · rename_i hne
                simp only [Bool.not_eq_true, Bool.not_eq_false_eq_eq_true, Bool.and_eq_true,
                  beq_iff_eq, Bool.not_eq_eq_eq_not, Bool.not_true, Bool.and_eq_false_imp,
                  not_forall, Classical.not_imp, Bool.not_eq_false] at hne
                obtain ⟨hf, hb⟩ := hne
                by_cases hbuf : buf = []
                · subst hbuf
                  simp [hashChunkRowLoop]
                · have hset : buf.set 0 (encodeHashChunkRowIdx T typeCtx row2 tp2 idx2).1 ≠ [] := by
                    intro h0
                    have := congrArg List.length h0
                    simp only [List.length_set, List.length_nil, List.length_eq_zero] at this
                    exact hbuf this
                  have hrec := ih allTypes1 allTypes2 colIdx2
                    (w ++ buf.set 0 (encodeHashChunkRowIdx T typeCtx row2 tp2 idx2).1 ++
                      (encodeHashChunkRowIdx T typeCtx row2 tp2 idx2).2.1)
                    (buf.set 0 (encodeHashChunkRowIdx T typeCtx row2 tp2 idx2).1)
                    (by simpa using hlen) heq
                  simp only [hashChunkRowLoop, if_neg hbuf, h1, h2, hf, hb]
                  exact ⟨hrec.1, fun _ => hrec.2 hset⟩

theorem EncodeVarint_inj (v1 v2 : Int) (h1 : isInt64 v1) (h2 : isInt64 v2)
    (h : EncodeVarint [] v1 = EncodeVarint [] v2) : v1 = v2 := by
  have e1 := DecodeVarint_EncodeVarint v1 h1 []
  have e2 := DecodeVarint_EncodeVarint v2 h2 []
  rw [h, e2] at e1
  simpa using e1.symm

theorem EncodeUvarint_inj (v1 v2 : Nat) (h1 : isUint64 v1) (h2 : isUint64 v2)
    (h : EncodeUvarint [] v1 = EncodeUvarint [] v2) : v1 = v2 := by
  have e1 := DecodeUvarint_EncodeUvarint v1 h1 []
  have e2 := DecodeUvarint_EncodeUvarint v2 h2 []
  rw [h, e2] at e1
  simpa using e1.symm

theorem EncodeFloat_inj (f1 f2 : Nat) (h1 : isUint64 f1) (n1 : float64IsNaN f1 = false)
    (z1 : f1 ≠ negZero64) (h2 : isUint64 f2) (n2 : float64IsNaN f2 = false)
    (z2 : f2 ≠ negZero64) (h : EncodeFloat [] f1 = EncodeFloat [] f2) : f1 = f2 := by
  have e1 := DecodeFloat_EncodeFloat f1 h1 n1 z1 []
  have e2 := DecodeFloat_EncodeFloat f2 h2 n2 z2 []
  rw [h, e2] at e1
  simpa using e1.symm

theorem EncodeCompactBytes_inj (b1 b2 : List Nat) (h1 : (b1.length : Int) < 2 ^ 63)
    (h2 : (b2.length : Int) < 2 ^ 63)
    (h : EncodeCompactBytes [] b1 = EncodeCompactBytes [] b2) : b1 = b2 := by
  have e1 := DecodeCompactBytes_EncodeCompactBytes b1 [] h1
  have e2 := DecodeCompactBytes_EncodeCompactBytes b2 [] h2
  rw [h, e2] at e1
  simpa using e1.symm

theorem EncodeFloat_five (f : Nat) : EncodeFloat [5] f = 5 :: EncodeFloat [] f := by
  simp [EncodeFloat, EncodeUint]

theorem HashCode_separates (T : TypesPkg) (d1 d2 : Datum) (h1 : d1.hashSeparated)
    (h2 : d2.hashSeparated) (h : HashCode T [] d1 = HashCode T [] d2) : d1 = d2 := by
  cases d1 <;> simp only [Datum.hashSeparated] at h1 <;>
    cases d2 <;> simp only [Datum.hashSeparated] at h2 <;>
    simp only [HashCode, encodeSignedInt_value, encodeUnsignedInt_value, encodeBytes_value,
      List.nil_append, List.cons_append, NilFlag, bytesFlag, maxFlag, jsonFlag, varintFlag,
      uvarintFlag, floatFlag, compactBytesFlag, EncodeFloat_five, List.cons.injEq] at h <;>
    first
    | rfl
    | (exact absurd h.1 (by decide))
    | skip
  · rw [EncodeVarint_inj _ _ h1 h2 h.2]
  · rw [EncodeUvarint_inj _ _ h1 h2 h.2]
  · rw [EncodeFloat_inj _ _ h1.1 h1.2.1 h1.2.2 h2.1 h2.2.1 h2.2.2 h.2]
  · rw [EncodeCompactBytes_inj _ _ h1 h2 h.2]
  · rename_i j1 j2
    cases j1; cases j2
    simp only [true_and] at h
    simp only [Datum.mysqlJSON.injEq, BinaryJSON.mk.injEq]
    exact h

theorem HashCode_nonempty (T : TypesPkg) (d : Datum) (h : d.supported = true) :
    HashCode T [] d ≠ [] := by
  cases d <;> simp only [Datum.supported] at h <;>
    simp [HashCode, encodeSignedInt_value, encodeUnsignedInt_value, encodeBytes_value,
      encodeBytes_key, encodeUnsignedInt_key, encodeString, EncodeFloat_five, floatFlag,
      EncodeInt_eq [durationFlag]]
  all_goals cases h

theorem inKeyMode_cons (d : Datum) (vs : List Datum) :
    inKeyMode (d :: vs) = (d, true) :: inKeyMode vs := rfl

theorem encodeLoop_integers_append (T : TypesPkg) (loc : Location) :
    ∀ (vs rest : List Datum) (b : List Nat) (err : Option CodecError),
      (∀ d ∈ vs, d.isInteger) →
      encodeLoop T loc true (vs ++ rest) b err =
        encodeLoop T loc true rest (b ++ concatEncodings T loc (inKeyMode vs)) err := by
  intro vs
  induction vs with
  | nil => intro rest b err _; simp [inKeyMode, concatEncodings]
  | cons d vs ih =>
    intro rest b err hd
    have hvs : ∀ d ∈ vs, d.isInteger := fun x hx => hd x (List.mem_cons_of_mem _ hx)
    have h0 := hd d (List.mem_cons_self _ _)
    cases d <;> simp only [Datum.isInteger] at h0
    · rename_i v
      rw [inKeyMode_cons]
      simp only [List.cons_append, encodeLoop, concatEncodings, encode, List.append_eq]
      rw [ih rest _ err hvs, encodeSignedInt_key b, encodeSignedInt_key []]
      simp
    · rename_i v
      rw [inKeyMode_cons]
      simp only [List.cons_append, encodeLoop, concatEncodings, encode, List.append_eq]
      rw [ih rest _ err hvs, encodeUnsignedInt_key b, encodeUnsignedInt_key []]
      simp

theorem rangeLoop_single (T : TypesPkg) (tps : Option (List Nat)) (loc : Location)
    (fuel x : Nat) (vals : List Datum) (i : Nat) :
    rangeLoop T tps loc fuel [x] vals i = (vals, [x], none) := by
  cases fuel <;> simp [rangeLoop]

theorem rangeLoop_step (T : TypesPkg) (loc : Location) (k b0 : Nat) (l r : List Nat)
    (d : Datum) (vals : List Datum) (i : Nat) (hl : l ≠ [])
    (h : DecodeOne T (b0 :: l) = (r, d, none)) :
    rangeLoop T none loc (k + 1) (b0 :: l) vals i = rangeLoop T none loc k r (vals ++ [d]) (i + 1) := by
  cases l with
  | nil => exact absurd rfl hl
  | cons y l => simp [rangeLoop, decodeRangeElement, h]

theorem rangeLoop_concatEncodings (T : TypesPkg) (loc : Location) (x : Nat) :
    ∀ (vs : List Datum) (fuel : Nat) (vals : List Datum) (i : Nat),
      (∀ d ∈ vs, d.isInteger) → (concatEncodings T loc (inKeyMode vs)).length ≤ fuel →
      rangeLoop T none loc fuel (concatEncodings T loc (inKeyMode vs) ++ [x]) vals i =
        (vals ++ vs, [x], none) := by
  intro vs
  induction vs with
  | nil => intro fuel vals i _ _; simp [inKeyMode, concatEncodings, rangeLoop_single]
  | cons d vs ih =>
    intro fuel vals i hd hf
    have hvs : ∀ d ∈ vs, d.isInteger := fun x hx => hd x (List.mem_cons_of_mem _ hx)
    obtain ⟨b0, b, he, hdec⟩ := DecodeOne_integer T loc d true (hd d (List.mem_cons_self _ _))
      (concatEncodings T loc (inKeyMode vs) ++ [x])
    rw [inKeyMode_cons] at hf ⊢
    simp only [concatEncodings, he, List.cons_append, List.length_cons,
      List.length_append] at hf ⊢
    obtain ⟨k, rfl⟩ : ∃ k, fuel = k + 1 := ⟨fuel - 1, by omega⟩
    rw [List.append_assoc, rangeLoop_step T loc k b0 _ _ d vals i (by simp) hdec,
      ih k (vals ++ [d]) (i + 1) hvs (by omega)]
    simp

theorem DecodeRange_concatEncodings (T : TypesPkg) (loc : Location) (vs : List Datum)
    (x n : Nat) (hvs : ∀ d ∈ vs, d.isInteger) :
    DecodeRange T (concatEncodings T loc (inKeyMode vs) ++ [x]) n none loc =
      if x = NilFlag then (vs ++ [.null], [], none)
      else if x = bytesFlag then (vs ++ [.minNotNull], [], none)
      else if x = maxFlag ∨ x = maxFlag + 1 then (vs ++ [.maxValue], [], none)
      else (vs, [x], some (.invalidFlag x)) := by
  have hlen : ¬ ((concatEncodings T loc (inKeyMode vs) ++ [x]).length < 1) := by simp
  unfold DecodeRange
  rw [if_neg hlen, rangeLoop_concatEncodings T loc x vs _ [] 0 hvs (by simp)]
  simp

theorem EncodeKey_integers_append (T : TypesPkg) (loc : Location) (vs rest : List Datum)
    (hvs : ∀ d ∈ vs, d.isInteger) :
    EncodeKey T loc [] (vs ++ rest) =
      encodeLoop T loc true rest (concatEncodings T loc (inKeyMode vs)) none := by
  simp [EncodeKey, encode, encodeLoop_integers_append T loc vs rest [] none hvs]

/-! ## Lemmas on sizes -/

theorem encodeBytesGroups_ne_nil (data : List Nat) : encodeBytesGroups data ≠ [] := by
  unfold encodeBytesGroups
  split <;> simp

theorem valueSizeLoop_fuel : ∀ (fuel v : Nat) (size : Int), v < 2 ^ (7 * fuel) →
    valueSizeLoop (fuel + 1) v size = valueSizeLoop fuel v size := by
  intro fuel
  induction fuel with
  | zero =>
    intro v size h
    have : v = 0 := by simpa using h
    subst this
    simp [valueSizeLoop]
  | succ fuel ih =>
    intro v size h
    have h7 : v >>> 7 < 2 ^ (7 * fuel) := by
      rw [Nat.shiftRight_eq_div_pow]
      apply Nat.div_lt_of_lt_mul
      have e : 2 ^ (7 * (fuel + 1)) = 2 ^ 7 * 2 ^ (7 * fuel) := by
        rw [← Nat.pow_add]; congr 1; omega
      omega
    rw [valueSizeLoop]
    conv_rhs => rw [valueSizeLoop]
    rw [ih _ _ h7]

theorem valueSizeLoop_putUvarintAux : ∀ (fuel x : Nat) (size : Int),
    valueSizeLoop fuel (x >>> 7) size = size + ((putUvarintAux fuel x).length : Int) - 1 := by
  intro fuel
  induction fuel with
  | zero => intro x size; simp [valueSizeLoop, putUvarintAux]
  | succ fuel ih =>
    intro x size
    rw [valueSizeLoop, putUvarintAux]
    by_cases h : x ≥ 0x80
    · have h7 : x >>> 7 > 0 := by rw [Nat.shiftRight_eq_div_pow]; omega
      rw [if_pos h7, if_pos h, ih, List.length_cons]
      push_cast; omega
    · have h7 : ¬ x >>> 7 > 0 := by rw [Nat.shiftRight_eq_div_pow]; omega
      rw [if_neg h7, if_neg h]
      simp

theorem valueSizeOfUnsignedInt_eq (u : Nat) (h : u < 2 ^ 64) :
    valueSizeOfUnsignedInt u = 1 + ((PutUvarint u).length : Int) := by
  unfold valueSizeOfUnsignedInt PutUvarint
  have h7 : u >>> 7 < 2 ^ (7 * 9) := by rw [Nat.shiftRight_eq_div_pow]; omega
  rw [valueSizeLoop_fuel 9 _ _ h7, valueSizeLoop_putUvarintAux]
  omega

theorem valueSizeOfSignedInt_eq (v : Int) (h : isInt64 v) :
    valueSizeOfSignedInt v = 1 + ((PutVarint v).length : Int) := by
  obtain ⟨h1, h2⟩ := h
  unfold valueSizeOfSignedInt PutVarint PutUvarint
  simp only
  have key : ∀ (a ux : Nat), a < 2 ^ 63 → ux >>> 7 = a >>> 6 →
      valueSizeLoop 10 (a >>> 6) 2 = 1 + ((putUvarintAux 9 ux).length : Int) := by
    intro a ux ha e
    have h7 : a >>> 6 < 2 ^ (7 * 9) := by rw [Nat.shiftRight_eq_div_pow]; omega
    rw [valueSizeLoop_fuel 9 _ _ h7, ← e, valueSizeLoop_putUvarintAux]
    omega
  by_cases hv : v < 0
  · rw [if_pos hv, if_pos hv]
    have hw : wrapInt64 (0 - v - 1) = 0 - v - 1 := wrapInt64_of_isInt64 _ ⟨by omega, by omega⟩
    rw [hw]
    apply key
    · omega
    · simp only [Nat.shiftLeft_eq, Nat.shiftRight_eq_div_pow, toUint64]
      omega
  · rw [if_neg hv, if_neg hv]
    apply key
    · omega
    · simp only [Nat.shiftLeft_eq, Nat.shiftRight_eq_div_pow, toUint64]
      omega

theorem EncodeKey_head (T : TypesPkg) (loc : Location) (d : Datum) (hs : d.supported = true)
    (hnull : d ≠ .null) (hmin : d ≠ .minNotNull) (hmax : d ≠ .maxValue)
    (hok : (EncodeKey T loc [] [d]).2 = none) :
    ∃ flag tail, (EncodeKey T loc [] [d]).1 = flag :: tail ∧ 1 ≤ flag ∧ flag < 250 ∧
      (flag = 1 → tail ≠ []) := by
  cases d with
  | null => exact absurd rfl hnull
  | minNotNull => exact absurd rfl hmin
  | maxValue => exact absurd rfl hmax
  | iface x => simp [Datum.supported] at hs
  | raw x => simp [Datum.supported] at hs
  | int64 v =>
    exact ⟨intFlag, EncodeInt [] v, by simp [EncodeKey, encode, encodeLoop, encodeSignedInt_key],
      by decide, by decide, fun h => absurd h (by decide)⟩
  | uint64 v =>
    exact ⟨uintFlag, EncodeUint [] v,
      by simp [EncodeKey, encode, encodeLoop, encodeUnsignedInt_key], by decide, by decide,
      fun h => absurd h (by decide)⟩
  | float32 f =>
    exact ⟨floatFlag, EncodeFloat [] f,
      by simp [EncodeKey, encode, encodeLoop, EncodeFloat, EncodeUint],
      by decide, by decide, fun h => absurd h (by decide)⟩
  | float64 f =>
    exact ⟨floatFlag, EncodeFloat [] f,
      by simp [EncodeKey, encode, encodeLoop, EncodeFloat, EncodeUint],
      by decide, by decide, fun h => absurd h (by decide)⟩
  | string s c =>
    refine ⟨bytesFlag, encodeBytesGroups (if T.NewCollationEnabled then T.collatorKey c s else s),
      ?_, by decide, by decide, fun _ => encodeBytesGroups_ne_nil _⟩
    cases hc : T.NewCollationEnabled <;>
      simp [EncodeKey, encode, encodeLoop, encodeString, hc, encodeBytes, EncodeBytes]
  | bytes v =>
    exact ⟨bytesFlag, encodeBytesGroups v,
      by simp [EncodeKey, encode, encodeLoop, encodeBytes, EncodeBytes], by decide, by decide,
      fun _ => encodeBytesGroups_ne_nil _⟩
  | binaryLiteral lit =>
    exact ⟨uintFlag, EncodeUint [] (T.ToInt StrictContext lit).1,
      by simp [EncodeKey, encode, encodeLoop, encodeUnsignedInt_key], by decide, by decide,
      fun h => absurd h (by decide)⟩
  | mysqlBit lit =>
    exact ⟨uintFlag, EncodeUint [] (T.ToInt StrictContext lit).1,
      by simp [EncodeKey, encode, encodeLoop, encodeUnsignedInt_key], by decide, by decide,
      fun h => absurd h (by decide)⟩
  | mysqlDecimal dec length frac =>
    exact ⟨decimalFlag, (T.EncodeDecimal dec length frac).1,
      by simp [EncodeKey, encode, encodeLoop], by decide, by decide, fun h => absurd h (by decide)⟩
  | mysqlDuration dur =>
    exact ⟨durationFlag, EncodeInt [] dur.duration,
      by simp [EncodeKey, encode, encodeLoop, EncodeInt],
      by decide, by decide, fun h => absurd h (by decide)⟩
  | mysqlEnum e =>
    exact ⟨uintFlag, EncodeUint [] e.value,
      by simp [EncodeKey, encode, encodeLoop, encodeUnsignedInt_key], by decide, by decide,
      fun h => absurd h (by decide)⟩
  | mysqlSet s =>
    exact ⟨uintFlag, EncodeUint [] s.value,
      by simp [EncodeKey, encode, encodeLoop, encodeUnsignedInt_key], by decide, by decide,
      fun h => absurd h (by decide)⟩
  | mysqlJSON j =>
    exact ⟨jsonFlag, j.typeCode :: j.value, by simp [EncodeKey, encode, encodeLoop],
      by decide, by decide, fun h => absurd h (by decide)⟩
  | vectorFloat32 v =>
    exact ⟨vectorFloat32Flag, T.SerializeTo v, by simp [EncodeKey, encode, encodeLoop],
      by decide, by decide, fun h => absurd h (by decide)⟩
  | mysqlTime t =>
    have e0 : ([] : List Nat) ++ [uintFlag] = [uintFlag] := rfl
    simp only [EncodeKey, encode, encodeLoop, e0] at hok ⊢
    cases he : (EncodeMySQLTime T loc t TypeUnspecified [uintFlag]).2 with
    | some e => rw [he] at hok; simp at hok
    | none =>
      obtain ⟨p, hp⟩ := EncodeMySQLTime_ok T loc t TypeUnspecified [uintFlag] he
      refine ⟨uintFlag, EncodeUint [] p, ?_, by decide, by decide,
        fun h => absurd h (by decide)⟩
      simp [hp, EncodeUint]

/-! ## Lemmas on `peek` against `DecodeOne`, and on `SetRawValues` -/

theorem uvarintAux_le : ∀ (buf : List Nat) (i x s : Nat),
    (uvarintAux buf i x s).2 ≤ (i : Int) + (buf.length : Int) := by
  intro buf
  induction buf with
  | nil => intro i x s; simp [uvarintAux]
  | cons b rest ih =>
    intro i x s
    rw [uvarintAux]
    split_ifs
    · simp only [List.length_cons]; push_cast; omega
    · simp only [List.length_cons]; push_cast; omega
    · simp only [List.length_cons]; push_cast; omega
    · have := ih (i + 1) (x ||| (((b &&& 0x7f) <<< s) % 2 ^ 64)) (s + 7)
      simp only [List.length_cons]; push_cast at this ⊢; omega

theorem Uvarint_le (b : List Nat) : (Uvarint b).2 ≤ (b.length : Int) := by
  have := uvarintAux_le b 0 0 0
  simpa [Uvarint] using this

theorem Varint_le (b : List Nat) : (Varint b).2 ≤ (b.length : Int) := Uvarint_le b

theorem DecodeInt_ok (b : List Nat) (h : (DecodeInt b).2.2 = none) :
    8 ≤ b.length ∧ (DecodeInt b).1 = b.drop 8 := by
  unfold DecodeInt at h ⊢
  by_cases hl : b.length < 8
  · rw [if_pos hl] at h; simp at h
  · rw [if_neg hl]; exact ⟨by omega, rfl⟩

theorem DecodeUint_ok (b : List Nat) (h : (DecodeUint b).2.2 = none) :
    8 ≤ b.length ∧ (DecodeUint b).1 = b.drop 8 := by
  unfold DecodeUint at h ⊢
  by_cases hl : b.length < 8
  · rw [if_pos hl] at h; simp at h
  · rw [if_neg hl]; exact ⟨by omega, rfl⟩

theorem DecodeFloat_ok (b : List Nat) (h : (DecodeFloat b).2.2 = none) :
    8 ≤ b.length ∧ (DecodeFloat b).1 = b.drop 8 := by
  unfold DecodeFloat at h ⊢
  cases hu : (DecodeUint b).2.2 with
  | some e => simp [hu] at h
  | none => simpa [hu] using DecodeUint_ok b hu

theorem DecodeVarint_ok (b : List Nat) (h : (DecodeVarint b).2.2 = none) :
    ∃ n : Nat, 0 < n ∧ n ≤ b.length ∧ (Varint b).2 = (n : Int) ∧
      (DecodeVarint b).1 = b.drop n ∧ (DecodeVarint b).2.1 = (Varint b).1 := by
  have hle := Varint_le b
  unfold DecodeVarint at h ⊢
  simp only at h ⊢
  by_cases hp : (Varint b).2 > 0
  · rw [if_pos hp]
    refine ⟨(Varint b).2.toNat, by omega, by omega, by omega, rfl, rfl⟩
  · rw [if_neg hp] at h
    split_ifs at h

theorem DecodeUvarint_ok (b : List Nat) (h : (DecodeUvarint b).2.2 = none) :
    ∃ n : Nat, 0 < n ∧ n ≤ b.length ∧ (Uvarint b).2 = (n : Int) ∧
      (DecodeUvarint b).1 = b.drop n := by
  have hle := Uvarint_le b
  unfold DecodeUvarint at h ⊢
  simp only at h ⊢
  by_cases hp : (Uvarint b).2 > 0
  · rw [if_pos hp]
    refine ⟨(Uvarint b).2.toNat, by omega, by omega, by omega, rfl⟩
  · rw [if_neg hp] at h
    split_ifs at h

theorem DecodeBytes_ok : ∀ (b : List Nat), (DecodeBytes b).2.2 = none →
    ∃ n : Nat, n ≤ b.length ∧ (DecodeBytes b).1 = b.drop n ∧
      ∀ offset : Int, peekBytesLoop b offset = (offset + (n : Int), none)
  | [], h => by simp [DecodeBytes] at h
  | [_], h => by simp [DecodeBytes] at h
  | [_, _], h => by simp [DecodeBytes] at h
  | [_, _, _], h => by simp [DecodeBytes] at h
  | [_, _, _, _], h => by simp [DecodeBytes] at h
  | [_, _, _, _, _], h => by simp [DecodeBytes] at h
  | [_, _, _, _, _, _], h => by simp [DecodeBytes] at h
  | [_, _, _, _, _, _, _], h => by simp [DecodeBytes] at h
  | [_, _, _, _, _, _, _, _], h => by simp [DecodeBytes] at h
  | b0 :: b1 :: b2 :: b3 :: b4 :: b5 :: b6 :: b7 :: marker :: rest, h => by
    rw [DecodeBytes] at h ⊢
    simp only at h ⊢
    by_cases hp : (encMarker + 256 - marker % 256) % 256 = 0
    · have hg : ¬ (encMarker + 256 - marker % 256) % 256 > encGroupSize := by
        rw [hp]; decide
      have hn : ¬ (encMarker + 256 - marker % 256) % 256 ≠ 0 := by simp [hp]
      rw [if_neg hg, if_neg hn] at h ⊢
      cases hr : (DecodeBytes rest).2.2 with
      | some e => rw [hr] at h; simp at h
      | none =>
        obtain ⟨n, hn1, hn2, hn3⟩ := DecodeBytes_ok rest hr
        refine ⟨n + 9, by simp only [List.length_cons]; omega, ?_, ?_⟩
        · simp only [hn2]
          rfl
        · intro offset
          rw [peekBytesLoop, if_neg hn, hn3]
          simp only [encGroupSize]
          push_cast
          congr 1
          omega
    · by_cases hg : (encMarker + 256 - marker % 256) % 256 > encGroupSize
      · rw [if_pos hg] at h; simp at h
      · have hn : (encMarker + 256 - marker % 256) % 256 ≠ 0 := hp
        rw [if_neg hg, if_pos hn] at h ⊢
        split_ifs at h ⊢ with ha
        · refine ⟨9, by simp only [List.length_cons]; omega, rfl, ?_⟩
          intro offset
          rw [peekBytesLoop, if_pos hn]
          rfl

theorem DecodeCompactBytes_ok (b : List Nat) (hb : (b.length : Int) < 2 ^ 63)
    (h : (DecodeCompactBytes b).2.2 = none) :
    ∃ l : Nat, l ≤ b.length ∧ (DecodeCompactBytes b).1 = b.drop l ∧
      peekCompactBytes b = ((l : Int), none) := by
  unfold DecodeCompactBytes at h ⊢
  simp only at h ⊢
  cases hv : (DecodeVarint b).2.2 with
  | some e => rw [hv] at h; simp at h
  | none =>
    obtain ⟨n, hn0, hn1, hn2, hn3, hn4⟩ := DecodeVarint_ok b hv
    rw [hv] at h
    simp only at h ⊢
    by_cases h1 : ((DecodeVarint b).1.length : Int) < (DecodeVarint b).2.1
    · rw [if_pos h1] at h; simp at h
    · rw [if_neg h1] at h ⊢
      by_cases h2 : (DecodeVarint b).2.1 < 0
      · rw [if_pos h2] at h; simp at h
      · rw [if_neg h2]
        rw [hn3, List.length_drop, hn4] at h1
        rw [hn4] at h2
        have hsub : ((b.length - n : Nat) : Int) = (b.length : Int) - (n : Int) := by omega
        rw [hsub] at h1
        refine ⟨n + (Varint b).1.toNat, by omega, ?_, ?_⟩
        · simp only [hn3, hn4, List.drop_drop]
        · unfold peekCompactBytes
          simp only [hn2]
          have w1 : wrapInt64 ((Varint b).1 + (n : Int)) = (Varint b).1 + (n : Int) :=
            wrapInt64_of_isInt64 _ ⟨by omega, by omega⟩
          have w2 : wrapInt64 ((n : Int) + (Varint b).1) = (n : Int) + (Varint b).1 :=
            wrapInt64_of_isInt64 _ ⟨by omega, by omega⟩
          have c1 : ¬ ((n : Int) < 0) := by omega
          have c2 : ¬ ((n : Int) = 0) := by omega
          have c3 : ¬ ((b.length : Int) < (Varint b).1 + (n : Int)) := by omega
          rw [if_neg c1, if_neg c2, w1, if_neg c3, w2]
          congr 1
          push_cast
          omega

theorem peek_of_payload_le (T : TypesPkg) (flag : Nat) (b : List Nat) (l : Nat)
    (hl : l ≤ b.length) (h : peekPayload T flag b = some ((l : Int), none))
    (hb : ((flag :: b).length : Int) < 2 ^ 63) :
    peek T (flag :: b) = ((l : Int) + 1, none) := by
  simp only [List.length_cons] at hb
  push_cast at hb
  have hw : wrapInt64 (1 + (l : Int)) = 1 + (l : Int) :=
    wrapInt64_of_isInt64 _ ⟨by omega, by omega⟩
  have h1 : ¬ (1 + (l : Int) ≤ 0) := by omega
  have h2 : ¬ (1 + (l : Int) > ((b.length + 1 : Nat) : Int)) := by push_cast; omega
  simp only [peek, h, hw, if_neg h1, List.length_cons, if_neg h2]
  congr 1
  omega

/-- On the tags without a payload decoder of package `types`, a successful `DecodeOne`
and `peekPayload` agree on the length of the payload. -/
theorem peekPayload_of_DecodeOne (T : TypesPkg) (flag : Nat) (b : List Nat)
    (hflag : flag ∈ [NilFlag, intFlag, uintFlag, floatFlag, durationFlag, varintFlag,
      uvarintFlag, bytesFlag, compactBytesFlag])
    (hb : (b.length : Int) < 2 ^ 63) (hok : (DecodeOne T (flag :: b)).2.2 = none) :
    ∃ l : Nat, l ≤ b.length ∧ peekPayload T flag b = some ((l : Int), none) ∧
      (DecodeOne T (flag :: b)).1 = b.drop l := by
  simp only [List.mem_cons, List.mem_singleton, List.not_mem_nil, or_false] at hflag
  rcases hflag with rfl | rfl | rfl | rfl | rfl | rfl | rfl | rfl | rfl
  · exact ⟨0, by omega, by simp [peekPayload], by simp [DecodeOne, NilFlag, intFlag, uintFlag,
      varintFlag, uvarintFlag, floatFlag, bytesFlag, compactBytesFlag, decimalFlag,
      durationFlag, jsonFlag, vectorFloat32Flag]⟩
  · have h : (DecodeInt b).2.2 = none := by simpa [DecodeOne] using hok
    obtain ⟨h8, hr⟩ := DecodeInt_ok b h
    exact ⟨8, h8, by simp [peekPayload, NilFlag, intFlag], by simp [DecodeOne, hr]⟩
  · have h : (DecodeUint b).2.2 = none := by simpa [DecodeOne, intFlag, uintFlag] using hok
    obtain ⟨h8, hr⟩ := DecodeUint_ok b h
    exact ⟨8, h8, by simp [peekPayload, NilFlag, intFlag, uintFlag],
      by simp [DecodeOne, intFlag, uintFlag, hr]⟩
  · have h : (DecodeFloat b).2.2 = none := by
      simpa [DecodeOne, intFlag, uintFlag, varintFlag, uvarintFlag, floatFlag] using hok
    obtain ⟨h8, hr⟩ := DecodeFloat_ok b h
    exact ⟨8, h8, by simp [peekPayload, NilFlag, intFlag, uintFlag, floatFlag],
      by simp [DecodeOne, intFlag, uintFlag, varintFlag, uvarintFlag, floatFlag, hr]⟩
  · cases h : (DecodeInt b).2.2 with
    | some e =>
      simp [DecodeOne, intFlag, uintFlag, varintFlag, uvarintFlag, floatFlag, bytesFlag,
        compactBytesFlag, decimalFlag, durationFlag, h] at hok
    | none =>
      obtain ⟨h8, hr⟩ := DecodeInt_ok b h
      exact ⟨8, h8, by simp [peekPayload, NilFlag, intFlag, uintFlag, floatFlag, durationFlag],
        by simp [DecodeOne, intFlag, uintFlag, varintFlag, uvarintFlag, floatFlag, bytesFlag,
          compactBytesFlag, decimalFlag, durationFlag, h, hr]⟩
  · have h : (DecodeVarint b).2.2 = none := by
      simpa [DecodeOne, intFlag, uintFlag, varintFlag] using hok
    obtain ⟨n, hn0, hn1, hn2, hn3, _⟩ := DecodeVarint_ok b h
    have c : ¬ ((n : Int) < 0) := by omega
    exact ⟨n, hn1, by simp [peekPayload, NilFlag, intFlag, uintFlag, floatFlag, durationFlag,
      bytesFlag, compactBytesFlag, decimalFlag, varintFlag, peekVarint, hn2],
      by simp [DecodeOne, intFlag, uintFlag, varintFlag, hn3]⟩
  · have h : (DecodeUvarint b).2.2 = none := by
      simpa [DecodeOne, intFlag, uintFlag, varintFlag, uvarintFlag] using hok
    obtain ⟨n, hn0, hn1, hn2, hn3⟩ := DecodeUvarint_ok b h
    exact ⟨n, hn1, by simp [peekPayload, NilFlag, intFlag, uintFlag, floatFlag, durationFlag,
      bytesFlag, compactBytesFlag, decimalFlag, varintFlag, uvarintFlag, peekUvarint, hn2],
      by simp [DecodeOne, intFlag, uintFlag, varintFlag, uvarintFlag, hn3]⟩
  · have h : (DecodeBytes b).2.2 = none := by
      simpa [DecodeOne, intFlag, uintFlag, varintFlag, uvarintFlag, floatFlag, bytesFlag]
        using hok
    obtain ⟨n, hn1, hn2, hn3⟩ := DecodeBytes_ok b h
    have := hn3 0
    rw [Int.zero_add] at this
    exact ⟨n, hn1, by simp [peekPayload, NilFlag, intFlag, uintFlag, floatFlag, durationFlag,
      bytesFlag, peekBytes, this],
      by simp [DecodeOne, intFlag, uintFlag, varintFlag, uvarintFlag, floatFlag, bytesFlag,
        hn2]⟩
  · have h : (DecodeCompactBytes b).2.2 = none := by
      simpa [DecodeOne, intFlag, uintFlag, varintFlag, uvarintFlag, floatFlag, bytesFlag,
        compactBytesFlag] using hok
    obtain ⟨l, hl1, hl2, hl3⟩ := DecodeCompactBytes_ok b hb h
    exact ⟨l, hl1, by simp [peekPayload, NilFlag, intFlag, uintFlag, floatFlag, durationFlag,
      bytesFlag, compactBytesFlag, hl3],
      by simp [DecodeOne, intFlag, uintFlag, varintFlag, uvarintFlag, floatFlag, bytesFlag,
        compactBytesFlag, hl2]⟩

/-- On these tags a successful `DecodeOne` and `peek` agree on where the element ends. -/
theorem peek_of_DecodeOne (T : TypesPkg) (flag : Nat) (b : List Nat)
    (hflag : flag ∈ [NilFlag, intFlag, uintFlag, floatFlag, durationFlag, varintFlag,
      uvarintFlag, bytesFlag, compactBytesFlag])
    (hb : ((flag :: b).length : Int) < 2 ^ 63) (hok : (DecodeOne T (flag :: b)).2.2 = none) :
    ∃ n : Nat, 0 < n ∧ n ≤ (flag :: b).length ∧ peek T (flag :: b) = ((n : Int), none) ∧
      (DecodeOne T (flag :: b)).1 = (flag :: b).drop n := by
  have hb2 : (b.length : Int) < 2 ^ 63 := by
    simp only [List.length_cons] at hb; push_cast at hb; omega
  obtain ⟨l, hl1, hl2, hl3⟩ := peekPayload_of_DecodeOne T flag b hflag hb2 hok
  refine ⟨l + 1, by omega, by simp only [List.length_cons]; omega, ?_, ?_⟩
  · rw [peek_of_payload_le T flag b l hl1 hl2 hb]; push_cast; rfl
  · rw [hl3]; rfl

theorem peek_of_DecodeOne_append (T : TypesPkg) (flag : Nat) (payload rest : List Nat)
    (d : Datum)
    (hflag : flag ∈ [NilFlag, intFlag, uintFlag, floatFlag, durationFlag, varintFlag,
      uvarintFlag, bytesFlag, compactBytesFlag])
    (hlen : ((flag :: (payload ++ rest)).length : Int) < 2 ^ 63)
    (hdec : DecodeOne T (flag :: (payload ++ rest)) = (rest, d, none)) :
    peek T (flag :: (payload ++ rest)) = (((flag :: payload).length : Int), none) := by
  have hok : (DecodeOne T (flag :: (payload ++ rest))).2.2 = none := by rw [hdec]
  obtain ⟨n, hn0, hn1, hn2, hn3⟩ := peek_of_DecodeOne T flag (payload ++ rest) hflag hlen hok
  rw [hdec] at hn3
  have hl := congrArg List.length hn3
  simp only [List.length_drop, List.length_cons, List.length_append] at hl hn1
  rw [hn2]
  simp only [List.length_cons]
  congr 1
  push_cast
  omega

/-- The single-element encoding of an `Int64`, `Uint64`, `Bytes` or `Null` Datum succeeds,
and `peek` finds its length whatever follows it. -/
theorem peek_plain_append (T : TypesPkg) (loc : Location) (d : Datum) (m : Bool)
    (hd : d.isPlain) (rest : List Nat)
    (hlen : (((encode T loc [] [d] m).1 ++ rest).length : Int) < 2 ^ 63) :
    peek T ((encode T loc [] [d] m).1 ++ rest) =
      (((encode T loc [] [d] m).1.length : Int), none) := by
  cases d <;> simp only [Datum.isPlain] at hd
  · have e : (encode T loc [] [Datum.null] m).1 = NilFlag :: [] := rfl
    rw [e] at hlen ⊢
    exact peek_of_DecodeOne_append T NilFlag [] rest .null (by simp) hlen
      (by simp [DecodeOne, NilFlag, intFlag, uintFlag, varintFlag, uvarintFlag, floatFlag,
        bytesFlag, compactBytesFlag, decimalFlag, durationFlag, jsonFlag, vectorFloat32Flag])
  · rename_i v
    cases m
    · have e : (encode T loc [] [Datum.int64 v] false).1 = varintFlag :: EncodeVarint [] v := by
        simp [encode, encodeLoop, encodeSignedInt_value]
      rw [e] at hlen ⊢
      exact peek_of_DecodeOne_append T varintFlag _ rest _ (by simp) hlen
        (DecodeOne_varint T v hd rest)
    · have e : (encode T loc [] [Datum.int64 v] true).1 = intFlag :: EncodeInt [] v := by
        simp [encode, encodeLoop, encodeSignedInt_key]
      rw [e] at hlen ⊢
      exact peek_of_DecodeOne_append T intFlag _ rest _ (by simp) hlen
        (DecodeOne_int T v hd rest)
  · rename_i v
    cases m
    · have e : (encode T loc [] [Datum.uint64 v] false).1 =
          uvarintFlag :: EncodeUvarint [] v := by
        simp [encode, encodeLoop, encodeUnsignedInt_value]
      rw [e] at hlen ⊢
      exact peek_of_DecodeOne_append T uvarintFlag _ rest _ (by simp) hlen
        (DecodeOne_uvarint T v hd rest)
    · have e : (encode T loc [] [Datum.uint64 v] true).1 = uintFlag :: EncodeUint [] v := by
        simp [encode, encodeLoop, encodeUnsignedInt_key]
      rw [e] at hlen ⊢
      exact peek_of_DecodeOne_append T uintFlag _ rest _ (by simp) hlen
        (DecodeOne_uint T v hd rest)
  · rename_i v
    cases m
    · have e : (encode T loc [] [Datum.bytes v] false).1 =
          compactBytesFlag :: EncodeCompactBytes [] v := by
        simp [encode, encodeLoop, encodeBytes_value]
      rw [e] at hlen ⊢
      exact peek_of_DecodeOne_append T compactBytesFlag _ rest _ (by simp) hlen
        (DecodeOne_compactBytes T v rest hd)
    · have e : (encode T loc [] [Datum.bytes v] true).1 = bytesFlag :: EncodeBytes [] v := by
        simp [encode, encodeLoop, encodeBytes_key]
      rw [e] at hlen ⊢
      exact peek_of_DecodeOne_append T bytesFlag _ rest _ (by simp) hlen
        (DecodeOne_bytes T v rest)

/-- Over a concatenation of encodings of plain Datums, `SetRawValues` sets the values to
the encodings, one after the other; when the values outnumber the encodings and nothing
follows them, it returns an error. -/
theorem setRawValuesLoop_concatEncodings (T : TypesPkg) (loc : Location) :
    ∀ (ds : List (Datum × Bool)) (values : List Datum) (rest : List Nat),
      (∀ p ∈ ds, p.1.isPlain) →
      ((concatEncodings T loc ds ++ rest).length : Int) < 2 ^ 63 →
      (values.length ≤ ds.length →
        setRawValuesLoop T values (concatEncodings T loc ds ++ rest) =
          ((ds.take values.length).map (fun p => Datum.raw (encode T loc [] [p.1] p.2).1),
            none)) ∧
      (ds.length < values.length → rest = [] →
        (setRawValuesLoop T values (concatEncodings T loc ds ++ rest)).2 ≠ none) := by
  intro ds
  induction ds with
  | nil =>
    intro values rest _ _
    constructor
    · intro hk
      have : values = [] := by
        cases values with
        | nil => rfl
        | cons v vs => simp at hk
      subst this
      rfl
    · intro hk hrest
      subst hrest
      cases values with
      | nil => simp at hk
      | cons v vs => simp [setRawValuesLoop, concatEncodings, peek]
  | cons p ds ih =>
    intro values rest hp hlen
    have hp1 : p.1.isPlain := hp p (List.mem_cons_self _ _)
    have hps : ∀ q ∈ ds, q.1.isPlain := fun q hq => hp q (List.mem_cons_of_mem _ hq)
    have e : concatEncodings T loc (p :: ds) ++ rest =
        (encode T loc [] [p.1] p.2).1 ++ (concatEncodings T loc ds ++ rest) := by
      simp [concatEncodings]
    rw [e] at hlen ⊢
    have hlen2 : ((concatEncodings T loc ds ++ rest).length : Int) < 2 ^ 63 := by
      rw [List.length_append] at hlen; push_cast at hlen; omega
    have hpeek := peek_plain_append T loc p.1 p.2 hp1 (concatEncodings T loc ds ++ rest) hlen
    cases values with
    | nil => exact ⟨fun _ => rfl, fun hk => by simp at hk⟩
    | cons v vs =>
      have step : setRawValuesLoop T (v :: vs)
          ((encode T loc [] [p.1] p.2).1 ++ (concatEncodings T loc ds ++ rest)) =
          (Datum.raw (encode T loc [] [p.1] p.2).1 ::
            (setRawValuesLoop T vs (concatEncodings T loc ds ++ rest)).1,
           (setRawValuesLoop T vs (concatEncodings T loc ds ++ rest)).2) := by
        rw [setRawValuesLoop]
        simp only [hpeek, Int.toNat_ofNat, take_length_append, drop_length_append]
      rw [step]
      obtain ⟨ih1, ih2⟩ := ih vs rest hps hlen2
      constructor
      · intro hk
        simp only [List.length_cons, Nat.add_le_add_iff_right] at hk
        rw [ih1 hk]
        simp
      · intro hk hrest
        simp only [List.length_cons, Nat.add_lt_add_iff_right] at hk
        exact ih2 hk hrest

/-! ## The claims -/

/-- C1 (amended): value-mode round trip.  Encoding a single Datum in value mode and
decoding the bytes succeeds and gives a one-element list.  The element is the Datum
itself for `Null`, `Int64`, `Uint64`, `Float64` (other than NaN and `-0.0`), `Bytes`, and
for JSON, VectorFloat32 and Decimal Datums whose payload package `types` reads back as
it wrote it.  A `Duration` comes back with `fsp = MaxFsp`, a `String` as `Bytes` with the
same bytes, a `Float32` as `Float64`, `Enum`, `Set`, `Bit`, `BinaryLiteral` and `Time` as
the `Uint64` that was written. -/
theorem C1_value_round_trip (T : TypesPkg) (loc : Location) :
    decodesAs T loc false .null .null ∧
    (∀ v, isInt64 v → decodesAs T loc false (.int64 v) (.int64 v)) ∧
    (∀ v, isUint64 v → decodesAs T loc false (.uint64 v) (.uint64 v)) ∧
    (∀ f, isUint64 f → float64IsNaN f = false → f ≠ negZero64 →
      decodesAs T loc false (.float64 f) (.float64 f)) ∧
    (∀ b : List Nat, (b.length : Int) < 2 ^ 63 → decodesAs T loc false (.bytes b) (.bytes b)) ∧
    (∀ dur : Duration, isInt64 dur.duration →
      decodesAs T loc false (.mysqlDuration dur)
        (.mysqlDuration { duration := dur.duration, fsp := MaxFsp })) ∧
    (∀ j : BinaryJSON,
      T.PeekBytesAsJSON (j.typeCode :: j.value) = (1 + (j.value.length : Int), none) →
      decodesAs T loc false (.mysqlJSON j) (.mysqlJSON j)) ∧
    (∀ v : VectorFloat32, T.ZeroCopyDeserializeVectorFloat32 (T.SerializeTo v) = (v, [], none) →
      decodesAs T loc false (.vectorFloat32 v) (.vectorFloat32 v)) ∧
    (∀ dec length frac, (T.EncodeDecimal dec length frac).2 = none →
      T.DecodeDecimal (T.EncodeDecimal dec length frac).1 = ([], dec, length, frac, none) →
      decodesAs T loc false (.mysqlDecimal dec length frac) (.mysqlDecimal dec length frac)) ∧
    (∀ s c : List Nat, (s.length : Int) < 2 ^ 63 →
      decodesAs T loc false (.string s c) (.bytes s)) ∧
    (∀ f, isUint64 f → float64IsNaN f = false → f ≠ negZero64 →
      decodesAs T loc false (.float32 f) (.float64 f)) ∧
    (∀ e : Enum, isUint64 e.value → decodesAs T loc false (.mysqlEnum e) (.uint64 e.value)) ∧
    (∀ s : SetVal, isUint64 s.value → decodesAs T loc false (.mysqlSet s) (.uint64 s.value)) ∧
    (∀ lit n, T.ToInt StrictContext lit = (n, none) → isUint64 n →
      decodesAs T loc false (.mysqlBit lit) (.uint64 n) ∧
      decodesAs T loc false (.binaryLiteral lit) (.uint64 n)) ∧
    (∀ t p, isUint64 p →
      EncodeMySQLTime T loc t TypeUnspecified [uintFlag] = (EncodeUint [uintFlag] p, none) →
      decodesAs T loc false (.mysqlTime t) (.uint64 p)) := by
  refine ⟨?_, ?_, ?_, ?_, ?_, ?_, ?_, ?_, ?_, ?_, ?_, ?_, ?_, ?_, ?_⟩
  · refine ⟨rfl, ?_⟩
    simp only [encode, encodeLoop, List.nil_append]
    exact Decode_single T _ _ _ _ (by simp [DecodeOne, NilFlag, intFlag, uintFlag, varintFlag,
      uvarintFlag, floatFlag, bytesFlag, compactBytesFlag, decimalFlag, durationFlag, jsonFlag,
      vectorFloat32Flag])
  · intro v hv
    refine ⟨rfl, ?_⟩
    simp only [encode, encodeLoop, encodeSignedInt_value, List.nil_append]
    have := DecodeOne_varint T v hv []
    rw [List.append_nil] at this
    exact Decode_single T _ _ _ _ this
  · intro v hv
    refine ⟨rfl, ?_⟩
    simp only [encode, encodeLoop, encodeUnsignedInt_value, List.nil_append]
    have := DecodeOne_uvarint T v hv []
    rw [List.append_nil] at this
    exact Decode_single T _ _ _ _ this
  · intro f hf hn hz
    refine ⟨rfl, ?_⟩
    simp only [encode, encodeLoop, floatFlag_EncodeFloat, List.nil_append]
    have := DecodeOne_float T f hf hn hz []
    rw [List.append_nil] at this
    exact Decode_single T _ _ _ _ this
  · intro b hb
    refine ⟨rfl, ?_⟩
    simp only [encode, encodeLoop, encodeBytes_value, List.nil_append]
    have := DecodeOne_compactBytes T b [] hb
    rw [List.append_nil] at this
    exact Decode_single T _ _ _ _ this
  · intro dur hd
    refine ⟨rfl, ?_⟩
    simp only [encode, encodeLoop, durationFlag_EncodeInt, List.nil_append]
    have := DecodeOne_duration T dur.duration hd []
    rw [List.append_nil] at this
    exact Decode_single T _ _ _ _ this
  · intro j hj
    refine ⟨rfl, ?_⟩
    simp only [encode, encodeLoop, List.nil_append, List.singleton_append, List.cons_append]
    apply Decode_single
    have h1 : ¬ ((1 : Int) + (j.value.length : Int) < 1) := by omega
    have h2 : ((1 : Int) + (j.value.length : Int)).toNat = j.value.length + 1 := by omega
    have h3 : (1 : Int) + (j.value.length : Int) ≤ (j.value.length : Int) + 1 := by omega
    simp [DecodeOne, NilFlag, intFlag, uintFlag, varintFlag, uvarintFlag, floatFlag, bytesFlag,
      compactBytesFlag, decimalFlag, durationFlag, jsonFlag, hj, h1, h2, h3]
  · intro v hv
    refine ⟨rfl, ?_⟩
    simp only [encode, encodeLoop, List.nil_append, List.singleton_append]
    apply Decode_single
    simp [DecodeOne, NilFlag, intFlag, uintFlag, varintFlag, uvarintFlag, floatFlag, bytesFlag,
      compactBytesFlag, decimalFlag, durationFlag, jsonFlag, vectorFloat32Flag, hv]
  · intro dec length frac he hd
    refine ⟨by simp [encode, encodeLoop, he], ?_⟩
    simp only [encode, encodeLoop, List.nil_append, List.singleton_append]
    apply Decode_single
    simp [DecodeOne, NilFlag, intFlag, uintFlag, varintFlag, uvarintFlag, floatFlag, bytesFlag,
      compactBytesFlag, decimalFlag, hd]
  · intro s c hs
    refine ⟨rfl, ?_⟩
    simp only [encode, encodeLoop, encodeString, Bool.and_false, encodeBytes_value,
      List.nil_append]
    have := DecodeOne_compactBytes T s [] hs
    rw [List.append_nil] at this
    simpa using Decode_single T _ _ _ 1 this
  · intro f hf hn hz
    refine ⟨rfl, ?_⟩
    simp only [encode, encodeLoop, floatFlag_EncodeFloat, List.nil_append]
    have := DecodeOne_float T f hf hn hz []
    rw [List.append_nil] at this
    exact Decode_single T _ _ _ _ this
  · intro e he
    refine ⟨rfl, ?_⟩
    simp only [encode, encodeLoop, encodeUnsignedInt_value, List.nil_append]
    have := DecodeOne_uvarint T e.value he []
    rw [List.append_nil] at this
    exact Decode_single T _ _ _ _ this
  · intro s hs
    refine ⟨rfl, ?_⟩
    simp only [encode, encodeLoop, encodeUnsignedInt_value, List.nil_append]
    have := DecodeOne_uvarint T s.value hs []
    rw [List.append_nil] at this
    exact Decode_single T _ _ _ _ this
  · intro lit n hl hn
    have := DecodeOne_uvarint T n hn []
    rw [List.append_nil] at this
    constructor
    · refine ⟨by simp [encode, encodeLoop, hl], ?_⟩
      simp only [encode, encodeLoop, hl, encodeUnsignedInt_value, List.nil_append]
      exact Decode_single T _ _ _ _ this
    · refine ⟨by simp [encode, encodeLoop, hl], ?_⟩
      simp only [encode, encodeLoop, hl, encodeUnsignedInt_value, List.nil_append]
      exact Decode_single T _ _ _ _ this
  · intro t p hp ht
    have := DecodeOne_uint T p hp []
    rw [List.append_nil] at this
    refine ⟨by simp [encode, encodeLoop, ht], ?_⟩
    simp only [encode, encodeLoop, List.nil_append, ht]
    rw [EncodeUint_eq]
    exact Decode_single T _ _ _ _ this

/-- Witness of C1: an `Int64`, a `Bytes`, a JSON literal and a `String` Datum. -/
theorem C1_value_round_trip_witness :
    isInt64 (-5) ∧ decodesAs sampleTypes Location.nil false (.int64 (-5)) (.int64 (-5)) ∧
      decodesAs sampleTypes Location.nil false (.bytes [1, 2, 3]) (.bytes [1, 2, 3]) ∧
      decodesAs sampleTypes Location.nil false (.mysqlJSON ⟨4, [1]⟩) (.mysqlJSON ⟨4, [1]⟩) ∧
      decodesAs sampleTypes Location.nil false (.string [97] []) (.bytes [97]) :=
  ⟨by decide,
    (C1_value_round_trip sampleTypes Location.nil).2.1 (-5) (by decide),
    (C1_value_round_trip sampleTypes Location.nil).2.2.2.2.1 [1, 2, 3] (by decide),
    (C1_value_round_trip sampleTypes Location.nil).2.2.2.2.2.2.1 ⟨4, [1]⟩ (by decide),
    (C1_value_round_trip sampleTypes Location.nil).2.2.2.2.2.2.2.2.2.1 [97] [] (by decide)⟩

/-- Counterexample to C1 as stated: the value-mode encoding of the `String` Datum "a"
decodes to a `Bytes` Datum, not to a Datum of the same kind.  Likewise the `Float32` Datum
`1.0` decodes to a `Float64` Datum, the `Enum` Datum of value 1 to a `Uint64` Datum, the
`Duration` Datum with `fsp = 0` to one with `fsp = 6`, and the `Float64` Datum `-0.0` to
`+0.0`. -/
theorem C1_counterexample :
    Decode sampleTypes (EncodeValue sampleTypes Location.nil [] [.string [97] []]).1 1
        = ([.bytes [97]], none) ∧
      ¬ decodesAs sampleTypes Location.nil false (.string [97] []) (.string [97] []) ∧
      Decode sampleTypes
          (EncodeValue sampleTypes Location.nil [] [.float32 0x3FF0000000000000]).1 1
        = ([.float64 0x3FF0000000000000], none) ∧
      Decode sampleTypes (EncodeValue sampleTypes Location.nil [] [.mysqlEnum ⟨[97], 1⟩]).1 1
        = ([.uint64 1], none) ∧
      Decode sampleTypes (EncodeValue sampleTypes Location.nil [] [.mysqlDuration ⟨5, 0⟩]).1 1
        = ([.mysqlDuration ⟨5, 6⟩], none) ∧
      Decode sampleTypes (EncodeValue sampleTypes Location.nil [] [.float64 negZero64]).1 1
        = ([.float64 0], none) := by
  decide

/-- C2: key-mode order preservation for integers.  For all `int64` values `a`, `b` the
key-mode encoding of `Int64 a` is byte-wise lexicographically below that of `Int64 b` if
and only if `a < b`, and likewise for `uint64` values with `Uint64` Datums; both
encodings succeed. -/
theorem C2_key_order_integers (T : TypesPkg) (loc : Location) :
    (∀ a b : Int, isInt64 a → isInt64 b →
      (EncodeKey T loc [] [.int64 a]).2 = none ∧ (EncodeKey T loc [] [.int64 b]).2 = none ∧
      (bytesLt (EncodeKey T loc [] [.int64 a]).1 (EncodeKey T loc [] [.int64 b]).1 = true
        ↔ a < b)) ∧
    (∀ a b : Nat, isUint64 a → isUint64 b →
      (EncodeKey T loc [] [.uint64 a]).2 = none ∧ (EncodeKey T loc [] [.uint64 b]).2 = none ∧
      (bytesLt (EncodeKey T loc [] [.uint64 a]).1 (EncodeKey T loc [] [.uint64 b]).1 = true
        ↔ a < b)) := by
  constructor
  · intro a b ha hb
    refine ⟨rfl, rfl, ?_⟩
    simp only [EncodeKey, encode, encodeLoop, encodeSignedInt, EncodeInt, if_true,
      List.nil_append, List.singleton_append, bytesLt_cons_same]
    rw [bigEndian_lt _ _ (encodeCmp_lt a) (encodeCmp_lt b), encodeCmp_mono a b ha hb]
  · intro a b ha hb
    refine ⟨rfl, rfl, ?_⟩
    simp only [EncodeKey, encode, encodeLoop, encodeUnsignedInt, EncodeUint, if_true,
      List.nil_append, List.singleton_append, bytesLt_cons_same]
    exact bigEndian_lt _ _ ha hb

/-- Witness of C2: `Int64(-5)` encodes below `Int64(3)`. -/
theorem C2_key_order_integers_witness :
    isInt64 (-5) ∧ isInt64 3 ∧
      bytesLt (EncodeKey sampleTypes Location.nil [] [.int64 (-5)]).1
        (EncodeKey sampleTypes Location.nil [] [.int64 3]).1 = true :=
  ⟨by decide, by decide,
    ((C2_key_order_integers sampleTypes Location.nil).1 (-5) 3 (by decide) (by decide)).2.2.2
      (by decide)⟩

/-- C3 (amended): key-mode tuple round trip.  With new collations disabled, for every
`int64` `i` and every string `s`, encoding the tuple `(Int64 i, String s)` in key mode
succeeds and decoding gives the two-element list `(Int64 i, Bytes s)`: the values are the
original ones, the string comes back with kind `Bytes`. -/
theorem C3_key_tuple_round_trip (T : TypesPkg) (loc : Location) (i : Int) (s c : List Nat)
    (hc : T.NewCollationEnabled = false) (hi : isInt64 i) :
    (EncodeKey T loc [] [.int64 i, .string s c]).2 = none ∧
      Decode T (EncodeKey T loc [] [.int64 i, .string s c]).1 2
        = ([.int64 i, .bytes s], none) := by
  refine ⟨rfl, ?_⟩
  have e : (EncodeKey T loc [] [.int64 i, .string s c]).1
      = intFlag :: (EncodeInt [] i ++ (bytesFlag :: EncodeBytes [] s)) := by
    simp [EncodeKey, encode, encodeLoop, encodeSignedInt_key, encodeString, hc, encodeBytes_key]
  rw [e]
  have h1 := DecodeOne_int T i hi (bytesFlag :: EncodeBytes [] s)
  have h2 := DecodeOne_bytes T s []
  rw [List.append_nil] at h2
  have hl : ¬ ((intFlag :: (EncodeInt [] i ++ (bytesFlag :: EncodeBytes [] s))).length < 1) := by
    simp
  have hlen : (EncodeInt [] i ++ bytesFlag :: EncodeBytes [] s).length
      = ((EncodeBytes [] s).length + 8) + 1 := by
    simp only [EncodeInt, List.nil_append, List.length_append, bigEndianPutUint64_length,
      List.length_cons]
    omega
  simp only [Decode, if_neg hl, List.length_cons, hlen,
    decodeLoop_cons T _ intFlag _ [] _ _ h1, decodeLoop_cons T _ bytesFlag _ _ _ _ h2]
  simp [decodeLoop]

/-- Witness of C3: the tuple `(Int64(-5), String("abc"))`. -/
theorem C3_key_tuple_round_trip_witness :
    sampleTypes.NewCollationEnabled = false ∧ isInt64 (-5) ∧
      Decode sampleTypes
        (EncodeKey sampleTypes Location.nil [] [.int64 (-5), .string [97, 98, 99] []]).1 2
        = ([.int64 (-5), .bytes [97, 98, 99]], none) :=
  ⟨rfl, by decide,
    (C3_key_tuple_round_trip sampleTypes Location.nil (-5) [97, 98, 99] [] rfl (by decide)).2⟩

/-- Counterexample to C3 as stated: the decoded tuple of `(Int64(-5), String("abc"))` is
not the original tuple, its second element has kind `Bytes`. -/
theorem C3_counterexample :
    Decode sampleTypes
        (EncodeKey sampleTypes Location.nil [] [.int64 (-5), .string [97, 98, 99] []]).1 2
      ≠ ([.int64 (-5), .string [97, 98, 99] []], none) := by
  decide

/-- C4: `DecodeOne` consumes exactly one element.  For every `int64` (resp.
`uint64`) `x`, in key mode and in value mode, and for every byte string `rest`,
`DecodeOne` of the encoding of `x` followed by `rest` returns no error, the Datum
`Int64 x` (resp. `Uint64 x`) and the remainder `rest`; and `Decode` of the concatenation
of `n ≥ 1` such encodings returns exactly the `n` values in order. -/
theorem C4_DecodeOne_consumes_one_element (T : TypesPkg) (loc : Location) :
    (∀ (x : Int) (comparable1 : Bool) (rest : List Nat), isInt64 x →
      DecodeOne T ((encode T loc [] [.int64 x] comparable1).1 ++ rest)
        = (rest, .int64 x, none)) ∧
    (∀ (x : Nat) (comparable1 : Bool) (rest : List Nat), isUint64 x →
      DecodeOne T ((encode T loc [] [.uint64 x] comparable1).1 ++ rest)
        = (rest, .uint64 x, none)) ∧
    (∀ (xs : List (Datum × Bool)) (n : Nat), xs ≠ [] → (∀ p ∈ xs, p.1.isInteger) →
      Decode T (concatEncodings T loc xs) n = (xs.map Prod.fst, none)) := by
  refine ⟨?_, ?_, ?_⟩
  · intro x m rest hx
    obtain ⟨b0, b, he, hd⟩ := DecodeOne_integer T loc (.int64 x) m hx rest
    rw [he]; exact hd
  · intro x m rest hx
    obtain ⟨b0, b, he, hd⟩ := DecodeOne_integer T loc (.uint64 x) m hx rest
    rw [he]; exact hd
  · intro xs n hne hp
    have hl : ¬ ((concatEncodings T loc xs).length < 1) := by
      cases xs with
      | nil => exact absurd rfl hne
      | cons p xs =>
        obtain ⟨b0, b, he, _⟩ := DecodeOne_integer T loc p.1 p.2
          (hp p (List.mem_cons_self _ _)) []
        simp [concatEncodings, he]
    simp only [Decode, if_neg hl]
    rw [decodeLoop_concatEncodings T loc xs _ [] hp (Nat.le_refl _)]
    simp

/-- Witness of C4: `Int64(-5)` in key mode followed by `Uint64(7)` in value mode. -/
theorem C4_DecodeOne_consumes_one_element_witness :
    isInt64 (-5) ∧
      DecodeOne sampleTypes
        ((encode sampleTypes Location.nil [] [.int64 (-5)] true).1 ++ [9, 7])
        = ([9, 7], .int64 (-5), none) ∧
      Decode sampleTypes
        (concatEncodings sampleTypes Location.nil [(.int64 (-5), true), (.uint64 7, false)]) 2
        = ([.int64 (-5), .uint64 7], none) :=
  ⟨by decide,
    (C4_DecodeOne_consumes_one_element sampleTypes Location.nil).1 (-5) true [9, 7] (by decide),
    (C4_DecodeOne_consumes_one_element sampleTypes Location.nil).2.2
      [(.int64 (-5), true), (.uint64 7, false)] 2 (by simp)
      (by
        intro p hp
        simp only [List.mem_cons, List.mem_singleton, List.mem_nil_iff, or_false] at hp
        rcases hp with rfl | rfl
        · show isInt64 (-5); decide
        · show isUint64 7; decide)⟩

/-- C5 (amended): peek consistency.  For every Datum `d` that the encoder supports, other
than the sentinels `MinNotNull` and `MaxValue`, and for both modes: when `d` fits its
machine type, package `types` peeks what it writes for `d`, and encoding the single
Datum succeeds with the byte slice `b`, then `peek(b)` succeeds and returns exactly
`len(b)`. -/
theorem C5_peek_consistency (T : TypesPkg) (loc : Location) (d : Datum) (comparable1 : Bool)
    (b : List Nat) (hs : d.supported = true) (hmin : d ≠ .minNotNull) (hmax : d ≠ .maxValue)
    (hw : d.wellFormed) (hp : peekAgrees T d) (hb : (b.length : Int) < 2 ^ 63)
    (he : encode T loc [] [d] comparable1 = (b, none)) :
    peek T b = ((b.length : Int), none) := by
  cases d with
  | null =>
    simp only [encode, encodeLoop, List.nil_append, Prod.mk.injEq, and_true] at he
    subst he
    exact peek_of_payload T NilFlag [] (by simp [peekPayload, NilFlag]) (by simp)
  | int64 v =>
    simp only [encode, encodeLoop, Prod.mk.injEq, and_true] at he
    subst he
    cases comparable1
    · rw [encodeSignedInt_value]; exact peek_varint T v hw
    · rw [encodeSignedInt_key]; exact peek_int T v
  | uint64 v =>
    simp only [encode, encodeLoop, Prod.mk.injEq, and_true] at he
    subst he
    exact peek_unsigned T v comparable1 hw
  | float32 f =>
    simp only [encode, encodeLoop, Prod.mk.injEq, and_true, floatFlag_EncodeFloat,
      List.nil_append] at he
    subst he
    exact peek_float T f
  | float64 f =>
    simp only [encode, encodeLoop, Prod.mk.injEq, and_true, floatFlag_EncodeFloat,
      List.nil_append] at he
    subst he
    exact peek_float T f
  | string s c =>
    by_cases hc : (T.NewCollationEnabled && comparable1) = true
    · simp only [encode, encodeLoop, Prod.mk.injEq, and_true, encodeString, if_pos hc] at he
      subst he
      exact peek_encodeBytes T _ _ hb
    · simp only [encode, encodeLoop, Prod.mk.injEq, and_true, encodeString, if_neg hc] at he
      subst he
      exact peek_encodeBytes T _ _ hb
  | bytes v =>
    simp only [encode, encodeLoop, Prod.mk.injEq, and_true] at he
    subst he
    exact peek_encodeBytes T _ _ hb
  | binaryLiteral lit =>
    simp only [encode, encodeLoop, Prod.mk.injEq] at he
    obtain ⟨he, _⟩ := he
    subst he
    exact peek_unsigned T _ comparable1 hp
  | mysqlDecimal dec length frac =>
    simp only [encode, encodeLoop, Prod.mk.injEq, List.nil_append, List.singleton_append] at he
    obtain ⟨he, _⟩ := he
    subst he
    apply peek_of_payload _ _ _ _ hb
    simp only [peekAgrees] at hp
    simp [peekPayload, decimalFlag, NilFlag, intFlag, uintFlag, floatFlag, durationFlag,
      bytesFlag, compactBytesFlag, hp]
  | mysqlDuration dur =>
    simp only [encode, encodeLoop, Prod.mk.injEq, and_true, durationFlag_EncodeInt,
      List.nil_append] at he
    subst he
    exact peek_duration T _
  | mysqlEnum e =>
    simp only [encode, encodeLoop, Prod.mk.injEq, and_true] at he
    subst he
    exact peek_unsigned T _ comparable1 hw
  | mysqlBit lit =>
    simp only [encode, encodeLoop, Prod.mk.injEq] at he
    obtain ⟨he, _⟩ := he
    subst he
    exact peek_unsigned T _ comparable1 hp
  | mysqlSet s =>
    simp only [encode, encodeLoop, Prod.mk.injEq, and_true] at he
    subst he
    exact peek_unsigned T _ comparable1 hw
  | mysqlTime t =>
    simp only [encode, encodeLoop] at he
    cases hr : (EncodeMySQLTime T loc t TypeUnspecified ([] ++ [uintFlag])).2 with
    | some e => rw [hr] at he; simp at he
    | none =>
      rw [hr] at he
      simp only [Prod.mk.injEq, and_true] at he
      obtain ⟨p, hp2⟩ := EncodeMySQLTime_ok T loc t TypeUnspecified ([] ++ [uintFlag]) hr
      rw [← he, hp2, List.nil_append, EncodeUint_eq]
      exact peek_uint T p
  | iface x => simp [Datum.supported] at hs
  | minNotNull => exact absurd rfl hmin
  | maxValue => exact absurd rfl hmax
  | raw x => simp [Datum.supported] at hs
  | mysqlJSON j =>
    simp only [encode, encodeLoop, Prod.mk.injEq, and_true, List.nil_append,
      List.singleton_append, List.cons_append] at he
    subst he
    apply peek_of_payload _ _ _ _ hb
    simp only [peekAgrees] at hp
    simp [peekPayload, jsonFlag, decimalFlag, NilFlag, intFlag, uintFlag, floatFlag,
      durationFlag, bytesFlag, compactBytesFlag, varintFlag, uvarintFlag, hp]
    omega
  | vectorFloat32 v =>
    simp only [encode, encodeLoop, Prod.mk.injEq, and_true, List.nil_append,
      List.singleton_append] at he
    subst he
    apply peek_of_payload _ _ _ _ hb
    simp only [peekAgrees] at hp
    simp [peekPayload, vectorFloat32Flag, jsonFlag, decimalFlag, NilFlag, intFlag, uintFlag,
      floatFlag, durationFlag, bytesFlag, compactBytesFlag, varintFlag, uvarintFlag, hp]

/-- Witness of C5: a JSON literal in value mode, encoded as `[10, 4, 1]`. -/
theorem C5_peek_consistency_witness :
    (Datum.mysqlJSON ⟨4, [1]⟩).supported = true ∧ (Datum.mysqlJSON ⟨4, [1]⟩).wellFormed ∧
      peekAgrees sampleTypes (.mysqlJSON ⟨4, [1]⟩) ∧
      encode sampleTypes Location.nil [] [.mysqlJSON ⟨4, [1]⟩] false = ([10, 4, 1], none) ∧
      peek sampleTypes [10, 4, 1] = (3, none) :=
  ⟨rfl, trivial, by decide, by decide,
    C5_peek_consistency sampleTypes Location.nil (.mysqlJSON ⟨4, [1]⟩) false [10, 4, 1] rfl
      (by decide) (by decide) trivial (by decide) (by decide) (by decide)⟩

/-- Counterexample to C5 as stated: the single-element encodings of the sentinels
`MaxValue` and `MinNotNull` are the lone bytes 250 and 1, and `peek` returns an error on
both. -/
theorem C5_counterexample :
    encode sampleTypes Location.nil [] [.maxValue] true = ([250], none) ∧
      peek sampleTypes [250] = (0, some (.invalidFlag 250)) ∧
      encode sampleTypes Location.nil [] [.minNotNull] true = ([1], none) ∧
      peek sampleTypes [1] = (0, some .insufficientBytes) := by
  decide

/-- C6 (the code at the failing input): a truncated varint is accepted.  The value-mode
encoding of `Int64(0)` is `[8, 0]` and that of `Int64(64)` is `[8, 0x80, 0x01]`; on their
proper prefixes `[8]` and `[8, 0x80]`, `peek` returns the length 1 with a nil error, and
`CutOne` cuts after the flag byte. -/
theorem C6_truncated_varint_is_accepted :
    EncodeValue sampleTypes Location.nil [] [.int64 0] = ([8, 0], none) ∧
      peek sampleTypes [8] = (1, none) ∧
      CutOne sampleTypes [8] = ([8], [], none) ∧
      EncodeValue sampleTypes Location.nil [] [.int64 64] = ([8, 0x80, 0x01], none) ∧
      peek sampleTypes [8, 0x80] = (1, none) ∧
      CutOne sampleTypes [8, 0x80] = ([8], [0x80], none) ∧
      peek sampleTypes [2] = (0, some .insufficientBytes) := by
  decide

/-- C7: empty input and unrecognized tags are rejected.  For every byte string `b` that is
empty or whose first byte is not one of the element tags `0..10, 20`, `DecodeOne`, `peek`
and `CutOne` return an error, and `Decode` returns an error together with no values. -/
theorem C7_empty_or_unknown_tag_rejected (T : TypesPkg) (b : List Nat) (n : Nat)
    (h : b = [] ∨ ∃ flag rest, b = flag :: rest ∧ flag ∉ elementTags) :
    (DecodeOne T b).2.2 ≠ none ∧ (peek T b).2 ≠ none ∧ (CutOne T b).2.2 ≠ none ∧
      (Decode T b n).2 ≠ none ∧ (Decode T b n).1 = [] := by
  rcases h with rfl | ⟨flag, rest, rfl, hf⟩
  · simp [DecodeOne, peek, CutOne, Decode]
  · simp only [elementTags, List.mem_cons, List.mem_singleton, List.mem_nil_iff, or_false,
      not_or] at hf
    obtain ⟨h0, h1, h2, h3, h4, h5, h6, h7, h8, h9, h10, h20⟩ := hf
    have hd : DecodeOne T (flag :: rest) = (rest, .null, some (.invalidFlag flag)) := by
      simp [DecodeOne, intFlag, uintFlag, varintFlag, uvarintFlag, floatFlag, bytesFlag,
        compactBytesFlag, decimalFlag, durationFlag, jsonFlag, vectorFloat32Flag, NilFlag, *]
    have hp : peek T (flag :: rest) = (0, some (.invalidFlag flag)) := by
      simp [peek, peekPayload, intFlag, uintFlag, varintFlag, uvarintFlag, floatFlag, bytesFlag,
        compactBytesFlag, decimalFlag, durationFlag, jsonFlag, vectorFloat32Flag, NilFlag, *]
    refine ⟨by simp [hd], by simp [hp], by simp [CutOne, hp], ?_, ?_⟩
    · simp [Decode, decodeLoop, hd]
    · simp [Decode, decodeLoop, hd]

/-- Witness of C7: the tag 250 (`maxFlag`) is not an element tag. -/
theorem C7_empty_or_unknown_tag_rejected_witness :
    (DecodeOne sampleTypes [250, 1]).2.2 ≠ none ∧ (peek sampleTypes [250, 1]).2 ≠ none ∧
      (CutOne sampleTypes [250, 1]).2.2 ≠ none ∧ (Decode sampleTypes [250, 1] 1).2 ≠ none ∧
      (Decode sampleTypes [250, 1] 1).1 = [] :=
  C7_empty_or_unknown_tag_rejected sampleTypes [250, 1] 1
    (Or.inr ⟨250, [1], rfl, by decide⟩)

/-- C8: unsupported kinds are never dropped silently.  For every Datum sequence that
contains a Datum whose kind has no case in the encoder (`KindInterface`, `KindRaw`),
`EncodeKey` and `EncodeValue` return a non-nil error, whatever the buffer; and
`EstimateValueSize` returns an error for such a Datum. -/
theorem C8_unsupported_kind_is_error (T : TypesPkg) (loc : Location) (typeCtx : Nat)
    (b : List Nat) (vals : List Datum) (d : Datum) (hd : d ∈ vals)
    (hs : d.supported = false) :
    (EncodeKey T loc b vals).2 ≠ none ∧ (EncodeValue T loc b vals).2 ≠ none ∧
      (EstimateValueSize T typeCtx d).2 ≠ none := by
  refine ⟨encodeLoop_unsupported T loc true vals b none ⟨d, hd, hs⟩,
    encodeLoop_unsupported T loc false vals b none ⟨d, hd, hs⟩, ?_⟩
  cases d <;> simp [Datum.supported] at hs <;> simp [EstimateValueSize]

/-- Witness of C8: a `Raw` Datum after an `Int64` Datum. -/
theorem C8_unsupported_kind_is_error_witness :
    (EncodeKey sampleTypes Location.nil [] [.int64 1, .raw [1]]).2 ≠ none ∧
      (EncodeValue sampleTypes Location.nil [] [.int64 1, .raw [1]]).2 ≠ none ∧
      (EstimateValueSize sampleTypes 0 (.raw [1])).2 ≠ none :=
  C8_unsupported_kind_is_error sampleTypes Location.nil 0 [] [.int64 1, .raw [1]] (.raw [1])
    (by decide) rfl

/-- C9 (the code at the failing input): when `EncodeDecimal` fails for a Decimal Datum and
succeeds for the Decimal Datum that follows it, `encode` returns a nil error: the error of
the first element is overwritten. -/
theorem C9_decimal_error_is_overwritten (T : TypesPkg) (loc : Location) (comparable1 : Bool)
    (b : List Nat) (dec1 dec2 : MyDecimal) (l1 f1 l2 f2 : Int) (e : CodecError)
    (_h1 : (T.EncodeDecimal dec1 l1 f1).2 = some e)
    (h2 : (T.EncodeDecimal dec2 l2 f2).2 = none) :
    (encode T loc b [.mysqlDecimal dec1 l1 f1, .mysqlDecimal dec2 l2 f2] comparable1).2
      = none := by
  simp [encode, encodeLoop, h2]

/-- Witness of C9: a five-digit decimal of precision two, then a one-digit decimal of
precision three. -/
theorem C9_decimal_error_is_overwritten_witness :
    (sampleTypes.EncodeDecimal ⟨5, 0, 0, false, []⟩ 2 0).2 = some (.external 1) ∧
      (encode sampleTypes Location.nil []
        [.mysqlDecimal ⟨5, 0, 0, false, []⟩ 2 0, .mysqlDecimal ⟨1, 0, 0, false, []⟩ 3 0]
        true).2 = none :=
  ⟨by decide, C9_decimal_error_is_overwritten sampleTypes Location.nil true []
    ⟨5, 0, 0, false, []⟩ ⟨1, 0, 0, false, []⟩ 2 0 3 0 (.external 1) (by decide) (by decide)⟩

/-- C10: negative zero.  In hash mode a `float32` or `float64` cell holding `-0.0` gets
the flag and the eight payload bytes of `+0.0`: `encodeHashChunkRowIdx` returns the same
flag and bytes for both, and `HashChunkSelected` and `SerializeKeys` give the same result
on a chunk and on the chunk whose `-0.0` cells are replaced by `+0.0`.  `EncodeKey`,
`EncodeValue` and `HashCode` of a Float Datum holding `-0.0` produce the same bytes as
for `+0.0`. -/
theorem C10_negative_zero (T : TypesPkg) (typeCtx : Nat) (loc : Location) :
    (∀ (row1 row2 : Row) (tp : FieldType) (idx1 idx2 : Int), tp.tp = TypeDouble →
      row1.IsNull idx1 = false → row2.IsNull idx2 = false →
      row1.GetFloat64 idx1 = negZero64 → row2.GetFloat64 idx2 = 0 →
      encodeHashChunkRowIdx T typeCtx row1 tp idx1 = (floatFlag, [0, 0, 0, 0, 0, 0, 0, 0], none) ∧
      encodeHashChunkRowIdx T typeCtx row2 tp idx2
        = (floatFlag, [0, 0, 0, 0, 0, 0, 0, 0], none)) ∧
    (∀ (row1 row2 : Row) (tp : FieldType) (idx1 idx2 : Int), tp.tp = TypeFloat →
      row1.IsNull idx1 = false → row2.IsNull idx2 = false →
      row1.GetFloat32 idx1 = negZero32 → row2.GetFloat32 idx2 = 0 →
      encodeHashChunkRowIdx T typeCtx row1 tp idx1 = (floatFlag, [0, 0, 0, 0, 0, 0, 0, 0], none) ∧
      encodeHashChunkRowIdx T typeCtx row2 tp idx2
        = (floatFlag, [0, 0, 0, 0, 0, 0, 0, 0], none)) ∧
    (∀ (h : List (List Nat)) (chk : Chunk) (tp : FieldType) (colIdx : Int) (buf : List Nat)
      (isNull : List Bool) (sel : Option (List Bool)) (ignoreNull : Bool),
      (tp.tp = TypeDouble →
        HashChunkSelected T typeCtx h chk.withoutNegZero64 tp colIdx buf isNull sel ignoreNull
          = HashChunkSelected T typeCtx h chk tp colIdx buf isNull sel ignoreNull) ∧
      (tp.tp = TypeFloat →
        HashChunkSelected T typeCtx h chk.withoutNegZero32 tp colIdx buf isNull sel ignoreNull
          = HashChunkSelected T typeCtx h chk tp colIdx buf isNull sel ignoreNull)) ∧
    (∀ (chk : Chunk) (tp : FieldType) (colIdx : Int) (usedRows : List Nat)
      (filterVector nullVector : Option (List Bool)) (mode : SerializeMode)
      (keys : List (List Nat)),
      (tp.tp = TypeDouble →
        SerializeKeys T typeCtx chk.withoutNegZero64 tp colIdx usedRows filterVector nullVector
            mode keys
          = SerializeKeys T typeCtx chk tp colIdx usedRows filterVector nullVector mode keys) ∧
      (tp.tp = TypeFloat →
        SerializeKeys T typeCtx chk.withoutNegZero32 tp colIdx usedRows filterVector nullVector
            mode keys
          = SerializeKeys T typeCtx chk tp colIdx usedRows filterVector nullVector mode keys)) ∧
    (∀ b : List Nat,
      EncodeKey T loc b [.float64 negZero64] = EncodeKey T loc b [.float64 0] ∧
      EncodeValue T loc b [.float64 negZero64] = EncodeValue T loc b [.float64 0] ∧
      HashCode T b (.float64 negZero64) = HashCode T b (.float64 0) ∧
      EncodeKey T loc b [.float32 negZero64] = EncodeKey T loc b [.float32 0] ∧
      EncodeValue T loc b [.float32 negZero64] = EncodeValue T loc b [.float32 0] ∧
      HashCode T b (.float32 negZero64) = HashCode T b (.float32 0)) := by
  have hT : ¬ (isIntegerType TypeDouble = true) := by decide
  have hF : ¬ (isIntegerType TypeFloat = true) := by decide
  have hFD : ¬ (TypeDouble = TypeFloat) := by decide
  have z1 : rawUint64 (normalizeZero negZero64) = [0, 0, 0, 0, 0, 0, 0, 0] := by decide
  have z2 : rawUint64 (normalizeZero 0) = [0, 0, 0, 0, 0, 0, 0, 0] := by decide
  have z3 : rawUint64 (normalizeZero (float32ToFloat64 negZero32)) = [0, 0, 0, 0, 0, 0, 0, 0] := by
    decide
  have z4 : rawUint64 (normalizeZero (float32ToFloat64 0)) = [0, 0, 0, 0, 0, 0, 0, 0] := by
    decide
  have ef : EncodeFloat [] negZero64 = EncodeFloat [] 0 := by decide
  refine ⟨?_, ?_, ?_, ?_, ?_⟩
  · intro row1 row2 tp idx1 idx2 htp n1 n2 g1 g2
    simp [encodeHashChunkRowIdx, htp, n1, n2, g1, g2, hT, hFD, z1, z2]
  · intro row1 row2 tp idx1 idx2 htp n1 n2 g1 g2
    simp [encodeHashChunkRowIdx, htp, n1, n2, g1, g2, hF, z3, z4]
  · intro h chk tp colIdx buf isNull sel ignoreNull
    constructor
    · intro htp
      have hc : ∀ i, hashColumnCell T typeCtx (chk.withoutNegZero64.Column colIdx) tp i
          = hashColumnCell T typeCtx (chk.Column colIdx) tp i := by
        intro i
        rw [hashColumnCell_double _ _ _ _ _ htp, hashColumnCell_double _ _ _ _ _ htp]
        simp only [Chunk.withoutNegZero64]
        rw [getD_map_zero normalizeZero (by decide), normalizeZero_idem]
      have hr : hashColumnRows chk.withoutNegZero64 (chk.withoutNegZero64.Column colIdx) tp
          = hashColumnRows chk (chk.Column colIdx) tp := by
        simp [hashColumnRows, htp, hT, hFD, Chunk.withoutNegZero64]
      simp only [HashChunkSelected, hc, hr]
      rw [hashLoop_congr T typeCtx (chk.withoutNegZero64.Column colIdx) (chk.Column colIdx) tp
        sel ignoreNull rfl hc]
    · intro htp
      have hc : ∀ i, hashColumnCell T typeCtx (chk.withoutNegZero32.Column colIdx) tp i
          = hashColumnCell T typeCtx (chk.Column colIdx) tp i := by
        intro i
        rw [hashColumnCell_float _ _ _ _ _ htp, hashColumnCell_float _ _ _ _ _ htp]
        simp only [Chunk.withoutNegZero32]
        rw [getD_map_zero _ (by decide), normalizeZero_float32]
      have hr : hashColumnRows chk.withoutNegZero32 (chk.withoutNegZero32.Column colIdx) tp
          = hashColumnRows chk (chk.Column colIdx) tp := by
        simp [hashColumnRows, htp, hF, Chunk.withoutNegZero32]
      simp only [HashChunkSelected, hc, hr]
      rw [hashLoop_congr T typeCtx (chk.withoutNegZero32.Column colIdx) (chk.Column colIdx) tp
        sel ignoreNull rfl hc]
  · intro chk tp colIdx usedRows filterVector nullVector mode keys
    constructor
    · intro htp
      have hc : ∀ i, serializeCell T typeCtx (chk.withoutNegZero64.Column colIdx) tp mode i
          = serializeCell T typeCtx (chk.Column colIdx) tp mode i := by
        intro i
        rw [serializeCell_double _ _ _ _ _ _ htp, serializeCell_double _ _ _ _ _ _ htp]
        simp only [Chunk.withoutNegZero64]
        rw [getD_map_zero normalizeZero (by decide), normalizeZero_idem]
      simp only [SerializeKeys, hc]
      rw [serializeLoop_congr T typeCtx (chk.withoutNegZero64.Column colIdx) (chk.Column colIdx)
        tp filterVector mode rfl hc]
    · intro htp
      have hc : ∀ i, serializeCell T typeCtx (chk.withoutNegZero32.Column colIdx) tp mode i
          = serializeCell T typeCtx (chk.Column colIdx) tp mode i := by
        intro i
        rw [serializeCell_float _ _ _ _ _ _ htp, serializeCell_float _ _ _ _ _ _ htp]
        simp only [Chunk.withoutNegZero32]
        rw [getD_map_zero _ (by decide), normalizeZero_float32]
      simp only [SerializeKeys, hc]
      rw [serializeLoop_congr T typeCtx (chk.withoutNegZero32.Column colIdx) (chk.Column colIdx)
        tp filterVector mode rfl hc]
  · intro b
    simp only [EncodeKey, EncodeValue, encode, encodeLoop, HashCode, floatFlag_EncodeFloat, ef,
      and_self]

/-- Witness of C10: a row whose `float64` cell holds `-0.0` and a row whose cell holds
`+0.0`. -/
theorem C10_negative_zero_witness :
    (sampleRow 0 negZero64).IsNull 0 = false ∧ (sampleRow 0 negZero64).GetFloat64 0 = negZero64 ∧
      (sampleRow 0 0).GetFloat64 0 = 0 ∧
      encodeHashChunkRowIdx sampleTypes 0 (sampleRow 0 negZero64) ⟨TypeDouble, 0, [], []⟩ 0
        = (floatFlag, [0, 0, 0, 0, 0, 0, 0, 0], none) ∧
      encodeHashChunkRowIdx sampleTypes 0 (sampleRow 0 0) ⟨TypeDouble, 0, [], []⟩ 0
        = (floatFlag, [0, 0, 0, 0, 0, 0, 0, 0], none) :=
  ⟨rfl, rfl, rfl,
    (C10_negative_zero sampleTypes 0 Location.nil).1 (sampleRow 0 negZero64) (sampleRow 0 0)
      ⟨TypeDouble, 0, [], []⟩ 0 0 rfl rfl rfl rfl rfl⟩

/-- C11: sentinels are never decoded from data.  For every byte string `b`, the Datum
returned by `DecodeOne(b)` and every Datum returned by `Decode(b, n)` is neither
`MinNotNull` nor `MaxValue`; in the result of `DecodeRange` with nil column types no Datum
but the last is a sentinel, and when the last one is a sentinel the decoding loop stopped
on a single trailing byte (1, 250 or 251), from which that Datum was appended. -/
theorem C11_sentinels_not_decoded (T : TypesPkg) (loc : Location) (b : List Nat) (n : Nat) :
    (DecodeOne T b).2.1.isSentinel = false ∧
    (∀ d ∈ (Decode T b n).1, d.isSentinel = false) ∧
    (∀ d ∈ (DecodeRange T b n none loc).1.dropLast, d.isSentinel = false) ∧
    (∀ s, (DecodeRange T b n none loc).1.getLast? = some s → s.isSentinel = true →
      ∃ x, (rangeLoop T none loc b.length b [] 0).2.1 = [x] ∧
        (x = bytesFlag ∨ x = maxFlag ∨ x = maxFlag + 1) ∧
        (DecodeRange T b n none loc).1 = (rangeLoop T none loc b.length b [] 0).1 ++ [s]) := by
  have hr := rangeLoop_not_sentinel T loc b.length b [] 0 (by simp)
  refine ⟨DecodeOne_not_sentinel T b, ?_, ?_, ?_⟩
  · intro d hd
    unfold Decode at hd
    split at hd
    · simp at hd
    · exact decodeLoop_not_sentinel T _ _ [] (by simp) d hd
  · intro d hd
    rcases DecodeRange_values T none loc b n with h | h | ⟨x, s, _, h, _⟩
    · rw [h] at hd; simp at hd
    · rw [h] at hd; exact hr d (List.mem_of_mem_dropLast hd)
    · rw [h, List.dropLast_concat] at hd; exact hr d hd
  · intro s hs hsent
    have hno : ∀ l : List Datum, (∀ d ∈ l, d.isSentinel = false) → l.getLast? = some s →
        False := by
      intro l hl hg
      have := hl s (List.mem_of_getLast?_eq_some hg)
      rw [this] at hsent
      exact Bool.noConfusion hsent
    rcases DecodeRange_values T none loc b n with h | h | ⟨x, s1, hx, h, hc⟩
    · rw [h] at hs; simp at hs
    · rw [h] at hs; exact (hno _ hr hs).elim
    · rw [h, List.getLast?_concat] at hs
      cases hs
      refine ⟨x, hx, ?_, h⟩
      rcases hc with ⟨_, rfl⟩ | ⟨h2, _⟩ | ⟨h3, _⟩
      · cases hsent
      · exact Or.inl h2
      · exact Or.inr h3

/-- C12: `CutOne` splits without loss and without out-of-range slicing.  For every byte
string `b`, if `CutOne(b)` succeeds with `(data, remain)` then `data ++ remain = b` and
`1 ≤ len(data) ≤ len(b)`, and `len(data)` is the length `l` that `peek(b)` returned
without error: a successful `peek` returns a length in `[1, len(b)]`, so the slices
`b[:l]` and `b[l:]` are in range. -/
theorem C12_CutOne_splits (T : TypesPkg) (b data remain : List Nat)
    (h : CutOne T b = (data, remain, none)) :
    data ++ remain = b ∧ 1 ≤ data.length ∧ data.length ≤ b.length ∧
      peek T b = ((data.length : Int), none) ∧
      data = b.take data.length ∧ remain = b.drop data.length := by
  have hp : ∀ l, peek T b = (l, none) → 1 ≤ l ∧ l ≤ (b.length : Int) := by
    intro l hl
    unfold peek at hl
    split at hl
    · simp at hl
    · split at hl
      · simp at hl
      · simp at hl
      · simp only [] at hl
        split_ifs at hl with h1 h2
        · simp at hl
        · simp at hl
        · simp only [Prod.mk.injEq, and_true] at hl
          subst hl
          constructor <;> omega
  unfold CutOne at h
  cases hr : (peek T b).2 with
  | some e => simp [hr] at h
  | none =>
    simp only [hr, Prod.mk.injEq, and_true] at h
    obtain ⟨hd, hrem⟩ := h
    have hpk : peek T b = ((peek T b).1, none) := by rw [← hr]
    obtain ⟨h1, h2⟩ := hp _ hpk
    have hlen : data.length = (peek T b).1.toNat := by
      rw [← hd, List.length_take]; omega
    have hcast : ((data.length : Nat) : Int) = (peek T b).1 := by rw [hlen]; omega
    refine ⟨by rw [← hd, ← hrem, List.take_append_drop], by omega, by omega, ?_, ?_, ?_⟩
    · rw [hcast]; exact hpk
    · rw [hlen]; exact hd.symm
    · rw [hlen]; exact hrem.symm

/-- Witness of C12: the varint element `[8, 2]` is cut from `[8, 2, 0]`. -/
theorem C12_CutOne_splits_witness :
    [8, 2] ++ [0] = [8, 2, 0] ∧ 1 ≤ [8, 2].length ∧ [8, 2].length ≤ [8, 2, 0].length ∧
      peek sampleTypes [8, 2, 0] = ((([8, 2] : List Nat).length : Int), none) ∧
      [8, 2] = [8, 2, 0].take ([8, 2] : List Nat).length ∧
      [0] = [8, 2, 0].drop ([8, 2] : List Nat).length :=
  C12_CutOne_splits sampleTypes [8, 2, 0] [8, 2] [0] (by decide)

/-- C13: hash agrees with equality.  For all rows and column type and index lists, if
`EqualChunkRow(r1, types1, idx1, r2, types2, idx2)` returns true then `HashChunkRow`, given
the same bytes already written and the same scratch buffer, writes exactly the same byte
stream for `(r1, types1, idx1)` as for `(r2, types2, idx2)`, leaves the same buffer and
returns the same error, which is nil when the scratch buffer is not empty (an empty buffer
is the index panic of `buf[0]`, for both alike); and `EqualChunkRow` returns the
count-mismatch error when the two index lists differ in length. -/
theorem C13_hash_agrees_with_equality (T : TypesPkg) (typeCtx : Nat) (row1 row2 : Row)
    (allTypes1 allTypes2 : List FieldType) (colIdx1 colIdx2 : List Int) (w buf : List Nat) :
    (EqualChunkRow T typeCtx row1 allTypes1 colIdx1 row2 allTypes2 colIdx2 = (true, none) →
      HashChunkRow T typeCtx w row1 allTypes1 colIdx1 buf =
        HashChunkRow T typeCtx w row2 allTypes2 colIdx2 buf ∧
      (buf ≠ [] → (HashChunkRow T typeCtx w row1 allTypes1 colIdx1 buf).2.2 = none)) ∧
    (colIdx1.length ≠ colIdx2.length →
      EqualChunkRow T typeCtx row1 allTypes1 colIdx1 row2 allTypes2 colIdx2 =
        (false, some (.columnsCountMismatch colIdx1.length colIdx2.length))) := by
  constructor
  · intro h
    unfold EqualChunkRow at h
    by_cases hlen : colIdx1.length ≠ colIdx2.length
    · rw [if_pos hlen] at h; simp at h
    · rw [if_neg hlen] at h
      exact hashChunkRowLoop_of_equal T typeCtx row1 row2 colIdx1 allTypes1 allTypes2 colIdx2
        w buf (not_not.1 hlen) h
  · intro hlen
    unfold EqualChunkRow
    rw [if_pos hlen]

/-- Witness of C13: a row holding `-0.0` and a row holding `+0.0` in a DOUBLE column are
equal and hash alike, without error on the one-byte scratch buffer; index lists of lengths
1 and 0 are rejected. -/
theorem C13_hash_agrees_with_equality_witness :
    (HashChunkRow sampleTypes 0 [] (sampleRow 0 negZero64) [⟨TypeDouble, 0, [], []⟩] [0] [0] =
        HashChunkRow sampleTypes 0 [] (sampleRow 0 0) [⟨TypeDouble, 0, [], []⟩] [0] [0] ∧
      (HashChunkRow sampleTypes 0 [] (sampleRow 0 negZero64) [⟨TypeDouble, 0, [], []⟩] [0]
        [0]).2.2 = none) ∧
    EqualChunkRow sampleTypes 0 (sampleRow 0 0) [] [0] (sampleRow 0 0) [] [] =
      (false, some (.columnsCountMismatch 1 0)) :=
  ⟨⟨((C13_hash_agrees_with_equality sampleTypes 0 (sampleRow 0 negZero64) (sampleRow 0 0)
      [⟨TypeDouble, 0, [], []⟩] [⟨TypeDouble, 0, [], []⟩] [0] [0] [] [0]).1 (by decide)).1,
    ((C13_hash_agrees_with_equality sampleTypes 0 (sampleRow 0 negZero64) (sampleRow 0 0)
      [⟨TypeDouble, 0, [], []⟩] [⟨TypeDouble, 0, [], []⟩] [0] [0] [] [0]).1 (by decide)).2
      (by decide)⟩,
   (C13_hash_agrees_with_equality sampleTypes 0 (sampleRow 0 0) (sampleRow 0 0)
      [] [] [0] [] [] []).2 (by decide)⟩

/-- Counterexample to C14 as stated: a `Float32` Datum and a `Float64` Datum holding the same value
(here 1.0) differ in kind and have the same `HashCode`, and the `HashCode` of a Datum of
kind `KindRaw` is empty. -/
theorem C14_counterexample :
    Datum.float32 0x3FF0000000000000 ≠ Datum.float64 0x3FF0000000000000 ∧
    HashCode sampleTypes [] (.float32 0x3FF0000000000000) =
      HashCode sampleTypes [] (.float64 0x3FF0000000000000) ∧
    HashCode sampleTypes [] (.raw [1]) = [] :=
  ⟨fun h => Datum.noConfusion h, rfl, rfl⟩

/-- C14 (amended): `HashCode` separates the Datums of the kinds Null, MinNotNull, MaxValue,
JSON, Int64, Uint64, Float64 (other than NaN and `-0.0`) and Bytes: two such Datums that
differ in kind or in value have different `HashCode(nil, d)`; every Datum of a kind other
than `KindInterface` and `KindRaw` yields a non-empty encoding, and for these two kinds
`HashCode` returns the buffer unchanged. -/
theorem C14_HashCode_separates (T : TypesPkg) (b : List Nat) (d1 d2 : Datum) :
    (d1.hashSeparated → d2.hashSeparated → d1 ≠ d2 →
      HashCode T [] d1 ≠ HashCode T [] d2) ∧
    (d1.supported = true → HashCode T [] d1 ≠ []) ∧
    (d1.supported = false → HashCode T b d1 = b) := by
  refine ⟨fun h1 h2 hne h => hne (HashCode_separates T d1 d2 h1 h2 h),
    HashCode_nonempty T d1, ?_⟩
  intro h
  cases d1 <;> simp only [Datum.supported] at h <;> first | rfl | cases h

/-- Witness of C14: the `Int64` Datum 1 and the `Uint64` Datum 1 have different hash
codes, the first one is not empty, and a raw Datum leaves the buffer as it is. -/
theorem C14_HashCode_separates_witness :
    HashCode sampleTypes [] (.int64 1) ≠ HashCode sampleTypes [] (.uint64 1) ∧
    HashCode sampleTypes [] (.int64 1) ≠ [] ∧
    HashCode sampleTypes [7] (.raw [1]) = [7] :=
  ⟨(C14_HashCode_separates sampleTypes [] (.int64 1) (.uint64 1)).1 (by decide) (by decide)
      (by decide),
   (C14_HashCode_separates sampleTypes [] (.int64 1) (.uint64 1)).2.1 (by decide),
   (C14_HashCode_separates sampleTypes [7] (.raw [1]) .null).2.2 (by decide)⟩

/-- C15: range decoding handles trailing sentinels.  For every list `vs` of Int64 and
Uint64 Datums and every sentinel `s` among Null, MinNotNull and MaxValue,
`EncodeKey(loc, nil, vs ++ [s])` succeeds and `DecodeRange` of it with nil column types
returns the values `vs ++ [s]`, a nil remainder and no error; after the encoding of `vs`, a
lone trailing byte 251 (`maxFlag + 1`) also decodes to MaxValue, any lone trailing byte
outside 0, 1, 250 and 251 is an invalid-flag error, and empty input is an error. -/
theorem C15_range_trailing_sentinels (T : TypesPkg) (loc : Location) (vs : List Datum)
    (n : Nat) (hvs : ∀ d ∈ vs, d.isInteger) :
    (∀ s, s = Datum.null ∨ s = Datum.minNotNull ∨ s = Datum.maxValue →
      (EncodeKey T loc [] (vs ++ [s])).2 = none ∧
      DecodeRange T (EncodeKey T loc [] (vs ++ [s])).1 n none loc = (vs ++ [s], [], none)) ∧
    DecodeRange T ((EncodeKey T loc [] vs).1 ++ [maxFlag + 1]) n none loc =
      (vs ++ [.maxValue], [], none) ∧
    (∀ x, x ≠ 0 → x ≠ 1 → x ≠ 250 → x ≠ 251 →
      DecodeRange T ((EncodeKey T loc [] vs).1 ++ [x]) n none loc =
        (vs, [x], some (.invalidFlag x))) ∧
    (∀ tps, DecodeRange T [] n tps loc = ([], [], some .zeroLengthKey)) := by
  have hk : (EncodeKey T loc [] vs).1 = concatEncodings T loc (inKeyMode vs) := by
    have := EncodeKey_integers_append T loc vs [] hvs
    rw [List.append_nil] at this
    rw [this]; rfl
  refine ⟨?_, ?_, ?_, ?_⟩
  · intro s hs
    rw [EncodeKey_integers_append T loc vs [s] hvs]
    rcases hs with rfl | rfl | rfl
    · simp only [encodeLoop, true_and]
      rw [DecodeRange_concatEncodings T loc vs _ n hvs]
      simp [NilFlag]
    · simp only [encodeLoop, true_and]
      rw [DecodeRange_concatEncodings T loc vs _ n hvs]
      simp [NilFlag, bytesFlag]
    · simp only [encodeLoop, true_and]
      rw [DecodeRange_concatEncodings T loc vs _ n hvs]
      simp [NilFlag, bytesFlag, maxFlag]
  · rw [hk, DecodeRange_concatEncodings T loc vs _ n hvs]
    simp [NilFlag, bytesFlag, maxFlag]
  · intro x h0 h1 h2 h3
    rw [hk, DecodeRange_concatEncodings T loc vs _ n hvs]
    simp [NilFlag, bytesFlag, maxFlag, h0, h1, h2, h3]
  · intro tps
    simp [DecodeRange]

/-- Witness of C15: the key of `[Int64 1, Uint64 2]`, followed by a sentinel or by a lone
byte. -/
theorem C15_range_trailing_sentinels_witness :
    (∀ s, s = Datum.null ∨ s = Datum.minNotNull ∨ s = Datum.maxValue →
      (EncodeKey sampleTypes .nil [] ([.int64 1, .uint64 2] ++ [s])).2 = none ∧
      DecodeRange sampleTypes (EncodeKey sampleTypes .nil [] ([.int64 1, .uint64 2] ++ [s])).1
        0 none .nil = ([.int64 1, .uint64 2] ++ [s], [], none)) ∧
    DecodeRange sampleTypes ((EncodeKey sampleTypes .nil [] [.int64 1, .uint64 2]).1 ++
        [maxFlag + 1]) 0 none .nil = ([.int64 1, .uint64 2] ++ [.maxValue], [], none) ∧
    (∀ x, x ≠ 0 → x ≠ 1 → x ≠ 250 → x ≠ 251 →
      DecodeRange sampleTypes ((EncodeKey sampleTypes .nil [] [.int64 1, .uint64 2]).1 ++ [x])
        0 none .nil = ([.int64 1, .uint64 2], [x], some (.invalidFlag x))) ∧
    (∀ tps, DecodeRange sampleTypes [] 0 tps .nil = ([], [], some .zeroLengthKey)) :=
  C15_range_trailing_sentinels sampleTypes .nil [.int64 1, .uint64 2] 0 (by decide)

/-- C34: the sentinels bound every key.  For every supported Datum `d` other than `Null`,
`MinNotNull` and `MaxValue` whose key-mode encoding succeeds,
`EncodeKey(Null) < EncodeKey(MinNotNull) < EncodeKey(d) < EncodeKey(MaxValue)` in
byte-wise lexicographic order, a proper prefix counting as smaller. -/
theorem C34_sentinels_bound_keys (T : TypesPkg) (loc : Location) (d : Datum)
    (hs : d.supported = true) (hnull : d ≠ .null) (hmin : d ≠ .minNotNull)
    (hmax : d ≠ .maxValue) (hok : (EncodeKey T loc [] [d]).2 = none) :
    bytesLt (EncodeKey T loc [] [.null]).1 (EncodeKey T loc [] [.minNotNull]).1 = true ∧
    bytesLt (EncodeKey T loc [] [.minNotNull]).1 (EncodeKey T loc [] [d]).1 = true ∧
    bytesLt (EncodeKey T loc [] [d]).1 (EncodeKey T loc [] [.maxValue]).1 = true := by
  obtain ⟨flag, tail, he, h1, h250, ht⟩ := EncodeKey_head T loc d hs hnull hmin hmax hok
  have hn : (EncodeKey T loc [] [.null]).1 = [0] := rfl
  have hm : (EncodeKey T loc [] [.minNotNull]).1 = [1] := rfl
  have hx : (EncodeKey T loc [] [.maxValue]).1 = [250] := rfl
  rw [hn, hm, hx, he]
  refine ⟨by decide, ?_, ?_⟩
  · by_cases hf : flag = 1
    · subst hf
      cases tail with
      | nil => exact absurd rfl (ht rfl)
      | cons t ts => simp [bytesLt]
    · have : 1 < flag := by omega
      simp [bytesLt, this]
  · simp [bytesLt, h250]

/-- Witness of C34: the key of the byte string "a" lies between the sentinels. -/
theorem C34_sentinels_bound_keys_witness :
    bytesLt (EncodeKey sampleTypes Location.nil [] [.minNotNull]).1
      (EncodeKey sampleTypes Location.nil [] [.bytes [97]]).1 = true :=
  (C34_sentinels_bound_keys sampleTypes Location.nil (.bytes [97]) rfl (by decide) (by decide)
    (by decide) rfl).2.1

/-- C35: the size estimate is exact for integers and byte strings.  For every Datum `d`
of kind `Int64`, `Uint64`, `Bytes`, `String` or `Null`, `EstimateValueSize(d)` returns no
error and equals `len(EncodeValue(loc, nil, d))`; `valueSizeOfSignedInt(v)` is 1 + the
length of the zig-zag varint of `v` for every `int64` `v` (`MinInt64` included), and
`valueSizeOfUnsignedInt(u)` is 1 + the length of the uvarint of `u`. -/
theorem C35_size_estimate_exact (T : TypesPkg) (typeCtx : Nat) (loc : Location) :
    (∀ d : Datum, d.isVarlen →
      (EstimateValueSize T typeCtx d).2 = none ∧ (EncodeValue T loc [] [d]).2 = none ∧
      (EstimateValueSize T typeCtx d).1 = ((EncodeValue T loc [] [d]).1.length : Int)) ∧
    (∀ v : Int, isInt64 v → valueSizeOfSignedInt v = 1 + ((PutVarint v).length : Int)) ∧
    (∀ u : Nat, isUint64 u → valueSizeOfUnsignedInt u = 1 + ((PutUvarint u).length : Int)) := by
  refine ⟨?_, valueSizeOfSignedInt_eq, valueSizeOfUnsignedInt_eq⟩
  intro d hd
  cases d <;> simp only [Datum.isVarlen] at hd
  · exact ⟨rfl, rfl, rfl⟩
  · rename_i v
    refine ⟨rfl, rfl, ?_⟩
    simp only [EstimateValueSize, EncodeValue, encode, encodeLoop, encodeSignedInt_value,
      valueSizeOfSignedInt_eq v hd, EncodeVarint, List.nil_append, List.length_cons]
    push_cast; omega
  · rename_i v
    refine ⟨rfl, rfl, ?_⟩
    simp only [EstimateValueSize, EncodeValue, encode, encodeLoop, encodeUnsignedInt_value,
      valueSizeOfUnsignedInt_eq v hd, EncodeUvarint, List.nil_append, List.length_cons]
    push_cast; omega
  · rename_i s c
    refine ⟨rfl, rfl, ?_⟩
    have hi : isInt64 (s.length : Int) := ⟨by omega, hd⟩
    simp only [EstimateValueSize, EncodeValue, encode, encodeLoop, encodeString,
      Bool.and_false, Bool.false_eq_true, if_false, encodeBytes_value, valueSizeOfBytes,
      valueSizeOfSignedInt_eq _ hi, EncodeCompactBytes, EncodeVarint, List.nil_append,
      List.length_cons, List.length_append]
    push_cast; omega
  · rename_i b
    refine ⟨rfl, rfl, ?_⟩
    have hi : isInt64 (b.length : Int) := ⟨by omega, hd⟩
    simp only [EstimateValueSize, EncodeValue, encode, encodeLoop, encodeBytes_value,
      valueSizeOfBytes, valueSizeOfSignedInt_eq _ hi, EncodeCompactBytes, EncodeVarint,
      List.nil_append, List.length_cons, List.length_append]
    push_cast; omega

/-- Witness of C35: `valueSizeOfSignedInt(MinInt64)` is 1 + the length of the varint of
`MinInt64`, which takes ten bytes. -/
theorem C35_size_estimate_exact_witness :
    valueSizeOfSignedInt (-2 ^ 63) = 1 + ((PutVarint (-2 ^ 63)).length : Int) :=
  (C35_size_estimate_exact sampleTypes 0 Location.nil).2.1 (-2 ^ 63) (by decide)

/-- C36: `HashCode` coincides with the value encoding.  For every buffer `b` and every
Datum `d` of kind `Int64`, `Uint64`, `Float32`, `Float64`, `String`, `Bytes`, `Duration`,
`Enum`, `Set`, `JSON`, `VectorFloat32`, `Null`, `MinNotNull` or `MaxValue`,
`EncodeValue(loc, b, d)` returns no error and the bytes `HashCode(b, d)`. -/
theorem C36_HashCode_is_value_encoding (T : TypesPkg) (loc : Location) (b : List Nat)
    (d : Datum) (h : d.hashedAsValue = true) :
    EncodeValue T loc b [d] = (HashCode T b d, none) := by
  cases d <;> simp only [Datum.hashedAsValue, Bool.false_eq_true] at h <;> rfl

/-- Witness of C36: the hash code of the string "a" appended to the buffer `[7]` is its
value encoding: the compact-bytes flag, the varint of the length 1, and the byte. -/
theorem C36_HashCode_is_value_encoding_witness :
    EncodeValue sampleTypes Location.nil [7] [.string [97] []] =
      (HashCode sampleTypes [7] (.string [97] []), none) :=
  C36_HashCode_is_value_encoding sampleTypes Location.nil [7] (.string [97] []) rfl

/-- C37 (the code against the claim): `SetRawValues` splits a row into column slices.
For every `data = e1 ++ ... ++ en ++ rest`, each `ei` the encoding (key mode or value mode)
of a single `Int64`, `Uint64`, `Bytes` or `Null` Datum, and every slice of `k ≤ n` values,
`SetRawValues` returns no error and sets the `k` values to the raw bytes `e1`, ..., `ek`;
with `k > n` and an empty `rest` it returns an error.  At the failing input, the lone
flag byte `[8]` of a truncated varint, which `DecodeOne` rejects, it returns no error
and sets the value to the raw bytes `[8]`. -/
theorem C37_SetRawValues_splits_row (T : TypesPkg) (loc : Location) :
    (∀ (ds : List (Datum × Bool)) (values : List Datum) (rest : List Nat),
      (∀ p ∈ ds, p.1.isPlain) → ((concatEncodings T loc ds ++ rest).length : Int) < 2 ^ 63 →
      values.length ≤ ds.length →
      SetRawValues T (concatEncodings T loc ds ++ rest) values =
        ((ds.take values.length).map (fun p => Datum.raw (encode T loc [] [p.1] p.2).1),
          none)) ∧
    (∀ (ds : List (Datum × Bool)) (values : List Datum),
      (∀ p ∈ ds, p.1.isPlain) → ((concatEncodings T loc ds).length : Int) < 2 ^ 63 →
      ds.length < values.length →
      (SetRawValues T (concatEncodings T loc ds) values).2 ≠ none) ∧
    (∀ v : Datum, SetRawValues T [8] [v] = ([Datum.raw [8]], none) ∧
      (DecodeOne T [8]).2.2 = some .insufficientBytes ∧
      EncodeValue T loc [] [.int64 0] = ([8, 0], none)) := by
  refine ⟨?_, ?_, ?_⟩
  · intro ds values rest hp hlen hk
    exact (setRawValuesLoop_concatEncodings T loc ds values rest hp hlen).1 hk
  · intro ds values hp hlen hk
    have h := (setRawValuesLoop_concatEncodings T loc ds values [] hp
      (by rw [List.append_nil]; exact hlen)).2 hk rfl
    rw [List.append_nil] at h
    exact h
  · intro v
    exact ⟨by rfl, by rfl, by rfl⟩

/-- Witness of C37: the row of `Int64(1)` in value mode, `Null`, and `Uint64(2)` in key
mode, and two values: the values become the raw bytes `[8, 2]` and `[0]`. -/
theorem C37_SetRawValues_splits_row_witness :
    SetRawValues sampleTypes [8, 2, 0, 4, 0, 0, 0, 0, 0, 0, 0, 2] [.null, .null] =
      ([.raw [8, 2], .raw [0]], none) :=
  (C37_SetRawValues_splits_row sampleTypes Location.nil).1
    [(.int64 1, false), (.null, false), (.uint64 2, true)] [.null, .null] []
    (by decide) (by decide) (by decide)

/-- C38: `peek` agrees with `DecodeOne` on element boundaries.  For every byte string
(a Go slice, so shorter than `2^63`) whose tag is Nil, int, uint, float, duration, varint,
uvarint, bytes or compact-bytes, if `DecodeOne` succeeds with remainder `r` then `peek`
returns `len(b) - len(r)` and `CutOne` returns `(b[:len(b) - len(r)], r)`, both without
error. -/
theorem C38_peek_agrees_with_DecodeOne (T : TypesPkg) (flag : Nat) (b : List Nat)
    (hflag : flag ∈ [NilFlag, intFlag, uintFlag, floatFlag, durationFlag, varintFlag,
      uvarintFlag, bytesFlag, compactBytesFlag])
    (hlen : ((flag :: b).length : Int) < 2 ^ 63)
    (hok : (DecodeOne T (flag :: b)).2.2 = none) :
    peek T (flag :: b) =
      (((flag :: b).length : Int) - ((DecodeOne T (flag :: b)).1.length : Int), none) ∧
    CutOne T (flag :: b) =
      ((flag :: b).take ((flag :: b).length - (DecodeOne T (flag :: b)).1.length),
        (DecodeOne T (flag :: b)).1, none) := by
  obtain ⟨n, hn0, hn1, hn2, hn3⟩ := peek_of_DecodeOne T flag b hflag hlen hok
  have hl : (DecodeOne T (flag :: b)).1.length = (flag :: b).length - n := by
    rw [hn3, List.length_drop]
  have hsub : (flag :: b).length - (DecodeOne T (flag :: b)).1.length = n := by omega
  constructor
  · rw [hn2, hl]
    congr 1
    omega
  · unfold CutOne
    simp only [hn2, Int.toNat_ofNat, hsub]
    rw [hn3]

/-- Witness of C38: on the varint element `[8, 2]` followed by the byte 7, `DecodeOne`
leaves `[7]`, `peek` returns 2 and `CutOne` cuts `[8, 2]` off. -/
theorem C38_peek_agrees_with_DecodeOne_witness :
    peek sampleTypes [8, 2, 7] =
      ((([8, 2, 7] : List Nat).length : Int) -
        ((DecodeOne sampleTypes [8, 2, 7]).1.length : Int), none) ∧
    CutOne sampleTypes [8, 2, 7] =
      (([8, 2, 7] : List Nat).take
        (([8, 2, 7] : List Nat).length - (DecodeOne sampleTypes [8, 2, 7]).1.length),
        (DecodeOne sampleTypes [8, 2, 7]).1, none) :=
  C38_peek_agrees_with_DecodeOne sampleTypes 8 [2, 7] (by decide) (by decide) (by decide)

end Codec

namespace TTLWorker

/-! ## Lemmas on the job manager -/

theorem ExecuteSQL_events {W : Type} (env : Env W) (r : Run W) (stmt : Stmt) :
    (ExecuteSQL env r stmt).1.events = r.events ++ [.sql stmt] := rfl

theorem RunInTxn_ok {W α : Type} (env : Env W) (r : Run W)
    (fn : Run W → Run W × α × Option TTLError) (init : α)
    (h : (RunInTxn env r fn init .pessimistic).2.2 = none) :
    (fn (ExecuteSQL env r ⟨.beginPessimistic, []⟩).1).2.2 = none ∧
    RunInTxn env r fn init .pessimistic =
      ((ExecuteSQL env (fn (ExecuteSQL env r ⟨.beginPessimistic, []⟩).1).1 ⟨.commit, []⟩).1,
        (fn (ExecuteSQL env r ⟨.beginPessimistic, []⟩).1).2.1, none) := by
  unfold RunInTxn at h ⊢
  simp only [if_true] at h ⊢
  cases hb : (ExecuteSQL env r ⟨.beginPessimistic, []⟩).2.2 with
  | some e => simp [hb] at h
  | none =>
    simp only [hb] at h ⊢
    cases hf : (fn (ExecuteSQL env r ⟨.beginPessimistic, []⟩).1).2.2 with
    | some e => simp [hf] at h
    | none =>
      simp only [hf] at h ⊢
      cases hc : (ExecuteSQL env (fn (ExecuteSQL env r ⟨.beginPessimistic, []⟩).1).1
          ⟨.commit, []⟩).2.2 with
      | some e => simp [hc] at h
      | none => simp

theorem getTableStatusForUpdateNotWait_events {W : Type} (env : Env W) (r : Run W)
    (physicalID parentTableID : Int) :
    (getTableStatusForUpdateNotWait env r physicalID parentTableID false).1.events =
      r.events ++ [.sql (selectFromTTLTableStatusWithIDForUpdateNoWait physicalID)] := by
  unfold getTableStatusForUpdateNotWait
  cases hq : (ExecuteSQL env r (selectFromTTLTableStatusWithIDForUpdateNoWait physicalID)).2.2 with
  | some e => simp [hq, ExecuteSQL_events]
  | none =>
    cases hr : (ExecuteSQL env r
        (selectFromTTLTableStatusWithIDForUpdateNoWait physicalID)).2.1 with
    | nil => simp [hq, hr, ExecuteSQL_events]
    | cons row rows => simp [hq, hr, ExecuteSQL_events]

theorem lockHBTimeoutJobTxn_ok {W : Type} (env : Env W) (m : JobManager)
    (tableID parentTableID : Int) (now : Time) (r : Run W)
    (h : (lockHBTimeoutJobTxn env m tableID parentTableID now r).2.2 = none) :
    ∃ s, (getTableStatusForUpdateNotWait env r tableID parentTableID false).2 = (some s, none) ∧
      couldLockJobForExistJob env (some s) now = true ∧
      (lockHBTimeoutJobTxn env m tableID parentTableID now r).2.1 =
        (s.CurrentJobID, s.CurrentJobStartTime, s.CurrentJobTTLExpire) ∧
      (lockHBTimeoutJobTxn env m tableID parentTableID now r).1.events =
        r.events ++ [.sql (selectFromTTLTableStatusWithIDForUpdateNoWait tableID),
          .sql (setTableStatusOwnerSQL s.CurrentJobID tableID s.CurrentJobStartTime now
            s.CurrentJobTTLExpire m.id)] := by
  have hev := getTableStatusForUpdateNotWait_events env r tableID parentTableID
  unfold lockHBTimeoutJobTxn at h ⊢
  cases hg : (getTableStatusForUpdateNotWait env r tableID parentTableID false).2.2 with
  | some e => simp [hg] at h
  | none =>
    simp only [hg] at h ⊢
    cases hs : (getTableStatusForUpdateNotWait env r tableID parentTableID false).2.1 with
    | none => simp [hs] at h
    | some s =>
      simp only [hs] at h ⊢
      cases hl : couldLockJobForExistJob env (some s) now with
      | false => simp [hl] at h
      | true =>
        simp only [hl, Bool.not_true, Bool.false_eq_true, if_false] at h ⊢
        refine ⟨s, ?_, hl, ?_⟩
        · rw [← hs, ← hg]
        · cases hx : (ExecuteSQL env
              (getTableStatusForUpdateNotWait env r tableID parentTableID false).1
              (setTableStatusOwnerSQL s.CurrentJobID tableID s.CurrentJobStartTime now
                s.CurrentJobTTLExpire m.id)).2.2 with
          | some e => simp [hx] at h
          | none => simp [hx, ExecuteSQL_events, hev]

theorem appendLockedJob_ok {W : Type} (env : Env W) (m m1 : JobManager) (r r1 : Run W)
    (id : String) (createTime expireTime : Time) (tableID : Int) (job : ttlJob)
    (h : appendLockedJob env m r id createTime expireTime tableID = (m1, r1, some job, none)) :
    job.id = id ∧ job.createTime = createTime ∧ job.ttlExpireTime = expireTime ∧
      job.ownerID = m.id ∧ job.tableID = tableID ∧ job.status = .running ∧
      m1.runningJobs = m.runningJobs ++ [job] ∧
      r1.events = r.events ++
        [.infoSchemaCacheUpdate, .tableStatusCacheUpdate, .notify scanTaskNotificationType id] := by
  unfold appendLockedJob at h
  cases hu : (updateInfoSchemaCache env m r).2.2 with
  | some e => simp [hu] at h
  | none =>
    simp only [hu] at h
    cases hv : (updateTableStatusCache env (updateInfoSchemaCache env m r).1
        (updateInfoSchemaCache env m r).2.1).2.2 with
    | some e => simp [hv] at h
    | none =>
      simp only [hv, Prod.mk.injEq, Option.some.injEq, and_true] at h
      obtain ⟨hm, hr, hj⟩ := h
      subst hj
      subst hm
      subst hr
      simp [appendJob, updateTableStatusCache, updateInfoSchemaCache]

theorem foldl_appendScanTaskErr_head (tasks : List TTLTask) :
    ∀ (a : String) (l : List String),
      ∃ l1, tasks.foldl appendScanTaskErr (a :: l) = a :: l1 := by
  induction tasks with
  | nil => intro a l; exact ⟨l, rfl⟩
  | cons t tasks ih =>
    intro a l
    simp only [List.foldl_cons]
    unfold appendScanTaskErr
    cases t.State with
    | none => exact ih a l
    | some state =>
      simp only []
      split
      · exact ih a (l ++ [state.ScanTaskErr])
      · exact ih a l

theorem errorText_head (a : String) (l : List String) :
    ∃ rest, errorText (a :: l) = a ++ rest := by
  cases l with
  | nil => exact ⟨"", by simp [errorText]⟩
  | cons b l => exact ⟨"; " ++ errorText (b :: l), by simp [errorText, String.append_assoc]⟩

theorem summarize_with_error {W : Type} (env : Env W) (tasks : List TTLTask) (msg : String) :
    (summarizeTaskResultWithError env tasks (some msg)).2 = none ∧
    ∃ rest, (summarizeTaskResultWithError env tasks (some msg)).1.ScanTaskErr = msg ++ rest := by
  refine ⟨rfl, ?_⟩
  obtain ⟨l1, hl⟩ := foldl_appendScanTaskErr_head tasks msg []
  obtain ⟨rest, hr⟩ := errorText_head msg l1
  refine ⟨rest, ?_⟩
  simp only [summarizeTaskResultWithError, hl, ne_eq, reduceCtorEq, not_false_eq_true, if_true, hr]

theorem removeJobLoop_nodup (id : String) :
    ∀ jobs : List ttlJob, (jobs.map (fun j => j.id)).Nodup →
      ∀ j ∈ removeJobLoop id jobs, j.id ≠ id := by
  intro jobs
  induction jobs with
  | nil => intro _ j hj; simp [removeJobLoop] at hj
  | cons job jobs ih =>
    intro hn j hj
    simp only [List.map_cons, List.nodup_cons, List.mem_map, not_exists, not_and] at hn
    unfold removeJobLoop at hj
    by_cases hid : job.id = id
    · rw [if_pos hid] at hj
      intro hji
      exact hn.1 j hj (hji.trans hid.symm)
    · rw [if_neg hid] at hj
      rcases List.mem_cons.1 hj with h | h
      · rw [h]; exact hid
      · exact ih hn.2 j h

theorem findAllTasksForJob_events {W : Type} (env : Env W) (r : Run W) (jobID : String) :
    (findAllTasksForJob env r jobID).1.events =
      r.events ++ [.sql (SelectFromTTLTaskWithJobID jobID)] := by
  unfold findAllTasksForJob
  cases hq : (ExecuteSQL env r (SelectFromTTLTaskWithJobID jobID)).2.2 with
  | some e => simp [hq, ExecuteSQL_events]
  | none =>
    simp only [hq]
    cases hr : rowsToTTLTasks env (ExecuteSQL env r (SelectFromTTLTaskWithJobID jobID)).2.1 with
    | none => simp [hr, ExecuteSQL_events]
    | some l => simp [hr, ExecuteSQL_events]

/-! ## Lemmas on summaries and on dropping jobs -/

theorem foldl_summarizeTask (tasks : List TTLTask) :
    ∀ s : TTLSummary, s.TotalRows < 2 ^ 64 → s.SuccessRows < 2 ^ 64 → s.ErrorRows < 2 ^ 64 →
      (tasks.foldl summarizeTask s).TotalRows =
        (s.TotalRows + ((tasks.filterMap (fun t => t.State)).map (fun st => st.TotalRows)).sum)
          % 2 ^ 64 ∧
      (tasks.foldl summarizeTask s).SuccessRows =
        (s.SuccessRows +
          ((tasks.filterMap (fun t => t.State)).map (fun st => st.SuccessRows)).sum) % 2 ^ 64 ∧
      (tasks.foldl summarizeTask s).ErrorRows =
        (s.ErrorRows + ((tasks.filterMap (fun t => t.State)).map (fun st => st.ErrorRows)).sum)
          % 2 ^ 64 ∧
      (tasks.foldl summarizeTask s).TotalScanTask = s.TotalScanTask + (tasks.length : Int) ∧
      (tasks.foldl summarizeTask s).ScheduledScanTask =
        s.ScheduledScanTask + ((tasks.countP (fun t => decide (t.Status ≠ .waiting)) : Nat) : Int) ∧
      (tasks.foldl summarizeTask s).FinishedScanTask =
        s.FinishedScanTask + ((tasks.countP (fun t => decide (t.Status = .finished)) : Nat) : Int) ∧
      (tasks.foldl summarizeTask s).ScanTaskErr = s.ScanTaskErr := by
  induction tasks with
  | nil =>
    intro s h1 h2 h3
    simp
    omega
  | cons t tasks ih =>
    intro s h1 h2 h3
    have hm : (0 : Nat) < 2 ^ 64 := by norm_num
    simp only [List.foldl_cons]
    obtain ⟨jobID, tableID, scanID, status, state⟩ := t
    cases state with
    | none =>
      have h := ih (summarizeTask s ⟨jobID, tableID, scanID, status, none⟩)
        (by cases status <;> simpa [summarizeTask] using h1)
        (by cases status <;> simpa [summarizeTask] using h2)
        (by cases status <;> simpa [summarizeTask] using h3)
      obtain ⟨a1, a2, a3, a4, a5, a6, a7⟩ := h
      rw [a1, a2, a3, a4, a5, a6, a7]
      cases status <;> simp [summarizeTask, List.countP_cons] <;> omega
    | some st =>
      have h := ih (summarizeTask s ⟨jobID, tableID, scanID, status, some st⟩)
        (by cases status <;> simp [summarizeTask] <;> exact Nat.mod_lt _ hm)
        (by cases status <;> simp [summarizeTask] <;> exact Nat.mod_lt _ hm)
        (by cases status <;> simp [summarizeTask] <;> exact Nat.mod_lt _ hm)
      obtain ⟨a1, a2, a3, a4, a5, a6, a7⟩ := h
      rw [a1, a2, a3, a4, a5, a6, a7]
      cases status <;> simp [summarizeTask, List.countP_cons, Nat.add_assoc] <;> omega

theorem foldl_appendScanTaskErr (tasks : List TTLTask) :
    ∀ l : List String, tasks.foldl appendScanTaskErr l = l ++ scanTaskErrs tasks := by
  induction tasks with
  | nil => intro l; simp [scanTaskErrs]
  | cons t tasks ih =>
    intro l
    obtain ⟨jobID, tableID, scanID, status, state⟩ := t
    simp only [List.foldl_cons, ih]
    cases state with
    | none => simp [appendScanTaskErr, scanTaskErrs]
    | some state =>
      by_cases h : state.ScanTaskErr.length > 0
      · simp [appendScanTaskErr, scanTaskErrs, h]
      · simp [appendScanTaskErr, scanTaskErrs, h]

theorem scanTaskErrs_nonempty (tasks : List TTLTask) :
    ∀ e ∈ scanTaskErrs tasks, 0 < e.length := by
  intro e he
  unfold scanTaskErrs at he
  obtain ⟨t, _, ht⟩ := List.mem_filterMap.1 he
  cases hs : t.State with
  | none => simp [hs] at ht
  | some state =>
    simp only [hs] at ht
    split at ht
    · rename_i h
      simp only [Option.some.injEq] at ht
      rw [← ht]; exact h
    · simp at ht

theorem summarize_ScanTaskErr {W : Type} (env : Env W) (tasks : List TTLTask) :
    (summarizeTaskResultWithError env tasks none).1.ScanTaskErr =
      errorText (scanTaskErrs tasks) := by
  unfold summarizeTaskResultWithError
  simp only [foldl_appendScanTaskErr, List.nil_append]
  obtain ⟨_, _, _, _, _, _, a7⟩ := foldl_summarizeTask tasks ⟨0, 0, 0, 0, 0, 0, "", ""⟩
    (by norm_num) (by norm_num) (by norm_num)
  by_cases h : scanTaskErrs tasks = []
  · simp [h, a7, errorText]
  · simp [h]

theorem errorText_eq_empty (l : List String) (hl : ∀ e ∈ l, 0 < e.length) :
    errorText l = "" ↔ l = [] := by
  constructor
  · intro h
    cases l with
    | nil => rfl
    | cons a l =>
      obtain ⟨rest, hr⟩ := errorText_head a l
      have h1 : (errorText (a :: l)).length = a.length + rest.length := by
        rw [hr, String.length_append]
      rw [h] at h1
      have h2 := hl a (List.mem_cons_self _ _)
      simp at h1
      omega
  · intro h; rw [h]; rfl


theorem removeJobLoop_append (id : String) (job : ttlJob) (hid : job.id = id) :
    ∀ (init rest : List ttlJob), (∀ j ∈ init, j.id ≠ id) →
      removeJobLoop id (init ++ job :: rest) = init ++ rest := by
  intro init
  induction init with
  | nil => intro rest _; simp [removeJobLoop, hid]
  | cons a init ih =>
    intro rest h
    have ha : a.id ≠ id := h a (List.mem_cons_self _ _)
    simp only [List.cons_append, removeJobLoop, if_neg ha, List.append_eq]
    rw [ih rest (fun j hj => h j (List.mem_cons_of_mem _ hj))]

theorem getElem?_append_cons (init rest : List ttlJob) (job : ttlJob) :
    (init ++ job :: rest)[init.length]? = some job := by
  rw [List.getElem?_append_right (Nat.le_refl _)]
  simp

theorem nodup_init_last (init : List ttlJob) (last : ttlJob)
    (h : ((init ++ [last]).map (fun j => j.id)).Nodup) :
    (init.map (fun j => j.id)).Nodup ∧ ∀ j ∈ init, j.id ≠ last.id := by
  simp only [List.map_append, List.map_cons, List.map_nil] at h
  rw [List.nodup_append] at h
  refine ⟨h.1, ?_⟩
  intro j hj hji
  exact h.2.2 (List.mem_map_of_mem _ hj) (by simp [hji])

theorem checkNotOwnJobLoop_filter :
    ∀ (init kept : List ttlJob) (m : JobManager), m.runningJobs = init ++ kept →
      (init.map (fun j => j.id)).Nodup →
      checkNotOwnJobLoop init.length m =
        { m with runningJobs := init.filter (fun job =>
            match m.tableStatusCache.Tables.lookup job.tableID with
            | none => false
            | some status => status.CurrentJobOwnerID == m.id) ++ kept } := by
  intro init
  induction init using List.reverseRecOn with
  | nil =>
    intro kept m hm _
    simp only [List.length_nil, checkNotOwnJobLoop, List.filter_nil, List.nil_append]
    rw [← List.nil_append kept, ← hm]
  | append_singleton init last ih =>
    intro kept m hm hn
    obtain ⟨hn1, hn2⟩ := nodup_init_last init last hn
    have hm1 : m.runningJobs = init ++ last :: kept := by rw [hm]; simp
    have hget : m.runningJobs[init.length]? = some last := by
      rw [hm1]; exact getElem?_append_cons init kept last
    have hrem : removeJob m last = { m with runningJobs := init ++ kept } := by
      unfold removeJob
      rw [hm1, removeJobLoop_append last.id last rfl init kept hn2]
    simp only [List.length_append, List.length_singleton, checkNotOwnJobLoop, hget]
    cases hl : m.tableStatusCache.Tables.lookup last.tableID with
    | none =>
      simp only []
      rw [hrem, ih kept _ rfl hn1]
      simp [List.filter_append, hl]
    | some st =>
      simp only []
      by_cases ho : st.CurrentJobOwnerID = m.id
      · rw [if_neg (not_not.2 ho), ih (last :: kept) m hm1 hn1]
        simp [List.filter_append, hl, ho]
      · rw [if_pos ho, hrem, ih kept _ rfl hn1]
        simp [List.filter_append, hl, ho]


theorem allFinished_iff (tasks : List TTLTask) :
    allFinished tasks = true ↔ ∀ task ∈ tasks, task.Status = .finished := by
  simp [allFinished, List.all_eq_true]

theorem keepUnfinishedJobs_append {W : Type} (env : Env W) :
    ∀ (a b : List ttlJob) (r : Run W),
      keepUnfinishedJobs env (a ++ b) r =
        ((keepUnfinishedJobs env a (keepUnfinishedJobs env b r).2).1 ++
            (keepUnfinishedJobs env b r).1,
          (keepUnfinishedJobs env a (keepUnfinishedJobs env b r).2).2) := by
  intro a
  induction a with
  | nil => intro b r; simp [keepUnfinishedJobs]
  | cons job a ih =>
    intro b r
    simp only [List.cons_append, keepUnfinishedJobs, List.append_eq, ih]
    split
    · split <;> simp
    · simp

theorem keepUnfinishedJobs_sublist {W : Type} (env : Env W) :
    ∀ (jobs : List ttlJob) (r : Run W), (keepUnfinishedJobs env jobs r).1.Sublist jobs := by
  intro jobs
  induction jobs with
  | nil => intro r; simp [keepUnfinishedJobs]
  | cons job jobs ih =>
    intro r
    simp only [keepUnfinishedJobs]
    split
    · split
      · exact (ih r).trans (List.sublist_cons_self _ _)
      · exact (ih r).cons₂ _
    · exact (ih r).cons₂ _

theorem checkFinishedJobLoop_keep {W : Type} (env : Env W) :
    ∀ (init kept : List ttlJob) (m : JobManager) (r : Run W), m.runningJobs = init ++ kept →
      (init.map (fun j => j.id)).Nodup →
      checkFinishedJobLoop env init.length m r =
        ({ m with runningJobs := (keepUnfinishedJobs env init r).1 ++ kept },
          (keepUnfinishedJobs env init r).2) := by
  intro init
  induction init using List.reverseRecOn with
  | nil =>
    intro kept m r hm _
    simp only [List.length_nil, checkFinishedJobLoop, keepUnfinishedJobs, List.nil_append]
    rw [← List.nil_append kept, ← hm]
  | append_singleton init last ih =>
    intro kept m r hm hn
    obtain ⟨hn1, hn2⟩ := nodup_init_last init last hn
    have hm1 : m.runningJobs = init ++ last :: kept := by rw [hm]; simp
    have hget : m.runningJobs[init.length]? = some last := by
      rw [hm1]; exact getElem?_append_cons init kept last
    have hrem : removeJob m last = { m with runningJobs := init ++ kept } := by
      unfold removeJob
      rw [hm1, removeJobLoop_append last.id last rfl init kept hn2]
    rw [keepUnfinishedJobs_append]
    simp only [List.length_append, List.length_singleton, checkFinishedJobLoop, hget,
      keepUnfinishedJobs]
    cases hq : (findAllTasksForJob env r last.id).2.2 with
    | some e =>
      simp only [reduceCtorEq, false_and, if_false]
      rw [ih (last :: kept) m _ hm1 hn1]
      simp
    | none =>
      simp only [true_and]
      by_cases hf : allFinished (findAllTasksForJob env r last.id).2.1 = true
      · have hf1 := (allFinished_iff _).1 hf
        rw [if_pos hf, if_pos hf1]
        cases hfin : (finish env (findAllTasksForJob env r last.id).1 last
            (env.Now (findAllTasksForJob env r last.id).1.world)
            (summarizeTaskResultWithError env (findAllTasksForJob env r last.id).2.1
              none).1).2 with
        | some e =>
          simp only [reduceCtorEq, if_false]
          rw [ih (last :: kept) m _ hm1 hn1]
          simp
        | none =>
          simp only [if_true]
          rw [hrem, ih kept _ _ rfl hn1]
          simp
      · have hf1 : ¬ ∀ task ∈ (findAllTasksForJob env r last.id).2.1,
            task.Status = .finished := fun h => hf ((allFinished_iff _).2 h)
        rw [if_neg hf, if_neg hf1]
        rw [ih (last :: kept) m _ hm1 hn1]
        simp


theorem insertScanTasks_events {W : Type} (env : Env W) (jobID : String) (tableID : Int)
    (expireTime now : Time) (e : Event) :
    ∀ (ranges : List ScanRange) (scanID : Nat) (r : Run W), e ∈ r.events →
      e ∈ (insertScanTasks env jobID tableID expireTime now ranges scanID r).1.events := by
  intro ranges
  induction ranges with
  | nil => intro scanID r h; simpa [insertScanTasks] using h
  | cons rg ranges ih =>
    intro scanID r h
    simp only [insertScanTasks]
    split
    · exact h
    · split
      · simp [ExecuteSQL_events, h]
      · apply ih
        simp [ExecuteSQL_events, h]

theorem lockNewJobTxn_ok {W : Type} (env : Env W) (m : JobManager) (table : PhysicalTable)
    (now : Time) (jobID : String) (checkScheduleInterval : Bool) (r : Run W)
    (h : (lockNewJobTxn env m table now jobID checkScheduleInterval r).2.2 = none) :
    Event.sql (setTableStatusOwnerSQL jobID table.ID now now
        (lockNewJobTxn env m table now jobID checkScheduleInterval r).2.1 m.id) ∈
      (lockNewJobTxn env m table now jobID checkScheduleInterval r).1.events := by
  unfold lockNewJobTxn at h ⊢
  simp only [] at h ⊢
  cases hg : (getTableStatusForUpdateNotWait env r table.ID table.TableInfo.ID true).2.2 with
  | some e => simp [hg] at h
  | none =>
    simp only [hg] at h ⊢
    cases hs : (getTableStatusForUpdateNotWait env r table.ID table.TableInfo.ID true).2.1 with
    | none => simp [hs] at h
    | some s =>
      simp only [hs] at h ⊢
      cases hc : couldLockJobForCreate (some s) (m.infoSchemaCache.Tables.lookup s.TableID) now
          checkScheduleInterval with
      | none => simp [hc] at h
      | some c =>
        cases c with
        | false => simp [hc] at h
        | true =>
          simp only [hc] at h ⊢
          cases he : (env.EvalExpireTime
              (getTableStatusForUpdateNotWait env r table.ID table.TableInfo.ID true).1.world
              table now).2.2 with
          | some e => simp [he] at h
          | none =>
            simp only [he] at h ⊢
            split
            · rename_i e hx
              simp [hx] at h
            · rename_i hx
              simp only [hx] at h
              split
              · rename_i e hh
                simp [hh] at h
              · rename_i hh
                simp only [hh] at h
                split
                · rename_i e hsp
                  simp [hsp] at h
                · apply insertScanTasks_events
                  simp [ExecuteSQL_events]

theorem deleteStatusGC_idem (ids : Option (List Int)) (status : List StatusRow) :
    deleteStatusGC ids (deleteStatusGC ids status) = deleteStatusGC ids status := by
  unfold deleteStatusGC
  rw [List.filter_filter]
  congr 1
  funext s
  simp

theorem deleteTaskGC_idem (status : List StatusRow) (task : List TaskRow) :
    deleteTaskGC status (deleteTaskGC status task) = deleteTaskGC status task := by
  unfold deleteTaskGC
  rw [List.filter_filter]
  congr 1
  funext s
  simp

theorem deleteHistoryGC_idem (today : Int) (history : List HistoryRow) :
    deleteHistoryGC today (deleteHistoryGC today history) = deleteHistoryGC today history := by
  unfold deleteHistoryGC
  rw [List.filter_filter]
  congr 1
  funext s
  simp

theorem DoGC_dbEnv_world (w : DB) (m : JobManager) (events : List Event) (now : Time)
    (hl : w.leader = true) :
    (DoGC dbEnv m ⟨w, events⟩ now).2.world =
      match w.refreshError with
      | some _ =>
        { w with task := deleteTaskGC w.status w.task,
                 history := deleteHistoryGC w.today w.history }
      | none =>
        { w with
          status := deleteStatusGC
            (if (w.schema.map Prod.fst).length > 0 then some (w.schema.map Prod.fst) else none)
            w.status,
          task := deleteTaskGC (deleteStatusGC
            (if (w.schema.map Prod.fst).length > 0 then some (w.schema.map Prod.fst) else none)
            w.status) w.task,
          history := deleteHistoryGC w.today w.history } := by
  cases hr : w.refreshError with
  | some e =>
    simp [DoGC, isLeader, dbEnv, hl, updateInfoSchemaCache, hr, ExecuteSQL, dbExecute]
  | none =>
    by_cases hs : 0 < w.schema.length
    · simp [DoGC, isLeader, dbEnv, hl, updateInfoSchemaCache, hr, ExecuteSQL, dbExecute,
        gcTTLTableStatusGCSQL, hs]
    · simp [DoGC, isLeader, dbEnv, hl, updateInfoSchemaCache, hr, ExecuteSQL, dbExecute,
        gcTTLTableStatusGCSQL, hs]

/-! ## Lemmas on take-over candidates and on `removeJob` -/

/-- The test that `readyForLockHBTimeoutJobTables` applies to a cached status. -/
theorem readyForLockHBTimeoutJobTablesLoop_filter {W : Type} (env : Env W)
    (jobs : List ttlJob) (now : Time) :
    ∀ (entries : List (Int × TableStatus)) (tables : List TableStatus),
      readyForLockHBTimeoutJobTablesLoop env jobs now entries tables =
        tables ++ (entries.map Prod.snd).filter (fun status =>
          !(jobs.any (fun job => decide (job.tableID = status.TableID))) &&
            couldLockJobForExistJob env (some status) now) := by
  intro entries
  induction entries with
  | nil => intro tables; simp [readyForLockHBTimeoutJobTablesLoop]
  | cons e entries ih =>
    intro tables
    obtain ⟨k, status⟩ := e
    simp only [readyForLockHBTimeoutJobTablesLoop, List.map_cons, List.filter_cons]
    by_cases h1 : jobs.any (fun job => decide (job.tableID = status.TableID)) = true
    · rw [if_pos h1, ih]; simp [h1]
    · rw [if_neg h1]
      by_cases h2 : couldLockJobForExistJob env (some status) now = true
      · rw [if_pos h2, ih]; simp [h1, h2]
      · rw [if_neg h2, ih]; simp [h1, h2]

/-- The slice arithmetic of `removeJob` yields the list without the first job of that id. -/
theorem removeJobSlices_eq (id : String) :
    ∀ (rest pre : List ttlJob),
      removeJobSlices id (pre ++ rest) rest pre.length = pre ++ removeJobLoop id rest := by
  intro rest
  induction rest with
  | nil => intro pre; simp [removeJobSlices, removeJobLoop]
  | cons job rest ih =>
    intro pre
    simp only [removeJobSlices, removeJobLoop]
    by_cases h : job.id = id
    · rw [if_pos h, if_pos h]
      have ht : (pre ++ job :: rest).take pre.length = pre := by simp
      have hd : (pre ++ job :: rest).drop (pre.length + 1) = rest := by
        rw [← List.drop_drop]; simp
      by_cases hl : pre.length + 1 < (pre ++ job :: rest).length
      · rw [if_pos hl, ht, hd]
      · rw [if_neg hl, ht]
        have : rest = [] := by
          cases rest with
          | nil => rfl
          | cons a rest => simp at hl
        rw [this, List.append_nil]
    · rw [if_neg h, if_neg h]
      have := ih (pre ++ [job])
      simp only [List.append_assoc, List.singleton_append, List.length_append,
        List.length_singleton] at this
      rw [this]

/-- The list after `removeJob` is never longer, and at most one shorter. -/
theorem removeJobLoop_length (id : String) :
    ∀ jobs : List ttlJob, (removeJobLoop id jobs).length ≤ jobs.length ∧
      jobs.length ≤ (removeJobLoop id jobs).length + 1 := by
  intro jobs
  induction jobs with
  | nil => simp [removeJobLoop]
  | cons job jobs ih =>
    simp only [removeJobLoop]
    by_cases h : job.id = id
    · rw [if_pos h]; simp
    · rw [if_neg h]; simp only [List.length_cons]; omega

/-- Removing an id that no job has changes nothing. -/
theorem removeJobLoop_absent (id : String) :
    ∀ jobs : List ttlJob, (∀ j ∈ jobs, j.id ≠ id) → removeJobLoop id jobs = jobs := by
  intro jobs
  induction jobs with
  | nil => intro _; rfl
  | cons job jobs ih =>
    intro h
    simp only [removeJobLoop]
    rw [if_neg (h job (List.mem_cons_self _ _)), ih (fun j hj => h j (List.mem_cons_of_mem _ hj))]

/-! ## Lemmas on two lock attempts over the small database -/

/-- C16: the lock-for-create predicate.  For every non-nil table status `s`, table `t`,
time `now` and flag `checkScheduleInterval`, `couldLockJobForCreate` returns, and it
returns true if and only if `s.CurrentJobID` is empty and either `checkScheduleInterval` is
false, or the job interval of `t` is valid and `s.LastJobStartTime + interval` is strictly
before `now`; for a nil status it returns true. -/
theorem C16_lock_for_create (s : TableStatus) (t : PhysicalTable) (table : Option PhysicalTable)
    (now : Time) (checkScheduleInterval : Bool) :
    couldLockJobForCreate (some s) (some t) now checkScheduleInterval =
      some (decide (s.CurrentJobID = "" ∧
        (checkScheduleInterval = false ∨
          (t.TTLInfo.GetJobInterval.2 = none ∧
            s.LastJobStartTime.ns + t.TTLInfo.GetJobInterval.1 < now.ns)))) ∧
    couldLockJobForCreate none table now checkScheduleInterval = some true := by
  refine ⟨?_, rfl⟩
  unfold couldLockJobForCreate
  by_cases h1 : s.CurrentJobID = ""
  · cases checkScheduleInterval with
    | false => simp [h1]
    | true =>
      cases h2 : t.TTLInfo.GetJobInterval.2 with
      | none => simp [h1, h2, Time.Add, Time.Before]
      | some e => simp [h1, h2]
  · simp [h1]

/-- Counterexample to C17 as stated: a status row with a current job and an empty owner id may be
locked at once, although the owner id is empty and no heartbeat timeout has elapsed (the
heartbeat instant 200 is after `now`, the instant 0). -/
theorem C17_counterexample :
    couldLockJobForExistJob sampleEnv (some { sampleStatus with CurrentJobOwnerID := "" })
      ⟨0⟩ = true ∧
    ({ sampleStatus with CurrentJobOwnerID := "" } : TableStatus).CurrentJobOwnerID = "" ∧
    ¬ (({ sampleStatus with CurrentJobOwnerID := "" } : TableStatus).CurrentJobOwnerHBTime.ns +
        max (2 * sampleEnv.getHeartbeatInterval)
          (2 * sampleEnv.getUpdateTTLTableStatusCacheInterval) < (0 : Int)) := by
  decide

/-- C17 (amended): whenever `couldLockJobForExistJob(s, now)` returns true, the status `s`
is non-nil, `s.CurrentJobID` is non-empty, and either `s.CurrentJobOwnerID` is empty or the
time elapsed since `s.CurrentJobOwnerHBTime` exceeds
`max(2 × heartbeat interval, 2 × table-status-cache refresh interval)`; the doubled
intervals are taken to fit a `time.Duration`. -/
theorem C17_lock_for_takeover {W : Type} (env : Env W) (s : Option TableStatus) (now : Time)
    (hh : Codec.isInt64 (env.getHeartbeatInterval * 2))
    (hc : Codec.isInt64 (env.getUpdateTTLTableStatusCacheInterval * 2))
    (h : couldLockJobForExistJob env s now = true) :
    ∃ st, s = some st ∧ st.CurrentJobID ≠ "" ∧
      (st.CurrentJobOwnerID = "" ∨
        st.CurrentJobOwnerHBTime.ns +
          max (2 * env.getHeartbeatInterval) (2 * env.getUpdateTTLTableStatusCacheInterval)
            < now.ns) := by
  cases s with
  | none => simp [couldLockJobForExistJob] at h
  | some st =>
    refine ⟨st, rfl, ?_⟩
    unfold couldLockJobForExistJob at h
    simp only [Codec.wrapInt64_of_isInt64 _ hh, Codec.wrapInt64_of_isInt64 _ hc] at h
    by_cases h1 : st.CurrentJobID = ""
    · simp [h1] at h
    · refine ⟨h1, ?_⟩
      by_cases h2 : st.CurrentJobOwnerID = ""
      · exact Or.inl h2
      · right
        simp only [h1, h2, if_false, ne_eq, not_false_eq_true, if_true, Time.Add,
          Time.Before] at h
        split_ifs at h with h3 h4 h4
        · simp only [decide_eq_true_eq] at h4; omega
        · simp only [decide_eq_true_eq] at h4; omega

/-- Witness of C17: the job "j1" whose owner "old" sent its last heartbeat at instant
200 may be locked at instant 300, the heartbeat timeout being 60. -/
theorem C17_lock_for_takeover_witness :
    ∃ st, some sampleStatus = some st ∧ st.CurrentJobID ≠ "" ∧
      (st.CurrentJobOwnerID = "" ∨
        st.CurrentJobOwnerHBTime.ns +
          max (2 * sampleEnv.getHeartbeatInterval)
            (2 * sampleEnv.getUpdateTTLTableStatusCacheInterval) < (⟨300⟩ : Time).ns) :=
  C17_lock_for_takeover sampleEnv (some sampleStatus) ⟨300⟩ (by decide) (by decide)
    (by decide)

/-- C18: takeover preserves the identity of the job.  When `lockHBTimeoutJob` succeeds, it
has read a status row `s` in its transaction, and the owner-update statement it issues
binds `current_job_id = s.CurrentJobID`, `current_job_start_time = s.CurrentJobStartTime`
and `current_job_ttl_expire = s.CurrentJobTTLExpire` (all unchanged), sets
`current_job_owner_id` to the id of this manager and the heartbeat and status-update times
to `now`, for `table_id` the given table; the job appended locally has the id, the create
time and the expire time of `s`, and this manager as owner. -/
theorem C18_takeover_preserves_identity {W : Type} (env : Env W) (m m1 : JobManager)
    (r r1 : Run W) (tableID parentTableID : Int) (now : Time) (job : ttlJob)
    (h : lockHBTimeoutJob env m r tableID parentTableID now = (m1, r1, some job, none)) :
    ∃ s stmt,
      (getTableStatusForUpdateNotWait env (ExecuteSQL env r ⟨.beginPessimistic, []⟩).1
        tableID parentTableID false).2 = (some s, none) ∧
      stmt.sql = .setTableStatusOwnerTemplate ∧
      bindings setTableStatusOwnerColumns stmt =
        [("current_job_id", .str s.CurrentJobID), ("current_job_owner_id", .str m.id),
         ("current_job_start_time", .time s.CurrentJobStartTime),
         ("current_job_status_update_time", .time now),
         ("current_job_ttl_expire", .time s.CurrentJobTTLExpire),
         ("current_job_owner_hb_time", .time now), ("table_id", .int tableID)] ∧
      r1.events = r.events ++
        [.sql ⟨.beginPessimistic, []⟩,
         .sql (selectFromTTLTableStatusWithIDForUpdateNoWait tableID), .sql stmt,
         .sql ⟨.commit, []⟩, .infoSchemaCacheUpdate, .tableStatusCacheUpdate,
         .notify scanTaskNotificationType s.CurrentJobID] ∧
      job.id = s.CurrentJobID ∧ job.createTime = s.CurrentJobStartTime ∧
      job.ttlExpireTime = s.CurrentJobTTLExpire ∧ job.ownerID = m.id ∧
      job.tableID = tableID ∧ m1.runningJobs = m.runningJobs ++ [job] := by
  unfold lockHBTimeoutJob at h
  cases ht : (RunInTxn env r (lockHBTimeoutJobTxn env m tableID parentTableID now)
      ("", zeroTime, zeroTime) .pessimistic).2.2 with
  | some e => simp [ht] at h
  | none =>
    obtain ⟨hfn, hrun⟩ := RunInTxn_ok env r _ _ ht
    obtain ⟨s, hs, _, hvars, hev⟩ := lockHBTimeoutJobTxn_ok env m tableID parentTableID now _ hfn
    simp only [ht, hrun, hvars] at h
    obtain ⟨h1, h2, h3, h4, h5, _, h7, h8⟩ := appendLockedJob_ok env m m1 _ r1 _ _ _ _ job h
    refine ⟨s, setTableStatusOwnerSQL s.CurrentJobID tableID s.CurrentJobStartTime now
      s.CurrentJobTTLExpire m.id, hs, rfl, rfl, ?_, h1, h2, h3, h4, h5, h7⟩
    rw [h8, ExecuteSQL_events, hev, ExecuteSQL_events]
    simp

set_option maxRecDepth 100000 in
/-- Witness of C18: the manager "me" takes over the job "j1" of table 1 at instant 300. -/
theorem C18_takeover_preserves_identity_witness :
    ∃ s stmt,
      (getTableStatusForUpdateNotWait sampleEnv
        (ExecuteSQL sampleEnv ⟨⟨[[]], 0⟩, []⟩ ⟨.beginPessimistic, []⟩).1 1 1 false).2 =
          (some s, none) ∧
      stmt.sql = .setTableStatusOwnerTemplate ∧
      bindings setTableStatusOwnerColumns stmt =
        [("current_job_id", .str s.CurrentJobID),
         ("current_job_owner_id", .str (sampleManager []).id),
         ("current_job_start_time", .time s.CurrentJobStartTime),
         ("current_job_status_update_time", .time ⟨300⟩),
         ("current_job_ttl_expire", .time s.CurrentJobTTLExpire),
         ("current_job_owner_hb_time", .time ⟨300⟩), ("table_id", .int 1)] ∧
      (lockHBTimeoutJob sampleEnv (sampleManager []) ⟨⟨[[]], 0⟩, []⟩ 1 1 ⟨300⟩).2.1.events =
        ([] : List Event) ++
        [.sql ⟨.beginPessimistic, []⟩,
         .sql (selectFromTTLTableStatusWithIDForUpdateNoWait 1), .sql stmt,
         .sql ⟨.commit, []⟩, .infoSchemaCacheUpdate, .tableStatusCacheUpdate,
         .notify scanTaskNotificationType s.CurrentJobID] ∧
      ({ sampleJob with assignTime := ⟨300⟩ } : ttlJob).id = s.CurrentJobID ∧
      ({ sampleJob with assignTime := ⟨300⟩ } : ttlJob).createTime = s.CurrentJobStartTime ∧
      ({ sampleJob with assignTime := ⟨300⟩ } : ttlJob).ttlExpireTime = s.CurrentJobTTLExpire ∧
      ({ sampleJob with assignTime := ⟨300⟩ } : ttlJob).ownerID = (sampleManager []).id ∧
      ({ sampleJob with assignTime := ⟨300⟩ } : ttlJob).tableID = 1 ∧
      (lockHBTimeoutJob sampleEnv (sampleManager []) ⟨⟨[[]], 0⟩, []⟩ 1 1 ⟨300⟩).1.runningJobs =
        (sampleManager []).runningJobs ++ [{ sampleJob with assignTime := ⟨300⟩ }] :=
  C18_takeover_preserves_identity sampleEnv (sampleManager [])
    (lockHBTimeoutJob sampleEnv (sampleManager []) ⟨⟨[[]], 0⟩, []⟩ 1 1 ⟨300⟩).1
    ⟨⟨[[]], 0⟩, []⟩
    (lockHBTimeoutJob sampleEnv (sampleManager []) ⟨⟨[[]], 0⟩, []⟩ 1 1 ⟨300⟩).2.1
    1 1 ⟨300⟩ { sampleJob with assignTime := ⟨300⟩ } (by rfl)

/-- Counterexample to C19 as stated: the job "j1", created at instant 100 with a job timeout of 1000,
has not timed out at instant 300; its heartbeat UPDATE affects 0 rows;
`updateHeartBeatForJob` returns the lost-ownership error, and the job is still in the
running-job list of the manager. -/
theorem C19_counterexample :
    (sampleJob.createTime.Add sampleEnv.ttlJobTimeout).Before ⟨300⟩ = false ∧
    sampleEnv.AffectedRows
      (ExecuteSQL sampleEnv ⟨⟨[], 0⟩, []⟩ (updateHeartBeatSQL 1 ⟨300⟩ "me")).1.world ≠ 1 ∧
    (updateHeartBeatForJob sampleEnv (sampleManager [sampleJob]) ⟨⟨[], 0⟩, []⟩ ⟨300⟩
      sampleJob).2.2 = some (.heartbeatNotMyself "me" 0) ∧
    sampleJob ∈ (updateHeartBeatForJob sampleEnv (sampleManager [sampleJob]) ⟨⟨[], 0⟩, []⟩
      ⟨300⟩ sampleJob).1.runningJobs := by
  decide

/-- C19 (amended): lost ownership on heartbeat.  For every local job that has not timed
out, if the heartbeat UPDATE (conditioned on table id and owner id = self) executes and
affects a number of rows other than exactly one, `updateHeartBeatForJob` returns a
lost-ownership error, having issued that UPDATE only, and leaves the running-job list of
the manager as it was: the job is not removed by this function. -/
theorem C19_lost_ownership_on_heartbeat {W : Type} (env : Env W) (m : JobManager)
    (r : Run W) (now : Time) (job : ttlJob)
    (hnt : ¬ (job.createTime.ns + env.ttlJobTimeout < now.ns))
    (hx : (env.ExecuteSQL r.world (updateHeartBeatSQL job.tableID now m.id)).2.2 = none)
    (ha : env.AffectedRows
      (env.ExecuteSQL r.world (updateHeartBeatSQL job.tableID now m.id)).1 ≠ 1) :
    (updateHeartBeatForJob env m r now job).2.2 =
      some (.heartbeatNotMyself m.id (env.AffectedRows
        (env.ExecuteSQL r.world (updateHeartBeatSQL job.tableID now m.id)).1)) ∧
    (updateHeartBeatForJob env m r now job).1 = m ∧
    (updateHeartBeatForJob env m r now job).2.1.events =
      r.events ++ [.sql (updateHeartBeatSQL job.tableID now m.id)] ∧
    bindings updateHeartBeatColumns (updateHeartBeatSQL job.tableID now m.id) =
      [("current_job_owner_hb_time", .time now), ("table_id", .int job.tableID),
       ("current_job_owner_id", .str m.id)] := by
  have hb : (job.createTime.Add env.ttlJobTimeout).Before now = false := by
    simp [Time.Add, Time.Before, hnt]
  unfold updateHeartBeatForJob
  simp only [hb, Bool.false_eq_true, if_false]
  have hx1 : (ExecuteSQL env r (updateHeartBeatSQL job.tableID now m.id)).2.2 = none := hx
  have ha1 : env.AffectedRows
      (ExecuteSQL env r (updateHeartBeatSQL job.tableID now m.id)).1.world ≠ 1 := ha
  simp only [hx1, ha1, ne_eq, not_false_eq_true, if_true]
  refine ⟨?_, ?_, ?_, ?_⟩ <;> first | rfl | trivial

/-- Witness of C19: the heartbeat of the job "j1" at instant 300 affects 0 rows. -/
theorem C19_lost_ownership_on_heartbeat_witness :
    (updateHeartBeatForJob sampleEnv (sampleManager [sampleJob]) ⟨⟨[], 0⟩, []⟩ ⟨300⟩
      sampleJob).2.2 =
      some (.heartbeatNotMyself (sampleManager [sampleJob]).id (sampleEnv.AffectedRows
        (sampleEnv.ExecuteSQL (⟨[], 0⟩ : SampleWorld)
          (updateHeartBeatSQL sampleJob.tableID ⟨300⟩ (sampleManager [sampleJob]).id)).1)) ∧
    (updateHeartBeatForJob sampleEnv (sampleManager [sampleJob]) ⟨⟨[], 0⟩, []⟩ ⟨300⟩
      sampleJob).1 = sampleManager [sampleJob] ∧
    (updateHeartBeatForJob sampleEnv (sampleManager [sampleJob]) ⟨⟨[], 0⟩, []⟩ ⟨300⟩
      sampleJob).2.1.events =
      [] ++ [.sql (updateHeartBeatSQL sampleJob.tableID ⟨300⟩ (sampleManager [sampleJob]).id)] ∧
    bindings updateHeartBeatColumns
        (updateHeartBeatSQL sampleJob.tableID ⟨300⟩ (sampleManager [sampleJob]).id) =
      [("current_job_owner_hb_time", .time ⟨300⟩), ("table_id", .int sampleJob.tableID),
       ("current_job_owner_id", .str (sampleManager [sampleJob]).id)] :=
  C19_lost_ownership_on_heartbeat sampleEnv (sampleManager [sampleJob]) ⟨⟨[], 0⟩, []⟩ ⟨300⟩
    sampleJob (by decide) (by decide) (by decide)

/-- C20: job timeout.  For every local job with `createTime + ttlJobTimeout` strictly
before `now`, `updateHeartBeatForJob` reads the tasks of the job and finalises the job with
a summary whose scan-task-error text starts with "job is timeout", whatever the tasks and
their statuses, issues no heartbeat UPDATE, and, when `finish` succeeds, returns no error
and removes the job from `runningJobs` (no job with its id is left when the ids of the
running jobs are distinct); a job whose age does not exceed the timeout is not finalised:
the only call is the heartbeat UPDATE and `runningJobs` is unchanged. -/
theorem C20_job_timeout {W : Type} (env : Env W) (m : JobManager) (r : Run W) (now : Time)
    (job : ttlJob) :
    (job.createTime.ns + env.ttlJobTimeout < now.ns →
      ∃ summary rest,
        summary.ScanTaskErr = "job is timeout" ++ rest ∧
        (updateHeartBeatForJob env m r now job).2.1.events =
          r.events ++ [.sql (SelectFromTTLTaskWithJobID job.id), .finish job.id now summary] ∧
        (∀ stmt, Event.sql stmt ∈
            (updateHeartBeatForJob env m r now job).2.1.events.drop r.events.length →
          stmt.sql ≠ .updateHeartBeatTemplate) ∧
        ((env.finish (findAllTasksForJob env r job.id).1.world job now summary).2 = none →
          (updateHeartBeatForJob env m r now job).2.2 = none ∧
          (updateHeartBeatForJob env m r now job).1 = removeJob m job ∧
          ((m.runningJobs.map (fun j => j.id)).Nodup →
            ∀ j ∈ (updateHeartBeatForJob env m r now job).1.runningJobs, j.id ≠ job.id))) ∧
    (¬ (job.createTime.ns + env.ttlJobTimeout < now.ns) →
      (updateHeartBeatForJob env m r now job).2.1.events =
        r.events ++ [.sql (updateHeartBeatSQL job.tableID now m.id)] ∧
      (updateHeartBeatForJob env m r now job).1 = m) := by
  constructor
  · intro hto
    have hb : (job.createTime.Add env.ttlJobTimeout).Before now = true := by
      simp [Time.Add, Time.Before, hto]
    obtain ⟨hs2, rest, hrest⟩ := summarize_with_error env
      (findAllTasksForJob env r job.id).2.1 "job is timeout"
    have hev := findAllTasksForJob_events env r job.id
    have hu : updateHeartBeatForJob env m r now job =
        match (finish env (findAllTasksForJob env r job.id).1 job now
          (summarizeTaskResultWithError env (findAllTasksForJob env r job.id).2.1
            (some "job is timeout")).1).2 with
        | some e => (m, (finish env (findAllTasksForJob env r job.id).1 job now
            (summarizeTaskResultWithError env (findAllTasksForJob env r job.id).2.1
              (some "job is timeout")).1).1, some (.failToFinishJob e))
        | none => (removeJob m job, (finish env (findAllTasksForJob env r job.id).1 job now
            (summarizeTaskResultWithError env (findAllTasksForJob env r job.id).2.1
              (some "job is timeout")).1).1, none) := by
      unfold updateHeartBeatForJob
      simp only [hb, if_true, hs2]
    have hevents : (updateHeartBeatForJob env m r now job).2.1.events =
        r.events ++ [.sql (SelectFromTTLTaskWithJobID job.id),
          .finish job.id now (summarizeTaskResultWithError env
            (findAllTasksForJob env r job.id).2.1 (some "job is timeout")).1] := by
      rw [hu]
      split <;> simp [finish, hev]
    refine ⟨_, rest, hrest, hevents, ?_, ?_⟩
    · intro stmt hmem
      rw [hevents, List.drop_left] at hmem
      simp only [List.mem_cons, Event.sql.injEq, reduceCtorEq, List.mem_singleton,
        List.not_mem_nil, or_false] at hmem
      rw [hmem]
      simp [SelectFromTTLTaskWithJobID]
    · intro hfin
      have hfin1 : (finish env (findAllTasksForJob env r job.id).1 job now
          (summarizeTaskResultWithError env (findAllTasksForJob env r job.id).2.1
            (some "job is timeout")).1).2 = none := hfin
      rw [hu]
      simp only [hfin1]
      refine ⟨trivial, trivial, ?_⟩
      intro hn j hj
      exact removeJobLoop_nodup job.id m.runningJobs hn j hj
  · intro hnt
    have hb : (job.createTime.Add env.ttlJobTimeout).Before now = false := by
      simp [Time.Add, Time.Before, hnt]
    unfold updateHeartBeatForJob
    simp only [hb, Bool.false_eq_true, if_false]
    cases hx : (ExecuteSQL env r (updateHeartBeatSQL job.tableID now m.id)).2.2 with
    | some e => simp [ExecuteSQL_events]
    | none =>
      simp only []
      split <;> simp [ExecuteSQL_events]

set_option maxRecDepth 100000 in
/-- Witness of C20: the job "j1", created at instant 100 with a job timeout of 1000, has
timed out at instant 2000 and has not at instant 300. -/
theorem C20_job_timeout_witness :
    (∃ summary rest,
        summary.ScanTaskErr = "job is timeout" ++ rest ∧
        (updateHeartBeatForJob sampleEnv (sampleManager [sampleJob]) ⟨⟨[], 1⟩, []⟩ ⟨2000⟩
          sampleJob).2.1.events =
          [] ++ [.sql (SelectFromTTLTaskWithJobID sampleJob.id),
            .finish sampleJob.id ⟨2000⟩ summary] ∧
        (∀ stmt, Event.sql stmt ∈
            (updateHeartBeatForJob sampleEnv (sampleManager [sampleJob]) ⟨⟨[], 1⟩, []⟩ ⟨2000⟩
              sampleJob).2.1.events.drop ([] : List Event).length →
          stmt.sql ≠ .updateHeartBeatTemplate) ∧
        ((sampleEnv.finish (findAllTasksForJob sampleEnv ⟨⟨[], 1⟩, []⟩ sampleJob.id).1.world
            sampleJob ⟨2000⟩ summary).2 = none →
          (updateHeartBeatForJob sampleEnv (sampleManager [sampleJob]) ⟨⟨[], 1⟩, []⟩ ⟨2000⟩
            sampleJob).2.2 = none ∧
          (updateHeartBeatForJob sampleEnv (sampleManager [sampleJob]) ⟨⟨[], 1⟩, []⟩ ⟨2000⟩
            sampleJob).1 = removeJob (sampleManager [sampleJob]) sampleJob ∧
          (((sampleManager [sampleJob]).runningJobs.map (fun j => j.id)).Nodup →
            ∀ j ∈ (updateHeartBeatForJob sampleEnv (sampleManager [sampleJob]) ⟨⟨[], 1⟩, []⟩
              ⟨2000⟩ sampleJob).1.runningJobs, j.id ≠ sampleJob.id))) ∧
    ((updateHeartBeatForJob sampleEnv (sampleManager [sampleJob]) ⟨⟨[], 1⟩, []⟩ ⟨300⟩
        sampleJob).2.1.events =
        [] ++ [.sql (updateHeartBeatSQL sampleJob.tableID ⟨300⟩ (sampleManager [sampleJob]).id)] ∧
      (updateHeartBeatForJob sampleEnv (sampleManager [sampleJob]) ⟨⟨[], 1⟩, []⟩ ⟨300⟩
        sampleJob).1 = sampleManager [sampleJob]) :=
  ⟨(C20_job_timeout sampleEnv (sampleManager [sampleJob]) ⟨⟨[], 1⟩, []⟩ ⟨2000⟩ sampleJob).1
      (by decide),
   (C20_job_timeout sampleEnv (sampleManager [sampleJob]) ⟨⟨[], 1⟩, []⟩ ⟨300⟩ sampleJob).2
      (by decide)⟩

/-- C21: a job is finished exactly when all its tasks are Finished.  For every running-job
list with pairwise distinct job ids, `checkFinishedJob` leaves the jobs of
`keepUnfinishedJobs`: visiting the jobs from the last to the first, it finalises a job if
and only if the task query for it succeeds and every returned task has status Finished (a
job with zero task rows included), and removes it if and only if moreover `job.finish`
succeeds; every other job stays in `runningJobs`, in its original relative order. -/
theorem C21_checkFinishedJob_removes_finished {W : Type} (env : Env W) (m : JobManager)
    (r : Run W) (hn : (m.runningJobs.map (fun j => j.id)).Nodup) :
    checkFinishedJob env m r =
      ({ m with runningJobs := (keepUnfinishedJobs env m.runningJobs r).1 },
        (keepUnfinishedJobs env m.runningJobs r).2) ∧
    (checkFinishedJob env m r).1.runningJobs.Sublist m.runningJobs := by
  have h := checkFinishedJobLoop_keep env m.runningJobs [] m r (by simp) hn
  have hc : checkFinishedJob env m r =
      ({ m with runningJobs := (keepUnfinishedJobs env m.runningJobs r).1 },
        (keepUnfinishedJobs env m.runningJobs r).2) := by
    unfold checkFinishedJob
    rw [h, List.append_nil]
  refine ⟨hc, ?_⟩
  rw [hc]
  exact keepUnfinishedJobs_sublist env m.runningJobs r

set_option maxRecDepth 100000 in
/-- Witness of C21: the jobs "j1" and "j2" have no task rows, so both are finalised and
removed, the last one first. -/
theorem C21_checkFinishedJob_removes_finished_witness :
    (checkFinishedJob sampleEnv
        (sampleManager [sampleJob, { sampleJob with id := "j2" }]) ⟨⟨[], 0⟩, []⟩).1.runningJobs
      = [] ∧
    (checkFinishedJob sampleEnv
        (sampleManager [sampleJob, { sampleJob with id := "j2" }]) ⟨⟨[], 0⟩, []⟩).2.events =
      [.sql (SelectFromTTLTaskWithJobID "j2"),
       .finish "j2" ⟨300⟩ ⟨0, 0, 0, 0, 0, 0, "", ""⟩,
       .sql (SelectFromTTLTaskWithJobID "j1"),
       .finish "j1" ⟨300⟩ ⟨0, 0, 0, 0, 0, 0, "", ""⟩] := by
  have h := (C21_checkFinishedJob_removes_finished sampleEnv
    (sampleManager [sampleJob, { sampleJob with id := "j2" }]) ⟨⟨[], 0⟩, []⟩ (by decide)).1
  rw [h]
  exact ⟨by decide, by decide⟩

/-- C22: summary counters.  For every task list and every cause,
`summarizeTaskResultWithError` returns no error and a summary whose `TotalRows`,
`SuccessRows` and `ErrorRows` are the sums (modulo 2^64) of the corresponding counters over
the tasks that have a state, whose `TotalScanTask` is the number of tasks, whose
`ScheduledScanTask` is the number of tasks whose status is not Waiting and whose
`FinishedScanTask` is the number of tasks whose status is Finished; hence
`FinishedScanTask ≤ ScheduledScanTask ≤ TotalScanTask`. -/
theorem C22_summary_counters {W : Type} (env : Env W) (tasks : List TTLTask)
    (err : Option String) :
    (summarizeTaskResultWithError env tasks err).2 = none ∧
    (summarizeTaskResultWithError env tasks err).1.TotalRows =
      ((tasks.filterMap (fun t => t.State)).map (fun st => st.TotalRows)).sum % 2 ^ 64 ∧
    (summarizeTaskResultWithError env tasks err).1.SuccessRows =
      ((tasks.filterMap (fun t => t.State)).map (fun st => st.SuccessRows)).sum % 2 ^ 64 ∧
    (summarizeTaskResultWithError env tasks err).1.ErrorRows =
      ((tasks.filterMap (fun t => t.State)).map (fun st => st.ErrorRows)).sum % 2 ^ 64 ∧
    (summarizeTaskResultWithError env tasks err).1.TotalScanTask = (tasks.length : Int) ∧
    (summarizeTaskResultWithError env tasks err).1.ScheduledScanTask =
      ((tasks.countP (fun t => decide (t.Status ≠ .waiting)) : Nat) : Int) ∧
    (summarizeTaskResultWithError env tasks err).1.FinishedScanTask =
      ((tasks.countP (fun t => decide (t.Status = .finished)) : Nat) : Int) ∧
    (summarizeTaskResultWithError env tasks err).1.FinishedScanTask ≤
      (summarizeTaskResultWithError env tasks err).1.ScheduledScanTask ∧
    (summarizeTaskResultWithError env tasks err).1.ScheduledScanTask ≤
      (summarizeTaskResultWithError env tasks err).1.TotalScanTask := by
  obtain ⟨a1, a2, a3, a4, a5, a6, _⟩ := foldl_summarizeTask tasks ⟨0, 0, 0, 0, 0, 0, "", ""⟩
    (by norm_num) (by norm_num) (by norm_num)
  simp only [Nat.zero_add, Int.zero_add] at a1 a2 a3 a4 a5 a6
  have e1 : (summarizeTaskResultWithError env tasks err).1.TotalRows =
      (tasks.foldl summarizeTask ⟨0, 0, 0, 0, 0, 0, "", ""⟩).TotalRows := by
    unfold summarizeTaskResultWithError; simp only []; split <;> rfl
  have e2 : (summarizeTaskResultWithError env tasks err).1.SuccessRows =
      (tasks.foldl summarizeTask ⟨0, 0, 0, 0, 0, 0, "", ""⟩).SuccessRows := by
    unfold summarizeTaskResultWithError; simp only []; split <;> rfl
  have e3 : (summarizeTaskResultWithError env tasks err).1.ErrorRows =
      (tasks.foldl summarizeTask ⟨0, 0, 0, 0, 0, 0, "", ""⟩).ErrorRows := by
    unfold summarizeTaskResultWithError; simp only []; split <;> rfl
  have e4 : (summarizeTaskResultWithError env tasks err).1.TotalScanTask =
      (tasks.foldl summarizeTask ⟨0, 0, 0, 0, 0, 0, "", ""⟩).TotalScanTask := by
    unfold summarizeTaskResultWithError; simp only []; split <;> rfl
  have e5 : (summarizeTaskResultWithError env tasks err).1.ScheduledScanTask =
      (tasks.foldl summarizeTask ⟨0, 0, 0, 0, 0, 0, "", ""⟩).ScheduledScanTask := by
    unfold summarizeTaskResultWithError; simp only []; split <;> rfl
  have e6 : (summarizeTaskResultWithError env tasks err).1.FinishedScanTask =
      (tasks.foldl summarizeTask ⟨0, 0, 0, 0, 0, 0, "", ""⟩).FinishedScanTask := by
    unfold summarizeTaskResultWithError; simp only []; split <;> rfl
  rw [e1, e2, e3, e4, e5, e6, a1, a2, a3, a4, a5, a6]
  refine ⟨rfl, rfl, rfl, rfl, rfl, rfl, rfl, ?_, ?_⟩
  · have : tasks.countP (fun t => decide (t.Status = .finished)) ≤
        tasks.countP (fun t => decide (t.Status ≠ .waiting)) := by
      apply List.countP_mono_left
      intro t _ h
      simp only [decide_eq_true_eq] at h ⊢
      rw [h]; decide
    exact_mod_cast this
  · have := List.countP_le_length (fun t : TTLTask => decide (t.Status ≠ .waiting)) (l := tasks)
    exact_mod_cast this

set_option maxRecDepth 100000 in
/-- Counterexample to C23 as stated: of two tasks with the scan errors "a" and "b", the
first one that has a scan error has the text "a", and the summary reports "a; b". -/
theorem C23_counterexample :
    (summarizeTaskResultWithError sampleEnv
      [⟨"j1", 1, 0, .finished, some ⟨0, 0, 0, "a"⟩⟩, ⟨"j1", 1, 1, .finished, some ⟨0, 0, 0, "b"⟩⟩]
      none).1.ScanTaskErr = "a; b" ∧
    (summarizeTaskResultWithError sampleEnv
      [⟨"j1", 1, 0, .finished, some ⟨0, 0, 0, "a"⟩⟩, ⟨"j1", 1, 1, .finished, some ⟨0, 0, 0, "b"⟩⟩]
      none).1.ScanTaskErr ≠ "a" := by
  decide

/-- C23 (amended): the summary reports the scan errors.  When
`summarizeTaskResultWithError` is called with no external cause (`err = nil`), the
`ScanTaskErr` of the summary is the scan-error texts of all the tasks that have a non-empty
one, in list order, joined by "; ": it starts with the text of the first such task, and
equals it when exactly one task has a scan error; `ScanTaskErr` is empty if and only if no
task has a scan error. -/
theorem C23_summary_scan_errors {W : Type} (env : Env W) (tasks : List TTLTask) :
    (summarizeTaskResultWithError env tasks none).1.ScanTaskErr =
      errorText (scanTaskErrs tasks) ∧
    (∀ e rest, scanTaskErrs tasks = e :: rest →
      ∃ tail, (summarizeTaskResultWithError env tasks none).1.ScanTaskErr = e ++ tail) ∧
    (∀ e, scanTaskErrs tasks = [e] →
      (summarizeTaskResultWithError env tasks none).1.ScanTaskErr = e) ∧
    ((summarizeTaskResultWithError env tasks none).1.ScanTaskErr = "" ↔
      scanTaskErrs tasks = []) := by
  rw [summarize_ScanTaskErr]
  refine ⟨rfl, ?_, ?_, errorText_eq_empty _ (scanTaskErrs_nonempty tasks)⟩
  · intro e rest h
    rw [h]
    exact errorText_head e rest
  · intro e h
    rw [h]
    rfl

set_option maxRecDepth 100000 in
/-- Witness of C23: one task without a state, one with the scan error "a". -/
theorem C23_summary_scan_errors_witness :
    (summarizeTaskResultWithError sampleEnv
      [⟨"j1", 1, 0, .finished, none⟩, ⟨"j1", 1, 1, .finished, some ⟨0, 0, 0, "a"⟩⟩]
      none).1.ScanTaskErr = "a" :=
  (C23_summary_scan_errors sampleEnv
    [⟨"j1", 1, 0, .finished, none⟩, ⟨"j1", 1, 1, .finished, some ⟨0, 0, 0, "a"⟩⟩]).2.2.1 "a"
    (by decide)

/-- C24: not-owned jobs are dropped, owned jobs kept.  For every running-job list with
pairwise distinct job ids, after `checkNotOwnJob` the list consists of exactly those jobs
whose table has a cached status naming this node as `CurrentJobOwnerID`, in their original
order: it equals the list that `localJobs()` returned just before the call, and nothing
else of the manager changes. -/
theorem C24_checkNotOwnJob_keeps_local_jobs (m : JobManager)
    (hn : (m.runningJobs.map (fun j => j.id)).Nodup) :
    checkNotOwnJob m = { m with runningJobs := localJobs m } ∧
    (checkNotOwnJob m).runningJobs.Sublist m.runningJobs ∧
    ∀ job, job ∈ (checkNotOwnJob m).runningJobs ↔
      job ∈ m.runningJobs ∧
        ∃ status, m.tableStatusCache.Tables.lookup job.tableID = some status ∧
          status.CurrentJobOwnerID = m.id := by
  have h := checkNotOwnJobLoop_filter m.runningJobs [] m (by simp) hn
  have hc : checkNotOwnJob m = { m with runningJobs := localJobs m } := by
    unfold checkNotOwnJob localJobs
    rw [h, List.append_nil]
  refine ⟨hc, ?_, ?_⟩
  · rw [hc]
    exact List.filter_sublist _
  · intro job
    rw [hc]
    simp only [localJobs, List.mem_filter]
    constructor
    · rintro ⟨h1, h2⟩
      refine ⟨h1, ?_⟩
      cases hl : m.tableStatusCache.Tables.lookup job.tableID with
      | none => simp [hl] at h2
      | some st => exact ⟨st, rfl, by simpa [hl] using h2⟩
    · rintro ⟨h1, st, hl, ho⟩
      exact ⟨h1, by simp [hl, ho]⟩

set_option maxRecDepth 100000 in
/-- Witness of C24: of the jobs "j1" of table 1 and "j2" of table 2, the node "me" owns
the first one only. -/
theorem C24_checkNotOwnJob_keeps_local_jobs_witness :
    checkNotOwnJob
        { id := "me", infoSchemaCache := ⟨[]⟩,
          tableStatusCache := ⟨[(1, { sampleStatus with CurrentJobOwnerID := "me" }),
            (2, sampleStatus)]⟩,
          runningJobs := [sampleJob, { sampleJob with id := "j2", tableID := 2 }] } =
      { id := "me", infoSchemaCache := ⟨[]⟩,
        tableStatusCache := ⟨[(1, { sampleStatus with CurrentJobOwnerID := "me" }),
          (2, sampleStatus)]⟩,
        runningJobs := [sampleJob] } :=
  (C24_checkNotOwnJob_keeps_local_jobs
    { id := "me", infoSchemaCache := ⟨[]⟩,
      tableStatusCache := ⟨[(1, { sampleStatus with CurrentJobOwnerID := "me" }),
        (2, sampleStatus)]⟩,
      runningJobs := [sampleJob, { sampleJob with id := "j2", tableID := 2 }] }
    (by decide)).1

/-- C26: every job submission gets exactly one reply.  For every request,
`handleSubmitJobRequest` sends exactly one value on the response channel of the request
(a `lockNewJob` that panics apart); it is an error, sent without any statement executed,
when this node is not the leader, when the physical id is absent from the schema cache
(refreshed first), or when the id of the cached table differs from the table id of the
request; otherwise it is the result (nil or error) of `lockNewJob` for that table at
`se.Now()`, with the request id as job id and no check of the schedule interval. -/
theorem C26_submit_gets_one_reply {W : Type} (env : Env W) (m : JobManager) (r : Run W)
    (jobReq : SubmitTTLManagerJobRequest) :
    (isLeader env r = false →
      handleSubmitJobRequest env m r jobReq = (m, r, [some .notLeader])) ∧
    (isLeader env r = true →
      (updateInfoSchemaCache env m r).1.infoSchemaCache.Tables.lookup jobReq.PhysicalID = none →
      handleSubmitJobRequest env m r jobReq =
        ((updateInfoSchemaCache env m r).1,
          ⟨(updateInfoSchemaCache env m r).2.1.world, r.events ++ [.infoSchemaCacheUpdate]⟩,
          [some (.physicalIDNotExists jobReq.PhysicalID)])) ∧
    (∀ tbl, isLeader env r = true →
      (updateInfoSchemaCache env m r).1.infoSchemaCache.Tables.lookup jobReq.PhysicalID =
        some tbl →
      tbl.TableInfo.ID ≠ jobReq.TableID →
      handleSubmitJobRequest env m r jobReq =
        ((updateInfoSchemaCache env m r).1,
          ⟨(updateInfoSchemaCache env m r).2.1.world, r.events ++ [.infoSchemaCacheUpdate]⟩,
          [some (.tableIDMismatch jobReq.TableID tbl.TableInfo.ID jobReq.PhysicalID)])) ∧
    (∀ tbl, isLeader env r = true →
      (updateInfoSchemaCache env m r).1.infoSchemaCache.Tables.lookup jobReq.PhysicalID =
        some tbl →
      tbl.TableInfo.ID = jobReq.TableID →
      (lockNewJob env (updateInfoSchemaCache env m r).1 (updateInfoSchemaCache env m r).2.1 tbl
        (env.Now (updateInfoSchemaCache env m r).2.1.world) jobReq.RequestID false).2.2.2 ≠
          some .nilPointerDereference →
      (handleSubmitJobRequest env m r jobReq).2.2 =
        [(lockNewJob env (updateInfoSchemaCache env m r).1 (updateInfoSchemaCache env m r).2.1
          tbl (env.Now (updateInfoSchemaCache env m r).2.1.world) jobReq.RequestID
          false).2.2.2]) ∧
    ((∀ tbl,
        (updateInfoSchemaCache env m r).1.infoSchemaCache.Tables.lookup jobReq.PhysicalID =
          some tbl →
        (lockNewJob env (updateInfoSchemaCache env m r).1 (updateInfoSchemaCache env m r).2.1
          tbl (env.Now (updateInfoSchemaCache env m r).2.1.world) jobReq.RequestID
          false).2.2.2 ≠ some .nilPointerDereference) →
      (handleSubmitJobRequest env m r jobReq).2.2.length = 1) := by
  refine ⟨?_, ?_, ?_, ?_, ?_⟩
  · intro hl
    simp [handleSubmitJobRequest, hl]
  · intro hl hk
    simp only [handleSubmitJobRequest, hl, Bool.not_true, Bool.false_eq_true, if_false, hk]
    rfl
  · intro tbl hl hk hne
    simp only [handleSubmitJobRequest, hl, Bool.not_true, Bool.false_eq_true, if_false, hk,
      ne_eq, hne, not_false_eq_true, if_true]
    rfl
  · intro tbl hl hk he hnp
    simp only [handleSubmitJobRequest, hl, Bool.not_true, Bool.false_eq_true, if_false, hk,
      ne_eq, he, not_true_eq_false, hnp]
  · intro hnp
    unfold handleSubmitJobRequest
    cases hl : isLeader env r with
    | false => simp
    | true =>
      simp only [Bool.not_true, Bool.false_eq_true, if_false]
      cases hk : (updateInfoSchemaCache env m r).1.infoSchemaCache.Tables.lookup
          jobReq.PhysicalID with
      | none => simp
      | some tbl =>
        simp only []
        by_cases he : tbl.TableInfo.ID ≠ jobReq.TableID
        · simp [he]
        · simp only [he, if_false, hnp tbl hk]
          simp

set_option maxRecDepth 100000 in
/-- Witness of C26: a follower answers with the not-leader error; the leader, on an empty
database, answers the request for table 1 with the nil result of `lockNewJob`. -/
theorem C26_submit_gets_one_reply_witness :
    handleSubmitJobRequest dbEnv (sampleManager []) ⟨emptyDB false, []⟩ ⟨1, 1, "j1"⟩ =
      (sampleManager [], ⟨emptyDB false, []⟩, [some .notLeader]) ∧
    (handleSubmitJobRequest dbEnv (sampleManager []) ⟨emptyDB true, []⟩ ⟨1, 1, "j1"⟩).2.2 =
      [(lockNewJob dbEnv (updateInfoSchemaCache dbEnv (sampleManager []) ⟨emptyDB true, []⟩).1
        (updateInfoSchemaCache dbEnv (sampleManager []) ⟨emptyDB true, []⟩).2.1 sampleTable
        (dbEnv.Now (updateInfoSchemaCache dbEnv (sampleManager [])
          ⟨emptyDB true, []⟩).2.1.world) "j1" false).2.2.2] :=
  ⟨(C26_submit_gets_one_reply dbEnv (sampleManager []) ⟨emptyDB false, []⟩ ⟨1, 1, "j1"⟩).1
      (by decide),
   (C26_submit_gets_one_reply dbEnv (sampleManager []) ⟨emptyDB true, []⟩
      ⟨1, 1, "j1"⟩).2.2.2.1 sampleTable (by decide) (by decide) (by decide) (by decide)⟩

/-- C27: garbage collection is leader-only.  `DoGC` makes no call at all unless the leader
function is set and returns true; a leader refreshes the schema cache, issues the
status-row DELETE (for the ids of the refreshed cache) only if that refresh succeeded, and
issues the task and history DELETEs regardless of that refresh. -/
theorem C27_gc_is_leader_only {W : Type} (env : Env W) (m : JobManager) (r : Run W)
    (now : Time) :
    (isLeader env r = true ↔ ∃ f, env.leaderFunc = some f ∧ f r.world = true) ∧
    (isLeader env r = false → DoGC env m r now = (m, r)) ∧
    (isLeader env r = true → (updateInfoSchemaCache env m r).2.2 = none →
      (DoGC env m r now).2.events = r.events ++
        [.infoSchemaCacheUpdate,
         .sql ⟨gcTTLTableStatusGCSQL
           ((updateInfoSchemaCache env m r).1.infoSchemaCache.Tables.map Prod.fst), []⟩,
         .sql ⟨.taskGCTemplate, []⟩, .sql ⟨.ttlJobHistoryGCTemplate, []⟩]) ∧
    (∀ e, isLeader env r = true → (updateInfoSchemaCache env m r).2.2 = some e →
      (DoGC env m r now).2.events = r.events ++
        [.infoSchemaCacheUpdate, .sql ⟨.taskGCTemplate, []⟩,
         .sql ⟨.ttlJobHistoryGCTemplate, []⟩]) := by
  refine ⟨?_, ?_, ?_, ?_⟩
  · unfold isLeader
    cases env.leaderFunc with
    | none => simp
    | some f => simp
  · intro hl
    simp [DoGC, hl]
  · intro hl hu
    simp only [DoGC, hl, Bool.not_true, Bool.false_eq_true, if_false, hu, ExecuteSQL_events]
    simp [updateInfoSchemaCache]
  · intro e hl hu
    simp only [DoGC, hl, Bool.not_true, Bool.false_eq_true, if_false, hu, ExecuteSQL_events]
    simp [updateInfoSchemaCache]

set_option maxRecDepth 100000 in
/-- Witness of C27: on the same database a follower makes no call, and the leader, whose
refresh finds table 1, issues the three DELETEs. -/
theorem C27_gc_is_leader_only_witness :
    DoGC dbEnv (sampleManager []) ⟨emptyDB false, []⟩ ⟨300⟩ =
      (sampleManager [], ⟨emptyDB false, []⟩) ∧
    (DoGC dbEnv (sampleManager []) ⟨emptyDB true, []⟩ ⟨300⟩).2.events = [] ++
      [.infoSchemaCacheUpdate,
       .sql ⟨gcTTLTableStatusGCSQL
         ((updateInfoSchemaCache dbEnv (sampleManager [])
           ⟨emptyDB true, []⟩).1.infoSchemaCache.Tables.map Prod.fst), []⟩,
       .sql ⟨.taskGCTemplate, []⟩, .sql ⟨.ttlJobHistoryGCTemplate, []⟩] :=
  ⟨(C27_gc_is_leader_only dbEnv (sampleManager []) ⟨emptyDB false, []⟩ ⟨300⟩).2.1
      (by decide),
   (C27_gc_is_leader_only dbEnv (sampleManager []) ⟨emptyDB true, []⟩ ⟨300⟩).2.2.1
      (by decide) (by decide)⟩

/-- C28: GC idempotence.  For every state of the status, task and history tables and every
content of the schema (and of the schema cache of the manager), running `DoGC` twice in
succession as leader, with no change in between (same date, same schema, same outcome of
the refresh), deletes nothing on the second run: the state of the tables after two runs
equals the state after one run.  The DELETE statements have their SQL meaning
(`deleteStatusGC`, `deleteTaskGC`, `deleteHistoryGC`) and succeed. -/
theorem C28_gc_idempotent (w : DB) (m : JobManager) (events : List Event) (now1 now2 : Time)
    (hl : w.leader = true) :
    (DoGC dbEnv (DoGC dbEnv m ⟨w, events⟩ now1).1 (DoGC dbEnv m ⟨w, events⟩ now1).2
      now2).2.world = (DoGC dbEnv m ⟨w, events⟩ now1).2.world := by
  have h1 := DoGC_dbEnv_world w m events now1 hl
  have hl2 : (DoGC dbEnv m ⟨w, events⟩ now1).2.world.leader = true := by
    rw [h1]; cases w.refreshError <;> exact hl
  have h2 := DoGC_dbEnv_world (DoGC dbEnv m ⟨w, events⟩ now1).2.world
    (DoGC dbEnv m ⟨w, events⟩ now1).1 (DoGC dbEnv m ⟨w, events⟩ now1).2.events now2 hl2
  rw [h2, h1]
  cases hr : w.refreshError with
  | some e => simp [hr, deleteTaskGC_idem, deleteHistoryGC_idem]
  | none => simp [hr, deleteStatusGC_idem, deleteTaskGC_idem, deleteHistoryGC_idem]

set_option maxRecDepth 100000 in
/-- Witness of C28: the first run on `gcSampleDB` deletes the status row of the dropped
table 2, the task of the unknown job and the history row of day 100; the second run
deletes nothing. -/
theorem C28_gc_idempotent_witness :
    (DoGC dbEnv (DoGC dbEnv (sampleManager []) ⟨gcSampleDB, []⟩ ⟨300⟩).1
      (DoGC dbEnv (sampleManager []) ⟨gcSampleDB, []⟩ ⟨300⟩).2 ⟨400⟩).2.world =
      (DoGC dbEnv (sampleManager []) ⟨gcSampleDB, []⟩ ⟨300⟩).2.world ∧
    (DoGC dbEnv (sampleManager []) ⟨gcSampleDB, []⟩ ⟨300⟩).2.world.status =
      [⟨1, none, none⟩, ⟨3, some "j3", some "running"⟩] ∧
    (DoGC dbEnv (sampleManager []) ⟨gcSampleDB, []⟩ ⟨300⟩).2.world.task = [⟨"j3", 0⟩] ∧
    (DoGC dbEnv (sampleManager []) ⟨gcSampleDB, []⟩ ⟨300⟩).2.world.history = [⟨"j3", 990⟩] :=
  ⟨C28_gc_idempotent gcSampleDB (sampleManager []) [] ⟨300⟩ ⟨400⟩ (by decide),
   by decide, by decide, by decide⟩

/-- C30: the heartbeat timeout is the max of two bounds.  For every status with non-empty
`CurrentJobID` and non-empty `CurrentJobOwnerID`, and for all positive values of the
heartbeat interval `h` and the status-cache refresh interval `c` (neither is assumed
larger; both below `2^62` nanoseconds, the range in which their doubles are values of
`time.Duration`), `couldLockJobForExistJob` returns true if and only if
`CurrentJobOwnerHBTime + max(2h, 2c)` is strictly before `now`. -/
theorem C30_heartbeat_timeout_is_max {W : Type} (env : Env W) (st : TableStatus) (now : Time)
    (hid : st.CurrentJobID ≠ "") (hown : st.CurrentJobOwnerID ≠ "")
    (hh : 0 < env.getHeartbeatInterval) (hc : 0 < env.getUpdateTTLTableStatusCacheInterval)
    (hh2 : env.getHeartbeatInterval < 2 ^ 62)
    (hc2 : env.getUpdateTTLTableStatusCacheInterval < 2 ^ 62) :
    couldLockJobForExistJob env (some st) now = true ↔
      st.CurrentJobOwnerHBTime.ns +
        max (2 * env.getHeartbeatInterval) (2 * env.getUpdateTTLTableStatusCacheInterval)
          < now.ns := by
  have w1 : Codec.wrapInt64 (env.getHeartbeatInterval * 2) = env.getHeartbeatInterval * 2 :=
    Codec.wrapInt64_of_isInt64 _ ⟨by omega, by omega⟩
  have w2 : Codec.wrapInt64 (env.getUpdateTTLTableStatusCacheInterval * 2) =
      env.getUpdateTTLTableStatusCacheInterval * 2 :=
    Codec.wrapInt64_of_isInt64 _ ⟨by omega, by omega⟩
  unfold couldLockJobForExistJob
  simp only [hid, if_false, ne_eq, hown, not_false_eq_true, if_true, w1, w2, Time.Add,
    Time.Before]
  split_ifs with h1 h2 h2
  · simp only [decide_eq_true_eq] at h2
    simp only [true_iff]; omega
  · simp only [decide_eq_true_eq] at h2
    simp only [Bool.false_eq_true, false_iff]; omega
  · simp only [decide_eq_true_eq] at h2
    simp only [true_iff]; omega
  · simp only [decide_eq_true_eq] at h2
    simp only [Bool.false_eq_true, false_iff]; omega

/-- Witness of C30: with the intervals 10 and 30 the timeout is 60, and the job of
`sampleStatus` (last heartbeat at instant 200) may be locked at instant 300. -/
theorem C30_heartbeat_timeout_is_max_witness :
    couldLockJobForExistJob sampleEnv (some sampleStatus) ⟨300⟩ = true ↔
      sampleStatus.CurrentJobOwnerHBTime.ns +
        max (2 * sampleEnv.getHeartbeatInterval)
          (2 * sampleEnv.getUpdateTTLTableStatusCacheInterval) < (⟨300⟩ : Time).ns :=
  C30_heartbeat_timeout_is_max sampleEnv sampleStatus ⟨300⟩ (by decide) (by decide)
    (by decide) (by decide) (by decide) (by decide)

/-- Counterexample to C31 as stated: with a heartbeat interval of 10 and a cache interval
of 30 the timeout is `max(20, 60) = 60`, so the job "j1" of owner "old", whose heartbeat
was last updated at instant 270, three heartbeat intervals before the instant 300, may
not be locked. -/
theorem C31_counterexample :
    ({ sampleStatus with CurrentJobOwnerHBTime := ⟨270⟩ } : TableStatus).CurrentJobID ≠ "" ∧
    ({ sampleStatus with CurrentJobOwnerHBTime := ⟨270⟩ } : TableStatus).CurrentJobOwnerID ≠ "" ∧
    ({ sampleStatus with CurrentJobOwnerHBTime := ⟨270⟩ } : TableStatus).CurrentJobOwnerHBTime =
      (⟨300⟩ : Time).Add (-(3 * sampleEnv.getHeartbeatInterval)) ∧
    couldLockJobForExistJob sampleEnv
      (some { sampleStatus with CurrentJobOwnerHBTime := ⟨270⟩ }) ⟨300⟩ = false := by
  decide

/-- C31 (amended): take-over scenario.  For every status that has a current job and a
non-empty owner whose heartbeat was last updated 3 × the heartbeat interval `h` before
`now`, with `h` and the status-cache refresh interval `c` positive and below `2^62`
nanoseconds, `couldLockJobForExistJob` returns true if and only if `2c < 3h`; in
particular it returns true whenever the cache interval is at most the heartbeat
interval. -/
theorem C31_takeover_after_three_intervals {W : Type} (env : Env W) (st : TableStatus)
    (now : Time) (hid : st.CurrentJobID ≠ "") (hown : st.CurrentJobOwnerID ≠ "")
    (hhb : st.CurrentJobOwnerHBTime = now.Add (-(3 * env.getHeartbeatInterval)))
    (hh : 0 < env.getHeartbeatInterval) (hc : 0 < env.getUpdateTTLTableStatusCacheInterval)
    (hh2 : env.getHeartbeatInterval < 2 ^ 62)
    (hc2 : env.getUpdateTTLTableStatusCacheInterval < 2 ^ 62) :
    (couldLockJobForExistJob env (some st) now = true ↔
      2 * env.getUpdateTTLTableStatusCacheInterval < 3 * env.getHeartbeatInterval) ∧
    (env.getUpdateTTLTableStatusCacheInterval ≤ env.getHeartbeatInterval →
      couldLockJobForExistJob env (some st) now = true) := by
  have w1 : Codec.wrapInt64 (env.getHeartbeatInterval * 2) = env.getHeartbeatInterval * 2 :=
    Codec.wrapInt64_of_isInt64 _ ⟨by omega, by omega⟩
  have w2 : Codec.wrapInt64 (env.getUpdateTTLTableStatusCacheInterval * 2) =
      env.getUpdateTTLTableStatusCacheInterval * 2 :=
    Codec.wrapInt64_of_isInt64 _ ⟨by omega, by omega⟩
  have key : couldLockJobForExistJob env (some st) now = true ↔
      2 * env.getUpdateTTLTableStatusCacheInterval < 3 * env.getHeartbeatInterval := by
    unfold couldLockJobForExistJob
    simp only [hid, if_false, ne_eq, hown, not_false_eq_true, if_true, w1, w2, hhb, Time.Add,
      Time.Before]
    split_ifs with h1 h2 h2
    · simp only [decide_eq_true_eq] at h2
      simp only [true_iff]; omega
    · simp only [decide_eq_true_eq] at h2
      simp only [Bool.false_eq_true, false_iff]; omega
    · simp only [decide_eq_true_eq] at h2
      simp only [true_iff]; omega
    · simp only [decide_eq_true_eq] at h2
      simp only [Bool.false_eq_true, false_iff]; omega
  exact ⟨key, fun h => key.mpr (by omega)⟩

/-- Witness of C31: with a heartbeat interval of 10 and a cache interval of 5 the job of
`sampleStatus`, last heartbeat at instant 270, may be locked at instant 300. -/
theorem C31_takeover_after_three_intervals_witness :
    couldLockJobForExistJob { sampleEnv with getUpdateTTLTableStatusCacheInterval := 5 }
      (some { sampleStatus with CurrentJobOwnerHBTime := ⟨270⟩ }) ⟨300⟩ = true :=
  (C31_takeover_after_three_intervals
    { sampleEnv with getUpdateTTLTableStatusCacheInterval := 5 }
    { sampleStatus with CurrentJobOwnerHBTime := ⟨270⟩ } ⟨300⟩ (by decide) (by decide)
    (by decide) (by decide) (by decide) (by decide) (by decide)).2 (by decide)

/-- C32: take-over candidates.  `readyForLockHBTimeoutJobTables(now)` returns exactly the
cached table statuses `s` such that no locally running job has `tableID = s.TableID` and
`couldLockJobForExistJob(s, now)` is true: a status is in the result if and only if it is
such a cached status, the result is a sublist of the cached statuses (in the order in
which the cache is visited), and each such status occurs in the result as often as in
the cache, that is once per cache entry. -/
theorem C32_takeover_candidates {W : Type} (env : Env W) (m : JobManager) (now : Time) :
    (∀ s : TableStatus, s ∈ readyForLockHBTimeoutJobTables env m now ↔
      (s ∈ m.tableStatusCache.Tables.map Prod.snd ∧
        (∀ job ∈ m.runningJobs, job.tableID ≠ s.TableID) ∧
        couldLockJobForExistJob env (some s) now = true)) ∧
    (readyForLockHBTimeoutJobTables env m now).Sublist
      (m.tableStatusCache.Tables.map Prod.snd) ∧
    (∀ s : TableStatus, (∀ job ∈ m.runningJobs, job.tableID ≠ s.TableID) →
      couldLockJobForExistJob env (some s) now = true →
      (readyForLockHBTimeoutJobTables env m now).count s =
        (m.tableStatusCache.Tables.map Prod.snd).count s) := by
  have hf := readyForLockHBTimeoutJobTablesLoop_filter env m.runningJobs now
    m.tableStatusCache.Tables []
  rw [List.nil_append] at hf
  unfold readyForLockHBTimeoutJobTables
  rw [hf]
  refine ⟨?_, List.filter_sublist _, ?_⟩
  · intro s
    simp only [List.mem_filter, Bool.and_eq_true, Bool.not_eq_true', List.any_eq_false,
      decide_eq_true_eq]
  · intro s h2 h3
    apply List.count_filter
    simp only [Bool.and_eq_true, Bool.not_eq_true', List.any_eq_false, decide_eq_true_eq]
    exact ⟨fun job hj => h2 job hj, h3⟩

/-- Witness of C32: the cache holds the status of table 1 (job "j1", heartbeat at instant
200) and the same status for table 2; the node runs a job of table 2.  At instant 300
the status of table 1 is returned, once. -/
theorem C32_takeover_candidates_witness :
    (readyForLockHBTimeoutJobTables sampleEnv
        { sampleManager [{ sampleJob with id := "j2", tableID := 2 }] with
          tableStatusCache := ⟨[(1, sampleStatus), (2, { sampleStatus with TableID := 2 })]⟩ }
        ⟨300⟩).count sampleStatus =
      ([(1, sampleStatus), (2, { sampleStatus with TableID := 2 })].map Prod.snd).count
        sampleStatus :=
  (C32_takeover_candidates sampleEnv
    { sampleManager [{ sampleJob with id := "j2", tableID := 2 }] with
      tableStatusCache := ⟨[(1, sampleStatus), (2, { sampleStatus with TableID := 2 })]⟩ }
    ⟨300⟩).2.2 sampleStatus (by decide) (by decide)

/-- C33: timer sync throttling.  Outside test mode, `onTimerTick` calls `SyncTimers` if
and only if this node is the leader, at least 5 seconds have elapsed since the last sync,
and either the schema version is greater than the last synced version or more than 2
minutes have elapsed since the last sync; when this node is not the leader it pauses the
timer runtime, resets the syncer, and makes no other call. -/
theorem C33_timer_sync_throttling {W S : Type} (env : Env W) (timer : TimerEnv W S)
    (r : Run W) (s : S) (now : Time) (hTest : timer.InTest = false) :
    (TimerCall.syncTimers ∈ (onTimerTick env timer r s now).2 ↔
      (isLeader env r = true ∧
        5 * Second ≤ now.ns - (timer.GetLastSyncInfo (timer.Resume s)).1.ns ∧
        (timer.SchemaMetaVersion r.world > (timer.GetLastSyncInfo (timer.Resume s)).2 ∨
          now.ns - (timer.GetLastSyncInfo (timer.Resume s)).1.ns > 2 * Minute))) ∧
    (isLeader env r = false →
      onTimerTick env timer r s now = (timer.Reset (timer.Pause s), [.pause, .reset])) := by
  constructor
  · unfold onTimerTick
    cases hl : isLeader env r
    · simp
    · simp only [Bool.not_true, Bool.false_eq_true, if_false, hTest, Time.Sub, Second,
        Millisecond, Minute, true_and]
      generalize timer.GetLastSyncInfo (timer.Resume s) = info
      obtain ⟨⟨last⟩, ver⟩ := info
      simp only
      generalize timer.SchemaMetaVersion r.world = sv
      split_ifs with h1 h2 h3 h4 h5 h6 h7 h8 <;> simp <;> omega
  · intro hl
    unfold onTimerTick
    simp [hl]

/-- Witness of C33: the leader, whose last sync was at instant 0 with schema version 0,
sees the schema version 1 six seconds later and syncs the timers. -/
theorem C33_timer_sync_throttling_witness :
    TimerCall.syncTimers ∈
      (onTimerTick dbEnv sampleTimer ⟨emptyDB true, []⟩ ⟨false, ⟨0⟩, 0⟩ ⟨6000000000⟩).2 :=
  (C33_timer_sync_throttling dbEnv sampleTimer ⟨emptyDB true, []⟩ ⟨false, ⟨0⟩, 0⟩
    ⟨6000000000⟩ rfl).1.mpr ⟨by decide, by decide, Or.inl (by decide)⟩

/-- C39: `removeJob` deletes one job and keeps the rest.  The running jobs after
`removeJob(j)` are what the slice arithmetic of the source yields; when the list is
`pre ++ x :: post` with `x` the first job whose id is `j.id`, they are `pre ++ post` (the
other jobs, unchanged and in their order); when no job has that id the list is unchanged;
the length decreases by at most one, and the other fields of the manager are untouched. -/
theorem C39_removeJob_deletes_one (m : JobManager) (j : ttlJob) :
    (removeJob m j).runningJobs = removeJobSlices j.id m.runningJobs m.runningJobs 0 ∧
    (∀ (pre post : List ttlJob) (x : ttlJob), m.runningJobs = pre ++ x :: post →
      x.id = j.id → (∀ y ∈ pre, y.id ≠ j.id) → (removeJob m j).runningJobs = pre ++ post) ∧
    ((∀ y ∈ m.runningJobs, y.id ≠ j.id) → (removeJob m j).runningJobs = m.runningJobs) ∧
    (removeJob m j).runningJobs.length ≤ m.runningJobs.length ∧
    m.runningJobs.length ≤ (removeJob m j).runningJobs.length + 1 ∧
    (removeJob m j).id = m.id ∧ (removeJob m j).infoSchemaCache = m.infoSchemaCache ∧
    (removeJob m j).tableStatusCache = m.tableStatusCache := by
  refine ⟨?_, ?_, ?_, ?_, ?_, rfl, rfl, rfl⟩
  · have := removeJobSlices_eq j.id m.runningJobs []
    simp only [List.nil_append, List.length_nil] at this
    rw [this]; rfl
  · intro pre post x hL hx hpre
    show removeJobLoop j.id m.runningJobs = pre ++ post
    rw [hL]
    exact removeJobLoop_append j.id x hx pre post hpre
  · intro h
    exact removeJobLoop_absent j.id m.runningJobs h
  · exact (removeJobLoop_length j.id m.runningJobs).1
  · exact (removeJobLoop_length j.id m.runningJobs).2

/-- Witness of C39: of the jobs "a", "b", "a" (in this order) the first "a" is removed, and
"b" and the second "a" stay in their order. -/
theorem C39_removeJob_deletes_one_witness :
    (removeJob
        (sampleManager [{ sampleJob with id := "a" }, { sampleJob with id := "b" },
          { sampleJob with id := "a", tableID := 7 }])
        { sampleJob with id := "a" }).runningJobs =
      [{ sampleJob with id := "b" }, { sampleJob with id := "a", tableID := 7 }] :=
  (C39_removeJob_deletes_one
    (sampleManager [{ sampleJob with id := "a" }, { sampleJob with id := "b" },
      { sampleJob with id := "a", tableID := 7 }])
    { sampleJob with id := "a" }).2.1 [] [{ sampleJob with id := "b" },
      { sampleJob with id := "a", tableID := 7 }] { sampleJob with id := "a" } rfl rfl
    (by intro y hy; cases hy)

end TTLWorker
